import Mathlib

/-! # uamqp_messaging.c : translation between IoT Hub messages and AMQP sections

A shallow embedding of `iothub_client/src/uamqp_messaging.c`.

The C file only orchestrates calls into three collaborator layers (the AMQP
value layer of azure_uamqp_c, the IoT Hub message layer and the property map
layer).  The collaborators are a record `Collab σ` of state-passing functions
over an arbitrary world `σ`; every call the code makes is logged, with its
arguments and its answer, in a chronological list of `Call` events.

Conventions.
* Handles (`AMQP_VALUE`, `PROPERTIES_HANDLE`, `MAP_HANDLE`, message handles)
  are natural numbers, `0` is `NULL`.
* A `const char*` is an `Option String` (`none` is `NULL`); one `Char` stands
  for one C `char`.
* A pointer to bytes is modelled by the memory it points to: `none` is `NULL`,
  `some cells` a region with these cells; a cell is `none` while it is
  uninitialised.
* `int` results are `Int`; `size_t` quantities are `Nat`; the `uint32_t` cast
  of the body length is an explicit `% 2 ^ 32`.

Most properties hold for every collaborator and are stated over the log of
calls.  The round trip needs collaborators that remember what they were
given: for it the record is instantiated by `reference`, a behaviour modelled
from the specification, and the encoding layer stays a parameter.
-/

namespace UamqpMessaging

/-! ## Types of the collaborator interfaces -/

/-- Body kinds of an IoT Hub message (`iothub_message.h`). -/
inductive IOTHUBMESSAGE_CONTENT_TYPE where
  | IOTHUBMESSAGE_BYTEARRAY
  | IOTHUBMESSAGE_STRING
  | IOTHUBMESSAGE_UNKNOWN
  deriving DecidableEq, Repr

/-- Result codes of the IoT Hub message layer (`iothub_message.h`). -/
inductive IOTHUB_MESSAGE_RESULT where
  | IOTHUB_MESSAGE_OK
  | IOTHUB_MESSAGE_INVALID_ARG
  | IOTHUB_MESSAGE_INVALID_TYPE
  | IOTHUB_MESSAGE_ERROR
  deriving DecidableEq, Repr

/-- Body kinds of an AMQP message (`azure_uamqp_c/message.h`). -/
inductive MESSAGE_BODY_TYPE where
  | MESSAGE_BODY_TYPE_NONE
  | MESSAGE_BODY_TYPE_DATA
  | MESSAGE_BODY_TYPE_SEQUENCE
  | MESSAGE_BODY_TYPE_VALUE
  deriving DecidableEq, Repr

/-- Runtime types of an AMQP value (`azure_uamqp_c/amqpvalue.h`); the code
only ever compares against `AMQP_TYPE_NULL`. -/
inductive AMQP_TYPE where
  | AMQP_TYPE_NULL
  | AMQP_TYPE_BOOL
  | AMQP_TYPE_UINT
  | AMQP_TYPE_ULONG
  | AMQP_TYPE_INT
  | AMQP_TYPE_LONG
  | AMQP_TYPE_UUID
  | AMQP_TYPE_BINARY
  | AMQP_TYPE_STRING
  | AMQP_TYPE_SYMBOL
  | AMQP_TYPE_LIST
  | AMQP_TYPE_MAP
  | AMQP_TYPE_DESCRIBED
  | AMQP_TYPE_UNKNOWN
  deriving DecidableEq, Repr

/-- A pointer to bytes, modelled by the memory it points to. -/
abbrev BytePtr := Option (List (Option Nat))

/-- The `BINARY_DATA` struct of `azure_uamqp_c/message.h`. -/
structure BINARY_DATA where
  bytes : BytePtr
  length : Nat
  deriving DecidableEq, Repr

/-- The `data` struct of the AMQP value layer: a byte pointer and a
`uint32_t` length. -/
structure data where
  bytes : BytePtr
  length : Nat
  deriving DecidableEq, Repr

/-- `RESULT_OK` as defined at the top of the C file. -/
def RESULT_OK : Int := 0

/-- Modelled from the spec: the macro `__FAILURE__` of
azure_c_shared_utility/optimize_size.h is not among the sources; the spec asks
of a failing call only that it reports failure, that is a non-zero `int`. -/
def FAILURE : Int := 1

/-- The value `MAP_OK` of `MAP_RESULT`: the code itself tests the result of
`Map_GetInternals` against `0`. -/
def MAP_OK : Int := 0

/-! ## The log of collaborator calls -/

/-- One collaborator call, with its arguments and what it answered. -/
inductive Call where
  | properties_create (result : Nat)
  | properties_destroy (properties : Nat)
  | IoTHubMessage_GetMessageId (h : Nat) (result : Option String)
  | IoTHubMessage_GetCorrelationId (h : Nat) (result : Option String)
  | IoTHubMessage_GetContentTypeSystemProperty (h : Nat) (result : Option String)
  | IoTHubMessage_GetContentEncodingSystemProperty (h : Nat) (result : Option String)
  | amqpvalue_create_string (value : String) (result : Nat)
  | amqpvalue_destroy (value : Nat)
  | properties_set_message_id (properties value : Nat) (result : Int)
  | properties_set_correlation_id (properties value : Nat) (result : Int)
  | properties_set_content_type (properties : Nat) (value : String) (result : Int)
  | properties_set_content_encoding (properties : Nat) (value : String) (result : Int)
  | amqpvalue_create_properties (properties : Nat) (result : Nat)
  | amqpvalue_get_encoded_size (value : Nat) (result : Int) (size : Nat)
  | IoTHubMessage_Properties (h : Nat) (result : Nat)
  | Map_GetInternals (map : Nat) (result : Int) (count : Nat)
  | amqpvalue_create_map (result : Nat)
  | amqpvalue_set_map_value (map key value : Nat) (result : Int)
  | amqpvalue_create_application_properties (map : Nat) (result : Nat)
  | IoTHubMessage_GetContentType (h : Nat) (result : IOTHUBMESSAGE_CONTENT_TYPE)
  | IoTHubMessage_GetByteArray (h : Nat) (result : IOTHUB_MESSAGE_RESULT)
      (buffer : BytePtr) (size : Nat)
  | IoTHubMessage_GetString (h : Nat) (result : Option String)
  | amqpvalue_create_data (value : data) (result : Nat)
  | malloc (size : Nat) (result : BytePtr)
  | amqpvalue_encode (value : Nat) (chunks : List (List Nat)) (result : Int)
  | message_get_body_type (message : Nat) (result : Int) (body_type : MESSAGE_BODY_TYPE)
  | message_get_body_amqp_data_in_place (message index : Nat) (result : Int)
      (amqp_data : BINARY_DATA)
  | IoTHubMessage_CreateFromByteArray (byteArray : BytePtr) (size : Nat) (result : Nat)
  | IoTHubMessage_Destroy (h : Nat)
  | message_get_properties (message : Nat) (result : Int) (properties : Nat)
  | properties_get_message_id (properties : Nat) (result : Int) (value : Nat)
  | properties_get_correlation_id (properties : Nat) (result : Int) (value : Nat)
  | amqpvalue_get_type (value : Nat) (result : AMQP_TYPE)
  | amqpvalue_get_string (value : Nat) (result : Int) (string_value : Option String)
  | IoTHubMessage_SetMessageId (h : Nat) (messageId : Option String)
      (result : IOTHUB_MESSAGE_RESULT)
  | IoTHubMessage_SetCorrelationId (h : Nat) (correlationId : Option String)
      (result : IOTHUB_MESSAGE_RESULT)
  | message_get_application_properties (message : Nat) (result : Int)
      (application_properties : Nat)
  | amqpvalue_get_inplace_described_value (value : Nat) (result : Nat)
  | amqpvalue_get_map_pair_count (map : Nat) (result : Int) (pair_count : Nat)
  | amqpvalue_get_map_key_value_pair (map index : Nat) (result : Int) (key value : Nat)
  | Map_AddOrUpdate (map : Nat) (key value : Option String) (result : Int)
  deriving DecidableEq, Repr

/-- The collaborators: each field answers one external function, reading and
updating the world `σ`.  Out-parameters are returned next to the result. -/
structure Collab (σ : Type) where
  properties_create : σ → Nat × σ
  properties_destroy : Nat → σ → σ
  IoTHubMessage_GetMessageId : Nat → σ → Option String × σ
  IoTHubMessage_GetCorrelationId : Nat → σ → Option String × σ
  IoTHubMessage_GetContentTypeSystemProperty : Nat → σ → Option String × σ
  IoTHubMessage_GetContentEncodingSystemProperty : Nat → σ → Option String × σ
  amqpvalue_create_string : String → σ → Nat × σ
  amqpvalue_destroy : Nat → σ → σ
  properties_set_message_id : Nat → Nat → σ → Int × σ
  properties_set_correlation_id : Nat → Nat → σ → Int × σ
  properties_set_content_type : Nat → String → σ → Int × σ
  properties_set_content_encoding : Nat → String → σ → Int × σ
  amqpvalue_create_properties : Nat → σ → Nat × σ
  amqpvalue_get_encoded_size : Nat → σ → (Int × Nat) × σ
  IoTHubMessage_Properties : Nat → σ → Nat × σ
  Map_GetInternals : Nat → σ → (Int × (Nat → String) × (Nat → String) × Nat) × σ
  amqpvalue_create_map : σ → Nat × σ
  amqpvalue_set_map_value : Nat → Nat → Nat → σ → Int × σ
  amqpvalue_create_application_properties : Nat → σ → Nat × σ
  IoTHubMessage_GetContentType : Nat → σ → IOTHUBMESSAGE_CONTENT_TYPE × σ
  IoTHubMessage_GetByteArray : Nat → σ → (IOTHUB_MESSAGE_RESULT × BytePtr × Nat) × σ
  IoTHubMessage_GetString : Nat → σ → Option String × σ
  amqpvalue_create_data : data → σ → Nat × σ
  malloc : Nat → σ → Bool × σ
  amqpvalue_encode : Nat → σ → (List (List Nat) × Int) × σ
  message_get_body_type : Nat → σ → (Int × MESSAGE_BODY_TYPE) × σ
  message_get_body_amqp_data_in_place : Nat → Nat → σ → (Int × BINARY_DATA) × σ
  IoTHubMessage_CreateFromByteArray : BytePtr → Nat → σ → Nat × σ
  IoTHubMessage_Destroy : Nat → σ → σ
  message_get_properties : Nat → σ → (Int × Nat) × σ
  properties_get_message_id : Nat → σ → (Int × Nat) × σ
  properties_get_correlation_id : Nat → σ → (Int × Nat) × σ
  amqpvalue_get_type : Nat → σ → AMQP_TYPE × σ
  amqpvalue_get_string : Nat → σ → (Int × Option String) × σ
  IoTHubMessage_SetMessageId : Nat → Option String → σ → IOTHUB_MESSAGE_RESULT × σ
  IoTHubMessage_SetCorrelationId : Nat → Option String → σ → IOTHUB_MESSAGE_RESULT × σ
  message_get_application_properties : Nat → σ → (Int × Nat) × σ
  amqpvalue_get_inplace_described_value : Nat → σ → Nat × σ
  amqpvalue_get_map_pair_count : Nat → σ → (Int × Nat) × σ
  amqpvalue_get_map_key_value_pair : Nat → Nat → σ → (Int × Nat × Nat) × σ
  Map_AddOrUpdate : Nat → Option String → Option String → σ → Int × σ

/-! ## Running code against the collaborators -/

/-- What a piece of code leaves behind: its value, the world, and the calls
it made, oldest first. -/
structure Out (σ : Type) (α : Type) where
  val : α
  world : σ
  trace : List Call

/-- Code that talks to the collaborators. -/
def M (σ : Type) (α : Type) : Type := σ → Out σ α

/-- Return a value without calling anything. -/
def M.ret {σ α : Type} (a : α) : M σ α := fun w => ⟨a, w, []⟩

/-- Run `m`, then `f` on its value, in the world `m` left. -/
def M.seq {σ α β : Type} (m : M σ α) (f : α → M σ β) : M σ β := fun w =>
  ⟨(f (m w).val (m w).world).val, (f (m w).val (m w).world).world,
    (m w).trace ++ (f (m w).val (m w).world).trace⟩

instance instMonadM {σ : Type} : Monad (M σ) where
  pure := M.ret
  bind := M.seq

/-- One collaborator call that answers: ask, and log the event. -/
def ask {σ α : Type} (f : σ → α × σ) (ev : α → Call) : M σ α := fun w =>
  ⟨(f w).1, (f w).2, [ev (f w).1]⟩

/-- One collaborator call that returns nothing (`void`). -/
def tell {σ : Type} (f : σ → σ) (ev : Call) : M σ Unit := fun w =>
  ⟨(), f w, [ev]⟩

/-! ## The external functions, as logged calls -/

namespace Ext

variable {σ : Type}

def properties_create (c : Collab σ) : M σ Nat :=
  ask c.properties_create Call.properties_create

def properties_destroy (c : Collab σ) (properties : Nat) : M σ Unit :=
  tell (c.properties_destroy properties) (Call.properties_destroy properties)

def IoTHubMessage_GetMessageId (c : Collab σ) (h : Nat) : M σ (Option String) :=
  ask (c.IoTHubMessage_GetMessageId h) (Call.IoTHubMessage_GetMessageId h)

def IoTHubMessage_GetCorrelationId (c : Collab σ) (h : Nat) : M σ (Option String) :=
  ask (c.IoTHubMessage_GetCorrelationId h) (Call.IoTHubMessage_GetCorrelationId h)

def IoTHubMessage_GetContentTypeSystemProperty (c : Collab σ) (h : Nat) :
    M σ (Option String) :=
  ask (c.IoTHubMessage_GetContentTypeSystemProperty h)
    (Call.IoTHubMessage_GetContentTypeSystemProperty h)

def IoTHubMessage_GetContentEncodingSystemProperty (c : Collab σ) (h : Nat) :
    M σ (Option String) :=
  ask (c.IoTHubMessage_GetContentEncodingSystemProperty h)
    (Call.IoTHubMessage_GetContentEncodingSystemProperty h)

def amqpvalue_create_string (c : Collab σ) (value : String) : M σ Nat :=
  ask (c.amqpvalue_create_string value) (Call.amqpvalue_create_string value)

def amqpvalue_destroy (c : Collab σ) (value : Nat) : M σ Unit :=
  tell (c.amqpvalue_destroy value) (Call.amqpvalue_destroy value)

def properties_set_message_id (c : Collab σ) (properties value : Nat) : M σ Int :=
  ask (c.properties_set_message_id properties value)
    (Call.properties_set_message_id properties value)

def properties_set_correlation_id (c : Collab σ) (properties value : Nat) : M σ Int :=
  ask (c.properties_set_correlation_id properties value)
    (Call.properties_set_correlation_id properties value)

def properties_set_content_type (c : Collab σ) (properties : Nat) (value : String) :
    M σ Int :=
  ask (c.properties_set_content_type properties value)
    (Call.properties_set_content_type properties value)

def properties_set_content_encoding (c : Collab σ) (properties : Nat) (value : String) :
    M σ Int :=
  ask (c.properties_set_content_encoding properties value)
    (Call.properties_set_content_encoding properties value)

def amqpvalue_create_properties (c : Collab σ) (properties : Nat) : M σ Nat :=
  ask (c.amqpvalue_create_properties properties) (Call.amqpvalue_create_properties properties)

/-- Answers the result and the value written to the size out-parameter. -/
def amqpvalue_get_encoded_size (c : Collab σ) (value : Nat) : M σ (Int × Nat) :=
  ask (c.amqpvalue_get_encoded_size value)
    (fun r => Call.amqpvalue_get_encoded_size value r.1 r.2)

def IoTHubMessage_Properties (c : Collab σ) (h : Nat) : M σ Nat :=
  ask (c.IoTHubMessage_Properties h) (Call.IoTHubMessage_Properties h)

/-- Answers the result, the key array, the value array and the count. -/
def Map_GetInternals (c : Collab σ) (map : Nat) :
    M σ (Int × (Nat → String) × (Nat → String) × Nat) :=
  ask (c.Map_GetInternals map) (fun r => Call.Map_GetInternals map r.1 r.2.2.2)

def amqpvalue_create_map (c : Collab σ) : M σ Nat :=
  ask c.amqpvalue_create_map Call.amqpvalue_create_map

def amqpvalue_set_map_value (c : Collab σ) (map key value : Nat) : M σ Int :=
  ask (c.amqpvalue_set_map_value map key value) (Call.amqpvalue_set_map_value map key value)

def amqpvalue_create_application_properties (c : Collab σ) (map : Nat) : M σ Nat :=
  ask (c.amqpvalue_create_application_properties map)
    (Call.amqpvalue_create_application_properties map)

def IoTHubMessage_GetContentType (c : Collab σ) (h : Nat) :
    M σ IOTHUBMESSAGE_CONTENT_TYPE :=
  ask (c.IoTHubMessage_GetContentType h) (Call.IoTHubMessage_GetContentType h)

/-- Answers the result, the buffer pointer and the size. -/
def IoTHubMessage_GetByteArray (c : Collab σ) (h : Nat) :
    M σ (IOTHUB_MESSAGE_RESULT × BytePtr × Nat) :=
  ask (c.IoTHubMessage_GetByteArray h)
    (fun r => Call.IoTHubMessage_GetByteArray h r.1 r.2.1 r.2.2)

def IoTHubMessage_GetString (c : Collab σ) (h : Nat) : M σ (Option String) :=
  ask (c.IoTHubMessage_GetString h) (Call.IoTHubMessage_GetString h)

def amqpvalue_create_data (c : Collab σ) (value : data) : M σ Nat :=
  ask (c.amqpvalue_create_data value) (Call.amqpvalue_create_data value)

/-- The C library `malloc`: on success a fresh block of `size` uninitialised
cells, otherwise `NULL`. -/
def malloc (c : Collab σ) (size : Nat) : M σ BytePtr :=
  ask (fun w => ((if (c.malloc size w).1 then some (List.replicate size none) else none),
      (c.malloc size w).2))
    (Call.malloc size)

/-- Serialising a value: the layer hands its output to the callback chunk by
chunk (the callback of this file always answers 0), then reports its result. -/
def amqpvalue_encode (c : Collab σ) (value : Nat)
    (encoder_output : BINARY_DATA → List Nat → Int × BINARY_DATA) (context : BINARY_DATA) :
    M σ (Int × BINARY_DATA) := fun w =>
  ⟨((c.amqpvalue_encode value w).1.2,
      (c.amqpvalue_encode value w).1.1.foldl (fun ctx chunk => (encoder_output ctx chunk).2)
        context),
    (c.amqpvalue_encode value w).2,
    [Call.amqpvalue_encode value (c.amqpvalue_encode value w).1.1
      (c.amqpvalue_encode value w).1.2]⟩

/-- Answers the result and the body type written to the out-parameter. -/
def message_get_body_type (c : Collab σ) (message : Nat) : M σ (Int × MESSAGE_BODY_TYPE) :=
  ask (c.message_get_body_type message)
    (fun r => Call.message_get_body_type message r.1 r.2)

def message_get_body_amqp_data_in_place (c : Collab σ) (message index : Nat) :
    M σ (Int × BINARY_DATA) :=
  ask (c.message_get_body_amqp_data_in_place message index)
    (fun r => Call.message_get_body_amqp_data_in_place message index r.1 r.2)

def IoTHubMessage_CreateFromByteArray (c : Collab σ) (byteArray : BytePtr) (size : Nat) :
    M σ Nat :=
  ask (c.IoTHubMessage_CreateFromByteArray byteArray size)
    (Call.IoTHubMessage_CreateFromByteArray byteArray size)

def IoTHubMessage_Destroy (c : Collab σ) (h : Nat) : M σ Unit :=
  tell (c.IoTHubMessage_Destroy h) (Call.IoTHubMessage_Destroy h)

def message_get_properties (c : Collab σ) (message : Nat) : M σ (Int × Nat) :=
  ask (c.message_get_properties message)
    (fun r => Call.message_get_properties message r.1 r.2)

def properties_get_message_id (c : Collab σ) (properties : Nat) : M σ (Int × Nat) :=
  ask (c.properties_get_message_id properties)
    (fun r => Call.properties_get_message_id properties r.1 r.2)

def properties_get_correlation_id (c : Collab σ) (properties : Nat) : M σ (Int × Nat) :=
  ask (c.properties_get_correlation_id properties)
    (fun r => Call.properties_get_correlation_id properties r.1 r.2)

def amqpvalue_get_type (c : Collab σ) (value : Nat) : M σ AMQP_TYPE :=
  ask (c.amqpvalue_get_type value) (Call.amqpvalue_get_type value)

def amqpvalue_get_string (c : Collab σ) (value : Nat) : M σ (Int × Option String) :=
  ask (c.amqpvalue_get_string value) (fun r => Call.amqpvalue_get_string value r.1 r.2)

def IoTHubMessage_SetMessageId (c : Collab σ) (h : Nat) (messageId : Option String) :
    M σ IOTHUB_MESSAGE_RESULT :=
  ask (c.IoTHubMessage_SetMessageId h messageId) (Call.IoTHubMessage_SetMessageId h messageId)

def IoTHubMessage_SetCorrelationId (c : Collab σ) (h : Nat) (correlationId : Option String) :
    M σ IOTHUB_MESSAGE_RESULT :=
  ask (c.IoTHubMessage_SetCorrelationId h correlationId)
    (Call.IoTHubMessage_SetCorrelationId h correlationId)

def message_get_application_properties (c : Collab σ) (message : Nat) : M σ (Int × Nat) :=
  ask (c.message_get_application_properties message)
    (fun r => Call.message_get_application_properties message r.1 r.2)

def amqpvalue_get_inplace_described_value (c : Collab σ) (value : Nat) : M σ Nat :=
  ask (c.amqpvalue_get_inplace_described_value value)
    (Call.amqpvalue_get_inplace_described_value value)

def amqpvalue_get_map_pair_count (c : Collab σ) (map : Nat) : M σ (Int × Nat) :=
  ask (c.amqpvalue_get_map_pair_count map)
    (fun r => Call.amqpvalue_get_map_pair_count map r.1 r.2)

/-- Answers the result and the key and value handles written to the
out-parameters (both start as `NULL`). -/
def amqpvalue_get_map_key_value_pair (c : Collab σ) (map index : Nat) :
    M σ (Int × Nat × Nat) :=
  ask (c.amqpvalue_get_map_key_value_pair map index)
    (fun r => Call.amqpvalue_get_map_key_value_pair map index r.1 r.2.1 r.2.2)

def Map_AddOrUpdate (c : Collab σ) (map : Nat) (key value : Option String) : M σ Int :=
  ask (c.Map_AddOrUpdate map key value) (Call.Map_AddOrUpdate map key value)

end Ext

/-! ## Memory helpers -/

/-- The C library `memcpy` into a block at offset `off`, byte by byte: cell
`off + i` of the block takes byte `i` of `src`.  The block keeps its size: what
C does with a byte that falls outside the block is undefined and not recorded. -/
def memcpy (dst : List (Option Nat)) (off : Nat) : List Nat → List (Option Nat)
  | [] => dst
  | b :: bs => memcpy (dst.set off (some b)) (off + 1) bs

/-- The memory of a C string: its characters and the terminating zero. -/
def c_str (s : String) : List (Option Nat) :=
  s.data.map (fun ch => some ch.toNat) ++ [some 0]

/-- The C library `strlen`: the number of cells before the first zero. -/
def strlen (p : BytePtr) : Nat :=
  match p with
  | some cells => (cells.takeWhile (fun x => x != some 0)).length
  | none => 0

/-! ## Encoding: IoT Hub message to AMQP bytes -/

section Encode

variable {σ : Type}

/-- The C `encode_callback`: copy the chunk behind the bytes written so far,
advance the length, answer 0. -/
def encode_callback (context : BINARY_DATA) (bytes : List Nat) : Int × BINARY_DATA :=
  (0, { bytes := context.bytes.map (fun cells => memcpy cells context.length bytes),
        length := context.length + bytes.length })

/-- The C `set_message_id_if_needed`. -/
def set_message_id_if_needed (c : Collab σ) (messageHandle uamqp_message_properties : Nat) :
    M σ Int := do
  let messageId ← Ext.IoTHubMessage_GetMessageId c messageHandle
  match messageId with
  | some messageId =>
    let uamqp_message_id ← Ext.amqpvalue_create_string c messageId
    if uamqp_message_id = 0 then
      pure FAILURE
    else
      let result ← Ext.properties_set_message_id c uamqp_message_properties uamqp_message_id
      Ext.amqpvalue_destroy c uamqp_message_id
      if result ≠ 0 then pure FAILURE else pure RESULT_OK
  | none => pure RESULT_OK

/-- The C `set_message_correlation_id_if_needed`. -/
def set_message_correlation_id_if_needed (c : Collab σ)
    (messageHandle uamqp_message_properties : Nat) : M σ Int := do
  let correlationId ← Ext.IoTHubMessage_GetCorrelationId c messageHandle
  match correlationId with
  | some correlationId =>
    let uamqp_correlation_id ← Ext.amqpvalue_create_string c correlationId
    if uamqp_correlation_id = 0 then
      pure FAILURE
    else
      let result ←
        Ext.properties_set_correlation_id c uamqp_message_properties uamqp_correlation_id
      Ext.amqpvalue_destroy c uamqp_correlation_id
      if result ≠ 0 then pure FAILURE else pure RESULT_OK
  | none => pure RESULT_OK

/-- The C `set_message_content_type_if_needed`. -/
def set_message_content_type_if_needed (c : Collab σ)
    (messageHandle uamqp_message_properties : Nat) : M σ Int := do
  let content_type ← Ext.IoTHubMessage_GetContentTypeSystemProperty c messageHandle
  match content_type with
  | some content_type =>
    let result ← Ext.properties_set_content_type c uamqp_message_properties content_type
    if result ≠ 0 then pure FAILURE else pure result
  | none => pure RESULT_OK

/-- The C `set_message_content_encoding_if_needed`. -/
def set_message_content_encoding_if_needed (c : Collab σ)
    (messageHandle uamqp_message_properties : Nat) : M σ Int := do
  let content_encoding ← Ext.IoTHubMessage_GetContentEncodingSystemProperty c messageHandle
  match content_encoding with
  | some content_encoding =>
    let result ←
      Ext.properties_set_content_encoding c uamqp_message_properties content_encoding
    if result ≠ 0 then pure FAILURE else pure result
  | none => pure RESULT_OK

/-- The C `create_message_properties_to_encode`.  The two out-parameters come
in with the caller's values and are returned behind the result. -/
def create_message_properties_to_encode (c : Collab σ) (messageHandle : Nat)
    (message_properties : Nat) (message_properties_length : Nat) :
    M σ (Int × Nat × Nat) := do
  let uamqp_message_properties ← Ext.properties_create c
  if uamqp_message_properties = 0 then
    pure (FAILURE, message_properties, message_properties_length)
  else
    let r1 ← set_message_id_if_needed c messageHandle uamqp_message_properties
    if r1 ≠ RESULT_OK then
      pure (FAILURE, message_properties, message_properties_length)
    else
      let r2 ← set_message_correlation_id_if_needed c messageHandle uamqp_message_properties
      if r2 ≠ RESULT_OK then
        pure (FAILURE, message_properties, message_properties_length)
      else
        let r3 ← set_message_content_type_if_needed c messageHandle uamqp_message_properties
        if r3 ≠ RESULT_OK then
          pure (FAILURE, message_properties, message_properties_length)
        else
          let r4 ←
            set_message_content_encoding_if_needed c messageHandle uamqp_message_properties
          if r4 ≠ RESULT_OK then
            pure (FAILURE, message_properties, message_properties_length)
          else
            let message_properties ←
              Ext.amqpvalue_create_properties c uamqp_message_properties
            if message_properties = 0 then
              pure (FAILURE, message_properties, message_properties_length)
            else
              let sz ← Ext.amqpvalue_get_encoded_size c message_properties
              if sz.1 ≠ 0 then
                pure (FAILURE, message_properties, sz.2)
              else
                pure (RESULT_OK, message_properties, sz.2)

/-- The `for` loop of `create_application_properties_to_encode`; `fuel` is
`property_count - i`, and the value is `result` when the loop is left. -/
def create_application_properties_loop (c : Collab σ)
    (property_keys property_values : Nat → String) (uamqp_properties_map : Nat) :
    Nat → Nat → Int → M σ Int
  | 0, _, result => pure result
  | fuel + 1, i, _ => do
    let map_property_key ← Ext.amqpvalue_create_string c (property_keys i)
    if map_property_key = 0 then
      pure FAILURE
    else
      let map_property_value ← Ext.amqpvalue_create_string c (property_values i)
      if map_property_value = 0 then
        Ext.amqpvalue_destroy c map_property_key
        pure FAILURE
      else
        let result ←
          Ext.amqpvalue_set_map_value c uamqp_properties_map map_property_key
            map_property_value
        if result ≠ 0 then
          Ext.amqpvalue_destroy c map_property_key
          Ext.amqpvalue_destroy c map_property_value
          pure FAILURE
        else
          Ext.amqpvalue_destroy c map_property_key
          Ext.amqpvalue_destroy c map_property_value
          create_application_properties_loop c property_keys property_values
            uamqp_properties_map fuel (i + 1) result

/-- The C `create_application_properties_to_encode`. -/
def create_application_properties_to_encode (c : Collab σ) (messageHandle : Nat)
    (application_properties : Nat) (application_properties_length : Nat) :
    M σ (Int × Nat × Nat) := do
  let properties_map ← Ext.IoTHubMessage_Properties c messageHandle
  if properties_map = 0 then
    pure (FAILURE, application_properties, application_properties_length)
  else
    let gi ← Ext.Map_GetInternals c properties_map
    let result := gi.1
    let property_keys := gi.2.1
    let property_values := gi.2.2.1
    let property_count := gi.2.2.2
    if result ≠ 0 then
      pure (FAILURE, application_properties, application_properties_length)
    else if property_count > 0 then
      let uamqp_properties_map ← Ext.amqpvalue_create_map c
      if uamqp_properties_map = 0 then
        pure (FAILURE, application_properties, application_properties_length)
      else
        let result ← create_application_properties_loop c property_keys property_values
          uamqp_properties_map property_count 0 result
        if result = 0 then
          let application_properties ←
            Ext.amqpvalue_create_application_properties c uamqp_properties_map
          if application_properties = 0 then
            pure (FAILURE, application_properties, application_properties_length)
          else
            let sz ← Ext.amqpvalue_get_encoded_size c application_properties
            if sz.1 ≠ 0 then
              pure (FAILURE, application_properties, sz.2)
            else
              pure (sz.1, application_properties, sz.2)
        else
          pure (result, application_properties, application_properties_length)
    else
      pure (result, application_properties, application_properties_length)

/-- The last branch of `create_data_to_encode`: the content was obtained. -/
def create_data_value (c : Collab σ) (contentType : IOTHUBMESSAGE_CONTENT_TYPE)
    (messageContent : BytePtr) (messageContentSize : Nat) (data_length : Nat) :
    M σ (Int × Nat × Nat) := do
  let messageContentSize :=
    if contentType = IOTHUBMESSAGE_CONTENT_TYPE.IOTHUBMESSAGE_STRING then
      strlen messageContent
    else messageContentSize
  let bin_data : data := { bytes := messageContent, length := messageContentSize % 2 ^ 32 }
  let data_value ← Ext.amqpvalue_create_data c bin_data
  if data_value = 0 then
    pure (FAILURE, data_value, data_length)
  else
    let sz ← Ext.amqpvalue_get_encoded_size c data_value
    if sz.1 ≠ 0 then
      pure (FAILURE, data_value, sz.2)
    else
      pure (RESULT_OK, data_value, sz.2)

/-- The C `create_data_to_encode`. -/
def create_data_to_encode (c : Collab σ) (messageHandle : Nat)
    (data_value : Nat) (data_length : Nat) : M σ (Int × Nat × Nat) := do
  let contentType ← Ext.IoTHubMessage_GetContentType c messageHandle
  match contentType with
  | IOTHUBMESSAGE_CONTENT_TYPE.IOTHUBMESSAGE_BYTEARRAY =>
    let ba ← Ext.IoTHubMessage_GetByteArray c messageHandle
    if ba.1 ≠ IOTHUB_MESSAGE_RESULT.IOTHUB_MESSAGE_OK then
      pure (FAILURE, data_value, data_length)
    else
      create_data_value c contentType ba.2.1 ba.2.2 data_length
  | IOTHUBMESSAGE_CONTENT_TYPE.IOTHUBMESSAGE_STRING =>
    let messageContent ← Ext.IoTHubMessage_GetString c messageHandle
    match messageContent with
    | none => pure (FAILURE, data_value, data_length)
    | some text => create_data_value c contentType (some (c_str text)) 0 data_length
  | IOTHUBMESSAGE_CONTENT_TYPE.IOTHUBMESSAGE_UNKNOWN =>
    pure (FAILURE, data_value, data_length)

/-- The local variables of `create_amqp_message_data` when it returns, with
its result and the caller's `BINARY_DATA`. -/
structure EncodeFrame where
  result : Int
  body_binary_data : BINARY_DATA
  message_properties : Nat
  application_properties : Nat
  data_value : Nat
  message_properties_length : Nat
  application_properties_length : Nat
  data_length : Nat
  deriving DecidableEq, Repr

/-- The C sum `a + b + c` of three `size_t` values, `size_t` being 64 bits
wide: the sum modulo `2 ^ 64`. -/
def size_t_sum (a b c : Nat) : Nat := (a + b + c) % 2 ^ 64

/-- The body of the C `create_amqp_message_data`, keeping the locals.  The
size handed to `malloc` and the length stored on success are the `size_t` sum
of the three lengths. -/
def create_amqp_message_data_frame (c : Collab σ) (message_handle : Nat)
    (body_binary_data : BINARY_DATA) : M σ EncodeFrame := do
  let body_binary_data : BINARY_DATA := { body_binary_data with bytes := none }
  let body_binary_data : BINARY_DATA := { body_binary_data with length := 0 }
  let p ← create_message_properties_to_encode c message_handle 0 0
  if p.1 ≠ RESULT_OK then
    pure ⟨p.1, body_binary_data, p.2.1, 0, 0, p.2.2, 0, 0⟩
  else
    let a ← create_application_properties_to_encode c message_handle 0 0
    if a.1 ≠ RESULT_OK then
      pure ⟨a.1, body_binary_data, p.2.1, a.2.1, 0, p.2.2, a.2.2, 0⟩
    else
      let d ← create_data_to_encode c message_handle 0 0
      if d.1 ≠ RESULT_OK then
        pure ⟨d.1, body_binary_data, p.2.1, a.2.1, d.2.1, p.2.2, a.2.2, d.2.2⟩
      else
        let block ← Ext.malloc c (size_t_sum p.2.2 a.2.2 d.2.2)
        let body_binary_data : BINARY_DATA := { body_binary_data with bytes := block }
        if block = none then
          pure ⟨FAILURE, body_binary_data, p.2.1, a.2.1, d.2.1, p.2.2, a.2.2, d.2.2⟩
        else
          let e1 ← Ext.amqpvalue_encode c p.2.1 encode_callback body_binary_data
          if e1.1 ≠ RESULT_OK then
            pure ⟨e1.1, e1.2, p.2.1, a.2.1, d.2.1, p.2.2, a.2.2, d.2.2⟩
          else
            let e2 ←
              (if a.2.2 > 0 then Ext.amqpvalue_encode c a.2.1 encode_callback e1.2
               else pure e1)
            if a.2.2 > 0 ∧ e2.1 ≠ RESULT_OK then
              pure ⟨e2.1, e2.2, p.2.1, a.2.1, d.2.1, p.2.2, a.2.2, d.2.2⟩
            else
              let e3 ← Ext.amqpvalue_encode c d.2.1 encode_callback e2.2
              if e3.1 ≠ RESULT_OK then
                pure ⟨e3.1, e3.2, p.2.1, a.2.1, d.2.1, p.2.2, a.2.2, d.2.2⟩
              else
                pure ⟨RESULT_OK, { e3.2 with length := size_t_sum p.2.2 a.2.2 d.2.2 },
                  p.2.1, a.2.1, d.2.1, p.2.2, a.2.2, d.2.2⟩

/-- The C `create_amqp_message_data`: the result and `*body_binary_data`. -/
def create_amqp_message_data (c : Collab σ) (message_handle : Nat)
    (body_binary_data : BINARY_DATA) : M σ (Int × BINARY_DATA) := do
  let f ← create_amqp_message_data_frame c message_handle body_binary_data
  pure (f.result, f.body_binary_data)

end Encode

/-! ## Decoding: AMQP message to IoT Hub message -/

section Decode

variable {σ : Type}

/-- The message-id step of `readPropertiesFromuAMQPMessage` (the first
`if` chain after `return_value = 0`): the value is `return_value` after it. -/
def read_message_id (c : Collab σ) (iothub_message_handle uamqp_message_properties : Nat)
    (return_value : Int) : M σ Int := do
  let mid ← Ext.properties_get_message_id c uamqp_message_properties
  if mid.1 ≠ 0 then
    pure return_value
  else
    let ty ← Ext.amqpvalue_get_type c mid.2
    if ty ≠ AMQP_TYPE.AMQP_TYPE_NULL then
      let gs ← Ext.amqpvalue_get_string c mid.2
      if gs.1 ≠ 0 then
        pure FAILURE
      else
        let r ← Ext.IoTHubMessage_SetMessageId c iothub_message_handle gs.2
        if r ≠ IOTHUB_MESSAGE_RESULT.IOTHUB_MESSAGE_OK then pure FAILURE
        else pure return_value
    else
      pure return_value

/-- The correlation-id step of `readPropertiesFromuAMQPMessage` (the second
`if` chain): the value is `return_value` after it. -/
def read_correlation_id (c : Collab σ) (iothub_message_handle uamqp_message_properties : Nat)
    (return_value : Int) : M σ Int := do
  let cid ← Ext.properties_get_correlation_id c uamqp_message_properties
  if cid.1 ≠ 0 then
    pure return_value
  else
    let ty ← Ext.amqpvalue_get_type c cid.2
    if ty ≠ AMQP_TYPE.AMQP_TYPE_NULL then
      let gs ← Ext.amqpvalue_get_string c cid.2
      if gs.1 ≠ 0 then
        pure FAILURE
      else
        let r ← Ext.IoTHubMessage_SetCorrelationId c iothub_message_handle gs.2
        if r ≠ IOTHUB_MESSAGE_RESULT.IOTHUB_MESSAGE_OK then pure FAILURE
        else pure return_value
    else
      pure return_value

/-- The C `readPropertiesFromuAMQPMessage`. -/
def readPropertiesFromuAMQPMessage (c : Collab σ) (iothub_message_handle uamqp_message : Nat) :
    M σ Int := do
  let gp ← Ext.message_get_properties c uamqp_message
  let uamqp_message_properties := gp.2
  if gp.1 ≠ 0 then
    pure FAILURE
  else
    let return_value : Int := 0
    let return_value ←
      read_message_id c iothub_message_handle uamqp_message_properties return_value
    let return_value ←
      read_correlation_id c iothub_message_handle uamqp_message_properties return_value
    Ext.properties_destroy c uamqp_message_properties
    pure return_value

/-- The `if` chain in the body of the `for` loop of
`readApplicationPropertiesFromuAMQPMessage`, after the pair was requested:
`pr` is what `amqpvalue_get_map_key_value_pair` answered, the value is
`result`. -/
def readApplicationProperties_copy (c : Collab σ) (iothub_message_properties_map : Nat)
    (pr : Int × Nat × Nat) : M σ Int :=
  if pr.1 ≠ 0 then
    pure FAILURE
  else do
    let kn ← Ext.amqpvalue_get_string c pr.2.1
    if kn.1 ≠ 0 then
      pure FAILURE
    else
      let kv ← Ext.amqpvalue_get_string c pr.2.2
      if kv.1 ≠ 0 then
        pure FAILURE
      else
        let r ← Ext.Map_AddOrUpdate c iothub_message_properties_map kn.2 kv.2
        if r ≠ MAP_OK then pure FAILURE else pure kv.1

/-- The release of the pair at the end of the loop body. -/
def readApplicationProperties_release (c : Collab σ) (map_key_name map_key_value : Nat) :
    M σ Unit := do
  if map_key_name ≠ 0 then
    Ext.amqpvalue_destroy c map_key_name
  if map_key_value ≠ 0 then
    Ext.amqpvalue_destroy c map_key_value

/-- One pass through the body of the `for` loop of
`readApplicationPropertiesFromuAMQPMessage`, for index `i`: the value is
`result` at the end of the pass. -/
def readApplicationProperties_pass (c : Collab σ) (iothub_message_properties_map : Nat)
    (uamqp_app_properties_ipdv : Nat) (i : Nat) : M σ Int := do
  let pr ← Ext.amqpvalue_get_map_key_value_pair c uamqp_app_properties_ipdv i
  let result ← readApplicationProperties_copy c iothub_message_properties_map pr
  readApplicationProperties_release c pr.2.1 pr.2.2
  pure result

/-- The `for` loop of `readApplicationPropertiesFromuAMQPMessage`; `fuel` is
`property_count - i`. -/
def readApplicationProperties_loop (c : Collab σ) (iothub_message_properties_map : Nat)
    (uamqp_app_properties_ipdv : Nat) : Nat → Nat → Int → M σ Int
  | 0, _, result => pure result
  | fuel + 1, i, result =>
    if result = RESULT_OK then do
      let result ← readApplicationProperties_pass c iothub_message_properties_map
        uamqp_app_properties_ipdv i
      readApplicationProperties_loop c iothub_message_properties_map
        uamqp_app_properties_ipdv fuel (i + 1) result
    else
      pure result

/-- The part of `readApplicationPropertiesFromuAMQPMessage` that works on a
non-`NULL` application-properties value, up to its release: unwrap, count,
loop. -/
def readApplicationProperties_map (c : Collab σ) (iothub_message_properties_map : Nat)
    (uamqp_app_properties : Nat) : M σ Int := do
  let uamqp_app_properties_ipdv ←
    Ext.amqpvalue_get_inplace_described_value c uamqp_app_properties
  if uamqp_app_properties_ipdv = 0 then
    pure FAILURE
  else
    let pc ← Ext.amqpvalue_get_map_pair_count c uamqp_app_properties_ipdv
    if pc.1 ≠ 0 then
      pure FAILURE
    else
      readApplicationProperties_loop c iothub_message_properties_map
        uamqp_app_properties_ipdv pc.2 0 pc.1

/-- The C `readApplicationPropertiesFromuAMQPMessage`. -/
def readApplicationPropertiesFromuAMQPMessage (c : Collab σ)
    (iothub_message_handle uamqp_message : Nat) : M σ Int := do
  let iothub_message_properties_map ← Ext.IoTHubMessage_Properties c iothub_message_handle
  if iothub_message_properties_map = 0 then
    pure FAILURE
  else
    let ap ← Ext.message_get_application_properties c uamqp_message
    let uamqp_app_properties := ap.2
    if ap.1 ≠ 0 then
      pure FAILURE
    else if uamqp_app_properties = 0 then
      pure 0
    else
      let result ←
        readApplicationProperties_map c iothub_message_properties_map uamqp_app_properties
      Ext.amqpvalue_destroy c uamqp_app_properties
      pure result

/-- The first half of the C `IoTHubMessage_CreateFromUamqpMessage`: read the
body and create the message; the value is `(result, iothub_message)`. -/
def create_from_body (c : Collab σ) (uamqp_message : Nat) : M σ (Int × Nat) := do
  let result : Int := FAILURE
  let iothub_message : Nat := 0
  let bt ← Ext.message_get_body_type c uamqp_message
  if bt.1 ≠ 0 then
    pure (FAILURE, iothub_message)
  else if bt.2 = MESSAGE_BODY_TYPE.MESSAGE_BODY_TYPE_DATA then
    let bd ← Ext.message_get_body_amqp_data_in_place c uamqp_message 0
    if bd.1 ≠ 0 then
      pure (FAILURE, iothub_message)
    else
      let iothub_message ←
        Ext.IoTHubMessage_CreateFromByteArray c bd.2.bytes bd.2.length
      if iothub_message = 0 then
        pure (FAILURE, iothub_message)
      else
        pure (result, iothub_message)
  else
    pure (result, iothub_message)

/-- The C `IoTHubMessage_CreateFromUamqpMessage`: the value is the result and
the content of `*iothubclient_message`, which comes in as
`iothubclient_message`. -/
def IoTHubMessage_CreateFromUamqpMessage (c : Collab σ) (uamqp_message : Nat)
    (iothubclient_message : Nat) : M σ (Int × Nat) := do
  let b ← create_from_body c uamqp_message
  let result := b.1
  let iothub_message := b.2
  if iothub_message ≠ 0 then
    let rp ← readPropertiesFromuAMQPMessage c iothub_message uamqp_message
    if rp ≠ RESULT_OK then
      Ext.IoTHubMessage_Destroy c iothub_message
      pure (FAILURE, iothubclient_message)
    else
      let ra ← readApplicationPropertiesFromuAMQPMessage c iothub_message uamqp_message
      if ra ≠ RESULT_OK then
        Ext.IoTHubMessage_Destroy c iothub_message
        pure (FAILURE, iothubclient_message)
      else
        pure (RESULT_OK, iothub_message)
  else
    pure (result, iothubclient_message)

end Decode

/-! ## The calls of a successful encode

These lists mirror the helpers `set_exp_calls_for_create_encoded_*` of the unit
test: the calls one expects, in order, when nothing fails. -/

/-- Calls for the message-id: the getter alone when the field is absent,
else getter, string value, setter and release.  `field` is the text and the
handle of its string value. -/
def exp_calls_message_id (h properties : Nat) (field : Option (String × Nat)) : List Call :=
  match field with
  | some (text, v) =>
    [Call.IoTHubMessage_GetMessageId h (some text), Call.amqpvalue_create_string text v,
      Call.properties_set_message_id properties v 0, Call.amqpvalue_destroy v]
  | none => [Call.IoTHubMessage_GetMessageId h none]

/-- Calls for the correlation-id. -/
def exp_calls_correlation_id (h properties : Nat) (field : Option (String × Nat)) :
    List Call :=
  match field with
  | some (text, v) =>
    [Call.IoTHubMessage_GetCorrelationId h (some text), Call.amqpvalue_create_string text v,
      Call.properties_set_correlation_id properties v 0, Call.amqpvalue_destroy v]
  | none => [Call.IoTHubMessage_GetCorrelationId h none]

/-- Calls for the content-type system property. -/
def exp_calls_content_type (h properties : Nat) (field : Option String) : List Call :=
  match field with
  | some text =>
    [Call.IoTHubMessage_GetContentTypeSystemProperty h (some text),
      Call.properties_set_content_type properties text 0]
  | none => [Call.IoTHubMessage_GetContentTypeSystemProperty h none]

/-- Calls for the content-encoding system property. -/
def exp_calls_content_encoding (h properties : Nat) (field : Option String) : List Call :=
  match field with
  | some text =>
    [Call.IoTHubMessage_GetContentEncodingSystemProperty h (some text),
      Call.properties_set_content_encoding properties text 0]
  | none => [Call.IoTHubMessage_GetContentEncodingSystemProperty h none]

/-- Calls of a successful `create_message_properties_to_encode`. -/
def exp_calls_message_properties (h properties : Nat)
    (messageId correlationId : Option (String × Nat))
    (contentType contentEncoding : Option String) (value size : Nat) : List Call :=
  [Call.properties_create properties] ++
    exp_calls_message_id h properties messageId ++
    exp_calls_correlation_id h properties correlationId ++
    exp_calls_content_type h properties contentType ++
    exp_calls_content_encoding h properties contentEncoding ++
    [Call.amqpvalue_create_properties properties value,
      Call.amqpvalue_get_encoded_size value 0 size]

/-- Calls for one property: `entry` is the key text, the key handle, the
value text and the value handle. -/
def exp_calls_pair (amqp_map : Nat) (entry : String × Nat × String × Nat) : List Call :=
  [Call.amqpvalue_create_string entry.1 entry.2.1,
    Call.amqpvalue_create_string entry.2.2.1 entry.2.2.2,
    Call.amqpvalue_set_map_value amqp_map entry.2.1 entry.2.2.2 0,
    Call.amqpvalue_destroy entry.2.1, Call.amqpvalue_destroy entry.2.2.2]

/-- Calls of a successful `create_application_properties_to_encode`. -/
def exp_calls_application_properties (h map : Nat)
    (entries : List (String × Nat × String × Nat)) (amqp_map value size : Nat) : List Call :=
  [Call.IoTHubMessage_Properties h map, Call.Map_GetInternals map 0 entries.length] ++
    match entries with
    | [] => []
    | _ :: _ =>
      [Call.amqpvalue_create_map amqp_map] ++ entries.flatMap (exp_calls_pair amqp_map) ++
        [Call.amqpvalue_create_application_properties amqp_map value,
          Call.amqpvalue_get_encoded_size value 0 size]

/-- The body of a message as the encoder obtained it: a byte array (pointer
and size) or a text. -/
inductive EncodedBody where
  | byteArray (buffer : BytePtr) (size : Nat)
  | text (s : String)

/-- The `data` struct that `create_data_to_encode` builds from a body. -/
def EncodedBody.bin_data : EncodedBody → data
  | .byteArray buffer size => { bytes := buffer, length := size % 2 ^ 32 }
  | .text s => { bytes := some (c_str s), length := strlen (some (c_str s)) % 2 ^ 32 }

/-- Calls of a successful `create_data_to_encode`. -/
def exp_calls_data (h : Nat) (body : EncodedBody) (value size : Nat) : List Call :=
  (match body with
    | .byteArray buffer n =>
      [Call.IoTHubMessage_GetContentType h IOTHUBMESSAGE_CONTENT_TYPE.IOTHUBMESSAGE_BYTEARRAY,
        Call.IoTHubMessage_GetByteArray h IOTHUB_MESSAGE_RESULT.IOTHUB_MESSAGE_OK buffer n]
    | .text s =>
      [Call.IoTHubMessage_GetContentType h IOTHUBMESSAGE_CONTENT_TYPE.IOTHUBMESSAGE_STRING,
        Call.IoTHubMessage_GetString h (some s)]) ++
    [Call.amqpvalue_create_data body.bin_data value,
      Call.amqpvalue_get_encoded_size value 0 size]

/-- Calls of the assembly step of a successful `create_amqp_message_data`:
one `malloc`, then the serialisations; `app` is the application-properties
value and its chunks when that section is serialised. -/
def exp_calls_assembly (size : Nat) (message_properties : Nat) (chunks1 : List (List Nat))
    (app : Option (Nat × List (List Nat))) (data_value : Nat) (chunks3 : List (List Nat)) :
    List Call :=
  [Call.malloc size (some (List.replicate size none)),
    Call.amqpvalue_encode message_properties chunks1 0] ++
    (match app with
      | some (application_properties, chunks2) =>
        [Call.amqpvalue_encode application_properties chunks2 0]
      | none => []) ++
    [Call.amqpvalue_encode data_value chunks3 0]

/-- The values `create_amqp_message_data` serialises, in order: the
properties, the application properties when their encoded length is positive,
the data. -/
def sections_to_encode (message_properties application_properties data_value : Nat)
    (application_properties_length : Nat) : List Nat :=
  [message_properties] ++
    (if application_properties_length > 0 then [application_properties] else []) ++
    [data_value]

/-- The output struct after the callback has received the given chunks. -/
def after_chunks (context : BINARY_DATA) (chunks : List (List Nat)) : BINARY_DATA :=
  chunks.foldl (fun ctx chunk => (encode_callback ctx chunk).2) context

/-! ## Vocabulary for statements about a run -/

/-- Whether a logged call succeeded.  Calls without a status (`void` calls,
the getters of optional fields, `amqpvalue_get_type`) always do; a content
type of `IOTHUBMESSAGE_UNKNOWN` and a `NULL` answer where a value is due
count as failures. -/
def Call.ok : Call → Bool
  | .properties_create r => r != 0
  | .properties_destroy _ => true
  | .IoTHubMessage_GetMessageId _ _ => true
  | .IoTHubMessage_GetCorrelationId _ _ => true
  | .IoTHubMessage_GetContentTypeSystemProperty _ _ => true
  | .IoTHubMessage_GetContentEncodingSystemProperty _ _ => true
  | .amqpvalue_create_string _ r => r != 0
  | .amqpvalue_destroy _ => true
  | .properties_set_message_id _ _ r => r == 0
  | .properties_set_correlation_id _ _ r => r == 0
  | .properties_set_content_type _ _ r => r == 0
  | .properties_set_content_encoding _ _ r => r == 0
  | .amqpvalue_create_properties _ r => r != 0
  | .amqpvalue_get_encoded_size _ r _ => r == 0
  | .IoTHubMessage_Properties _ r => r != 0
  | .Map_GetInternals _ r _ => r == 0
  | .amqpvalue_create_map r => r != 0
  | .amqpvalue_set_map_value _ _ _ r => r == 0
  | .amqpvalue_create_application_properties _ r => r != 0
  | .IoTHubMessage_GetContentType _ r =>
    r != IOTHUBMESSAGE_CONTENT_TYPE.IOTHUBMESSAGE_UNKNOWN
  | .IoTHubMessage_GetByteArray _ r _ _ => r == IOTHUB_MESSAGE_RESULT.IOTHUB_MESSAGE_OK
  | .IoTHubMessage_GetString _ r => r.isSome
  | .amqpvalue_create_data _ r => r != 0
  | .malloc _ r => r.isSome
  | .amqpvalue_encode _ _ r => r == 0
  | .message_get_body_type _ r _ => r == 0
  | .message_get_body_amqp_data_in_place _ _ r _ => r == 0
  | .IoTHubMessage_CreateFromByteArray _ _ r => r != 0
  | .IoTHubMessage_Destroy _ => true
  | .message_get_properties _ r _ => r == 0
  | .properties_get_message_id _ r _ => r == 0
  | .properties_get_correlation_id _ r _ => r == 0
  | .amqpvalue_get_type _ _ => true
  | .amqpvalue_get_string _ r _ => r == 0
  | .IoTHubMessage_SetMessageId _ _ r => r == IOTHUB_MESSAGE_RESULT.IOTHUB_MESSAGE_OK
  | .IoTHubMessage_SetCorrelationId _ _ r => r == IOTHUB_MESSAGE_RESULT.IOTHUB_MESSAGE_OK
  | .message_get_application_properties _ r _ => r == 0
  | .amqpvalue_get_inplace_described_value _ r => r != 0
  | .amqpvalue_get_map_pair_count _ r _ => r == 0
  | .amqpvalue_get_map_key_value_pair _ _ r _ _ => r == 0
  | .Map_AddOrUpdate _ _ _ r => r == MAP_OK

/-- Every call of the log succeeded. -/
def AllOk (t : List Call) : Prop := ∀ e ∈ t, e.ok = true

instance instDecidableAllOk (t : List Call) : Decidable (AllOk t) :=
  inferInstanceAs (Decidable (∀ e ∈ t, e.ok = true))

/-- The size a call reported, when it is a successful
`amqpvalue_get_encoded_size`. -/
def Call.reportedSize : Call → Option Nat
  | .amqpvalue_get_encoded_size _ 0 size => some size
  | _ => none

/-- The encoded sizes that `amqpvalue_get_encoded_size` reported, in order. -/
def reportedSizes (t : List Call) : List Nat := t.filterMap Call.reportedSize

/-- Whether a call belongs to the assembly step of the encoder: the
allocation of the buffer or a serialisation. -/
def Call.isAssembly : Call → Bool
  | .malloc _ _ => true
  | .amqpvalue_encode _ _ _ => true
  | _ => false

/-- Whether a call is a serialisation. -/
def Call.isEncode : Call → Bool
  | .amqpvalue_encode _ _ _ => true
  | _ => false

/-- Whether a call is an allocation that returned a block. -/
def Call.isAllocated : Call → Bool
  | .malloc _ (some _) => true
  | _ => false

/-- Whether a call is a `Map_GetInternals` that reported no property. -/
def Call.isEmptyMap : Call → Bool
  | .Map_GetInternals _ _ 0 => true
  | _ => false

/-- Whether a call sets one of the four header fields. -/
def Call.isFieldSetter : Call → Bool
  | .properties_set_message_id _ _ _ => true
  | .properties_set_correlation_id _ _ _ => true
  | .properties_set_content_type _ _ _ => true
  | .properties_set_content_encoding _ _ _ => true
  | _ => false

/-- Whether a call creates an AMQP map or an application-properties value. -/
def Call.isMapCreation : Call → Bool
  | .amqpvalue_create_map _ => true
  | .amqpvalue_create_application_properties _ _ => true
  | _ => false

/-- Whether a call releases an IoT Hub message. -/
def Call.isMessageDestroy : Call → Bool
  | .IoTHubMessage_Destroy _ => true
  | _ => false

/-- The chunks a call handed to the callback. -/
def Call.chunks : Call → List (List Nat)
  | .amqpvalue_encode _ chunks _ => chunks
  | _ => []

/-- All chunks handed to the callback during a run, in order. -/
def encodedChunks (t : List Call) : List (List Nat) := t.flatMap Call.chunks

/-- No call of the log satisfies `p`. -/
def Avoids (p : Call → Bool) (t : List Call) : Prop := ∀ e ∈ t, p e = false

/-! ## A scripted collaborator

The collaborator of the unit test, with answers fixed by a script and at most
one call made to fail, as `umock_c_negative_tests_fail_call` does.  Its world
is the number of calls answered so far. -/

/-- What the scripted collaborator answers. -/
structure Script where
  messageId : Option String
  correlationId : Option String
  contentType : Option String
  contentEncoding : Option String
  keys : List String
  values : List String
  content : IOTHUBMESSAGE_CONTENT_TYPE
  body : List Nat
  text : Option String
  bodyType : MESSAGE_BODY_TYPE
  hasApplicationProperties : Bool
  failAt : Option Nat

/-- The scripted encoding of a value: two bytes. -/
def Script.enc (v : Nat) : List Nat := [v % 256, 7]

/-- The text behind a string value of the scripted AMQP message: 2001 is the
message-id, 2002 the correlation-id, `3000 + 2 * i` key `i` and
`3001 + 2 * i` value `i`. -/
def Script.stringOf (s : Script) (v : Nat) : Option String :=
  if v = 2001 then s.messageId
  else if v = 2002 then s.correlationId
  else if v < 3000 then none
  else if (v - 3000) % 2 = 0 then s.keys[(v - 3000) / 2]?
  else s.values[(v - 3000) / 2]?

/-- The scripted collaborator: call number `n` fails when the script says so,
every other call succeeds; created values get the handle `1000 + n`. -/
def mock (s : Script) : Collab Nat where
  properties_create := fun n => (if s.failAt = some n then 0 else 263, n + 1)
  properties_destroy := fun _ n => n + 1
  IoTHubMessage_GetMessageId := fun _ n => (s.messageId, n + 1)
  IoTHubMessage_GetCorrelationId := fun _ n => (s.correlationId, n + 1)
  IoTHubMessage_GetContentTypeSystemProperty := fun _ n => (s.contentType, n + 1)
  IoTHubMessage_GetContentEncodingSystemProperty := fun _ n => (s.contentEncoding, n + 1)
  amqpvalue_create_string := fun _ n => (if s.failAt = some n then 0 else 1000 + n, n + 1)
  amqpvalue_destroy := fun _ n => n + 1
  properties_set_message_id := fun _ _ n => (if s.failAt = some n then 1 else 0, n + 1)
  properties_set_correlation_id := fun _ _ n => (if s.failAt = some n then 1 else 0, n + 1)
  properties_set_content_type := fun _ _ n => (if s.failAt = some n then 1 else 0, n + 1)
  properties_set_content_encoding := fun _ _ n => (if s.failAt = some n then 1 else 0, n + 1)
  amqpvalue_create_properties := fun _ n => (if s.failAt = some n then 0 else 1000 + n, n + 1)
  amqpvalue_get_encoded_size := fun _ n => ((if s.failAt = some n then 1 else 0, 2), n + 1)
  IoTHubMessage_Properties := fun _ n => (if s.failAt = some n then 0 else 259, n + 1)
  Map_GetInternals := fun _ n =>
    ((if s.failAt = some n then 1 else 0, fun i => s.keys.getD i "", fun i => s.values.getD i "",
      s.keys.length), n + 1)
  amqpvalue_create_map := fun n => (if s.failAt = some n then 0 else 1000 + n, n + 1)
  amqpvalue_set_map_value := fun _ _ _ n => (if s.failAt = some n then 1 else 0, n + 1)
  amqpvalue_create_application_properties := fun _ n =>
    (if s.failAt = some n then 0 else 1000 + n, n + 1)
  IoTHubMessage_GetContentType := fun _ n =>
    (if s.failAt = some n then IOTHUBMESSAGE_CONTENT_TYPE.IOTHUBMESSAGE_UNKNOWN else s.content,
      n + 1)
  IoTHubMessage_GetByteArray := fun _ n =>
    ((if s.failAt = some n then IOTHUB_MESSAGE_RESULT.IOTHUB_MESSAGE_ERROR
      else IOTHUB_MESSAGE_RESULT.IOTHUB_MESSAGE_OK, some (s.body.map some), s.body.length),
      n + 1)
  IoTHubMessage_GetString := fun _ n => (if s.failAt = some n then none else s.text, n + 1)
  amqpvalue_create_data := fun _ n => (if s.failAt = some n then 0 else 1000 + n, n + 1)
  malloc := fun _ n => (!(s.failAt == some n), n + 1)
  amqpvalue_encode := fun v n =>
    (if s.failAt = some n then ([[v % 256]], 1) else ([[v % 256], [7]], 0), n + 1)
  message_get_body_type := fun _ n => ((if s.failAt = some n then 1 else 0, s.bodyType), n + 1)
  message_get_body_amqp_data_in_place := fun _ _ n =>
    ((if s.failAt = some n then 1 else 0, ⟨some (s.body.map some), s.body.length⟩), n + 1)
  IoTHubMessage_CreateFromByteArray := fun _ _ n =>
    (if s.failAt = some n then 0 else 256, n + 1)
  IoTHubMessage_Destroy := fun _ n => n + 1
  message_get_properties := fun _ n => ((if s.failAt = some n then 1 else 0, 263), n + 1)
  properties_get_message_id := fun _ n =>
    ((if s.failAt = some n then 1 else 0, 2001), n + 1)
  properties_get_correlation_id := fun _ n =>
    ((if s.failAt = some n then 1 else 0, 2002), n + 1)
  amqpvalue_get_type := fun v n =>
    (if (s.stringOf v).isSome then AMQP_TYPE.AMQP_TYPE_STRING else AMQP_TYPE.AMQP_TYPE_NULL,
      n + 1)
  amqpvalue_get_string := fun v n =>
    ((if s.failAt = some n then 1 else 0, s.stringOf v), n + 1)
  IoTHubMessage_SetMessageId := fun _ _ n =>
    (if s.failAt = some n then IOTHUB_MESSAGE_RESULT.IOTHUB_MESSAGE_ERROR
      else IOTHUB_MESSAGE_RESULT.IOTHUB_MESSAGE_OK, n + 1)
  IoTHubMessage_SetCorrelationId := fun _ _ n =>
    (if s.failAt = some n then IOTHUB_MESSAGE_RESULT.IOTHUB_MESSAGE_ERROR
      else IOTHUB_MESSAGE_RESULT.IOTHUB_MESSAGE_OK, n + 1)
  message_get_application_properties := fun _ n =>
    ((if s.failAt = some n then 1 else 0, if s.hasApplicationProperties then 260 else 0),
      n + 1)
  amqpvalue_get_inplace_described_value := fun _ n =>
    (if s.failAt = some n then 0 else 261, n + 1)
  amqpvalue_get_map_pair_count := fun _ n =>
    ((if s.failAt = some n then 1 else 0, s.keys.length), n + 1)
  amqpvalue_get_map_key_value_pair := fun _ i n =>
    ((if s.failAt = some n then 1 else 0, 3000 + 2 * i, 3001 + 2 * i), n + 1)
  Map_AddOrUpdate := fun _ _ _ n => (if s.failAt = some n then 1 else 0, n + 1)

/-- The message of the unit test `create_amqp_message_data_bytearray_success`:
all four system properties, one user property, a byte-array body. -/
def testScript : Script where
  messageId := some "Test string!! $%^%2F0x011"
  correlationId := some "Test Correlation Id"
  contentType := some "text/plain"
  contentEncoding := some "utf8"
  keys := ["PROPERTY1"]
  values := ["sdfksdfjjjjlsdf"]
  content := IOTHUBMESSAGE_CONTENT_TYPE.IOTHUBMESSAGE_BYTEARRAY
  body := [1, 2, 3]
  text := none
  bodyType := MESSAGE_BODY_TYPE.MESSAGE_BODY_TYPE_DATA
  hasApplicationProperties := true
  failAt := none

/-- A message without optional fields and without user properties. -/
def bareScript : Script where
  messageId := none
  correlationId := none
  contentType := none
  contentEncoding := none
  keys := []
  values := []
  content := IOTHUBMESSAGE_CONTENT_TYPE.IOTHUBMESSAGE_BYTEARRAY
  body := [1, 2, 3]
  text := none
  bodyType := MESSAGE_BODY_TYPE.MESSAGE_BODY_TYPE_DATA
  hasApplicationProperties := false
  failAt := none

/-! ## A reference collaborator

The AMQP value layer, the application-message layer and the property map are
not among the sources.  To run the encoder and the decoder one after the
other they are given a reference behaviour here, following §3 and §6 of the
specification: handles are positions in a heap, every well-formed request
succeeds, and releases change nothing. -/

/-- Modelled from the spec: the body of an application message (§3), raw
bytes or a text; the message layer (`iothub_message.c`) is not among the
sources. -/
inductive MessageBody where
  | byteArray (bytes : List Nat)
  | text (s : String)
  deriving DecidableEq, Repr

/-- Modelled from the spec: the application message of §3 — a body, the four
optional system properties and the map of user properties; the message layer
(`iothub_message.c`) is not among the sources. -/
structure ApplicationMessage where
  body : MessageBody
  messageId : Option String
  correlationId : Option String
  contentType : Option String
  contentEncoding : Option String
  properties : List (String × String)
  deriving DecidableEq, Repr

/-- Modelled from the spec: a value that can be a map key, a map value or an
id field — the null value or a string; the AMQP value layer (`amqpvalue.c`)
is not among the sources. -/
inductive AmqpSimple where
  | null
  | string (s : String)
  deriving DecidableEq, Repr

/-- Modelled from the spec: the header properties of an AMQP message with the
four fields this code touches, each possibly unset; the AMQP definitions
(`amqp_definitions.c`) are not among the sources. -/
structure AmqpProperties where
  message_id : Option AmqpSimple
  correlation_id : Option AmqpSimple
  content_type : Option String
  content_encoding : Option String
  deriving DecidableEq, Repr

/-- Modelled from the spec: what an `AMQP_VALUE` handle stands for — a simple
value, a map, or one of the three described sections of §6; the AMQP value
layer (`amqpvalue.c`) is not among the sources. -/
inductive AmqpValue where
  | simple (x : AmqpSimple)
  | map (entries : List (AmqpSimple × AmqpSimple))
  | properties (p : AmqpProperties)
  | application_properties (entries : List (AmqpSimple × AmqpSimple))
  | data (bytes : List Nat)
  deriving DecidableEq, Repr

/-- Modelled from the spec: a parsed AMQP message — its optional properties
section, its optional application-properties section and its data sections;
the message object (`message.c`) is not among the sources. -/
structure AmqpMessage where
  properties : Option AmqpProperties
  application_properties : Option (List (AmqpSimple × AmqpSimple))
  body : List (List Nat)
  deriving DecidableEq, Repr

/-- Modelled from the spec: the state of the reference collaborator, one heap
per kind of handle; handle `h` stands for position `h - 1`. -/
structure World where
  messages : List ApplicationMessage
  values : List AmqpValue
  properties : List AmqpProperties
  amqp_messages : List AmqpMessage
  deriving DecidableEq, Repr

/-- What a handle stands for in a heap; `NULL` stands for nothing. -/
def deref {α : Type} (heap : List α) (h : Nat) : Option α :=
  if h = 0 then none else heap[h - 1]?

/-- Add or update one pair of a map with unique keys: an existing key keeps
its place and takes the new value, a new key goes to the end. -/
def upsert {α β : Type} [DecidableEq α] : List (α × β) → α → β → List (α × β)
  | [], k, v => [(k, v)]
  | (k1, v1) :: rest, k, v =>
    if k1 = k then (k1, v) :: rest else (k1, v1) :: upsert rest k v

/-- The simple value behind an `AMQP_VALUE`, when it is one. -/
def AmqpValue.toSimple : AmqpValue → Option AmqpSimple
  | AmqpValue.simple x => some x
  | _ => none

/-- The first `n` bytes behind a pointer; an unwritten cell reads as 0. -/
def readBytes (p : List (Option Nat)) (n : Nat) : List Nat :=
  (p.take n).map (fun cell => cell.getD 0)

/-- The properties record with no field set. -/
def AmqpProperties.empty : AmqpProperties := ⟨none, none, none, none⟩

/-- A new value in the heap of AMQP values: its handle and the world. -/
def World.newValue (w : World) (v : AmqpValue) : Nat × World :=
  (w.values.length + 1, { w with values := w.values ++ [v] })

/-- A new application message: its handle and the world. -/
def World.newMessage (w : World) (m : ApplicationMessage) : Nat × World :=
  (w.messages.length + 1, { w with messages := w.messages ++ [m] })

/-- A new properties record: its handle and the world. -/
def World.newProperties (w : World) (p : AmqpProperties) : Nat × World :=
  (w.properties.length + 1, { w with properties := w.properties ++ [p] })

/-- Change the properties record behind `p`; fails on a bad handle. -/
def World.setProperties (w : World) (p : Nat) (f : AmqpProperties → AmqpProperties) :
    Int × World :=
  match deref w.properties p with
  | some r => (0, { w with properties := w.properties.set (p - 1) (f r) })
  | none => (1, w)

/-- Change the application message behind `h`; fails on a bad handle. -/
def World.setMessage (w : World) (h : Nat) (f : ApplicationMessage → ApplicationMessage) :
    Bool × World :=
  match deref w.messages h with
  | some m => (true, { w with messages := w.messages.set (h - 1) (f m) })
  | none => (false, w)

/-- Modelled from the spec: the reference behaviour of every collaborator of
§6 over `World`; `enc` is the encoding of the AMQP layer, which §1 leaves to
that layer.  None of these functions is among the sources. -/
def reference (enc : AmqpValue → List Nat) : Collab World where
  properties_create := fun w => w.newProperties AmqpProperties.empty
  properties_destroy := fun _ w => w
  IoTHubMessage_GetMessageId := fun h w =>
    ((deref w.messages h).bind ApplicationMessage.messageId, w)
  IoTHubMessage_GetCorrelationId := fun h w =>
    ((deref w.messages h).bind ApplicationMessage.correlationId, w)
  IoTHubMessage_GetContentTypeSystemProperty := fun h w =>
    ((deref w.messages h).bind ApplicationMessage.contentType, w)
  IoTHubMessage_GetContentEncodingSystemProperty := fun h w =>
    ((deref w.messages h).bind ApplicationMessage.contentEncoding, w)
  amqpvalue_create_string := fun s w => w.newValue (AmqpValue.simple (AmqpSimple.string s))
  amqpvalue_destroy := fun _ w => w
  properties_set_message_id := fun p v w =>
    match (deref w.values v).bind AmqpValue.toSimple with
    | some x => w.setProperties p (fun r => { r with message_id := some x })
    | none => (1, w)
  properties_set_correlation_id := fun p v w =>
    match (deref w.values v).bind AmqpValue.toSimple with
    | some x => w.setProperties p (fun r => { r with correlation_id := some x })
    | none => (1, w)
  properties_set_content_type := fun p s w =>
    w.setProperties p (fun r => { r with content_type := some s })
  properties_set_content_encoding := fun p s w =>
    w.setProperties p (fun r => { r with content_encoding := some s })
  amqpvalue_create_properties := fun p w =>
    match deref w.properties p with
    | some r => w.newValue (AmqpValue.properties r)
    | none => (0, w)
  amqpvalue_get_encoded_size := fun v w =>
    match deref w.values v with
    | some x => ((0, (enc x).length), w)
    | none => ((1, 0), w)
  IoTHubMessage_Properties := fun h w => (if (deref w.messages h).isSome then h else 0, w)
  Map_GetInternals := fun m w =>
    match deref w.messages m with
    | some msg =>
      ((0, fun i => (msg.properties.map Prod.fst).getD i "",
        fun i => (msg.properties.map Prod.snd).getD i "", msg.properties.length), w)
    | none => ((1, fun _ => "", fun _ => "", 0), w)
  amqpvalue_create_map := fun w => w.newValue (AmqpValue.map [])
  amqpvalue_set_map_value := fun m k v w =>
    match deref w.values m, (deref w.values k).bind AmqpValue.toSimple,
      (deref w.values v).bind AmqpValue.toSimple with
    | some (AmqpValue.map entries), some a, some b =>
      (0, { w with values := w.values.set (m - 1) (AmqpValue.map (upsert entries a b)) })
    | _, _, _ => (1, w)
  amqpvalue_create_application_properties := fun m w =>
    match deref w.values m with
    | some (AmqpValue.map entries) => w.newValue (AmqpValue.application_properties entries)
    | _ => (0, w)
  IoTHubMessage_GetContentType := fun h w =>
    match deref w.messages h with
    | some msg =>
      (match msg.body with
        | MessageBody.byteArray _ => IOTHUBMESSAGE_CONTENT_TYPE.IOTHUBMESSAGE_BYTEARRAY
        | MessageBody.text _ => IOTHUBMESSAGE_CONTENT_TYPE.IOTHUBMESSAGE_STRING, w)
    | none => (IOTHUBMESSAGE_CONTENT_TYPE.IOTHUBMESSAGE_UNKNOWN, w)
  IoTHubMessage_GetByteArray := fun h w =>
    match (deref w.messages h).map ApplicationMessage.body with
    | some (MessageBody.byteArray bytes) =>
      ((IOTHUB_MESSAGE_RESULT.IOTHUB_MESSAGE_OK, some (bytes.map some), bytes.length), w)
    | _ => ((IOTHUB_MESSAGE_RESULT.IOTHUB_MESSAGE_INVALID_ARG, none, 0), w)
  IoTHubMessage_GetString := fun h w =>
    match (deref w.messages h).map ApplicationMessage.body with
    | some (MessageBody.text s) => (some s, w)
    | _ => (none, w)
  amqpvalue_create_data := fun d w =>
    match d.bytes with
    | some cells => w.newValue (AmqpValue.data (readBytes cells d.length))
    | none => if d.length = 0 then w.newValue (AmqpValue.data []) else (0, w)
  malloc := fun _ w => (true, w)
  amqpvalue_encode := fun v w =>
    match deref w.values v with
    | some x => (([enc x], 0), w)
    | none => (([], 1), w)
  message_get_body_type := fun m w =>
    match deref w.amqp_messages m with
    | some msg =>
      ((0, if msg.body = [] then MESSAGE_BODY_TYPE.MESSAGE_BODY_TYPE_NONE
        else MESSAGE_BODY_TYPE.MESSAGE_BODY_TYPE_DATA), w)
    | none => ((1, MESSAGE_BODY_TYPE.MESSAGE_BODY_TYPE_NONE), w)
  message_get_body_amqp_data_in_place := fun m i w =>
    match (deref w.amqp_messages m).bind (fun msg => msg.body[i]?) with
    | some bytes => ((0, ⟨some (bytes.map some), bytes.length⟩), w)
    | none => ((1, ⟨none, 0⟩), w)
  IoTHubMessage_CreateFromByteArray := fun p n w =>
    match p with
    | some cells =>
      w.newMessage ⟨MessageBody.byteArray (readBytes cells n), none, none, none, none, []⟩
    | none =>
      if n = 0 then w.newMessage ⟨MessageBody.byteArray [], none, none, none, none, []⟩
      else (0, w)
  IoTHubMessage_Destroy := fun _ w => w
  message_get_properties := fun m w =>
    match deref w.amqp_messages m with
    | some msg =>
      ((0, (w.newProperties (msg.properties.getD AmqpProperties.empty)).1),
        (w.newProperties (msg.properties.getD AmqpProperties.empty)).2)
    | none => ((1, 0), w)
  properties_get_message_id := fun p w =>
    match (deref w.properties p).bind AmqpProperties.message_id with
    | some x => ((0, (w.newValue (AmqpValue.simple x)).1), (w.newValue (AmqpValue.simple x)).2)
    | none => ((1, 0), w)
  properties_get_correlation_id := fun p w =>
    match (deref w.properties p).bind AmqpProperties.correlation_id with
    | some x => ((0, (w.newValue (AmqpValue.simple x)).1), (w.newValue (AmqpValue.simple x)).2)
    | none => ((1, 0), w)
  amqpvalue_get_type := fun v w =>
    match deref w.values v with
    | some (AmqpValue.simple (AmqpSimple.string _)) => (AMQP_TYPE.AMQP_TYPE_STRING, w)
    | some (AmqpValue.simple AmqpSimple.null) => (AMQP_TYPE.AMQP_TYPE_NULL, w)
    | some (AmqpValue.map _) => (AMQP_TYPE.AMQP_TYPE_MAP, w)
    | some _ => (AMQP_TYPE.AMQP_TYPE_DESCRIBED, w)
    | none => (AMQP_TYPE.AMQP_TYPE_UNKNOWN, w)
  amqpvalue_get_string := fun v w =>
    match deref w.values v with
    | some (AmqpValue.simple (AmqpSimple.string s)) => ((0, some s), w)
    | _ => ((1, none), w)
  IoTHubMessage_SetMessageId := fun h s w =>
    match s with
    | some s =>
      if (w.setMessage h (fun m => { m with messageId := some s })).1 then
        (IOTHUB_MESSAGE_RESULT.IOTHUB_MESSAGE_OK,
          (w.setMessage h (fun m => { m with messageId := some s })).2)
      else (IOTHUB_MESSAGE_RESULT.IOTHUB_MESSAGE_INVALID_ARG, w)
    | none => (IOTHUB_MESSAGE_RESULT.IOTHUB_MESSAGE_INVALID_ARG, w)
  IoTHubMessage_SetCorrelationId := fun h s w =>
    match s with
    | some s =>
      if (w.setMessage h (fun m => { m with correlationId := some s })).1 then
        (IOTHUB_MESSAGE_RESULT.IOTHUB_MESSAGE_OK,
          (w.setMessage h (fun m => { m with correlationId := some s })).2)
      else (IOTHUB_MESSAGE_RESULT.IOTHUB_MESSAGE_INVALID_ARG, w)
    | none => (IOTHUB_MESSAGE_RESULT.IOTHUB_MESSAGE_INVALID_ARG, w)
  message_get_application_properties := fun m w =>
    match deref w.amqp_messages m with
    | some msg =>
      (match msg.application_properties with
        | some entries =>
          ((0, (w.newValue (AmqpValue.application_properties entries)).1),
            (w.newValue (AmqpValue.application_properties entries)).2)
        | none => ((0, 0), w))
    | none => ((1, 0), w)
  amqpvalue_get_inplace_described_value := fun v w =>
    match deref w.values v with
    | some (AmqpValue.application_properties entries) => w.newValue (AmqpValue.map entries)
    | _ => (0, w)
  amqpvalue_get_map_pair_count := fun v w =>
    match deref w.values v with
    | some (AmqpValue.map entries) => ((0, entries.length), w)
    | _ => ((1, 0), w)
  amqpvalue_get_map_key_value_pair := fun v i w =>
    match (deref w.values v) with
    | some (AmqpValue.map entries) =>
      (match entries[i]? with
        | some (a, b) =>
          ((0, w.values.length + 1, w.values.length + 2),
            { w with values := w.values ++ [AmqpValue.simple a, AmqpValue.simple b] })
        | none => ((1, 0, 0), w))
    | _ => ((1, 0, 0), w)
  Map_AddOrUpdate := fun m k v w =>
    match k, v with
    | some k, some v =>
      if (w.setMessage m (fun msg => { msg with properties := upsert msg.properties k v })).1
      then (0, (w.setMessage m
        (fun msg => { msg with properties := upsert msg.properties k v })).2)
      else (1, w)
    | _, _ => (1, w)

/-- The sender's world: the message to send behind handle 1, nothing else. -/
def World.sender (msg : ApplicationMessage) : World := ⟨[msg], [], [], []⟩

/-- The receiver's world: the parsed AMQP message behind handle 1. -/
def World.receiver (received : AmqpMessage) : World := ⟨[], [], [], [received]⟩

/-- The bytes a caller finds in a filled `BINARY_DATA`. -/
def BINARY_DATA.contents (b : BINARY_DATA) : List Nat :=
  match b.bytes with
  | some cells => readBytes cells b.length
  | none => []

/-- Encode `msg` with `create_amqp_message_data`, let the AMQP layer parse the
buffer, decode the parsed message with `IoTHubMessage_CreateFromUamqpMessage`:
the application message the receiver ends up with, if every step succeeds. -/
def round_trip (enc : AmqpValue → List Nat) (parse : List Nat → Option AmqpMessage)
    (msg : ApplicationMessage) : Option ApplicationMessage :=
  let e := create_amqp_message_data (reference enc) 1 ⟨none, 0⟩ (World.sender msg)
  if e.val.1 ≠ 0 then none
  else
    match parse e.val.2.contents with
    | none => none
    | some received =>
      let d := IoTHubMessage_CreateFromUamqpMessage (reference enc) 1 0
        (World.receiver received)
      if d.val.1 ≠ 0 then none else deref d.world.messages d.val.2

/-! ## A toy encoding layer

The round trip is proved for every encoding layer whose parser inverts its
encoder.  To show that such layers exist, and to run the round trip on
concrete messages, here is one: every value is encoded as a single number. -/

/-- The character codes of a string. -/
def stringCodes (s : String) : List Nat := s.data.map Char.toNat

/-- The string with the given character codes. -/
def codesString (l : List Nat) : String := ⟨l.map Char.ofNat⟩

/-- A simple value as plain data: nothing for null, the character codes of a
string. -/
def AmqpSimple.code : AmqpSimple → Option (List Nat)
  | AmqpSimple.null => none
  | AmqpSimple.string s => some (stringCodes s)

/-- The simple value of plain data. -/
def AmqpSimple.ofCode : Option (List Nat) → AmqpSimple
  | none => AmqpSimple.null
  | some l => AmqpSimple.string (codesString l)

/-- A properties record as plain data. -/
def AmqpProperties.code (p : AmqpProperties) :
    Option (Option (List Nat)) × Option (Option (List Nat)) × Option (List Nat) ×
      Option (List Nat) :=
  (p.message_id.map AmqpSimple.code, p.correlation_id.map AmqpSimple.code,
    p.content_type.map stringCodes, p.content_encoding.map stringCodes)

/-- The properties record of plain data. -/
def AmqpProperties.ofCode
    (c : Option (Option (List Nat)) × Option (Option (List Nat)) × Option (List Nat) ×
      Option (List Nat)) : AmqpProperties :=
  ⟨c.1.map AmqpSimple.ofCode, c.2.1.map AmqpSimple.ofCode, c.2.2.1.map codesString,
    c.2.2.2.map codesString⟩

/-- The entries of a map as plain data. -/
def entriesCode (entries : List (AmqpSimple × AmqpSimple)) :
    List (Option (List Nat) × Option (List Nat)) :=
  entries.map (fun kv => (kv.1.code, kv.2.code))

/-- The entries of a map of plain data. -/
def entriesOfCode (c : List (Option (List Nat) × Option (List Nat))) :
    List (AmqpSimple × AmqpSimple) :=
  c.map (fun kv => (AmqpSimple.ofCode kv.1, AmqpSimple.ofCode kv.2))

/-- The toy encoder: one number per value. -/
def toyEnc : AmqpValue → List Nat
  | AmqpValue.simple x => [Encodable.encode x.code]
  | AmqpValue.map entries => [Encodable.encode (entriesCode entries)]
  | AmqpValue.properties p => [Encodable.encode p.code]
  | AmqpValue.application_properties entries => [Encodable.encode (entriesCode entries)]
  | AmqpValue.data bytes => [Encodable.encode bytes]

/-- The toy parser for a buffer with the three sections of §6. -/
def toyParse : List Nat → Option AmqpMessage
  | [a, b, c] =>
    match (Encodable.decode a : Option (Option (Option (List Nat)) ×
        Option (Option (List Nat)) × Option (List Nat) × Option (List Nat))),
      (Encodable.decode b : Option (List (Option (List Nat) × Option (List Nat)))),
      (Encodable.decode c : Option (List Nat)) with
    | some p, some e, some d => some ⟨some (AmqpProperties.ofCode p), some (entriesOfCode e), [d]⟩
    | _, _, _ => none
  | _ => none

/-- A message with a byte-array body, both ids and two user properties. -/
def exampleMessage : ApplicationMessage :=
  ⟨MessageBody.byteArray [104, 101, 108, 108, 111], some "abc-123", some "corr-1",
    some "text/plain", some "utf-8", [("k1", "v1"), ("k2", "v2")]⟩

/-- A message whose body is one byte longer than a `uint32_t` can count. -/
def largeMessage : ApplicationMessage :=
  ⟨MessageBody.byteArray (List.replicate (2 ^ 32 + 1) 0), some "abc-123", some "corr-1",
    none, none, [("k1", "v1")]⟩

/-! ## Which component makes which call -/

/-- The calls `create_message_properties_to_encode` can make. -/
def Call.isPropertiesBuilderCall : Call → Bool
  | .properties_create _ => true
  | .IoTHubMessage_GetMessageId _ _ => true
  | .IoTHubMessage_GetCorrelationId _ _ => true
  | .IoTHubMessage_GetContentTypeSystemProperty _ _ => true
  | .IoTHubMessage_GetContentEncodingSystemProperty _ _ => true
  | .amqpvalue_create_string _ _ => true
  | .amqpvalue_destroy _ => true
  | .properties_set_message_id _ _ _ => true
  | .properties_set_correlation_id _ _ _ => true
  | .properties_set_content_type _ _ _ => true
  | .properties_set_content_encoding _ _ _ => true
  | .amqpvalue_create_properties _ _ => true
  | .amqpvalue_get_encoded_size _ _ _ => true
  | _ => false

/-- The calls `create_application_properties_to_encode` can make. -/
def Call.isApplicationPropertiesBuilderCall : Call → Bool
  | .IoTHubMessage_Properties _ _ => true
  | .Map_GetInternals _ _ _ => true
  | .amqpvalue_create_map _ => true
  | .amqpvalue_create_string _ _ => true
  | .amqpvalue_set_map_value _ _ _ _ => true
  | .amqpvalue_destroy _ => true
  | .amqpvalue_create_application_properties _ _ => true
  | .amqpvalue_get_encoded_size _ _ _ => true
  | _ => false

/-- The calls `create_data_to_encode` can make. -/
def Call.isDataBuilderCall : Call → Bool
  | .IoTHubMessage_GetContentType _ _ => true
  | .IoTHubMessage_GetByteArray _ _ _ _ => true
  | .IoTHubMessage_GetString _ _ => true
  | .amqpvalue_create_data _ _ => true
  | .amqpvalue_get_encoded_size _ _ _ => true
  | _ => false

/-- The calls the first half of `IoTHubMessage_CreateFromUamqpMessage` can
make: those that read the body and create the message. -/
def Call.isBodyReaderCall : Call → Bool
  | .message_get_body_type _ _ _ => true
  | .message_get_body_amqp_data_in_place _ _ _ _ => true
  | .IoTHubMessage_CreateFromByteArray _ _ _ => true
  | _ => false

/-- The calls `readPropertiesFromuAMQPMessage` can make. -/
def Call.isPropertiesReaderCall : Call → Bool
  | .message_get_properties _ _ _ => true
  | .properties_get_message_id _ _ _ => true
  | .properties_get_correlation_id _ _ _ => true
  | .amqpvalue_get_type _ _ => true
  | .amqpvalue_get_string _ _ _ => true
  | .IoTHubMessage_SetMessageId _ _ _ => true
  | .IoTHubMessage_SetCorrelationId _ _ _ => true
  | .properties_destroy _ => true
  | _ => false

/-- The calls `readApplicationPropertiesFromuAMQPMessage` can make. -/
def Call.isApplicationPropertiesReaderCall : Call → Bool
  | .IoTHubMessage_Properties _ _ => true
  | .message_get_application_properties _ _ _ => true
  | .amqpvalue_get_inplace_described_value _ _ => true
  | .amqpvalue_get_map_pair_count _ _ _ => true
  | .amqpvalue_get_map_key_value_pair _ _ _ _ _ => true
  | .amqpvalue_get_string _ _ _ => true
  | .Map_AddOrUpdate _ _ _ _ => true
  | .amqpvalue_destroy _ => true
  | _ => false

/-- Every call of the log satisfies `p`. -/
def Only (p : Call → Bool) (t : List Call) : Prop := ∀ e ∈ t, p e = true

/-! ## The calls of the decoder

The logs of the two readers, described the way the unit test describes its
expected calls (`set_exp_calls_for_IoTHubMessage_CreateFromUamqpMessage`),
with every way a step can end. -/

/-- The calls the part of `readApplicationPropertiesFromuAMQPMessage` that
works on a non-`NULL` application-properties value can make. -/
def Call.isMapReaderCall : Call → Bool
  | .amqpvalue_get_inplace_described_value _ _ => true
  | .amqpvalue_get_map_pair_count _ _ _ => true
  | .amqpvalue_get_map_key_value_pair _ _ _ _ _ => true
  | .amqpvalue_get_string _ _ _ => true
  | .Map_AddOrUpdate _ _ _ _ => true
  | .amqpvalue_destroy _ => true
  | _ => false

/-- How the processing of one id field (message-id or correlation-id) in
`readPropertiesFromuAMQPMessage` ended: the field read itself failed
(`unread`); the field was read and its type is `AMQP_TYPE_NULL` (`null`); the
field was read with another type and `amqpvalue_get_string` failed
(`unextracted`); the text was extracted and the setter answered `result`
(`set`). -/
inductive FieldOutcome where
  | unread (result : Int) (value : Nat)
  | null (value : Nat)
  | unextracted (value : Nat) (type : AMQP_TYPE) (result : Int) (text : Option String)
  | set (value : Nat) (type : AMQP_TYPE) (text : Option String)
      (result : IOTHUB_MESSAGE_RESULT)
  deriving DecidableEq, Repr

/-- The conditions under which the code takes each way. -/
def FieldOutcome.valid : FieldOutcome → Prop
  | .unread result _ => result ≠ 0
  | .null _ => True
  | .unextracted _ type result _ => type ≠ AMQP_TYPE.AMQP_TYPE_NULL ∧ result ≠ 0
  | .set _ type _ _ => type ≠ AMQP_TYPE.AMQP_TYPE_NULL

/-- Whether the way the field ended makes the reader fail: the field was read
with a type other than null, and the extraction or the setter failed. -/
def FieldOutcome.fatal : FieldOutcome → Bool
  | .unread _ _ => false
  | .null _ => false
  | .unextracted _ _ _ _ => true
  | .set _ _ _ result => result != IOTHUB_MESSAGE_RESULT.IOTHUB_MESSAGE_OK

/-- Calls of the message-id step of `readPropertiesFromuAMQPMessage`. -/
def exp_calls_read_message_id (h properties : Nat) : FieldOutcome → List Call
  | .unread result value => [Call.properties_get_message_id properties result value]
  | .null value =>
    [Call.properties_get_message_id properties 0 value,
      Call.amqpvalue_get_type value AMQP_TYPE.AMQP_TYPE_NULL]
  | .unextracted value type result text =>
    [Call.properties_get_message_id properties 0 value,
      Call.amqpvalue_get_type value type,
      Call.amqpvalue_get_string value result text]
  | .set value type text result =>
    [Call.properties_get_message_id properties 0 value,
      Call.amqpvalue_get_type value type,
      Call.amqpvalue_get_string value 0 text,
      Call.IoTHubMessage_SetMessageId h text result]

/-- Calls of the correlation-id step of `readPropertiesFromuAMQPMessage`. -/
def exp_calls_read_correlation_id (h properties : Nat) : FieldOutcome → List Call
  | .unread result value => [Call.properties_get_correlation_id properties result value]
  | .null value =>
    [Call.properties_get_correlation_id properties 0 value,
      Call.amqpvalue_get_type value AMQP_TYPE.AMQP_TYPE_NULL]
  | .unextracted value type result text =>
    [Call.properties_get_correlation_id properties 0 value,
      Call.amqpvalue_get_type value type,
      Call.amqpvalue_get_string value result text]
  | .set value type text result =>
    [Call.properties_get_correlation_id properties 0 value,
      Call.amqpvalue_get_type value type,
      Call.amqpvalue_get_string value 0 text,
      Call.IoTHubMessage_SetCorrelationId h text result]

/-- How one pass through the loop of
`readApplicationPropertiesFromuAMQPMessage` ended; `key` and `value` are the
handles `amqpvalue_get_map_key_value_pair` gave.  The pair could not be read
(`unpaired`); the key could not be extracted as a string (`keyless`); the
value could not be extracted as a string (`valueless`); both were extracted
and `Map_AddOrUpdate` answered `result` (`inserted`). -/
inductive PassOutcome where
  | unpaired (result : Int) (key value : Nat)
  | keyless (key value : Nat) (result : Int) (name : Option String)
  | valueless (key value : Nat) (name : Option String) (result : Int) (text : Option String)
  | inserted (key value : Nat) (name text : Option String) (result : Int)
  deriving DecidableEq, Repr

/-- The conditions under which the code takes each way. -/
def PassOutcome.valid : PassOutcome → Prop
  | .unpaired result _ _ => result ≠ 0
  | .keyless _ _ result _ => result ≠ 0
  | .valueless _ _ _ result _ => result ≠ 0
  | .inserted _ _ _ _ _ => True

/-- Whether the pass copied its pair into the map. -/
def PassOutcome.ok : PassOutcome → Bool
  | .inserted _ _ _ _ result => result == MAP_OK
  | _ => false

/-- The release at the end of a pass: each handle that is not `NULL`. -/
def exp_calls_release (key value : Nat) : List Call :=
  (if key ≠ 0 then [Call.amqpvalue_destroy key] else []) ++
    (if value ≠ 0 then [Call.amqpvalue_destroy value] else [])

/-- Calls of the pass for index `i`. -/
def exp_calls_pass (map ipdv i : Nat) : PassOutcome → List Call
  | .unpaired result key value =>
    [Call.amqpvalue_get_map_key_value_pair ipdv i result key value] ++
      exp_calls_release key value
  | .keyless key value result name =>
    [Call.amqpvalue_get_map_key_value_pair ipdv i 0 key value,
      Call.amqpvalue_get_string key result name] ++ exp_calls_release key value
  | .valueless key value name result text =>
    [Call.amqpvalue_get_map_key_value_pair ipdv i 0 key value,
      Call.amqpvalue_get_string key 0 name,
      Call.amqpvalue_get_string value result text] ++ exp_calls_release key value
  | .inserted key value name text result =>
    [Call.amqpvalue_get_map_key_value_pair ipdv i 0 key value,
      Call.amqpvalue_get_string key 0 name,
      Call.amqpvalue_get_string value 0 text,
      Call.Map_AddOrUpdate map name text result] ++ exp_calls_release key value

/-- Calls of consecutive passes, the first one for index `i`. -/
def exp_calls_passes (map ipdv : Nat) : Nat → List PassOutcome → List Call
  | _, [] => []
  | i, o :: rest => exp_calls_pass map ipdv i o ++ exp_calls_passes map ipdv (i + 1) rest

/-- The run of `create_from_body` inside `IoTHubMessage_CreateFromUamqpMessage`. -/
def decode_body_run {σ : Type} (c : Collab σ) (uamqp_message : Nat) (w : σ) :
    Out σ (Int × Nat) :=
  create_from_body c uamqp_message w

/-- The run of `readPropertiesFromuAMQPMessage` inside
`IoTHubMessage_CreateFromUamqpMessage`, on the message the first half
created. -/
def decode_properties_run {σ : Type} (c : Collab σ) (uamqp_message : Nat) (w : σ) :
    Out σ Int :=
  readPropertiesFromuAMQPMessage c (decode_body_run c uamqp_message w).val.2 uamqp_message
    (decode_body_run c uamqp_message w).world

/-- The run of `readApplicationPropertiesFromuAMQPMessage` inside
`IoTHubMessage_CreateFromUamqpMessage`, after the properties reader. -/
def decode_application_properties_run {σ : Type} (c : Collab σ) (uamqp_message : Nat)
    (w : σ) : Out σ Int :=
  readApplicationPropertiesFromuAMQPMessage c (decode_body_run c uamqp_message w).val.2
    uamqp_message (decode_properties_run c uamqp_message w).world

/-- The read of the message-id field. -/
def Call.isMessageIdRead : Call → Bool
  | .properties_get_message_id _ _ _ => true
  | _ => false

/-- The read of the correlation-id field. -/
def Call.isCorrelationIdRead : Call → Bool
  | .properties_get_correlation_id _ _ _ => true
  | _ => false

/-- The calls `IoTHubMessage_CreateFromUamqpMessage` can make once the
properties reader has returned: those of the application-properties reader and
the release of the message. -/
def Call.isAfterPropertiesCall (e : Call) : Bool :=
  e.isApplicationPropertiesReaderCall || e.isMessageDestroy

/-- The calls of a pass through the loop of
`readApplicationPropertiesFromuAMQPMessage`. -/
def Call.isPassCall : Call → Bool
  | .amqpvalue_get_map_key_value_pair _ _ _ _ _ => true
  | .amqpvalue_get_string _ _ _ => true
  | .Map_AddOrUpdate _ _ _ _ => true
  | .amqpvalue_destroy _ => true
  | _ => false

/-- An insertion into the property map. -/
def Call.isMapInsert : Call → Bool
  | .Map_AddOrUpdate _ _ _ _ => true
  | _ => false

/-- The result of the field read of the step. -/
def FieldOutcome.result : FieldOutcome → Int
  | .unread result _ => result
  | _ => 0

/-- The value handle the field read of the step gave. -/
def FieldOutcome.value : FieldOutcome → Nat
  | .unread _ value => value
  | .null value => value
  | .unextracted value _ _ _ => value
  | .set value _ _ _ => value

/-- The bytes of a body that reach the data section of the encoded message:
`create_data_to_encode` passes `amqpvalue_create_data` the content with its
length as a `uint32_t`; for a text body the content is the C string and the
length is its `strlen`. -/
def MessageBody.wire : MessageBody → List Nat
  | .byteArray bytes => bytes.take (bytes.length % 2 ^ 32)
  | .text s => readBytes (c_str s) (strlen (some (c_str s)) % 2 ^ 32)

/-- The message of the example scenario: a text body, both ids, content type
and encoding, two user properties. -/
def scenarioMessage : ApplicationMessage :=
  ⟨MessageBody.text "hello", some "abc-123", some "corr-1", some "text/plain", some "utf-8",
    [("k1", "v1"), ("k2", "v2")]⟩

/-! ## The parts of a run of the encoder -/

/-- The run of `create_message_properties_to_encode` inside
`create_amqp_message_data`. -/
def encode_properties_run {σ : Type} (c : Collab σ) (message_handle : Nat) (w : σ) :
    Out σ (Int × Nat × Nat) :=
  create_message_properties_to_encode c message_handle 0 0 w

/-- The run of `create_application_properties_to_encode` inside
`create_amqp_message_data`, after the properties builder. -/
def encode_application_properties_run {σ : Type} (c : Collab σ) (message_handle : Nat)
    (w : σ) : Out σ (Int × Nat × Nat) :=
  create_application_properties_to_encode c message_handle 0 0
    (encode_properties_run c message_handle w).world

/-- The run of `create_data_to_encode` inside `create_amqp_message_data`,
after the application-properties builder. -/
def encode_data_run {σ : Type} (c : Collab σ) (message_handle : Nat) (w : σ) :
    Out σ (Int × Nat × Nat) :=
  create_data_to_encode c message_handle 0 0
    (encode_application_properties_run c message_handle w).world

/-- Whether a call is an allocation. -/
def Call.isMalloc : Call → Bool
  | .malloc _ _ => true
  | _ => false

/-- The calls by which `create_data_to_encode` obtains the body. -/
def exp_calls_body (h : Nat) : EncodedBody → List Call
  | .byteArray buffer n =>
    [Call.IoTHubMessage_GetContentType h IOTHUBMESSAGE_CONTENT_TYPE.IOTHUBMESSAGE_BYTEARRAY,
      Call.IoTHubMessage_GetByteArray h IOTHUB_MESSAGE_RESULT.IOTHUB_MESSAGE_OK buffer n]
  | .text s =>
    [Call.IoTHubMessage_GetContentType h IOTHUBMESSAGE_CONTENT_TYPE.IOTHUBMESSAGE_STRING,
      Call.IoTHubMessage_GetString h (some s)]

/-- The scripted collaborator of the unit test with an AMQP layer in which
every value has an empty encoding: each reported size is 0 and each
serialisation hands the callback nothing. -/
def emptySections : Collab Nat :=
  { mock testScript with
    amqpvalue_get_encoded_size := fun _ n => ((0, 0), n + 1)
    amqpvalue_encode := fun _ n => (([], 0), n + 1) }

/-- A collaborator for the message without user properties whose AMQP layer
reports `2 ^ 63` bytes for every value and whose serialisations hand the
callback nothing. -/
def wrapping : Collab Nat :=
  { mock bareScript with
    amqpvalue_get_encoded_size := fun _ n => ((0, 2 ^ 63), n + 1)
    amqpvalue_encode := fun _ n => (([], 0), n + 1) }

/-- The write cursor `body_binary_data->length` after each invocation of
`encode_callback`, when the callback starts from `context` and receives the
given chunks one after the other. -/
def cursors (context : BINARY_DATA) : List (List Nat) → List Nat
  | [] => []
  | chunk :: rest =>
    (encode_callback context chunk).2.length :: cursors (encode_callback context chunk).2 rest

/-! ## Release of temporary string values -/

/-- A call that creates a string value or releases an AMQP value. -/
def Call.isStringCall : Call → Bool
  | .amqpvalue_create_string _ _ => true
  | .amqpvalue_destroy _ => true
  | _ => false

/-- A successful `amqpvalue_create_string` that answered `v`. -/
def Call.createsString (v : Nat) : Call → Bool
  | .amqpvalue_create_string _ r => r == v
  | _ => false

/-- An `amqpvalue_destroy` of `v`. -/
def Call.destroysValue (v : Nat) : Call → Bool
  | .amqpvalue_destroy r => r == v
  | _ => false

/-- The string values held after the calls of a log, starting with `live`:
a successful `amqpvalue_create_string` adds its value, `amqpvalue_destroy`
removes the value it is given; the answer is `none` when `amqpvalue_destroy`
is given a value that is not held. -/
def stringsAfter : List Nat → List Call → Option (List Nat)
  | live, [] => some live
  | live, Call.amqpvalue_create_string _ v :: t =>
    stringsAfter (if v = 0 then live else v :: live) t
  | live, Call.amqpvalue_destroy v :: t =>
    if v ∈ live then stringsAfter (live.erase v) t else none
  | live, _ :: t => stringsAfter live t

/-- A log in which every string value that was created is released once, and
nothing else is released: whatever is held before is what is held after. -/
def Scoped (t : List Call) : Prop := ∀ live, stringsAfter live t = some live

/-- A release of an AMQP value. -/
def Call.isValueDestroy : Call → Bool
  | .amqpvalue_destroy _ => true
  | _ => false

/-! ## The calls of the application-properties builder -/

/-- How one pass through the loop of `create_application_properties_to_encode`
ended: the key string could not be created (`keyless`); the key was created
and the value string could not (`valueless`); both were created and
`amqpvalue_set_map_value` answered a non-zero `result` (`rejected`); the pair
was inserted (`inserted`). -/
inductive InsertOutcome where
  | keyless
  | valueless (key : Nat)
  | rejected (key value : Nat) (result : Int)
  | inserted (key value : Nat)
  deriving DecidableEq, Repr

/-- The conditions under which the code takes each way. -/
def InsertOutcome.valid : InsertOutcome → Prop
  | .keyless => True
  | .valueless key => key ≠ 0
  | .rejected key value result => key ≠ 0 ∧ value ≠ 0 ∧ result ≠ 0
  | .inserted key value => key ≠ 0 ∧ value ≠ 0

/-- Whether the pass inserted its pair. -/
def InsertOutcome.ok : InsertOutcome → Bool
  | .inserted _ _ => true
  | _ => false

/-- Calls of the pass for the pair with the given key text and value text. -/
def exp_calls_insert (amqp_map : Nat) (keyText valueText : String) :
    InsertOutcome → List Call
  | .keyless => [Call.amqpvalue_create_string keyText 0]
  | .valueless key =>
    [Call.amqpvalue_create_string keyText key, Call.amqpvalue_create_string valueText 0,
      Call.amqpvalue_destroy key]
  | .rejected key value result =>
    [Call.amqpvalue_create_string keyText key, Call.amqpvalue_create_string valueText value,
      Call.amqpvalue_set_map_value amqp_map key value result,
      Call.amqpvalue_destroy key, Call.amqpvalue_destroy value]
  | .inserted key value =>
    [Call.amqpvalue_create_string keyText key, Call.amqpvalue_create_string valueText value,
      Call.amqpvalue_set_map_value amqp_map key value 0,
      Call.amqpvalue_destroy key, Call.amqpvalue_destroy value]

/-- Calls of consecutive passes, the first one for index `i` of the key and
value arrays. -/
def exp_calls_inserts (amqp_map : Nat) (keys values : Nat → String) :
    Nat → List InsertOutcome → List Call
  | _, [] => []
  | i, o :: rest =>
    exp_calls_insert amqp_map (keys i) (values i) o ++
      exp_calls_inserts amqp_map keys values (i + 1) rest

/-- An insertion into an AMQP map that succeeded. -/
def Call.isMapValueSet : Call → Bool
  | .amqpvalue_set_map_value _ _ _ 0 => true
  | _ => false

/-- The key array that `Map_GetInternals` hands
`create_application_properties_to_encode`. -/
def property_keys_of {σ : Type} (c : Collab σ) (messageHandle : Nat) (w : σ) : Nat → String :=
  (c.Map_GetInternals (c.IoTHubMessage_Properties messageHandle w).1
    (c.IoTHubMessage_Properties messageHandle w).2).1.2.1

/-- The value array that `Map_GetInternals` hands
`create_application_properties_to_encode`. -/
def property_values_of {σ : Type} (c : Collab σ) (messageHandle : Nat) (w : σ) :
    Nat → String :=
  (c.Map_GetInternals (c.IoTHubMessage_Properties messageHandle w).1
    (c.IoTHubMessage_Properties messageHandle w).2).1.2.2.1

/-! ## Release of what the decoder obtains -/

/-- What the decoder holds and has to release: the properties container that
`message_get_properties` gave, the application-properties value that
`message_get_application_properties` gave (`outer`), and the key and value
handles of the current pass of the loop (`pair`). -/
structure Held where
  container : Option Nat
  outer : Option Nat
  pair : List Nat
  deriving DecidableEq, Repr

/-- Nothing is held. -/
def Held.nothing : Held := ⟨none, none, []⟩

/-- A call that obtains or releases one of the things in `Held`. -/
def Call.isHeldCall : Call → Bool
  | .message_get_properties _ _ _ => true
  | .properties_destroy _ => true
  | .message_get_application_properties _ _ _ => true
  | .amqpvalue_get_map_key_value_pair _ _ _ _ _ => true
  | .amqpvalue_destroy _ => true
  | _ => false

/-- What is held after the calls of a log, starting with `s`.  A successful
`message_get_properties` takes the container, which must not be held already;
`properties_destroy` gives back the container that is held; a successful
`message_get_application_properties` with a value other than `NULL` takes the
outer value; `amqpvalue_get_map_key_value_pair` takes the key and the value
that are not `NULL`, and needs the outer value to be held and the previous
pair to have been given back; `amqpvalue_destroy` gives back a handle of the
current pair or, when no handle of the pair is left, the outer value.  The
answer is `none` when a call releases what is not held or takes what is
already held. -/
def heldAfter : Held → List Call → Option Held
  | s, [] => some s
  | s, Call.message_get_properties _ r p :: t =>
    if r ≠ 0 then heldAfter s t
    else if s.container = none then heldAfter ⟨some p, s.outer, s.pair⟩ t
    else none
  | s, Call.properties_destroy p :: t =>
    if s.container = some p then heldAfter ⟨none, s.outer, s.pair⟩ t else none
  | s, Call.message_get_application_properties _ r a :: t =>
    if r ≠ 0 ∨ a = 0 then heldAfter s t
    else if s.outer = none then heldAfter ⟨s.container, some a, s.pair⟩ t
    else none
  | s, Call.amqpvalue_get_map_key_value_pair _ _ _ k v :: t =>
    if s.outer ≠ none ∧ s.pair = [] then
      heldAfter ⟨s.container, s.outer,
        (if k = 0 then [] else [k]) ++ (if v = 0 then [] else [v])⟩ t
    else none
  | s, Call.amqpvalue_destroy v :: t =>
    if v ∈ s.pair then heldAfter ⟨s.container, s.outer, s.pair.erase v⟩ t
    else if s.outer = some v ∧ s.pair = [] then heldAfter ⟨s.container, none, s.pair⟩ t
    else none
  | s, _ :: t => heldAfter s t

/-- A call that obtains or releases the properties container. -/
def Call.isContainerCall : Call → Bool
  | .message_get_properties _ _ _ => true
  | .properties_destroy _ => true
  | _ => false

end UamqpMessaging

/-! # Properties of the encoder and the decoder -/

namespace UamqpMessaging

section RunLemmas

variable {σ : Type}

theorem pure_run {α : Type} (a : α) (w : σ) : (pure a : M σ α) w = ⟨a, w, []⟩ := rfl

theorem bind_run {α β : Type} (m : M σ α) (f : α → M σ β) (w : σ) :
    (m >>= f) w = ⟨(f (m w).val (m w).world).val, (f (m w).val (m w).world).world,
      (m w).trace ++ (f (m w).val (m w).world).trace⟩ := rfl

theorem ask_run {α : Type} (f : σ → α × σ) (ev : α → Call) (w : σ) :
    ask f ev w = ⟨(f w).1, (f w).2, [ev (f w).1]⟩ := rfl

theorem tell_run (f : σ → σ) (ev : Call) (w : σ) : tell f ev w = ⟨(), f w, [ev]⟩ := rfl

theorem ite_run {α : Type} (p : Prop) [Decidable p] (m1 m2 : M σ α) (w : σ) :
    (if p then m1 else m2) w = if p then m1 w else m2 w := by
  split <;> rfl

theorem allOk_nil : AllOk [] := by simp [AllOk]

theorem allOk_cons (e : Call) (t : List Call) : AllOk (e :: t) ↔ e.ok = true ∧ AllOk t := by
  simp [AllOk]

theorem allOk_append (s t : List Call) : AllOk (s ++ t) ↔ AllOk s ∧ AllOk t := by
  simp only [AllOk, List.mem_append]
  constructor
  · intro h
    exact ⟨fun e he => h e (Or.inl he), fun e he => h e (Or.inr he)⟩
  · rintro ⟨h1, h2⟩ e (he | he)
    · exact h1 e he
    · exact h2 e he

end RunLemmas

section EncodeOk

variable {σ : Type}

/-- The message-id step returns 0 exactly when none of its calls failed. -/
theorem set_message_id_if_needed_ok (c : Collab σ) (h p : Nat) (w : σ) :
    AllOk (set_message_id_if_needed c h p w).trace ↔
      (set_message_id_if_needed c h p w).val = 0 := by
  simp only [set_message_id_if_needed, Ext.IoTHubMessage_GetMessageId,
    Ext.amqpvalue_create_string, Ext.properties_set_message_id, Ext.amqpvalue_destroy,
    bind_run, ask_run]
  cases (c.IoTHubMessage_GetMessageId h w).1 with
  | none => simp [RESULT_OK, allOk_cons, allOk_nil, allOk_append, Call.ok, pure_run]
  | some mid =>
    simp only [bind_run, ask_run, tell_run, ite_run, pure_run]
    split_ifs <;>
      simp_all [FAILURE, RESULT_OK, allOk_cons, allOk_nil, allOk_append, Call.ok]

theorem set_message_correlation_id_if_needed_ok (c : Collab σ) (h p : Nat) (w : σ) :
    AllOk (set_message_correlation_id_if_needed c h p w).trace ↔
      (set_message_correlation_id_if_needed c h p w).val = 0 := by
  simp only [set_message_correlation_id_if_needed, Ext.IoTHubMessage_GetCorrelationId,
    Ext.amqpvalue_create_string, Ext.properties_set_correlation_id, Ext.amqpvalue_destroy,
    bind_run, ask_run]
  cases (c.IoTHubMessage_GetCorrelationId h w).1 with
  | none => simp [RESULT_OK, allOk_cons, allOk_nil, allOk_append, Call.ok, pure_run]
  | some mid =>
    simp only [bind_run, ask_run, tell_run, ite_run, pure_run]
    split_ifs <;>
      simp_all [FAILURE, RESULT_OK, allOk_cons, allOk_nil, allOk_append, Call.ok]

theorem set_message_content_type_if_needed_ok (c : Collab σ) (h p : Nat) (w : σ) :
    AllOk (set_message_content_type_if_needed c h p w).trace ↔
      (set_message_content_type_if_needed c h p w).val = 0 := by
  simp only [set_message_content_type_if_needed,
    Ext.IoTHubMessage_GetContentTypeSystemProperty, Ext.properties_set_content_type,
    bind_run, ask_run]
  cases (c.IoTHubMessage_GetContentTypeSystemProperty h w).1 with
  | none => simp [RESULT_OK, allOk_cons, allOk_nil, allOk_append, Call.ok, pure_run]
  | some s =>
    simp only [bind_run, ask_run, tell_run, ite_run, pure_run]
    split_ifs <;>
      simp_all [FAILURE, RESULT_OK, allOk_cons, allOk_nil, allOk_append, Call.ok]

theorem set_message_content_encoding_if_needed_ok (c : Collab σ) (h p : Nat) (w : σ) :
    AllOk (set_message_content_encoding_if_needed c h p w).trace ↔
      (set_message_content_encoding_if_needed c h p w).val = 0 := by
  simp only [set_message_content_encoding_if_needed,
    Ext.IoTHubMessage_GetContentEncodingSystemProperty, Ext.properties_set_content_encoding,
    bind_run, ask_run]
  cases (c.IoTHubMessage_GetContentEncodingSystemProperty h w).1 with
  | none => simp [RESULT_OK, allOk_cons, allOk_nil, allOk_append, Call.ok, pure_run]
  | some s =>
    simp only [bind_run, ask_run, tell_run, ite_run, pure_run]
    split_ifs <;>
      simp_all [FAILURE, RESULT_OK, allOk_cons, allOk_nil, allOk_append, Call.ok]

theorem create_message_properties_to_encode_ok (c : Collab σ) (h a b : Nat) (w : σ) :
    AllOk (create_message_properties_to_encode c h a b w).trace ↔
      (create_message_properties_to_encode c h a b w).val.1 = 0 := by
  simp only [create_message_properties_to_encode, bind_run, ite_run, pure_run,
    Ext.properties_create, Ext.amqpvalue_create_properties, Ext.amqpvalue_get_encoded_size,
    ask_run]
  split_ifs <;>
    simp_all [FAILURE, RESULT_OK, allOk_cons, allOk_nil, allOk_append, Call.ok,
      set_message_id_if_needed_ok, set_message_correlation_id_if_needed_ok,
      set_message_content_type_if_needed_ok, set_message_content_encoding_if_needed_ok]

theorem create_application_properties_loop_ok (c : Collab σ) (keys values : Nat → String)
    (m : Nat) (fuel i : Nat) (w : σ) :
    AllOk (create_application_properties_loop c keys values m fuel i 0 w).trace ↔
      (create_application_properties_loop c keys values m fuel i 0 w).val = 0 := by
  induction fuel generalizing i w with
  | zero => simp [create_application_properties_loop, pure_run, allOk_nil]
  | succ n ih =>
    simp only [create_application_properties_loop, bind_run, ite_run, pure_run,
      Ext.amqpvalue_create_string, Ext.amqpvalue_set_map_value, Ext.amqpvalue_destroy,
      ask_run, tell_run]
    split_ifs <;>
      simp_all [FAILURE, RESULT_OK, allOk_cons, allOk_nil, allOk_append, Call.ok]

theorem create_application_properties_to_encode_ok (c : Collab σ) (h a b : Nat) (w : σ) :
    AllOk (create_application_properties_to_encode c h a b w).trace ↔
      (create_application_properties_to_encode c h a b w).val.1 = 0 := by
  simp only [create_application_properties_to_encode, bind_run, ite_run, pure_run,
    Ext.IoTHubMessage_Properties, Ext.Map_GetInternals, Ext.amqpvalue_create_map,
    Ext.amqpvalue_create_application_properties, Ext.amqpvalue_get_encoded_size, ask_run]
  split_ifs <;>
    simp_all [FAILURE, RESULT_OK, allOk_cons, allOk_nil, allOk_append, Call.ok,
      create_application_properties_loop_ok]

theorem create_data_value_ok (c : Collab σ) (ct : IOTHUBMESSAGE_CONTENT_TYPE)
    (p : BytePtr) (n dl : Nat) (w : σ) :
    AllOk (create_data_value c ct p n dl w).trace ↔
      (create_data_value c ct p n dl w).val.1 = 0 := by
  simp only [create_data_value, bind_run, ite_run, pure_run,
    Ext.amqpvalue_create_data, Ext.amqpvalue_get_encoded_size, ask_run]
  split_ifs <;>
    simp_all [FAILURE, RESULT_OK, allOk_cons, allOk_nil, allOk_append, Call.ok]

theorem create_data_to_encode_ok (c : Collab σ) (h a b : Nat) (w : σ) :
    AllOk (create_data_to_encode c h a b w).trace ↔
      (create_data_to_encode c h a b w).val.1 = 0 := by
  simp only [create_data_to_encode, bind_run, Ext.IoTHubMessage_GetContentType, ask_run]
  cases hct : (c.IoTHubMessage_GetContentType h w).1 with
  | IOTHUBMESSAGE_BYTEARRAY =>
    simp only [bind_run, ite_run, pure_run, Ext.IoTHubMessage_GetByteArray, ask_run]
    split_ifs <;>
      simp_all [FAILURE, allOk_cons, allOk_nil, allOk_append, Call.ok, create_data_value_ok]
  | IOTHUBMESSAGE_STRING =>
    simp only [bind_run, Ext.IoTHubMessage_GetString, ask_run]
    cases (c.IoTHubMessage_GetString h (c.IoTHubMessage_GetContentType h w).2).1 with
    | none => simp [FAILURE, allOk_cons, allOk_nil, allOk_append, Call.ok, pure_run]
    | some text =>
      simp [allOk_cons, allOk_nil, allOk_append, Call.ok, create_data_value_ok]
  | IOTHUBMESSAGE_UNKNOWN =>
    simp [FAILURE, allOk_cons, allOk_nil, allOk_append, Call.ok, pure_run]

theorem amqpvalue_encode_run (c : Collab σ) (v : Nat)
    (cb : BINARY_DATA → List Nat → Int × BINARY_DATA) (ctx : BINARY_DATA) (w : σ) :
    Ext.amqpvalue_encode c v cb ctx w =
      ⟨((c.amqpvalue_encode v w).1.2,
          (c.amqpvalue_encode v w).1.1.foldl (fun ctx chunk => (cb ctx chunk).2) ctx),
        (c.amqpvalue_encode v w).2,
        [Call.amqpvalue_encode v (c.amqpvalue_encode v w).1.1 (c.amqpvalue_encode v w).1.2]⟩ :=
  rfl

theorem malloc_run (c : Collab σ) (n : Nat) (w : σ) :
    Ext.malloc c n w =
      ⟨(if (c.malloc n w).1 then some (List.replicate n none) else none), (c.malloc n w).2,
        [Call.malloc n (if (c.malloc n w).1 then some (List.replicate n none) else none)]⟩ :=
  rfl

theorem bind_val {α β : Type} (m : M σ α) (f : α → M σ β) (w : σ) :
    ((m >>= f) w).val = (f (m w).val (m w).world).val := rfl

theorem bind_world {α β : Type} (m : M σ α) (f : α → M σ β) (w : σ) :
    ((m >>= f) w).world = (f (m w).val (m w).world).world := rfl

theorem bind_trace {α β : Type} (m : M σ α) (f : α → M σ β) (w : σ) :
    ((m >>= f) w).trace = (m w).trace ++ (f (m w).val (m w).world).trace := rfl

theorem pure_val {α : Type} (a : α) (w : σ) : ((pure a : M σ α) w).val = a := rfl

theorem pure_world {α : Type} (a : α) (w : σ) : ((pure a : M σ α) w).world = w := rfl

theorem pure_trace {α : Type} (a : α) (w : σ) : ((pure a : M σ α) w).trace = [] := rfl

theorem ite_val {α : Type} (p : Prop) [Decidable p] (x y : Out σ α) :
    (if p then x else y).val = if p then x.val else y.val := by
  split <;> rfl

theorem ite_world {α : Type} (p : Prop) [Decidable p] (x y : Out σ α) :
    (if p then x else y).world = if p then x.world else y.world := by
  split <;> rfl

theorem ite_trace {α : Type} (p : Prop) [Decidable p] (x y : Out σ α) :
    (if p then x else y).trace = if p then x.trace else y.trace := by
  split <;> rfl

theorem after_chunks_nil (ctx : BINARY_DATA) : after_chunks ctx [] = ctx := rfl

theorem after_chunks_append (ctx : BINARY_DATA) (a b : List (List Nat)) :
    after_chunks ctx (a ++ b) = after_chunks (after_chunks ctx a) b := by
  simp [after_chunks, List.foldl_append]

/-- Where a run of `create_amqp_message_data` can end, with its log, result
and output struct in each case. -/
theorem create_amqp_message_data_frame_cases (c : Collab σ) (h : Nat) (b : BINARY_DATA)
    (w : σ) (P A D : Out σ (Int × Nat × Nat)) (F : Out σ EncodeFrame)
    (hP : P = create_message_properties_to_encode c h 0 0 w)
    (hA : A = create_application_properties_to_encode c h 0 0 P.world)
    (hD : D = create_data_to_encode c h 0 0 A.world)
    (hF : F = create_amqp_message_data_frame c h b w) :
    (P.val.1 ≠ 0 ∧ F.trace = P.trace ∧ F.val.result = P.val.1 ∧
        F.val.body_binary_data = ⟨none, 0⟩) ∨
    (P.val.1 = 0 ∧ A.val.1 ≠ 0 ∧ F.trace = P.trace ++ A.trace ∧ F.val.result = A.val.1 ∧
        F.val.body_binary_data = ⟨none, 0⟩) ∨
    (P.val.1 = 0 ∧ A.val.1 = 0 ∧ D.val.1 ≠ 0 ∧ F.trace = P.trace ++ A.trace ++ D.trace ∧
        F.val.result = D.val.1 ∧ F.val.body_binary_data = ⟨none, 0⟩) ∨
    (P.val.1 = 0 ∧ A.val.1 = 0 ∧ D.val.1 = 0 ∧
      F.val.message_properties = P.val.2.1 ∧ F.val.application_properties = A.val.2.1 ∧
      F.val.data_value = D.val.2.1 ∧ F.val.message_properties_length = P.val.2.2 ∧
      F.val.application_properties_length = A.val.2.2 ∧ F.val.data_length = D.val.2.2 ∧
      ((F.trace = P.trace ++ A.trace ++ D.trace ++
            [Call.malloc (size_t_sum P.val.2.2 A.val.2.2 D.val.2.2) none] ∧
          F.val.result = FAILURE ∧ F.val.body_binary_data = ⟨none, 0⟩) ∨
        (∃ (done : List (Nat × List (List Nat))) (v : Nat) (chunks : List (List Nat))
            (r : Int) (rest : List Nat), r ≠ 0 ∧
          sections_to_encode P.val.2.1 A.val.2.1 D.val.2.1 A.val.2.2 =
            done.map Prod.fst ++ v :: rest ∧
          F.trace = P.trace ++ A.trace ++ D.trace ++
            [Call.malloc (size_t_sum P.val.2.2 A.val.2.2 D.val.2.2)
              (some (List.replicate (size_t_sum P.val.2.2 A.val.2.2 D.val.2.2) none))] ++
            done.map (fun x => Call.amqpvalue_encode x.1 x.2 0) ++
            [Call.amqpvalue_encode v chunks r] ∧
          F.val.result = r ∧
          F.val.body_binary_data =
            after_chunks ⟨some (List.replicate (size_t_sum P.val.2.2 A.val.2.2 D.val.2.2) none), 0⟩
              (done.flatMap Prod.snd ++ chunks)) ∨
        (∃ (done : List (Nat × List (List Nat))),
          done.map Prod.fst = sections_to_encode P.val.2.1 A.val.2.1 D.val.2.1 A.val.2.2 ∧
          F.trace = P.trace ++ A.trace ++ D.trace ++
            [Call.malloc (size_t_sum P.val.2.2 A.val.2.2 D.val.2.2)
              (some (List.replicate (size_t_sum P.val.2.2 A.val.2.2 D.val.2.2) none))] ++
            done.map (fun x => Call.amqpvalue_encode x.1 x.2 0) ∧
          F.val.result = 0 ∧
          F.val.body_binary_data =
            { bytes := (after_chunks
                ⟨some (List.replicate (size_t_sum P.val.2.2 A.val.2.2 D.val.2.2) none), 0⟩
                (done.flatMap Prod.snd)).bytes,
              length := size_t_sum P.val.2.2 A.val.2.2 D.val.2.2 }))) := by
  subst hF
  simp only [create_amqp_message_data_frame, bind_val, bind_trace, bind_world, ite_run,
    ite_val, ite_trace, ite_world, pure_val, pure_trace, pure_world, malloc_run,
    amqpvalue_encode_run]
  rw [← hP, ← hA, ← hD]
  clear hP hA hD
  generalize c.malloc (size_t_sum P.val.2.2 A.val.2.2 D.val.2.2) D.world = Mz
  by_cases h1 : P.val.1 ≠ RESULT_OK
  · simp only [if_pos h1]
    exact Or.inl ⟨h1, by simp, (by first | rfl | trivial), (by first | rfl | trivial)⟩
  simp only [if_neg h1]
  have h1' : P.val.1 = 0 := not_not.mp h1
  by_cases h2 : A.val.1 ≠ RESULT_OK
  · simp only [if_pos h2]
    exact Or.inr (Or.inl ⟨h1', h2, by simp, (by first | rfl | trivial), (by first | rfl | trivial)⟩)
  simp only [if_neg h2]
  have h2' : A.val.1 = 0 := not_not.mp h2
  by_cases h3 : D.val.1 ≠ RESULT_OK
  · simp only [if_pos h3]
    exact Or.inr (Or.inr (Or.inl ⟨h1', h2', h3, by simp, (by first | rfl | trivial), (by first | rfl | trivial)⟩))
  simp only [if_neg h3]
  have h3' : D.val.1 = 0 := not_not.mp h3
  refine Or.inr (Or.inr (Or.inr ⟨h1', h2', h3', ?_⟩))
  cases hm : Mz.1 with
  | false =>
    simp only [Bool.false_eq_true, if_false, if_true]
    exact ⟨(by first | rfl | trivial), (by first | rfl | trivial), (by first | rfl | trivial), (by first | rfl | trivial), (by first | rfl | trivial), (by first | rfl | trivial), Or.inl ⟨by simp, (by first | rfl | trivial), (by first | rfl | trivial)⟩⟩
  | true =>
    simp only [if_true, reduceCtorEq, if_false]
    generalize c.amqpvalue_encode P.val.2.1 Mz.2 = E1
    by_cases h4 : E1.1.2 ≠ RESULT_OK
    · simp only [if_pos h4]
      refine ⟨(by first | rfl | trivial), (by first | rfl | trivial), (by first | rfl | trivial), (by first | rfl | trivial), (by first | rfl | trivial), (by first | rfl | trivial), Or.inr (Or.inl ⟨[], P.val.2.1, E1.1.1, E1.1.2,
        (if A.val.2.2 > 0 then [A.val.2.1] else []) ++ [D.val.2.1], h4, ?_, ?_, rfl, ?_⟩)⟩
      · simp only [sections_to_encode, List.map_nil, List.nil_append, List.singleton_append,
          List.cons_append]
      · simp
      · simp [after_chunks]
    simp only [if_neg h4]
    have h4' : E1.1.2 = 0 := not_not.mp h4
    by_cases h5 : A.val.2.2 > 0
    · simp only [h5, if_true, true_and]
      generalize c.amqpvalue_encode A.val.2.1 E1.2 = E2
      by_cases h6 : E2.1.2 ≠ RESULT_OK
      · simp only [if_pos h6]
        refine ⟨(by first | rfl | trivial), (by first | rfl | trivial), (by first | rfl | trivial), (by first | rfl | trivial), (by first | rfl | trivial), (by first | rfl | trivial), Or.inr (Or.inl ⟨[(P.val.2.1, E1.1.1)],
          A.val.2.1, E2.1.1, E2.1.2, [D.val.2.1], h6, ?_, ?_, rfl, ?_⟩)⟩
        · simp only [sections_to_encode, h5, if_true, List.map_cons, List.map_nil,
            List.singleton_append, List.cons_append, List.nil_append]
        · simp [h4']
        · simp [after_chunks]
      simp only [if_neg h6]
      have h6' : E2.1.2 = 0 := not_not.mp h6
      generalize c.amqpvalue_encode D.val.2.1 E2.2 = E3
      by_cases h7 : E3.1.2 ≠ RESULT_OK
      · simp only [if_pos h7]
        refine ⟨(by first | rfl | trivial), (by first | rfl | trivial), (by first | rfl | trivial), (by first | rfl | trivial), (by first | rfl | trivial), (by first | rfl | trivial), Or.inr (Or.inl ⟨[(P.val.2.1, E1.1.1),
          (A.val.2.1, E2.1.1)], D.val.2.1, E3.1.1, E3.1.2, [], h7, ?_, ?_, rfl, ?_⟩)⟩
        · simp only [sections_to_encode, h5, if_true, List.map_cons, List.map_nil,
            List.singleton_append, List.cons_append, List.nil_append]
        · simp [h4', h6']
        · simp [after_chunks]
      simp only [if_neg h7]
      have h7' : E3.1.2 = 0 := not_not.mp h7
      refine ⟨(by first | rfl | trivial), (by first | rfl | trivial), (by first | rfl | trivial), (by first | rfl | trivial), (by first | rfl | trivial), (by first | rfl | trivial), Or.inr (Or.inr ⟨[(P.val.2.1, E1.1.1),
        (A.val.2.1, E2.1.1), (D.val.2.1, E3.1.1)], ?_, ?_, rfl, ?_⟩)⟩
      · simp only [sections_to_encode, h5, if_true, List.map_cons, List.map_nil,
          List.singleton_append, List.cons_append, List.nil_append]
      · simp [h4', h6', h7']
      · simp [after_chunks]
    · simp only [h5, if_false, false_and]
      generalize c.amqpvalue_encode D.val.2.1 E1.2 = E3
      by_cases h7 : E3.1.2 ≠ RESULT_OK
      · simp only [if_pos h7]
        refine ⟨(by first | rfl | trivial), (by first | rfl | trivial), (by first | rfl | trivial), (by first | rfl | trivial), (by first | rfl | trivial), (by first | rfl | trivial), Or.inr (Or.inl ⟨[(P.val.2.1, E1.1.1)],
          D.val.2.1, E3.1.1, E3.1.2, [], h7, ?_, ?_, rfl, ?_⟩)⟩
        · simp only [sections_to_encode, h5, if_false, List.map_cons, List.map_nil,
            List.singleton_append, List.cons_append, List.nil_append, List.append_nil]
        · simp [h4']
        · simp [after_chunks]
      simp only [if_neg h7]
      have h7' : E3.1.2 = 0 := not_not.mp h7
      refine ⟨(by first | rfl | trivial), (by first | rfl | trivial), (by first | rfl | trivial), (by first | rfl | trivial), (by first | rfl | trivial), (by first | rfl | trivial), Or.inr (Or.inr ⟨[(P.val.2.1, E1.1.1),
        (D.val.2.1, E3.1.1)], ?_, ?_, rfl, ?_⟩)⟩
      · simp only [sections_to_encode, h5, if_false, List.map_cons, List.map_nil,
          List.singleton_append, List.cons_append, List.nil_append, List.append_nil]
      · simp [h4', h7']
      · simp [after_chunks]

end EncodeOk

section EncodeCalls

variable {σ : Type}

theorem set_message_id_if_needed_calls (c : Collab σ) (h p : Nat) (w : σ)
    (hok : (set_message_id_if_needed c h p w).val = 0) :
    ∃ field, (set_message_id_if_needed c h p w).trace = exp_calls_message_id h p field := by
  revert hok
  simp only [set_message_id_if_needed, Ext.IoTHubMessage_GetMessageId,
    Ext.amqpvalue_create_string, Ext.properties_set_message_id, Ext.amqpvalue_destroy,
    bind_val, bind_trace, bind_world, ask_run]
  cases (c.IoTHubMessage_GetMessageId h w).1 with
  | none =>
    intro _
    exact ⟨none, rfl⟩
  | some mid =>
    simp only [bind_val, bind_trace, bind_world, ite_run, ite_val, ite_trace, pure_val,
      pure_trace, ask_run, tell_run]
    split_ifs with h1 h2
    · simp [FAILURE]
    · simp [FAILURE]
    · intro _
      refine ⟨some (mid, (c.amqpvalue_create_string mid
        (c.IoTHubMessage_GetMessageId h w).2).1), ?_⟩
      simp only [exp_calls_message_id, not_not.mp h2]
      rfl

theorem set_message_correlation_id_if_needed_calls (c : Collab σ) (h p : Nat) (w : σ)
    (hok : (set_message_correlation_id_if_needed c h p w).val = 0) :
    ∃ field, (set_message_correlation_id_if_needed c h p w).trace =
      exp_calls_correlation_id h p field := by
  revert hok
  simp only [set_message_correlation_id_if_needed, Ext.IoTHubMessage_GetCorrelationId,
    Ext.amqpvalue_create_string, Ext.properties_set_correlation_id, Ext.amqpvalue_destroy,
    bind_val, bind_trace, bind_world, ask_run]
  cases (c.IoTHubMessage_GetCorrelationId h w).1 with
  | none =>
    intro _
    exact ⟨none, rfl⟩
  | some mid =>
    simp only [bind_val, bind_trace, bind_world, ite_run, ite_val, ite_trace, pure_val,
      pure_trace, ask_run, tell_run]
    split_ifs with h1 h2
    · simp [FAILURE]
    · simp [FAILURE]
    · intro _
      refine ⟨some (mid, (c.amqpvalue_create_string mid
        (c.IoTHubMessage_GetCorrelationId h w).2).1), ?_⟩
      simp only [exp_calls_correlation_id, not_not.mp h2]
      rfl

theorem set_message_content_type_if_needed_calls (c : Collab σ) (h p : Nat) (w : σ)
    (hok : (set_message_content_type_if_needed c h p w).val = 0) :
    ∃ field, (set_message_content_type_if_needed c h p w).trace =
      exp_calls_content_type h p field := by
  revert hok
  simp only [set_message_content_type_if_needed,
    Ext.IoTHubMessage_GetContentTypeSystemProperty, Ext.properties_set_content_type,
    bind_val, bind_trace, bind_world, ask_run]
  cases (c.IoTHubMessage_GetContentTypeSystemProperty h w).1 with
  | none =>
    intro _
    exact ⟨none, rfl⟩
  | some text =>
    simp only [bind_val, bind_trace, bind_world, ite_run, ite_val, ite_trace, pure_val,
      pure_trace, ask_run]
    split_ifs with h1
    · simp [FAILURE]
    · intro _
      refine ⟨some text, ?_⟩
      simp only [exp_calls_content_type, not_not.mp h1]
      rfl

theorem set_message_content_encoding_if_needed_calls (c : Collab σ) (h p : Nat) (w : σ)
    (hok : (set_message_content_encoding_if_needed c h p w).val = 0) :
    ∃ field, (set_message_content_encoding_if_needed c h p w).trace =
      exp_calls_content_encoding h p field := by
  revert hok
  simp only [set_message_content_encoding_if_needed,
    Ext.IoTHubMessage_GetContentEncodingSystemProperty, Ext.properties_set_content_encoding,
    bind_val, bind_trace, bind_world, ask_run]
  cases (c.IoTHubMessage_GetContentEncodingSystemProperty h w).1 with
  | none =>
    intro _
    exact ⟨none, rfl⟩
  | some text =>
    simp only [bind_val, bind_trace, bind_world, ite_run, ite_val, ite_trace, pure_val,
      pure_trace, ask_run]
    split_ifs with h1
    · simp [FAILURE]
    · intro _
      refine ⟨some text, ?_⟩
      simp only [exp_calls_content_encoding, not_not.mp h1]
      rfl

/-- The log of a successful `create_message_properties_to_encode`. -/
theorem create_message_properties_to_encode_calls (c : Collab σ) (h a b : Nat) (w : σ)
    (hok : (create_message_properties_to_encode c h a b w).val.1 = 0) :
    ∃ properties messageId correlationId contentType contentEncoding value size,
      (create_message_properties_to_encode c h a b w).trace =
        exp_calls_message_properties h properties messageId correlationId contentType
          contentEncoding value size ∧
      (create_message_properties_to_encode c h a b w).val = (0, value, size) := by
  revert hok
  simp only [create_message_properties_to_encode, bind_val, bind_trace, bind_world, ite_run,
    ite_val, ite_trace, ite_world, pure_val, pure_trace, pure_world,
    Ext.properties_create, Ext.amqpvalue_create_properties, Ext.amqpvalue_get_encoded_size,
    ask_run]
  generalize c.properties_create w = X0
  have k1 := set_message_id_if_needed_calls c h X0.1 X0.2
  generalize set_message_id_if_needed c h X0.1 X0.2 = X1 at k1 ⊢
  have k2 := set_message_correlation_id_if_needed_calls c h X0.1 X1.world
  generalize set_message_correlation_id_if_needed c h X0.1 X1.world = X2 at k2 ⊢
  have k3 := set_message_content_type_if_needed_calls c h X0.1 X2.world
  generalize set_message_content_type_if_needed c h X0.1 X2.world = X3 at k3 ⊢
  have k4 := set_message_content_encoding_if_needed_calls c h X0.1 X3.world
  generalize set_message_content_encoding_if_needed c h X0.1 X3.world = X4 at k4 ⊢
  generalize c.amqpvalue_create_properties X0.1 X4.world = X5
  generalize c.amqpvalue_get_encoded_size X5.1 X5.2 = X6
  by_cases h0 : X0.1 = 0
  · simp only [if_pos h0]
    intro hf
    exact absurd hf (by simp [FAILURE])
  simp only [if_neg h0]
  by_cases h1 : X1.val ≠ RESULT_OK
  · simp only [if_pos h1]
    intro hf
    exact absurd hf (by simp [FAILURE])
  simp only [if_neg h1]
  by_cases h2 : X2.val ≠ RESULT_OK
  · simp only [if_pos h2]
    intro hf
    exact absurd hf (by simp [FAILURE])
  simp only [if_neg h2]
  by_cases h3 : X3.val ≠ RESULT_OK
  · simp only [if_pos h3]
    intro hf
    exact absurd hf (by simp [FAILURE])
  simp only [if_neg h3]
  by_cases h4 : X4.val ≠ RESULT_OK
  · simp only [if_pos h4]
    intro hf
    exact absurd hf (by simp [FAILURE])
  simp only [if_neg h4]
  by_cases h5 : X5.1 = 0
  · simp only [if_pos h5]
    intro hf
    exact absurd hf (by simp [FAILURE])
  simp only [if_neg h5]
  by_cases h6 : X6.1.1 ≠ 0
  · simp only [if_pos h6]
    intro hf
    exact absurd hf (by simp [FAILURE])
  simp only [if_neg h6]
  intro _
  obtain ⟨f1, e1⟩ := k1 (not_not.mp h1)
  obtain ⟨f2, e2⟩ := k2 (not_not.mp h2)
  obtain ⟨f3, e3⟩ := k3 (not_not.mp h3)
  obtain ⟨f4, e4⟩ := k4 (not_not.mp h4)
  refine ⟨X0.1, f1, f2, f3, f4, X5.1, X6.1.2, ?_, rfl⟩
  simp only [exp_calls_message_properties, e1, e2, e3, e4, not_not.mp h6, List.append_assoc,
    List.append_nil]
  rfl

/-- The log of a successful run of the loop over the properties: one group of
calls per index, for the keys and values from index `i` on. -/
theorem create_application_properties_loop_calls (c : Collab σ)
    (keys values : Nat → String) (m : Nat) (fuel i : Nat) (r0 : Int) (w : σ)
    (hok : (create_application_properties_loop c keys values m fuel i r0 w).val = 0) :
    ∃ entries : List (String × Nat × String × Nat),
      (create_application_properties_loop c keys values m fuel i r0 w).trace =
        entries.flatMap (exp_calls_pair m) ∧
      entries.map (fun e => (e.1, e.2.2.1)) =
        (List.range fuel).map (fun j => (keys (i + j), values (i + j))) := by
  induction fuel generalizing i r0 w with
  | zero => exact ⟨[], rfl, rfl⟩
  | succ n ih =>
    revert hok
    simp only [create_application_properties_loop, bind_val, bind_trace, bind_world, ite_run,
      ite_val, ite_trace, ite_world, pure_val, pure_trace, pure_world,
      Ext.amqpvalue_create_string, Ext.amqpvalue_set_map_value, Ext.amqpvalue_destroy,
      ask_run, tell_run]
    generalize c.amqpvalue_create_string (keys i) w = K
    by_cases h1 : K.1 = 0
    · simp only [if_pos h1]
      intro hf
      exact absurd hf (by simp [FAILURE])
    simp only [if_neg h1]
    generalize c.amqpvalue_create_string (values i) K.2 = V
    by_cases h2 : V.1 = 0
    · simp only [if_pos h2]
      intro hf
      exact absurd hf (by simp [FAILURE])
    simp only [if_neg h2]
    generalize c.amqpvalue_set_map_value m K.1 V.1 V.2 = S
    by_cases h3 : S.1 ≠ 0
    · simp only [if_pos h3]
      intro hf
      exact absurd hf (by simp [FAILURE])
    simp only [if_neg h3]
    intro hok
    obtain ⟨entries, e1, e2⟩ := ih (i + 1) S.1 _ hok
    refine ⟨(keys i, K.1, values i, V.1) :: entries, ?_, ?_⟩
    · have h3' : S.1 = 0 := not_not.mp h3
      rw [h3'] at e1
      simp only [e1, List.flatMap_cons, exp_calls_pair, h3']
      rfl
    · simp only [List.map_cons, e2, List.range_succ_eq_map, List.map_map]
      refine congrArg₂ _ rfl ?_
      apply List.map_congr_left
      intro j _
      simp only [Function.comp, Nat.succ_eq_add_one]
      rw [Nat.add_assoc, Nat.add_comm 1 j]

/-- The log of a successful `create_application_properties_to_encode`; with
no property the out-parameters keep the values they came with. -/
theorem create_application_properties_to_encode_calls (c : Collab σ) (h a b : Nat) (w : σ)
    (hok : (create_application_properties_to_encode c h a b w).val.1 = 0) :
    ∃ map entries amqp_map value size,
      (create_application_properties_to_encode c h a b w).trace =
        exp_calls_application_properties h map entries amqp_map value size ∧
      (create_application_properties_to_encode c h a b w).val =
        (0, if entries = [] then a else value, if entries = [] then b else size) := by
  revert hok
  simp only [create_application_properties_to_encode, bind_val, bind_trace, bind_world,
    ite_run, ite_val, ite_trace, ite_world, pure_val, pure_trace, pure_world,
    Ext.IoTHubMessage_Properties, Ext.Map_GetInternals, Ext.amqpvalue_create_map,
    Ext.amqpvalue_create_application_properties, Ext.amqpvalue_get_encoded_size, ask_run]
  generalize c.IoTHubMessage_Properties h w = X0
  by_cases h0 : X0.1 = 0
  · simp only [if_pos h0]
    intro hf
    exact absurd hf (by simp [FAILURE])
  simp only [if_neg h0]
  generalize c.Map_GetInternals X0.1 X0.2 = X1
  by_cases h1 : X1.1.1 ≠ 0
  · simp only [if_pos h1]
    intro hf
    exact absurd hf (by simp [FAILURE])
  simp only [if_neg h1]
  have h1' : X1.1.1 = 0 := not_not.mp h1
  by_cases h2 : X1.1.2.2.2 > 0
  · simp only [if_pos h2]
    generalize c.amqpvalue_create_map X1.2 = X2
    by_cases h3 : X2.1 = 0
    · simp only [if_pos h3]
      intro hf
      exact absurd hf (by simp [FAILURE])
    simp only [if_neg h3]
    have k := create_application_properties_loop_calls c X1.1.2.1 X1.1.2.2.1 X2.1
      X1.1.2.2.2 0 X1.1.1 X2.2
    generalize create_application_properties_loop c X1.1.2.1 X1.1.2.2.1 X2.1
      X1.1.2.2.2 0 X1.1.1 X2.2 = L at k ⊢
    by_cases h4 : L.val = 0
    · simp only [if_pos h4]
      generalize c.amqpvalue_create_application_properties X2.1 L.world = X3
      by_cases h5 : X3.1 = 0
      · simp only [if_pos h5]
        intro hf
        exact absurd hf (by simp [FAILURE])
      simp only [if_neg h5]
      generalize c.amqpvalue_get_encoded_size X3.1 X3.2 = X4
      by_cases h6 : X4.1.1 ≠ 0
      · simp only [if_pos h6]
        intro hf
        exact absurd hf (by simp [FAILURE])
      simp only [if_neg h6]
      intro _
      obtain ⟨entries, e1, e2⟩ := k h4
      have hlen : entries.length = X1.1.2.2.2 := by
        have := congrArg List.length e2
        simpa using this
      have hne : entries ≠ [] := by
        intro hnil
        rw [hnil] at hlen
        simp at hlen
        omega
      refine ⟨X0.1, entries, X2.1, X3.1, X4.1.2, ?_, ?_⟩
      · cases entries with
        | nil => exact absurd rfl hne
        | cons e es =>
          simp only [exp_calls_application_properties, e1, hlen, h1', not_not.mp h6,
            List.append_assoc]
          rfl
      · simp only [hne, if_false, not_not.mp h6]
    · simp only [if_neg h4]
      intro hf
      exact absurd hf h4
  · simp only [if_neg h2]
    intro _
    refine ⟨X0.1, [], 0, 0, 0, ?_, ?_⟩
    · have h2' : X1.1.2.2.2 = 0 := by omega
      simp only [exp_calls_application_properties, h1', h2', List.length_nil]
      rfl
    · simp only [if_true, h1']

/-- The log of a successful `create_data_to_encode`. -/
theorem create_data_to_encode_calls (c : Collab σ) (h a b : Nat) (w : σ)
    (hok : (create_data_to_encode c h a b w).val.1 = 0) :
    ∃ body value size,
      (create_data_to_encode c h a b w).trace = exp_calls_data h body value size ∧
      (create_data_to_encode c h a b w).val = (0, value, size) := by
  revert hok
  simp only [create_data_to_encode, bind_val, bind_trace, bind_world,
    Ext.IoTHubMessage_GetContentType, ask_run]
  cases (c.IoTHubMessage_GetContentType h w).1 with
  | IOTHUBMESSAGE_BYTEARRAY =>
    simp only [bind_val, bind_trace, bind_world, ite_run, ite_val, ite_trace, pure_val,
      pure_trace, Ext.IoTHubMessage_GetByteArray, ask_run, create_data_value,
      Ext.amqpvalue_create_data, Ext.amqpvalue_get_encoded_size]
    generalize c.IoTHubMessage_GetByteArray h (c.IoTHubMessage_GetContentType h w).2 = X1
    by_cases h1 : X1.1.1 ≠ IOTHUB_MESSAGE_RESULT.IOTHUB_MESSAGE_OK
    · simp only [if_pos h1]
      intro hf
      exact absurd hf (by simp [FAILURE])
    simp only [if_neg h1]
    simp only [reduceCtorEq, if_false]
    generalize c.amqpvalue_create_data { bytes := X1.1.2.1, length := X1.1.2.2 % 2 ^ 32 }
      X1.2 = X2
    by_cases h2 : X2.1 = 0
    · simp only [if_pos h2]
      intro hf
      exact absurd hf (by simp [FAILURE])
    simp only [if_neg h2]
    generalize c.amqpvalue_get_encoded_size X2.1 X2.2 = X3
    by_cases h3 : X3.1.1 ≠ 0
    · simp only [if_pos h3]
      intro hf
      exact absurd hf (by simp [FAILURE])
    simp only [if_neg h3]
    intro _
    refine ⟨EncodedBody.byteArray X1.1.2.1 X1.1.2.2, X2.1, X3.1.2, ?_, rfl⟩
    simp only [exp_calls_data, EncodedBody.bin_data, not_not.mp h1, not_not.mp h3]
    rfl
  | IOTHUBMESSAGE_STRING =>
    simp only [bind_val, bind_trace, bind_world, Ext.IoTHubMessage_GetString, ask_run]
    cases (c.IoTHubMessage_GetString h (c.IoTHubMessage_GetContentType h w).2).1 with
    | none =>
      intro hf
      exact absurd hf (by simp [FAILURE, pure_val])
    | some text =>
      simp only [bind_val, bind_trace, bind_world, ite_run, ite_val, ite_trace, pure_val,
        pure_trace, ask_run, create_data_value, Ext.amqpvalue_create_data,
        Ext.amqpvalue_get_encoded_size, if_true]
      generalize c.amqpvalue_create_data
        { bytes := some (c_str text), length := strlen (some (c_str text)) % 2 ^ 32 }
        (c.IoTHubMessage_GetString h (c.IoTHubMessage_GetContentType h w).2).2 = X2
      by_cases h2 : X2.1 = 0
      · simp only [if_pos h2]
        intro hf
        exact absurd hf (by simp [FAILURE])
      simp only [if_neg h2]
      generalize c.amqpvalue_get_encoded_size X2.1 X2.2 = X3
      by_cases h3 : X3.1.1 ≠ 0
      · simp only [if_pos h3]
        intro hf
        exact absurd hf (by simp [FAILURE])
      simp only [if_neg h3]
      intro _
      refine ⟨EncodedBody.text text, X2.1, X3.1.2, ?_, rfl⟩
      simp only [exp_calls_data, EncodedBody.bin_data, not_not.mp h3]
      rfl
  | IOTHUBMESSAGE_UNKNOWN =>
    intro hf
    exact absurd hf (by simp [FAILURE, pure_val])

end EncodeCalls

section EncodeWhole

variable {σ : Type}

theorem create_amqp_message_data_val (c : Collab σ) (h : Nat) (b : BINARY_DATA) (w : σ) :
    (create_amqp_message_data c h b w).val =
      ((create_amqp_message_data_frame c h b w).val.result,
        (create_amqp_message_data_frame c h b w).val.body_binary_data) := rfl

theorem create_amqp_message_data_trace (c : Collab σ) (h : Nat) (b : BINARY_DATA) (w : σ) :
    (create_amqp_message_data c h b w).trace =
      (create_amqp_message_data_frame c h b w).trace := by
  simp [create_amqp_message_data, bind_trace, pure_trace]

theorem memcpy_length (dst : List (Option Nat)) (off : Nat) (src : List Nat) :
    (memcpy dst off src).length = dst.length := by
  induction src generalizing dst off with
  | nil => rfl
  | cons b bs ih => simp [memcpy, ih]

theorem memcpy_append (dst : List (Option Nat)) (off : Nat) (s1 s2 : List Nat) :
    memcpy dst off (s1 ++ s2) = memcpy (memcpy dst off s1) (off + s1.length) s2 := by
  induction s1 generalizing dst off with
  | nil => simp [memcpy]
  | cons b bs ih =>
    show memcpy (dst.set off (some b)) (off + 1) (bs ++ s2) =
      memcpy (memcpy (dst.set off (some b)) (off + 1) bs) (off + (bs.length + 1)) s2
    rw [ih, Nat.add_assoc, Nat.add_comm 1 bs.length]

/-- Copying as many bytes as there are cells left overwrites all of them. -/
theorem memcpy_fill (pre cells : List (Option Nat)) (src : List Nat)
    (hlen : cells.length = src.length) :
    memcpy (pre ++ cells) pre.length src = pre ++ src.map some := by
  induction src generalizing pre cells with
  | nil =>
    have : cells = [] := List.length_eq_zero.mp (by simpa using hlen)
    simp [memcpy, this]
  | cons b bs ih =>
    cases cells with
    | nil => simp at hlen
    | cons x xs =>
      have hxs : xs.length = bs.length := by simpa using hlen
      have h1 : (pre ++ x :: xs).set pre.length (some b) = (pre ++ [some b]) ++ xs := by
        simp [List.set_append_right]
      have h2 := ih (pre ++ [some b]) xs hxs
      simp only [List.length_append, List.length_singleton] at h2
      simp only [List.append_assoc, List.singleton_append] at h1 h2
      simp only [memcpy, h1, h2, List.map_cons]

theorem after_chunks_some (cells : List (Option Nat)) (off : Nat) (chunks : List (List Nat)) :
    after_chunks ⟨some cells, off⟩ chunks =
      ⟨some (memcpy cells off chunks.flatten), off + chunks.flatten.length⟩ := by
  induction chunks generalizing cells off with
  | nil => simp [after_chunks, memcpy]
  | cons ch rest ih =>
    have hstep : after_chunks ⟨some cells, off⟩ (ch :: rest) =
        after_chunks ⟨some (memcpy cells off ch), off + ch.length⟩ rest := by
      simp [after_chunks, encode_callback]
    rw [hstep, ih]
    simp [memcpy_append, Nat.add_assoc]

theorem allOk_encoded (done : List (Nat × List (List Nat))) :
    AllOk (done.map (fun x => Call.amqpvalue_encode x.1 x.2 0)) := by
  intro e he
  obtain ⟨x, _, rfl⟩ := List.mem_map.mp he
  rfl

/-- `create_amqp_message_data` returns 0 exactly when none of its calls failed. -/
theorem create_amqp_message_data_frame_ok (c : Collab σ) (h : Nat) (b : BINARY_DATA) (w : σ) :
    AllOk (create_amqp_message_data_frame c h b w).trace ↔
      (create_amqp_message_data_frame c h b w).val.result = 0 := by
  have hP := create_message_properties_to_encode_ok c h 0 0 w
  have hA := create_application_properties_to_encode_ok c h 0 0
    (create_message_properties_to_encode c h 0 0 w).world
  have hD := create_data_to_encode_ok c h 0 0
    (create_application_properties_to_encode c h 0 0
      (create_message_properties_to_encode c h 0 0 w).world).world
  rcases create_amqp_message_data_frame_cases c h b w _ _ _ _ rfl rfl rfl rfl with
    ⟨h1, ht, hr, _⟩ | ⟨h1, h2, ht, hr, _⟩ | ⟨h1, h2, h3, ht, hr, _⟩ |
    ⟨h1, h2, h3, _, _, _, _, _, _, hcase⟩
  · rw [ht, hr, hP]
  · rw [ht, hr, allOk_append, hA]
    simp [h2]
  · rw [ht, hr, allOk_append, allOk_append, hD]
    simp [h3]
  · rcases hcase with ⟨ht, hr, _⟩ | ⟨done, v, chunks, r, rest, hr0, _, ht, hr, _⟩ |
      ⟨done, _, ht, hr, _⟩
    · rw [ht, hr]
      simp [allOk_append, allOk_cons, Call.ok, FAILURE]
    · rw [ht, hr]
      simp [allOk_append, allOk_cons, Call.ok, hr0]
    · rw [ht, hr]
      simp [allOk_append, allOk_cons, allOk_nil, Call.ok, hP, hA, hD, h1, h2, h3,
        allOk_encoded]

/-- The log and the output of a successful `create_amqp_message_data`: the
expected calls of the three builders, then of the assembly, and a buffer that
received all chunks. -/
theorem create_amqp_message_data_frame_calls (c : Collab σ) (h : Nat) (b : BINARY_DATA)
    (w : σ) (hok : (create_amqp_message_data_frame c h b w).val.result = 0) :
    ∃ properties messageId correlationId contentType contentEncoding map entries amqp_map
      body chunks1 chunks2 chunks3 f,
      f = (create_amqp_message_data_frame c h b w).val ∧
      (create_amqp_message_data_frame c h b w).trace =
        exp_calls_message_properties h properties messageId correlationId contentType
            contentEncoding f.message_properties f.message_properties_length ++
          exp_calls_application_properties h map entries amqp_map f.application_properties
            f.application_properties_length ++
          exp_calls_data h body f.data_value f.data_length ++
          exp_calls_assembly
            (size_t_sum f.message_properties_length f.application_properties_length f.data_length)
            f.message_properties chunks1
            (if f.application_properties_length > 0 then
              some (f.application_properties, chunks2) else none)
            f.data_value chunks3 ∧
      (entries = [] → f.application_properties = 0 ∧ f.application_properties_length = 0) ∧
      f.body_binary_data =
        { bytes := (after_chunks
            ⟨some (List.replicate
              (size_t_sum f.message_properties_length f.application_properties_length f.data_length)
              none), 0⟩
            (chunks1 ++ (if f.application_properties_length > 0 then chunks2 else []) ++
              chunks3)).bytes,
          length :=
            size_t_sum f.message_properties_length f.application_properties_length f.data_length } := by
  rcases create_amqp_message_data_frame_cases c h b w _ _ _ _ rfl rfl rfl rfl with
    ⟨h1, _, hr, _⟩ | ⟨_, h2, _, hr, _⟩ | ⟨_, _, h3, _, hr, _⟩ |
    ⟨h1, h2, h3, l1, l2, l3, l4, l5, l6, hcase⟩
  · exact absurd (hr ▸ hok) h1
  · exact absurd (hr ▸ hok) h2
  · exact absurd (hr ▸ hok) h3
  rcases hcase with ⟨_, hr, _⟩ | ⟨_, _, _, r, _, hr0, _, _, hr, _⟩ | ⟨done, hd, ht, _, hb⟩
  · exact absurd (hr ▸ hok) (by simp [FAILURE])
  · exact absurd (hr ▸ hok) hr0
  obtain ⟨properties, f1, f2, f3, f4, pv, ps, eP, vP⟩ :=
    create_message_properties_to_encode_calls c h 0 0 w h1
  obtain ⟨map, entries, amqp_map, av, as, eA, vA⟩ :=
    create_application_properties_to_encode_calls c h 0 0 _ h2
  obtain ⟨body, dv, ds, eD, vD⟩ := create_data_to_encode_calls c h 0 0 _ h3
  rw [eP, eA, eD] at ht
  simp only [vP, vA, vD] at l1 l2 l3 l4 l5 l6 hd hb ht
  have hentries : entries = [] →
      (if entries = [] then 0 else av) = 0 ∧ (if entries = [] then 0 else as) = 0 := by
    intro he
    simp [he]
  have hshape : exp_calls_application_properties h map entries amqp_map av as =
      exp_calls_application_properties h map entries amqp_map
        (if entries = [] then 0 else av) (if entries = [] then 0 else as) := by
    cases entries with
    | nil => rfl
    | cons e es => simp
  by_cases hal : (if entries = [] then 0 else as) > 0
  · simp only [sections_to_encode, hal, if_true] at hd
    match done, hd with
    | [(_, c1), (_, c2), (_, c3)], hd =>
      simp only [List.map_cons, List.map_nil, List.singleton_append, List.cons_append,
        List.nil_append, List.cons.injEq, and_true] at hd
      obtain ⟨rfl, rfl, rfl⟩ := hd
      refine ⟨properties, f1, f2, f3, f4, map, entries, amqp_map, body, c1, c2, c3, _, rfl,
        ?_, ?_, ?_⟩
      · rw [l1, l2, l3, l4, l5, l6, ht, hshape]
        simp [exp_calls_assembly, hal]
      · rw [l2, l5]
        exact hentries
      · rw [hb, l4, l5, l6]
        simp [hal]
  · simp only [sections_to_encode, hal, if_false, List.append_nil] at hd
    match done, hd with
    | [(_, c1), (_, c3)], hd =>
      simp only [List.map_cons, List.map_nil, List.singleton_append, List.cons_append,
        List.nil_append, List.cons.injEq, and_true] at hd
      obtain ⟨rfl, rfl⟩ := hd
      refine ⟨properties, f1, f2, f3, f4, map, entries, amqp_map, body, c1, [], c3, _, rfl,
        ?_, ?_, ?_⟩
      · rw [l1, l2, l3, l4, l5, l6, ht, hshape]
        simp [exp_calls_assembly, hal]
      · rw [l2, l5]
        exact hentries
      · rw [hb, l4, l5, l6]
        simp [hal]

theorem size_t_sum_of_lt (a b c : Nat) (h : a + b + c < 2 ^ 64) :
    size_t_sum a b c = a + b + c := Nat.mod_eq_of_lt h

end EncodeWhole

section ShapeFacts

theorem reportedSizes_append (s t : List Call) :
    reportedSizes (s ++ t) = reportedSizes s ++ reportedSizes t := by
  simp [reportedSizes, List.filterMap_append]

theorem mem_exp_calls_pairs (m : Nat) (entries : List (String × Nat × String × Nat))
    (e : Call) (he : e ∈ entries.flatMap (exp_calls_pair m)) :
    (∃ s v, e = Call.amqpvalue_create_string s v) ∨
      (∃ k v, e = Call.amqpvalue_set_map_value m k v 0) ∨
      (∃ v, e = Call.amqpvalue_destroy v) := by
  obtain ⟨x, _, hx⟩ := List.mem_flatMap.mp he
  simp only [exp_calls_pair, List.mem_cons, List.mem_singleton, List.not_mem_nil,
    or_false] at hx
  rcases hx with rfl | rfl | rfl | rfl | rfl
  · exact Or.inl ⟨_, _, rfl⟩
  · exact Or.inl ⟨_, _, rfl⟩
  · exact Or.inr (Or.inl ⟨_, _, rfl⟩)
  · exact Or.inr (Or.inr ⟨_, rfl⟩)
  · exact Or.inr (Or.inr ⟨_, rfl⟩)

theorem reportedSizes_pairs (m : Nat) (entries : List (String × Nat × String × Nat)) :
    reportedSizes (entries.flatMap (exp_calls_pair m)) = [] := by
  simp only [reportedSizes, List.filterMap_eq_nil_iff]
  intro e he
  rcases mem_exp_calls_pairs m entries e he with ⟨_, _, rfl⟩ | ⟨_, _, rfl⟩ | ⟨_, rfl⟩ <;> rfl

theorem any_isEmptyMap_pairs (m : Nat) (entries : List (String × Nat × String × Nat)) :
    (entries.flatMap (exp_calls_pair m)).any Call.isEmptyMap = false := by
  simp only [List.any_eq_false]
  intro e he
  rcases mem_exp_calls_pairs m entries e he with ⟨_, _, rfl⟩ | ⟨_, _, rfl⟩ | ⟨_, rfl⟩ <;>
    simp [Call.isEmptyMap]

theorem reportedSizes_message_properties (h properties : Nat)
    (f1 f2 : Option (String × Nat)) (f3 f4 : Option String) (value size : Nat) :
    reportedSizes (exp_calls_message_properties h properties f1 f2 f3 f4 value size) =
      [size] := by
  rcases f1 with _ | ⟨_, _⟩ <;> rcases f2 with _ | ⟨_, _⟩ <;> cases f3 <;> cases f4 <;> rfl

theorem any_isEmptyMap_message_properties (h properties : Nat)
    (f1 f2 : Option (String × Nat)) (f3 f4 : Option String) (value size : Nat) :
    (exp_calls_message_properties h properties f1 f2 f3 f4 value size).any Call.isEmptyMap =
      false := by
  rcases f1 with _ | ⟨_, _⟩ <;> rcases f2 with _ | ⟨_, _⟩ <;> cases f3 <;> cases f4 <;> rfl

theorem reportedSizes_application_properties (h map : Nat)
    (entries : List (String × Nat × String × Nat)) (amqp_map value size : Nat) :
    reportedSizes (exp_calls_application_properties h map entries amqp_map value size) =
      if entries = [] then [] else [size] := by
  cases entries with
  | nil => rfl
  | cons e es =>
    simp only [exp_calls_application_properties, reportedSizes_append, reportedSizes_pairs]
    simp [reportedSizes, Call.reportedSize]

theorem any_isEmptyMap_application_properties (h map : Nat)
    (entries : List (String × Nat × String × Nat)) (amqp_map value size : Nat) :
    (exp_calls_application_properties h map entries amqp_map value size).any
      Call.isEmptyMap = decide (entries = []) := by
  cases entries with
  | nil => rfl
  | cons e es =>
    simp only [exp_calls_application_properties, List.any_append, any_isEmptyMap_pairs]
    simp [Call.isEmptyMap]

theorem reportedSizes_data (h : Nat) (body : EncodedBody) (value size : Nat) :
    reportedSizes (exp_calls_data h body value size) = [size] := by
  cases body <;> rfl

theorem any_isEmptyMap_data (h : Nat) (body : EncodedBody) (value size : Nat) :
    (exp_calls_data h body value size).any Call.isEmptyMap = false := by
  cases body <;> rfl

theorem reportedSizes_assembly (n mp : Nat) (c1 : List (List Nat))
    (app : Option (Nat × List (List Nat))) (dv : Nat) (c3 : List (List Nat)) :
    reportedSizes (exp_calls_assembly n mp c1 app dv c3) = [] := by
  rcases app with _ | ⟨_, _⟩ <;> rfl

theorem any_isEmptyMap_assembly (n mp : Nat) (c1 : List (List Nat))
    (app : Option (Nat × List (List Nat))) (dv : Nat) (c3 : List (List Nat)) :
    (exp_calls_assembly n mp c1 app dv c3).any Call.isEmptyMap = false := by
  rcases app with _ | ⟨_, _⟩ <;> rfl

end ShapeFacts

section Claims

variable {σ : Type}

/-- C2, amended: when every collaborator call succeeds (the content type being
byte-array or string, not unknown), `create_amqp_message_data` returns 0,
`body_binary_data->bytes` is the block that `malloc` returned for the
`size_t` sum `props_len + app_props_len + data_len`, that is the sum modulo
`2 ^ 64`, the sizes being those `amqpvalue_get_encoded_size` reported (with
`app_props_len = 0` and no size reported for it when there is no user
property), and `body_binary_data->length` is that same `size_t` sum; when the
three sizes sum below `2 ^ 64`, the requested size and the length are the sum
itself. -/
theorem create_amqp_message_data_success_postcondition (c : Collab σ) (message_handle : Nat)
    (body_binary_data : BINARY_DATA) (w : σ)
    (hok : AllOk (create_amqp_message_data c message_handle body_binary_data w).trace) :
    (create_amqp_message_data c message_handle body_binary_data w).val.1 = 0 ∧
    ∃ props_len app_props_len data_len cells,
      reportedSizes (create_amqp_message_data c message_handle body_binary_data w).trace =
        (if (create_amqp_message_data c message_handle body_binary_data w).trace.any
            Call.isEmptyMap then [props_len, data_len]
          else [props_len, app_props_len, data_len]) ∧
      ((create_amqp_message_data c message_handle body_binary_data w).trace.any
        Call.isEmptyMap = true → app_props_len = 0) ∧
      Call.malloc ((props_len + app_props_len + data_len) % 2 ^ 64)
          (some (List.replicate ((props_len + app_props_len + data_len) % 2 ^ 64) none)) ∈
        (create_amqp_message_data c message_handle body_binary_data w).trace ∧
      (create_amqp_message_data c message_handle body_binary_data w).val.2.bytes =
        some cells ∧
      cells.length = (props_len + app_props_len + data_len) % 2 ^ 64 ∧
      (create_amqp_message_data c message_handle body_binary_data w).val.2.length =
        (props_len + app_props_len + data_len) % 2 ^ 64 ∧
      (props_len + app_props_len + data_len < 2 ^ 64 →
        cells.length = props_len + app_props_len + data_len ∧
        (create_amqp_message_data c message_handle body_binary_data w).val.2.length =
          props_len + app_props_len + data_len) := by
  rw [create_amqp_message_data_trace] at hok ⊢
  rw [create_amqp_message_data_val]
  have hres := (create_amqp_message_data_frame_ok c message_handle body_binary_data w).mp hok
  refine ⟨hres, ?_⟩
  obtain ⟨properties, f1, f2, f3, f4, map, entries, amqp_map, body, c1, c2, c3, f, rfl, ht,
    hent, hb⟩ := create_amqp_message_data_frame_calls c message_handle body_binary_data w hres
  generalize (create_amqp_message_data_frame c message_handle body_binary_data w).val = f
    at ht hent hb
  generalize (create_amqp_message_data_frame c message_handle body_binary_data w).trace = t
    at ht
  subst ht
  have hlen : (memcpy (List.replicate
      (size_t_sum f.message_properties_length f.application_properties_length f.data_length)
      none) 0
      (c1 ++ (if f.application_properties_length > 0 then c2 else []) ++ c3).flatten).length =
      size_t_sum f.message_properties_length f.application_properties_length f.data_length := by
    simp [memcpy_length]
  refine ⟨f.message_properties_length, f.application_properties_length, f.data_length,
    memcpy (List.replicate
      (size_t_sum f.message_properties_length f.application_properties_length f.data_length) none) 0
      (c1 ++ (if f.application_properties_length > 0 then c2 else []) ++ c3).flatten,
    ?_, ?_, ?_, ?_, hlen, ?_, ?_⟩
  · simp only [reportedSizes_append, reportedSizes_message_properties,
      reportedSizes_application_properties, reportedSizes_data, reportedSizes_assembly,
      List.any_append, any_isEmptyMap_message_properties,
      any_isEmptyMap_application_properties, any_isEmptyMap_data, any_isEmptyMap_assembly,
      Bool.false_or, Bool.or_false, decide_eq_true_eq]
    by_cases he : entries = [] <;> simp [he]
  · simp only [List.any_append, any_isEmptyMap_message_properties,
      any_isEmptyMap_application_properties, any_isEmptyMap_data, any_isEmptyMap_assembly,
      Bool.false_or, Bool.or_false, decide_eq_true_eq]
    intro he
    exact (hent he).2
  · have : Call.malloc
        (size_t_sum f.message_properties_length f.application_properties_length f.data_length)
        (some (List.replicate (size_t_sum f.message_properties_length
          f.application_properties_length f.data_length) none)) ∈
        exp_calls_message_properties message_handle properties f1 f2 f3 f4
            f.message_properties f.message_properties_length ++
          exp_calls_application_properties message_handle map entries amqp_map
            f.application_properties f.application_properties_length ++
          exp_calls_data message_handle body f.data_value f.data_length ++
          exp_calls_assembly
            (size_t_sum f.message_properties_length f.application_properties_length
              f.data_length)
            f.message_properties c1
            (if f.application_properties_length > 0 then
              some (f.application_properties, c2) else none)
            f.data_value c3 := by
      simp [exp_calls_assembly]
    exact this
  · rw [hb, after_chunks_some]
  · rw [hb]
    rfl
  · intro hlt
    rw [hlen, hb]
    exact ⟨size_t_sum_of_lt _ _ _ hlt, size_t_sum_of_lt _ _ _ hlt⟩

end Claims

/-- Witness for C2: the scripted run of the unit test. -/
theorem create_amqp_message_data_success_postcondition_witness :
    AllOk (create_amqp_message_data (mock testScript) 256 ⟨none, 0⟩ 0).trace ∧
      (create_amqp_message_data (mock testScript) 256 ⟨none, 0⟩ 0).val.1 = 0 :=
  ⟨by decide,
    (create_amqp_message_data_success_postcondition (mock testScript) 256 ⟨none, 0⟩ 0
      (by decide)).1⟩

/-- C2, counterexample: with an AMQP layer that reports `2 ^ 63` bytes for the
properties value and for the data value of a message without user properties,
every call of the run succeeds and `create_amqp_message_data` returns 0, but
the block was requested with `malloc(0)` and the reported length is 0: the
three `size_t` lengths `2 ^ 63`, 0 and `2 ^ 63` were added modulo `2 ^ 64`,
and neither the size of the block nor the length is their sum `2 ^ 64`. -/
theorem create_amqp_message_data_wraps_allocation_size :
    AllOk (create_amqp_message_data wrapping 259 ⟨none, 0⟩ 0).trace ∧
    (create_amqp_message_data wrapping 259 ⟨none, 0⟩ 0).val = (0, ⟨some [], 0⟩) ∧
    reportedSizes (create_amqp_message_data wrapping 259 ⟨none, 0⟩ 0).trace =
      [2 ^ 63, 2 ^ 63] ∧
    (create_amqp_message_data wrapping 259 ⟨none, 0⟩ 0).trace.filter Call.isMalloc =
      [Call.malloc 0 (some [])] ∧
    (create_amqp_message_data wrapping 259 ⟨none, 0⟩ 0).val.2.length ≠ 2 ^ 63 + 0 + 2 ^ 63 := by
  decide

section BuildersAvoidAssembly

variable {σ : Type}

theorem avoids_nil (p : Call → Bool) : Avoids p [] := by simp [Avoids]

theorem avoids_cons (p : Call → Bool) (e : Call) (t : List Call) :
    Avoids p (e :: t) ↔ p e = false ∧ Avoids p t := by
  simp [Avoids]

theorem avoids_append (p : Call → Bool) (s t : List Call) :
    Avoids p (s ++ t) ↔ Avoids p s ∧ Avoids p t := by
  simp only [Avoids, List.mem_append]
  constructor
  · intro h
    exact ⟨fun e he => h e (Or.inl he), fun e he => h e (Or.inr he)⟩
  · rintro ⟨h1, h2⟩ e (he | he)
    · exact h1 e he
    · exact h2 e he

theorem set_message_id_if_needed_avoids (c : Collab σ) (h p : Nat) (w : σ) :
    Avoids Call.isAssembly (set_message_id_if_needed c h p w).trace := by
  simp only [set_message_id_if_needed, Ext.IoTHubMessage_GetMessageId,
    Ext.amqpvalue_create_string, Ext.properties_set_message_id, Ext.amqpvalue_destroy,
    bind_trace, bind_val, bind_world, ask_run]
  cases (c.IoTHubMessage_GetMessageId h w).1 with
  | none => simp [avoids_cons, avoids_nil, avoids_append, Call.isAssembly, pure_trace]
  | some mid =>
    simp only [bind_trace, bind_val, bind_world, ask_run, tell_run, ite_run, ite_trace,
      pure_trace]
    split_ifs <;> simp [avoids_cons, avoids_nil, avoids_append, Call.isAssembly]

theorem set_message_correlation_id_if_needed_avoids (c : Collab σ) (h p : Nat) (w : σ) :
    Avoids Call.isAssembly (set_message_correlation_id_if_needed c h p w).trace := by
  simp only [set_message_correlation_id_if_needed, Ext.IoTHubMessage_GetCorrelationId,
    Ext.amqpvalue_create_string, Ext.properties_set_correlation_id, Ext.amqpvalue_destroy,
    bind_trace, bind_val, bind_world, ask_run]
  cases (c.IoTHubMessage_GetCorrelationId h w).1 with
  | none => simp [avoids_cons, avoids_nil, avoids_append, Call.isAssembly, pure_trace]
  | some mid =>
    simp only [bind_trace, bind_val, bind_world, ask_run, tell_run, ite_run, ite_trace,
      pure_trace]
    split_ifs <;> simp [avoids_cons, avoids_nil, avoids_append, Call.isAssembly]

theorem set_message_content_type_if_needed_avoids (c : Collab σ) (h p : Nat) (w : σ) :
    Avoids Call.isAssembly (set_message_content_type_if_needed c h p w).trace := by
  simp only [set_message_content_type_if_needed,
    Ext.IoTHubMessage_GetContentTypeSystemProperty, Ext.properties_set_content_type,
    bind_trace, bind_val, bind_world, ask_run]
  cases (c.IoTHubMessage_GetContentTypeSystemProperty h w).1 with
  | none => simp [avoids_cons, avoids_nil, avoids_append, Call.isAssembly, pure_trace]
  | some s =>
    simp only [bind_trace, bind_val, bind_world, ask_run, ite_run, ite_trace, pure_trace]
    split_ifs <;> simp [avoids_cons, avoids_nil, avoids_append, Call.isAssembly]

theorem set_message_content_encoding_if_needed_avoids (c : Collab σ) (h p : Nat) (w : σ) :
    Avoids Call.isAssembly (set_message_content_encoding_if_needed c h p w).trace := by
  simp only [set_message_content_encoding_if_needed,
    Ext.IoTHubMessage_GetContentEncodingSystemProperty, Ext.properties_set_content_encoding,
    bind_trace, bind_val, bind_world, ask_run]
  cases (c.IoTHubMessage_GetContentEncodingSystemProperty h w).1 with
  | none => simp [avoids_cons, avoids_nil, avoids_append, Call.isAssembly, pure_trace]
  | some s =>
    simp only [bind_trace, bind_val, bind_world, ask_run, ite_run, ite_trace, pure_trace]
    split_ifs <;> simp [avoids_cons, avoids_nil, avoids_append, Call.isAssembly]

theorem create_message_properties_to_encode_avoids (c : Collab σ) (h a b : Nat) (w : σ) :
    Avoids Call.isAssembly (create_message_properties_to_encode c h a b w).trace := by
  simp only [create_message_properties_to_encode, bind_trace, bind_val, bind_world, ite_run,
    ite_trace, pure_trace, Ext.properties_create, Ext.amqpvalue_create_properties,
    Ext.amqpvalue_get_encoded_size, ask_run]
  split_ifs <;>
    simp [avoids_cons, avoids_nil, avoids_append, Call.isAssembly,
      set_message_id_if_needed_avoids, set_message_correlation_id_if_needed_avoids,
      set_message_content_type_if_needed_avoids,
      set_message_content_encoding_if_needed_avoids]

theorem create_application_properties_loop_avoids (c : Collab σ)
    (keys values : Nat → String) (m : Nat) (fuel i : Nat) (r0 : Int) (w : σ) :
    Avoids Call.isAssembly
      (create_application_properties_loop c keys values m fuel i r0 w).trace := by
  induction fuel generalizing i r0 w with
  | zero => simp [create_application_properties_loop, pure_trace, avoids_nil]
  | succ n ih =>
    simp only [create_application_properties_loop, bind_trace, bind_val, bind_world, ite_run,
      ite_trace, pure_trace, Ext.amqpvalue_create_string, Ext.amqpvalue_set_map_value,
      Ext.amqpvalue_destroy, ask_run, tell_run]
    split_ifs <;> simp [avoids_cons, avoids_nil, avoids_append, Call.isAssembly, ih]

theorem create_application_properties_to_encode_avoids (c : Collab σ) (h a b : Nat) (w : σ) :
    Avoids Call.isAssembly (create_application_properties_to_encode c h a b w).trace := by
  simp only [create_application_properties_to_encode, bind_trace, bind_val, bind_world,
    ite_run, ite_trace, pure_trace, Ext.IoTHubMessage_Properties, Ext.Map_GetInternals,
    Ext.amqpvalue_create_map, Ext.amqpvalue_create_application_properties,
    Ext.amqpvalue_get_encoded_size, ask_run]
  split_ifs <;>
    simp [avoids_cons, avoids_nil, avoids_append, Call.isAssembly,
      create_application_properties_loop_avoids]

theorem create_data_value_avoids (c : Collab σ) (ct : IOTHUBMESSAGE_CONTENT_TYPE)
    (p : BytePtr) (n dl : Nat) (w : σ) :
    Avoids Call.isAssembly (create_data_value c ct p n dl w).trace := by
  simp only [create_data_value, bind_trace, bind_val, bind_world, ite_run, ite_trace,
    pure_trace, Ext.amqpvalue_create_data, Ext.amqpvalue_get_encoded_size, ask_run]
  split_ifs <;> simp [avoids_cons, avoids_nil, avoids_append, Call.isAssembly]

theorem create_data_to_encode_avoids (c : Collab σ) (h a b : Nat) (w : σ) :
    Avoids Call.isAssembly (create_data_to_encode c h a b w).trace := by
  simp only [create_data_to_encode, bind_trace, bind_val, bind_world,
    Ext.IoTHubMessage_GetContentType, ask_run]
  cases (c.IoTHubMessage_GetContentType h w).1 with
  | IOTHUBMESSAGE_BYTEARRAY =>
    simp only [bind_trace, bind_val, bind_world, ite_run, ite_trace, pure_trace,
      Ext.IoTHubMessage_GetByteArray, ask_run]
    split_ifs <;>
      simp [avoids_cons, avoids_nil, avoids_append, Call.isAssembly, create_data_value_avoids]
  | IOTHUBMESSAGE_STRING =>
    simp only [bind_trace, bind_val, bind_world, Ext.IoTHubMessage_GetString, ask_run]
    cases (c.IoTHubMessage_GetString h (c.IoTHubMessage_GetContentType h w).2).1 with
    | none => simp [avoids_cons, avoids_nil, avoids_append, Call.isAssembly, pure_trace]
    | some text =>
      simp [avoids_cons, avoids_nil, avoids_append, Call.isAssembly, create_data_value_avoids]
  | IOTHUBMESSAGE_UNKNOWN =>
    simp [avoids_cons, avoids_nil, avoids_append, Call.isAssembly, pure_trace]

theorem encodedChunks_append (s t : List Call) :
    encodedChunks (s ++ t) = encodedChunks s ++ encodedChunks t := by
  simp [encodedChunks, List.flatMap_append]

theorem encodedChunks_of_avoids (t : List Call) (h : Avoids Call.isAssembly t) :
    encodedChunks t = [] := by
  induction t with
  | nil => rfl
  | cons e t ih =>
    obtain ⟨he, ht⟩ := (avoids_cons _ _ _).mp h
    have : e.chunks = [] := by
      cases e <;> first | rfl | simp [Call.isAssembly] at he
    simp only [encodedChunks, List.flatMap_cons, this, List.nil_append]
    exact ih ht

theorem not_allocated_of_avoids (t : List Call) (h : Avoids Call.isAssembly t) :
    Avoids Call.isAllocated t := by
  intro e he
  have := h e he
  cases e <;> first | rfl | simp [Call.isAssembly] at this

theorem encodedChunks_encoded (done : List (Nat × List (List Nat))) :
    encodedChunks (done.map (fun x => Call.amqpvalue_encode x.1 x.2 0)) =
      done.flatMap Prod.snd := by
  induction done with
  | nil => rfl
  | cons x xs ih =>
    simp only [List.map_cons, List.flatMap_cons, ← ih]
    rfl

end BuildersAvoidAssembly

section ClaimsEncode

variable {σ : Type}

/-- C3. Byte layout: in every run of `create_amqp_message_data` that returns
0, if each `amqpvalue_encode` call hands the callback exactly the encoding
`enc v` of its value (in any number of chunks) and each size reported by
`amqpvalue_get_encoded_size` is the length of that encoding, the output buffer
holds `enc properties ++ enc application_properties ++ enc data` and nothing
else, the middle part being empty when the property map is empty.  The three
lengths are `size_t` values that the code adds modulo `2 ^ 64`; the layout is
stated for encodings that together take fewer than `2 ^ 64` bytes. -/
theorem create_amqp_message_data_byte_layout (c : Collab σ) (message_handle : Nat)
    (body_binary_data : BINARY_DATA) (w : σ) (enc : Nat → List Nat)
    (hres : (create_amqp_message_data_frame c message_handle body_binary_data w).val.result = 0)
    (henc : ∀ v chunks r, Call.amqpvalue_encode v chunks r ∈
      (create_amqp_message_data_frame c message_handle body_binary_data w).trace →
      chunks.flatten = enc v)
    (hsize : ∀ v n, Call.amqpvalue_get_encoded_size v 0 n ∈
      (create_amqp_message_data_frame c message_handle body_binary_data w).trace →
      n = (enc v).length)
    (hfit : (create_amqp_message_data_frame c message_handle body_binary_data
        w).val.message_properties_length +
      (create_amqp_message_data_frame c message_handle body_binary_data
        w).val.application_properties_length +
      (create_amqp_message_data_frame c message_handle body_binary_data w).val.data_length <
        2 ^ 64) :
    (create_amqp_message_data c message_handle body_binary_data w).val.2.bytes =
      some ((enc (create_amqp_message_data_frame c message_handle body_binary_data
          w).val.message_properties ++
        (if (create_amqp_message_data_frame c message_handle body_binary_data w).trace.any
            Call.isEmptyMap then []
          else enc (create_amqp_message_data_frame c message_handle body_binary_data
            w).val.application_properties) ++
        enc (create_amqp_message_data_frame c message_handle body_binary_data
          w).val.data_value).map some) := by
  rw [create_amqp_message_data_val]
  obtain ⟨properties, f1, f2, f3, f4, map, entries, amqp_map, body, c1, c2, c3, f, rfl, ht,
    hent, hb⟩ := create_amqp_message_data_frame_calls c message_handle body_binary_data w hres
  generalize (create_amqp_message_data_frame c message_handle body_binary_data w).val = f
    at ht hent hb hfit
  generalize (create_amqp_message_data_frame c message_handle body_binary_data w).trace = t
    at ht henc hsize
  rw [size_t_sum_of_lt _ _ _ hfit] at ht hb
  subst ht
  have hany : ((exp_calls_message_properties message_handle properties f1 f2 f3 f4
      f.message_properties f.message_properties_length ++
      exp_calls_application_properties message_handle map entries amqp_map
        f.application_properties f.application_properties_length ++
      exp_calls_data message_handle body f.data_value f.data_length ++
      exp_calls_assembly
        (f.message_properties_length + f.application_properties_length + f.data_length)
        f.message_properties c1
        (if f.application_properties_length > 0 then some (f.application_properties, c2)
          else none) f.data_value c3).any Call.isEmptyMap) = decide (entries = []) := by
    simp only [List.any_append, any_isEmptyMap_message_properties,
      any_isEmptyMap_application_properties, any_isEmptyMap_data, any_isEmptyMap_assembly,
      Bool.false_or, Bool.or_false]
  have hpl : f.message_properties_length = (enc f.message_properties).length := by
    apply hsize
    simp [exp_calls_message_properties]
  have hdl : f.data_length = (enc f.data_value).length := by
    apply hsize
    simp [exp_calls_data]
  have hc1 : c1.flatten = enc f.message_properties := by
    apply henc _ _ 0
    simp [exp_calls_assembly]
  have hc3 : c3.flatten = enc f.data_value := by
    apply henc _ _ 0
    simp [exp_calls_assembly]
  have happ : (if f.application_properties_length > 0 then c2 else []).flatten =
      (if entries = [] then [] else enc f.application_properties) ∧
      f.application_properties_length =
        (if entries = [] then [] else enc f.application_properties).length := by
    by_cases he : entries = []
    · simp [he, (hent he).2]
    · have hal : f.application_properties_length = (enc f.application_properties).length := by
        apply hsize
        cases entries with
        | nil => exact absurd rfl he
        | cons e es => simp [exp_calls_application_properties]
      by_cases hpos : f.application_properties_length > 0
      · have hc2 : c2.flatten = enc f.application_properties := by
          apply henc _ _ 0
          simp [exp_calls_assembly, hpos]
        rw [if_pos hpos, if_neg he]
        exact ⟨hc2, hal⟩
      · have h0 : (enc f.application_properties).length = 0 := by omega
        have h1 : enc f.application_properties = [] := List.length_eq_zero.mp h0
        rw [if_neg hpos, if_neg he]
        refine ⟨?_, hal⟩
        simp [h1]
  rw [hany, hb, after_chunks_some]
  simp only [List.flatten_append, hc1, hc3, happ.1, decide_eq_true_eq]
  have hfill := memcpy_fill []
    (List.replicate
      (f.message_properties_length + f.application_properties_length + f.data_length) none)
    (enc f.message_properties ++ (if entries = [] then [] else enc f.application_properties)
      ++ enc f.data_value)
    (by simp only [List.length_replicate, List.length_append, ← hpl, ← hdl, ← happ.2])
  simpa using hfill

/-- C8. Any collaborator failure fails the encode: if any call of the run
reports failure (a `NULL` handle, a non-zero status, a content type of
unknown, a failed body getter, a `NULL` block, a failed serialisation),
`create_amqp_message_data` returns non-zero. -/
theorem create_amqp_message_data_failure_propagates (c : Collab σ) (message_handle : Nat)
    (body_binary_data : BINARY_DATA) (w : σ) (e : Call)
    (he : e ∈ (create_amqp_message_data c message_handle body_binary_data w).trace)
    (hfail : e.ok = false) :
    (create_amqp_message_data c message_handle body_binary_data w).val.1 ≠ 0 := by
  rw [create_amqp_message_data_trace] at he
  rw [create_amqp_message_data_val]
  intro h0
  have hall := (create_amqp_message_data_frame_ok c message_handle body_binary_data w).mpr h0
  have := hall e he
  simp [hfail] at this

end ClaimsEncode

/-- Witness for C3: the scripted run of the unit test, whose collaborator
encodes a value `v` as the two bytes `v % 256, 7`. -/
theorem create_amqp_message_data_byte_layout_witness :
    (create_amqp_message_data_frame (mock testScript) 256 ⟨none, 0⟩ 0).val.result = 0 ∧
      (create_amqp_message_data (mock testScript) 256 ⟨none, 0⟩ 0).val.2.bytes =
        some [some 245, some 7, some 255, some 7, some 3, some 7] :=
  ⟨by decide,
    (create_amqp_message_data_byte_layout (mock testScript) 256 ⟨none, 0⟩ 0 Script.enc
      (by decide)
      (fun v chunks r hmem => by
        have hall : ∀ e ∈ (create_amqp_message_data_frame (mock testScript) 256
            ⟨none, 0⟩ 0).trace,
            (match e with
              | Call.amqpvalue_encode v chunks _ => decide (chunks.flatten = Script.enc v)
              | _ => true) = true := by decide
        simpa using hall _ hmem)
      (fun v n hmem => by
        have hall : ∀ e ∈ (create_amqp_message_data_frame (mock testScript) 256
            ⟨none, 0⟩ 0).trace,
            (match e with
              | Call.amqpvalue_get_encoded_size v _ n => decide (n = (Script.enc v).length)
              | _ => true) = true := by decide
        simpa using hall _ hmem)
      (by decide)).trans (by decide)⟩

/-- Witness for C8: the scripted run of the unit test with call 20
(`amqpvalue_set_map_value`) made to fail. -/
theorem create_amqp_message_data_failure_propagates_witness :
    Call.amqpvalue_set_map_value 1017 1018 1019 1 ∈
        (create_amqp_message_data (mock { testScript with failAt := some 20 }) 256
          ⟨none, 0⟩ 0).trace ∧
      (create_amqp_message_data (mock { testScript with failAt := some 20 }) 256
        ⟨none, 0⟩ 0).val.1 ≠ 0 :=
  ⟨by decide,
    create_amqp_message_data_failure_propagates (mock { testScript with failAt := some 20 })
      256 ⟨none, 0⟩ 0 (Call.amqpvalue_set_map_value 1017 1018 1019 1) (by decide)
      (by decide)⟩

section ClaimsEncodeFailure

variable {σ : Type}

/-- C4, counterexample: in the scripted run in which the first
`amqpvalue_encode` (call 14) fails after one byte, `create_amqp_message_data`
returns 1 and the caller is left with the allocated four-byte block and a
length of 1, not with a null handle and zero length. -/
theorem create_amqp_message_data_failure_keeps_block :
    (create_amqp_message_data (mock { bareScript with failAt := some 14 }) 256
        ⟨none, 0⟩ 0).val.1 ≠ 0 ∧
      (create_amqp_message_data (mock { bareScript with failAt := some 14 }) 256
        ⟨none, 0⟩ 0).val.2 = ⟨some [some 237, none, none, none], 1⟩ := by
  decide

/-- C4, amended. When `create_amqp_message_data` returns non-zero and no block
was allocated in the run (a builder failed or `malloc` returned `NULL`), the
caller receives a null handle and zero length.  When it returns non-zero after
`malloc` returned a block, the last call is a failed `amqpvalue_encode`, and
the caller receives that block, as the callback left it, with the number of
bytes the callback was handed as length. -/
theorem create_amqp_message_data_failure_output (c : Collab σ) (message_handle : Nat)
    (body_binary_data : BINARY_DATA) (w : σ)
    (hres : (create_amqp_message_data c message_handle body_binary_data w).val.1 ≠ 0) :
    (Avoids Call.isAllocated (create_amqp_message_data c message_handle body_binary_data
        w).trace →
      (create_amqp_message_data c message_handle body_binary_data w).val.2 = ⟨none, 0⟩) ∧
    (∀ n block, Call.malloc n (some block) ∈
        (create_amqp_message_data c message_handle body_binary_data w).trace →
      (∃ v chunks r, r ≠ 0 ∧
        (create_amqp_message_data c message_handle body_binary_data w).trace.getLast? =
          some (Call.amqpvalue_encode v chunks r)) ∧
      (create_amqp_message_data c message_handle body_binary_data w).val.2 =
        after_chunks ⟨some block, 0⟩
          (encodedChunks (create_amqp_message_data c message_handle body_binary_data
            w).trace) ∧
      (∃ cells, (create_amqp_message_data c message_handle body_binary_data w).val.2.bytes =
          some cells ∧ cells.length = n) ∧
      (create_amqp_message_data c message_handle body_binary_data w).val.2.length =
        (encodedChunks (create_amqp_message_data c message_handle body_binary_data
          w).trace).flatten.length) := by
  rw [create_amqp_message_data_trace]
  rw [create_amqp_message_data_val] at hres ⊢
  simp only at hres ⊢
  have aP := create_message_properties_to_encode_avoids c message_handle 0 0 w
  have aA := create_application_properties_to_encode_avoids c message_handle 0 0
    (create_message_properties_to_encode c message_handle 0 0 w).world
  have aD := create_data_to_encode_avoids c message_handle 0 0
    (create_application_properties_to_encode c message_handle 0 0
      (create_message_properties_to_encode c message_handle 0 0 w).world).world
  generalize hP : create_message_properties_to_encode c message_handle 0 0 w = P
    at aP aA aD
  generalize hA : create_application_properties_to_encode c message_handle 0 0 P.world = A
    at aA aD
  generalize hD : create_data_to_encode c message_handle 0 0 A.world = D at aD
  have nomalloc : ∀ (t : List Call), Avoids Call.isAssembly t →
      ∀ n block, Call.malloc n (some block) ∉ t := by
    intro t ht n block hmem
    have := ht _ hmem
    simp [Call.isAssembly] at this
  rcases create_amqp_message_data_frame_cases c message_handle body_binary_data w P A D _
      hP.symm hA.symm hD.symm rfl with
    ⟨_, ht, _, hb⟩ | ⟨_, _, ht, _, hb⟩ | ⟨_, _, _, ht, _, hb⟩ |
    ⟨_, _, _, _, _, _, _, _, _, hcase⟩
  · rw [ht, hb]
    exact ⟨fun _ => rfl, fun n block hmem => absurd hmem (nomalloc _ aP n block)⟩
  · rw [ht, hb]
    refine ⟨fun _ => rfl, fun n block hmem => absurd hmem (nomalloc _ ?_ n block)⟩
    exact (avoids_append _ _ _).mpr ⟨aP, aA⟩
  · rw [ht, hb]
    refine ⟨fun _ => rfl, fun n block hmem => absurd hmem (nomalloc _ ?_ n block)⟩
    exact (avoids_append _ _ _).mpr ⟨(avoids_append _ _ _).mpr ⟨aP, aA⟩, aD⟩
  · rcases hcase with ⟨ht, _, hb⟩ | ⟨done, v, chunks, r, rest, hr0, _, ht, _, hb⟩ |
      ⟨_, _, _, hr, _⟩
    · rw [ht, hb]
      refine ⟨fun _ => rfl, fun n block hmem => ?_⟩
      rcases List.mem_append.mp hmem with hm | hm
      · exact absurd hm (nomalloc _
          ((avoids_append _ _ _).mpr ⟨(avoids_append _ _ _).mpr ⟨aP, aA⟩, aD⟩) n block)
      · simp at hm
    · rw [ht, hb]
      constructor
      · intro hav
        have := hav (Call.malloc (size_t_sum P.val.2.2 A.val.2.2 D.val.2.2)
          (some (List.replicate (size_t_sum P.val.2.2 A.val.2.2 D.val.2.2) none))) (by simp)
        simp [Call.isAllocated] at this
      · intro n block hmem
        have hblock : n = size_t_sum P.val.2.2 A.val.2.2 D.val.2.2 ∧
            block = List.replicate (size_t_sum P.val.2.2 A.val.2.2 D.val.2.2) none := by
          simp only [List.mem_append, List.mem_singleton, List.mem_map, Call.malloc.injEq,
            Option.some.injEq, reduceCtorEq, and_false, exists_false, or_false] at hmem
          rcases hmem with ((hm | hm) | hm) | hm
          · exact absurd hm (nomalloc _ aP n block)
          · exact absurd hm (nomalloc _ aA n block)
          · exact absurd hm (nomalloc _ aD n block)
          · exact hm
        obtain ⟨rfl, rfl⟩ := hblock
        have hchunks : encodedChunks
            (P.trace ++ A.trace ++ D.trace ++
              [Call.malloc (size_t_sum P.val.2.2 A.val.2.2 D.val.2.2)
                (some (List.replicate (size_t_sum P.val.2.2 A.val.2.2 D.val.2.2) none))] ++
              done.map (fun x => Call.amqpvalue_encode x.1 x.2 0) ++
              [Call.amqpvalue_encode v chunks r]) = done.flatMap Prod.snd ++ chunks := by
          simp only [encodedChunks_append, encodedChunks_of_avoids _ aP,
            encodedChunks_of_avoids _ aA, encodedChunks_of_avoids _ aD,
            encodedChunks_encoded, List.nil_append]
          simp [encodedChunks, Call.chunks]
        refine ⟨⟨v, chunks, r, hr0, List.getLast?_concat _⟩, ?_, ?_, ?_⟩
        · rw [hchunks]
        · rw [after_chunks_some]
          exact ⟨_, rfl, by simp [memcpy_length]⟩
        · rw [hchunks, after_chunks_some]
          simp
    · exact absurd hr hres

end ClaimsEncodeFailure

/-- Witness for C4 (amended): the scripted run whose first `amqpvalue_encode`
fails after one byte. -/
theorem create_amqp_message_data_failure_output_witness :
    (create_amqp_message_data (mock { bareScript with failAt := some 14 }) 256
        ⟨none, 0⟩ 0).val.1 ≠ 0 ∧
      (create_amqp_message_data (mock { bareScript with failAt := some 14 }) 256
        ⟨none, 0⟩ 0).val.2.length =
        (encodedChunks (create_amqp_message_data
          (mock { bareScript with failAt := some 14 }) 256 ⟨none, 0⟩ 0).trace).flatten.length :=
  ⟨by decide,
    ((create_amqp_message_data_failure_output (mock { bareScript with failAt := some 14 })
      256 ⟨none, 0⟩ 0 (by decide)).2 4 [none, none, none, none] (by decide)).2.2.2⟩

section ClaimsEncodeShape

variable {σ : Type}

theorem isFieldSetter_pairs (m : Nat) (entries : List (String × Nat × String × Nat)) :
    Avoids Call.isFieldSetter (entries.flatMap (exp_calls_pair m)) := by
  intro e he
  rcases mem_exp_calls_pairs m entries e he with ⟨_, _, rfl⟩ | ⟨_, _, rfl⟩ | ⟨_, rfl⟩ <;> rfl

theorem isFieldSetter_application_properties (h map : Nat)
    (entries : List (String × Nat × String × Nat)) (amqp_map value size : Nat) :
    Avoids Call.isFieldSetter
      (exp_calls_application_properties h map entries amqp_map value size) := by
  cases entries with
  | nil => simp [exp_calls_application_properties, avoids_cons, avoids_nil, Call.isFieldSetter]
  | cons e es =>
    simp only [exp_calls_application_properties, avoids_append, avoids_cons, avoids_nil,
      Call.isFieldSetter, and_true, true_and]
    exact isFieldSetter_pairs _ _

theorem isFieldSetter_data (h : Nat) (body : EncodedBody) (value size : Nat) :
    Avoids Call.isFieldSetter (exp_calls_data h body value size) := by
  cases body <;>
    simp [exp_calls_data, avoids_cons, avoids_nil, avoids_append, Call.isFieldSetter]

theorem isFieldSetter_assembly (n mp : Nat) (c1 : List (List Nat))
    (app : Option (Nat × List (List Nat))) (dv : Nat) (c3 : List (List Nat)) :
    Avoids Call.isFieldSetter (exp_calls_assembly n mp c1 app dv c3) := by
  rcases app with _ | ⟨_, _⟩ <;>
    simp [exp_calls_assembly, avoids_cons, avoids_nil, avoids_append, Call.isFieldSetter]

theorem setter_mem_message_id (h P : Nat) (f : Option (String × Nat)) (e : Call)
    (he : e ∈ exp_calls_message_id h P f) (hs : e.isFieldSetter = true) :
    ∃ text v, f = some (text, v) ∧ e = Call.properties_set_message_id P v 0 := by
  rcases f with _ | ⟨text, v⟩
  · simp only [exp_calls_message_id, List.mem_singleton] at he
    subst he
    simp [Call.isFieldSetter] at hs
  · simp only [exp_calls_message_id, List.mem_cons, List.mem_singleton, List.not_mem_nil,
      or_false] at he
    rcases he with rfl | rfl | rfl | rfl
    · simp [Call.isFieldSetter] at hs
    · simp [Call.isFieldSetter] at hs
    · exact ⟨text, v, rfl, rfl⟩
    · simp [Call.isFieldSetter] at hs

theorem setter_mem_correlation_id (h P : Nat) (f : Option (String × Nat)) (e : Call)
    (he : e ∈ exp_calls_correlation_id h P f) (hs : e.isFieldSetter = true) :
    ∃ text v, f = some (text, v) ∧ e = Call.properties_set_correlation_id P v 0 := by
  rcases f with _ | ⟨text, v⟩
  · simp only [exp_calls_correlation_id, List.mem_singleton] at he
    subst he
    simp [Call.isFieldSetter] at hs
  · simp only [exp_calls_correlation_id, List.mem_cons, List.mem_singleton,
      List.not_mem_nil, or_false] at he
    rcases he with rfl | rfl | rfl | rfl
    · simp [Call.isFieldSetter] at hs
    · simp [Call.isFieldSetter] at hs
    · exact ⟨text, v, rfl, rfl⟩
    · simp [Call.isFieldSetter] at hs

theorem setter_mem_content_type (h P : Nat) (f : Option String) (e : Call)
    (he : e ∈ exp_calls_content_type h P f) (hs : e.isFieldSetter = true) :
    ∃ text, f = some text ∧ e = Call.properties_set_content_type P text 0 := by
  rcases f with _ | text
  · simp only [exp_calls_content_type, List.mem_singleton] at he
    subst he
    simp [Call.isFieldSetter] at hs
  · simp only [exp_calls_content_type, List.mem_cons, List.mem_singleton, List.not_mem_nil,
      or_false] at he
    rcases he with rfl | rfl
    · simp [Call.isFieldSetter] at hs
    · exact ⟨text, rfl, rfl⟩

theorem setter_mem_content_encoding (h P : Nat) (f : Option String) (e : Call)
    (he : e ∈ exp_calls_content_encoding h P f) (hs : e.isFieldSetter = true) :
    ∃ text, f = some text ∧ e = Call.properties_set_content_encoding P text 0 := by
  rcases f with _ | text
  · simp only [exp_calls_content_encoding, List.mem_singleton] at he
    subst he
    simp [Call.isFieldSetter] at hs
  · simp only [exp_calls_content_encoding, List.mem_cons, List.mem_singleton,
      List.not_mem_nil, or_false] at he
    rcases he with rfl | rfl
    · simp [Call.isFieldSetter] at hs
    · exact ⟨text, rfl, rfl⟩

/-- A set call in the expected calls of the properties builder is the set call
of a present field. -/
theorem setter_mem_message_properties (h P : Nat) (f1 f2 : Option (String × Nat))
    (f3 f4 : Option String) (V n : Nat) (e : Call)
    (he : e ∈ exp_calls_message_properties h P f1 f2 f3 f4 V n)
    (hs : e.isFieldSetter = true) :
    (∃ text v, f1 = some (text, v) ∧ e = Call.properties_set_message_id P v 0) ∨
    (∃ text v, f2 = some (text, v) ∧ e = Call.properties_set_correlation_id P v 0) ∨
    (∃ text, f3 = some text ∧ e = Call.properties_set_content_type P text 0) ∨
    (∃ text, f4 = some text ∧ e = Call.properties_set_content_encoding P text 0) := by
  simp only [exp_calls_message_properties, List.mem_append, List.mem_cons,
    List.mem_singleton, List.not_mem_nil, or_false] at he
  rcases he with ((((rfl | he) | he) | he) | he) | rfl | rfl
  · simp [Call.isFieldSetter] at hs
  · exact Or.inl (setter_mem_message_id h P f1 e he hs)
  · exact Or.inr (Or.inl (setter_mem_correlation_id h P f2 e he hs))
  · exact Or.inr (Or.inr (Or.inl (setter_mem_content_type h P f3 e he hs)))
  · exact Or.inr (Or.inr (Or.inr (setter_mem_content_encoding h P f4 e he hs)))
  · simp [Call.isFieldSetter] at hs
  · simp [Call.isFieldSetter] at hs

/-- C9. Optional-field independence on encode: when no call fails,
`create_amqp_message_data` returns 0 whatever subset of message-id,
correlation-id, content-type and content-encoding the message lacks; the run
starts with exactly the expected calls of the properties builder, in which an
absent field (`none`: its getter answered `NULL`) has the getter call only and
a present field has its set call; no other set call occurs anywhere in the
run; and the data value that was created is serialised. -/
theorem create_amqp_message_data_optional_fields (c : Collab σ) (message_handle : Nat)
    (body_binary_data : BINARY_DATA) (w : σ)
    (hok : AllOk (create_amqp_message_data c message_handle body_binary_data w).trace) :
    (create_amqp_message_data c message_handle body_binary_data w).val.1 = 0 ∧
    ∃ properties messageId correlationId contentType contentEncoding value size rest bin
      data_value chunks,
      (create_amqp_message_data c message_handle body_binary_data w).trace =
        exp_calls_message_properties message_handle properties messageId correlationId
          contentType contentEncoding value size ++ rest ∧
      (∀ p v r, Call.properties_set_message_id p v r ∈
          (create_amqp_message_data c message_handle body_binary_data w).trace ↔
        ∃ text, messageId = some (text, v) ∧ p = properties ∧ r = 0) ∧
      (∀ p v r, Call.properties_set_correlation_id p v r ∈
          (create_amqp_message_data c message_handle body_binary_data w).trace ↔
        ∃ text, correlationId = some (text, v) ∧ p = properties ∧ r = 0) ∧
      (∀ p s r, Call.properties_set_content_type p s r ∈
          (create_amqp_message_data c message_handle body_binary_data w).trace ↔
        contentType = some s ∧ p = properties ∧ r = 0) ∧
      (∀ p s r, Call.properties_set_content_encoding p s r ∈
          (create_amqp_message_data c message_handle body_binary_data w).trace ↔
        contentEncoding = some s ∧ p = properties ∧ r = 0) ∧
      Call.amqpvalue_create_data bin data_value ∈ rest ∧
      Call.amqpvalue_encode data_value chunks 0 ∈ rest := by
  rw [create_amqp_message_data_trace] at hok ⊢
  rw [create_amqp_message_data_val]
  have hres := (create_amqp_message_data_frame_ok c message_handle body_binary_data w).mp hok
  refine ⟨hres, ?_⟩
  obtain ⟨properties, f1, f2, f3, f4, map, entries, amqp_map, body, c1, c2, c3, f, rfl, ht,
    _, _⟩ := create_amqp_message_data_frame_calls c message_handle body_binary_data w hres
  generalize (create_amqp_message_data_frame c message_handle body_binary_data w).val = f
    at ht
  generalize (create_amqp_message_data_frame c message_handle body_binary_data w).trace = t
    at ht
  subst ht
  simp only [List.append_assoc]
  have hrest : Avoids Call.isFieldSetter
      (exp_calls_application_properties message_handle map entries amqp_map
        f.application_properties f.application_properties_length ++
      (exp_calls_data message_handle body f.data_value f.data_length ++
      exp_calls_assembly
        (size_t_sum f.message_properties_length f.application_properties_length f.data_length)
        f.message_properties c1
        (if f.application_properties_length > 0 then some (f.application_properties, c2)
          else none) f.data_value c3)) := by
    simp only [avoids_append]
    exact ⟨isFieldSetter_application_properties _ _ _ _ _ _, isFieldSetter_data _ _ _ _,
      isFieldSetter_assembly _ _ _ _ _ _⟩
  have hdata : Call.amqpvalue_create_data body.bin_data f.data_value ∈
      (exp_calls_application_properties message_handle map entries amqp_map
        f.application_properties f.application_properties_length ++
      (exp_calls_data message_handle body f.data_value f.data_length ++
      exp_calls_assembly
        (size_t_sum f.message_properties_length f.application_properties_length f.data_length)
        f.message_properties c1
        (if f.application_properties_length > 0 then some (f.application_properties, c2)
          else none) f.data_value c3)) := by
    simp [exp_calls_data]
  have hencode : Call.amqpvalue_encode f.data_value c3 0 ∈
      (exp_calls_application_properties message_handle map entries amqp_map
        f.application_properties f.application_properties_length ++
      (exp_calls_data message_handle body f.data_value f.data_length ++
      exp_calls_assembly
        (size_t_sum f.message_properties_length f.application_properties_length f.data_length)
        f.message_properties c1
        (if f.application_properties_length > 0 then some (f.application_properties, c2)
          else none) f.data_value c3)) := by
    simp [exp_calls_assembly]
  generalize (exp_calls_application_properties message_handle map entries amqp_map
        f.application_properties f.application_properties_length ++
      (exp_calls_data message_handle body f.data_value f.data_length ++
      exp_calls_assembly
        (size_t_sum f.message_properties_length f.application_properties_length f.data_length)
        f.message_properties c1
        (if f.application_properties_length > 0 then some (f.application_properties, c2)
          else none) f.data_value c3)) = rest at hrest hdata hencode ⊢
  have hnot : ∀ e, Call.isFieldSetter e = true → e ∉ rest := by
    intro e he hmem
    have := hrest e hmem
    simp [he] at this
  refine ⟨properties, f1, f2, f3, f4, f.message_properties, f.message_properties_length,
    rest, body.bin_data, f.data_value, c3, rfl, ?_, ?_, ?_, ?_, hdata, hencode⟩
  · intro p v r
    constructor
    · intro hmem
      rcases List.mem_append.mp hmem with hm | hm
      · rcases setter_mem_message_properties _ _ _ _ _ _ _ _
          (Call.properties_set_message_id p v r) hm rfl with
          ⟨text, v', h1, h2⟩ | ⟨_, _, _, h2⟩ | ⟨_, _, h2⟩ | ⟨_, _, h2⟩
        · simp only [Call.properties_set_message_id.injEq] at h2
          obtain ⟨rfl, rfl, rfl⟩ := h2
          exact ⟨text, h1, rfl, rfl⟩
        · simp at h2
        · simp at h2
        · simp at h2
      · exact absurd hm (hnot (Call.properties_set_message_id p v r) rfl)
    · rintro ⟨text, rfl, rfl, rfl⟩
      simp [exp_calls_message_properties, exp_calls_message_id]
  · intro p v r
    constructor
    · intro hmem
      rcases List.mem_append.mp hmem with hm | hm
      · rcases setter_mem_message_properties _ _ _ _ _ _ _ _
          (Call.properties_set_correlation_id p v r) hm rfl with
          ⟨_, _, _, h2⟩ | ⟨text, v', h1, h2⟩ | ⟨_, _, h2⟩ | ⟨_, _, h2⟩
        · simp at h2
        · simp only [Call.properties_set_correlation_id.injEq] at h2
          obtain ⟨rfl, rfl, rfl⟩ := h2
          exact ⟨text, h1, rfl, rfl⟩
        · simp at h2
        · simp at h2
      · exact absurd hm (hnot (Call.properties_set_correlation_id p v r) rfl)
    · rintro ⟨text, rfl, rfl, rfl⟩
      simp [exp_calls_message_properties, exp_calls_correlation_id]
  · intro p v r
    constructor
    · intro hmem
      rcases List.mem_append.mp hmem with hm | hm
      · rcases setter_mem_message_properties _ _ _ _ _ _ _ _
          (Call.properties_set_content_type p v r) hm rfl with
          ⟨_, _, _, h2⟩ | ⟨_, _, _, h2⟩ | ⟨text, h1, h2⟩ | ⟨_, _, h2⟩
        · simp at h2
        · simp at h2
        · simp only [Call.properties_set_content_type.injEq] at h2
          obtain ⟨rfl, rfl, rfl⟩ := h2
          exact ⟨h1, rfl, rfl⟩
        · simp at h2
      · exact absurd hm (hnot (Call.properties_set_content_type p v r) rfl)
    · rintro ⟨rfl, rfl, rfl⟩
      simp [exp_calls_message_properties, exp_calls_content_type]
  · intro p v r
    constructor
    · intro hmem
      rcases List.mem_append.mp hmem with hm | hm
      · rcases setter_mem_message_properties _ _ _ _ _ _ _ _
          (Call.properties_set_content_encoding p v r) hm rfl with
          ⟨_, _, _, h2⟩ | ⟨_, _, _, h2⟩ | ⟨_, _, h2⟩ | ⟨text, h1, h2⟩
        · simp at h2
        · simp at h2
        · simp at h2
        · simp only [Call.properties_set_content_encoding.injEq] at h2
          obtain ⟨rfl, rfl, rfl⟩ := h2
          exact ⟨h1, rfl, rfl⟩
      · exact absurd hm (hnot (Call.properties_set_content_encoding p v r) rfl)
    · rintro ⟨rfl, rfl, rfl⟩
      simp [exp_calls_message_properties, exp_calls_content_encoding]

end ClaimsEncodeShape

/-- Witness for C9: the message of the unit test without message-id and
without content-encoding. -/
theorem create_amqp_message_data_optional_fields_witness :
    AllOk (create_amqp_message_data
        (mock { testScript with messageId := none, contentEncoding := none }) 256
        ⟨none, 0⟩ 0).trace ∧
      (create_amqp_message_data
        (mock { testScript with messageId := none, contentEncoding := none }) 256
        ⟨none, 0⟩ 0).val.1 = 0 :=
  ⟨by decide,
    (create_amqp_message_data_optional_fields
      (mock { testScript with messageId := none, contentEncoding := none }) 256 ⟨none, 0⟩ 0
      (by decide)).1⟩

section ClaimsEmptyProperties

variable {σ : Type}

theorem isMapCreation_message_properties (h properties : Nat)
    (f1 f2 : Option (String × Nat)) (f3 f4 : Option String) (value size : Nat) :
    Avoids Call.isMapCreation
      (exp_calls_message_properties h properties f1 f2 f3 f4 value size) := by
  have h1 : Avoids Call.isMapCreation (exp_calls_message_id h properties f1) := by
    rcases f1 with _ | ⟨_, _⟩ <;>
      simp [exp_calls_message_id, avoids_cons, avoids_nil, Call.isMapCreation]
  have h2 : Avoids Call.isMapCreation (exp_calls_correlation_id h properties f2) := by
    rcases f2 with _ | ⟨_, _⟩ <;>
      simp [exp_calls_correlation_id, avoids_cons, avoids_nil, Call.isMapCreation]
  have h3 : Avoids Call.isMapCreation (exp_calls_content_type h properties f3) := by
    cases f3 <;> simp [exp_calls_content_type, avoids_cons, avoids_nil, Call.isMapCreation]
  have h4 : Avoids Call.isMapCreation (exp_calls_content_encoding h properties f4) := by
    cases f4 <;>
      simp [exp_calls_content_encoding, avoids_cons, avoids_nil, Call.isMapCreation]
  simp [exp_calls_message_properties, avoids_append, avoids_cons, avoids_nil,
    Call.isMapCreation, h1, h2, h3, h4]

theorem filter_isEncode_message_properties (h properties : Nat)
    (f1 f2 : Option (String × Nat)) (f3 f4 : Option String) (value size : Nat) :
    (exp_calls_message_properties h properties f1 f2 f3 f4 value size).filter Call.isEncode =
      [] := by
  have h1 : (exp_calls_message_id h properties f1).filter Call.isEncode = [] := by
    rcases f1 with _ | ⟨_, _⟩ <;> rfl
  have h2 : (exp_calls_correlation_id h properties f2).filter Call.isEncode = [] := by
    rcases f2 with _ | ⟨_, _⟩ <;> rfl
  have h3 : (exp_calls_content_type h properties f3).filter Call.isEncode = [] := by
    cases f3 <;> rfl
  have h4 : (exp_calls_content_encoding h properties f4).filter Call.isEncode = [] := by
    cases f4 <;> rfl
  simp [exp_calls_message_properties, List.filter_append, h1, h2, h3, h4, Call.isEncode]

/-- C10. Empty-properties case: when no call fails and `Map_GetInternals`
reports a count of 0, `create_amqp_message_data` returns 0, creates neither an
AMQP map nor an application-properties value, reports exactly two encoded
sizes (properties and data), keeps the application-properties length at 0 so
that the allocated size and the reported length are the `size_t` sum
`props_len + 0 + data_len` (the sum modulo `2 ^ 64`, which is
`props_len + data_len` itself when that is below `2 ^ 64`), and calls
`amqpvalue_encode` exactly twice: for the properties value, then for the data
value. -/
theorem create_amqp_message_data_empty_properties (c : Collab σ) (message_handle : Nat)
    (body_binary_data : BINARY_DATA) (w : σ)
    (hok : AllOk (create_amqp_message_data c message_handle body_binary_data w).trace)
    (hempty : (create_amqp_message_data c message_handle body_binary_data w).trace.any
      Call.isEmptyMap = true) :
    (create_amqp_message_data c message_handle body_binary_data w).val.1 = 0 ∧
    Avoids Call.isMapCreation
      (create_amqp_message_data c message_handle body_binary_data w).trace ∧
    (create_amqp_message_data_frame c message_handle body_binary_data
      w).val.application_properties_length = 0 ∧
    ∃ props_len data_len chunks1 chunks3,
      reportedSizes (create_amqp_message_data c message_handle body_binary_data w).trace =
        [props_len, data_len] ∧
      Call.malloc ((props_len + 0 + data_len) % 2 ^ 64)
          (some (List.replicate ((props_len + 0 + data_len) % 2 ^ 64) none)) ∈
        (create_amqp_message_data c message_handle body_binary_data w).trace ∧
      (create_amqp_message_data c message_handle body_binary_data w).val.2.length =
        (props_len + 0 + data_len) % 2 ^ 64 ∧
      (props_len + data_len < 2 ^ 64 →
        (create_amqp_message_data c message_handle body_binary_data w).val.2.length =
          props_len + data_len) ∧
      (create_amqp_message_data c message_handle body_binary_data w).trace.filter
          Call.isEncode =
        [Call.amqpvalue_encode (create_amqp_message_data_frame c message_handle
            body_binary_data w).val.message_properties chunks1 0,
          Call.amqpvalue_encode (create_amqp_message_data_frame c message_handle
            body_binary_data w).val.data_value chunks3 0] := by
  rw [create_amqp_message_data_trace] at hok hempty ⊢
  rw [create_amqp_message_data_val]
  have hres := (create_amqp_message_data_frame_ok c message_handle body_binary_data w).mp hok
  refine ⟨hres, ?_⟩
  obtain ⟨properties, f1, f2, f3, f4, map, entries, amqp_map, body, c1, c2, c3, f, rfl, ht,
    hent, hb⟩ := create_amqp_message_data_frame_calls c message_handle body_binary_data w hres
  generalize (create_amqp_message_data_frame c message_handle body_binary_data w).val = f
    at ht hent hb
  generalize (create_amqp_message_data_frame c message_handle body_binary_data w).trace = t
    at ht hempty
  subst ht
  have he : entries = [] := by
    simpa only [List.any_append, any_isEmptyMap_message_properties,
      any_isEmptyMap_application_properties, any_isEmptyMap_data, any_isEmptyMap_assembly,
      Bool.false_or, Bool.or_false, decide_eq_true_eq] using hempty
  subst he
  obtain ⟨-, hal⟩ := hent rfl
  rw [hal] at hb ⊢
  simp only [Nat.add_zero, gt_iff_lt, Nat.lt_irrefl, if_false] at hb ⊢
  refine ⟨?_, trivial, f.message_properties_length, f.data_length, c1, c3, ?_, ?_, ?_, ?_, ?_⟩
  · simp only [avoids_append]
    refine ⟨⟨⟨isMapCreation_message_properties _ _ _ _ _ _ _ _, ?_⟩, ?_⟩, ?_⟩
    · simp [exp_calls_application_properties, avoids_cons, avoids_nil, Call.isMapCreation]
    · cases body <;>
        simp [exp_calls_data, avoids_cons, avoids_nil, avoids_append, Call.isMapCreation]
    · simp [exp_calls_assembly, avoids_cons, avoids_nil, avoids_append, Call.isMapCreation]
  · simp only [reportedSizes_append, reportedSizes_message_properties,
      reportedSizes_application_properties, reportedSizes_data, reportedSizes_assembly]
    simp
  · have hm : Call.malloc (size_t_sum f.message_properties_length 0 f.data_length)
        (some (List.replicate (size_t_sum f.message_properties_length 0 f.data_length)
          none)) ∈
        exp_calls_message_properties message_handle properties f1 f2 f3 f4
            f.message_properties f.message_properties_length ++
          exp_calls_application_properties message_handle map [] amqp_map
            f.application_properties 0 ++
          exp_calls_data message_handle body f.data_value f.data_length ++
          exp_calls_assembly (size_t_sum f.message_properties_length 0 f.data_length)
            f.message_properties c1 none f.data_value c3 := by
      simp [exp_calls_assembly]
    exact hm
  · rw [hb]
    rfl
  · intro hlt
    rw [hb]
    exact size_t_sum_of_lt _ _ _ (by simpa using hlt)
  · simp only [List.filter_append, filter_isEncode_message_properties]
    cases body <;> simp [exp_calls_application_properties, exp_calls_data,
      exp_calls_assembly, Call.isEncode]

end ClaimsEmptyProperties

/-- Witness for C10: the scripted message without user properties. -/
theorem create_amqp_message_data_empty_properties_witness :
    AllOk (create_amqp_message_data (mock bareScript) 256 ⟨none, 0⟩ 0).trace ∧
      (create_amqp_message_data (mock bareScript) 256 ⟨none, 0⟩ 0).trace.any
        Call.isEmptyMap = true ∧
      (create_amqp_message_data (mock bareScript) 256 ⟨none, 0⟩ 0).val.1 = 0 :=
  ⟨by decide, by decide,
    (create_amqp_message_data_empty_properties (mock bareScript) 256 ⟨none, 0⟩ 0
      (by decide) (by decide)).1⟩

section DecodeLemmas

variable {σ : Type}

theorem read_message_id_ok (c : Collab σ) (h p : Nat) (w : σ)
    (hok : AllOk (read_message_id c h p 0 w).trace) : (read_message_id c h p 0 w).val = 0 := by
  revert hok
  simp only [read_message_id, bind_val, bind_trace, bind_world, ite_run, ite_val, ite_trace,
    pure_val, pure_trace, Ext.properties_get_message_id, Ext.amqpvalue_get_type,
    Ext.amqpvalue_get_string, Ext.IoTHubMessage_SetMessageId, ask_run]
  split_ifs <;> simp_all [allOk_append, allOk_cons, allOk_nil, Call.ok, FAILURE]

theorem read_correlation_id_ok (c : Collab σ) (h p : Nat) (w : σ)
    (hok : AllOk (read_correlation_id c h p 0 w).trace) :
    (read_correlation_id c h p 0 w).val = 0 := by
  revert hok
  simp only [read_correlation_id, bind_val, bind_trace, bind_world, ite_run, ite_val,
    ite_trace, pure_val, pure_trace, Ext.properties_get_correlation_id,
    Ext.amqpvalue_get_type, Ext.amqpvalue_get_string, Ext.IoTHubMessage_SetCorrelationId,
    ask_run]
  split_ifs <;> simp_all [allOk_append, allOk_cons, allOk_nil, Call.ok, FAILURE]

theorem read_message_id_avoids (c : Collab σ) (h p : Nat) (rv : Int) (w : σ) :
    Avoids Call.isMessageDestroy (read_message_id c h p rv w).trace := by
  simp only [read_message_id, bind_val, bind_trace, bind_world, ite_run, ite_val, ite_trace,
    pure_val, pure_trace, Ext.properties_get_message_id, Ext.amqpvalue_get_type,
    Ext.amqpvalue_get_string, Ext.IoTHubMessage_SetMessageId, ask_run]
  split_ifs <;> simp [avoids_append, avoids_cons, avoids_nil, Call.isMessageDestroy]

theorem read_correlation_id_avoids (c : Collab σ) (h p : Nat) (rv : Int) (w : σ) :
    Avoids Call.isMessageDestroy (read_correlation_id c h p rv w).trace := by
  simp only [read_correlation_id, bind_val, bind_trace, bind_world, ite_run, ite_val,
    ite_trace, pure_val, pure_trace, Ext.properties_get_correlation_id,
    Ext.amqpvalue_get_type, Ext.amqpvalue_get_string, Ext.IoTHubMessage_SetCorrelationId,
    ask_run]
  split_ifs <;> simp [avoids_append, avoids_cons, avoids_nil, Call.isMessageDestroy]

theorem readPropertiesFromuAMQPMessage_ok (c : Collab σ) (h m : Nat) (w : σ)
    (hok : AllOk (readPropertiesFromuAMQPMessage c h m w).trace) :
    (readPropertiesFromuAMQPMessage c h m w).val = 0 := by
  revert hok
  simp only [readPropertiesFromuAMQPMessage, bind_val, bind_trace, bind_world, ite_run,
    ite_val, ite_trace, pure_val, pure_trace, Ext.message_get_properties,
    Ext.properties_destroy, ask_run, tell_run]
  generalize c.message_get_properties m w = X0
  by_cases h0 : X0.1.1 ≠ 0
  · simp only [if_pos h0]
    intro hok
    simp [allOk_append, allOk_cons, Call.ok, h0] at hok
  simp only [if_neg h0]
  have k1 := read_message_id_ok c h X0.1.2 X0.2
  generalize read_message_id c h X0.1.2 0 X0.2 = X1 at k1 ⊢
  intro hok
  simp only [allOk_append, allOk_cons, allOk_nil] at hok
  have e1 := k1 hok.2.1
  rw [e1] at hok ⊢
  exact read_correlation_id_ok c h X0.1.2 X1.world hok.2.2.1

theorem readPropertiesFromuAMQPMessage_avoids (c : Collab σ) (h m : Nat) (w : σ) :
    Avoids Call.isMessageDestroy (readPropertiesFromuAMQPMessage c h m w).trace := by
  simp only [readPropertiesFromuAMQPMessage, bind_val, bind_trace, bind_world, ite_run,
    ite_val, ite_trace, pure_val, pure_trace, Ext.message_get_properties,
    Ext.properties_destroy, ask_run, tell_run]
  split_ifs <;>
    simp [avoids_append, avoids_cons, avoids_nil, Call.isMessageDestroy,
      read_message_id_avoids, read_correlation_id_avoids]

theorem readApplicationProperties_copy_ok (c : Collab σ) (map : Nat) (pr : Int × Nat × Nat)
    (w : σ) (hpr : pr.1 = 0) (hok : AllOk (readApplicationProperties_copy c map pr w).trace) :
    (readApplicationProperties_copy c map pr w).val = 0 := by
  revert hok
  simp only [readApplicationProperties_copy, bind_val, bind_trace, bind_world, ite_run,
    ite_val, ite_trace, pure_val, pure_trace, Ext.amqpvalue_get_string, Ext.Map_AddOrUpdate,
    ask_run]
  split_ifs <;> simp_all [allOk_append, allOk_cons, allOk_nil, Call.ok, FAILURE, MAP_OK]

theorem readApplicationProperties_copy_avoids (c : Collab σ) (map : Nat)
    (pr : Int × Nat × Nat) (w : σ) :
    Avoids Call.isMessageDestroy (readApplicationProperties_copy c map pr w).trace := by
  simp only [readApplicationProperties_copy, bind_val, bind_trace, bind_world, ite_run,
    ite_val, ite_trace, pure_val, pure_trace, Ext.amqpvalue_get_string, Ext.Map_AddOrUpdate,
    ask_run]
  split_ifs <;> simp [avoids_append, avoids_cons, avoids_nil, Call.isMessageDestroy]

theorem readApplicationProperties_release_avoids (c : Collab σ) (k v : Nat) (w : σ) :
    Avoids Call.isMessageDestroy (readApplicationProperties_release c k v w).trace := by
  simp only [readApplicationProperties_release, bind_val, bind_trace, bind_world, ite_run,
    ite_val, ite_trace, ite_world, pure_val, pure_trace, pure_world, Ext.amqpvalue_destroy,
    tell_run]
  split_ifs <;> simp [avoids_append, avoids_cons, avoids_nil, Call.isMessageDestroy]

theorem readApplicationProperties_pass_ok (c : Collab σ) (map ipdv i : Nat) (w : σ)
    (hok : AllOk (readApplicationProperties_pass c map ipdv i w).trace) :
    (readApplicationProperties_pass c map ipdv i w).val = 0 := by
  revert hok
  simp only [readApplicationProperties_pass, bind_val, bind_trace, bind_world, pure_val,
    pure_trace, Ext.amqpvalue_get_map_key_value_pair, ask_run]
  generalize c.amqpvalue_get_map_key_value_pair ipdv i w = X0
  intro hok
  simp only [allOk_append, allOk_cons, allOk_nil, Call.ok, beq_iff_eq] at hok
  exact readApplicationProperties_copy_ok c map X0.1 X0.2 hok.1.1 hok.2.1

theorem readApplicationProperties_pass_avoids (c : Collab σ) (map ipdv i : Nat) (w : σ) :
    Avoids Call.isMessageDestroy (readApplicationProperties_pass c map ipdv i w).trace := by
  simp only [readApplicationProperties_pass, bind_val, bind_trace, bind_world, pure_val,
    pure_trace, Ext.amqpvalue_get_map_key_value_pair, ask_run]
  simp [avoids_append, avoids_cons, avoids_nil, Call.isMessageDestroy,
    readApplicationProperties_copy_avoids, readApplicationProperties_release_avoids]

theorem readApplicationProperties_loop_ok (c : Collab σ) (map ipdv : Nat) (fuel i : Nat)
    (w : σ) (hok : AllOk (readApplicationProperties_loop c map ipdv fuel i 0 w).trace) :
    (readApplicationProperties_loop c map ipdv fuel i 0 w).val = 0 := by
  induction fuel generalizing i w with
  | zero => rfl
  | succ n ih =>
    revert hok
    simp only [readApplicationProperties_loop, RESULT_OK, if_true, bind_val, bind_trace,
      bind_world]
    have k := readApplicationProperties_pass_ok c map ipdv i w
    generalize readApplicationProperties_pass c map ipdv i w = X at k ⊢
    intro hok
    simp only [allOk_append] at hok
    have e := k hok.1
    rw [e] at hok ⊢
    exact ih _ _ hok.2

theorem readApplicationProperties_loop_avoids (c : Collab σ) (map ipdv : Nat) (fuel i : Nat)
    (r0 : Int) (w : σ) :
    Avoids Call.isMessageDestroy
      (readApplicationProperties_loop c map ipdv fuel i r0 w).trace := by
  induction fuel generalizing i r0 w with
  | zero => simp [readApplicationProperties_loop, pure_trace, avoids_nil]
  | succ n ih =>
    simp only [readApplicationProperties_loop, ite_run, ite_trace, bind_trace, pure_trace]
    split_ifs
    · simp [avoids_append, readApplicationProperties_pass_avoids, ih]
    · exact avoids_nil _

theorem readApplicationProperties_map_ok (c : Collab σ) (map ap : Nat) (w : σ)
    (hok : AllOk (readApplicationProperties_map c map ap w).trace) :
    (readApplicationProperties_map c map ap w).val = 0 := by
  revert hok
  simp only [readApplicationProperties_map, bind_val, bind_trace, bind_world, ite_run,
    ite_val, ite_trace, pure_val, pure_trace, Ext.amqpvalue_get_inplace_described_value,
    Ext.amqpvalue_get_map_pair_count, ask_run]
  generalize c.amqpvalue_get_inplace_described_value ap w = X0
  by_cases h0 : X0.1 = 0
  · simp only [if_pos h0]
    intro hok
    simp [allOk_append, allOk_cons, Call.ok, h0] at hok
  simp only [if_neg h0]
  generalize c.amqpvalue_get_map_pair_count X0.1 X0.2 = X1
  by_cases h1 : X1.1.1 ≠ 0
  · simp only [if_pos h1]
    intro hok
    simp [allOk_append, allOk_cons, Call.ok, h1] at hok
  simp only [if_neg h1]
  rw [not_not.mp h1]
  intro hok
  simp only [allOk_append] at hok
  exact readApplicationProperties_loop_ok c map X0.1 X1.1.2 0 X1.2 hok.2.2

theorem readApplicationProperties_map_avoids (c : Collab σ) (map ap : Nat) (w : σ) :
    Avoids Call.isMessageDestroy (readApplicationProperties_map c map ap w).trace := by
  simp only [readApplicationProperties_map, bind_val, bind_trace, bind_world, ite_run,
    ite_val, ite_trace, pure_val, pure_trace, Ext.amqpvalue_get_inplace_described_value,
    Ext.amqpvalue_get_map_pair_count, ask_run]
  split_ifs <;>
    simp [avoids_append, avoids_cons, avoids_nil, Call.isMessageDestroy,
      readApplicationProperties_loop_avoids]

theorem readApplicationPropertiesFromuAMQPMessage_ok (c : Collab σ) (h m : Nat) (w : σ)
    (hok : AllOk (readApplicationPropertiesFromuAMQPMessage c h m w).trace) :
    (readApplicationPropertiesFromuAMQPMessage c h m w).val = 0 := by
  revert hok
  simp only [readApplicationPropertiesFromuAMQPMessage, bind_val, bind_trace, bind_world,
    ite_run, ite_val, ite_trace, pure_val, pure_trace, Ext.IoTHubMessage_Properties,
    Ext.message_get_application_properties, Ext.amqpvalue_destroy, ask_run, tell_run]
  generalize c.IoTHubMessage_Properties h w = X0
  by_cases h0 : X0.1 = 0
  · simp only [if_pos h0]
    intro hok
    simp [allOk_append, allOk_cons, Call.ok, h0] at hok
  simp only [if_neg h0]
  generalize c.message_get_application_properties m X0.2 = X1
  by_cases h1 : X1.1.1 ≠ 0
  · simp only [if_pos h1]
    intro hok
    simp [allOk_append, allOk_cons, Call.ok, h1] at hok
  simp only [if_neg h1]
  by_cases h2 : X1.1.2 = 0
  · simp only [if_pos h2]
    intro _
    trivial
  simp only [if_neg h2]
  intro hok
  simp only [allOk_append] at hok
  exact readApplicationProperties_map_ok c X0.1 X1.1.2 X1.2 hok.2.2.1

theorem readApplicationPropertiesFromuAMQPMessage_avoids (c : Collab σ) (h m : Nat) (w : σ) :
    Avoids Call.isMessageDestroy
      (readApplicationPropertiesFromuAMQPMessage c h m w).trace := by
  simp only [readApplicationPropertiesFromuAMQPMessage, bind_val, bind_trace, bind_world,
    ite_run, ite_val, ite_trace, pure_val, pure_trace, Ext.IoTHubMessage_Properties,
    Ext.message_get_application_properties, Ext.amqpvalue_destroy, ask_run, tell_run]
  split_ifs <;>
    simp [avoids_append, avoids_cons, avoids_nil, Call.isMessageDestroy,
      readApplicationProperties_map_avoids]

end DecodeLemmas

section DecodeWhole

variable {σ : Type}

/-- How the first half of the decoder can end: no message (with a failing
call, or a body that is not binary data), or the three calls that create the
message from the body bytes. -/
theorem create_from_body_cases (c : Collab σ) (m : Nat) (w : σ) :
    (∃ r t, (r ≠ 0 ∨ t ≠ MESSAGE_BODY_TYPE.MESSAGE_BODY_TYPE_DATA) ∧
      (create_from_body c m w).trace = [Call.message_get_body_type m r t] ∧
      (create_from_body c m w).val = (FAILURE, 0)) ∨
    (∃ r bd, r ≠ 0 ∧
      (create_from_body c m w).trace =
        [Call.message_get_body_type m 0 MESSAGE_BODY_TYPE.MESSAGE_BODY_TYPE_DATA,
          Call.message_get_body_amqp_data_in_place m 0 r bd] ∧
      (create_from_body c m w).val = (FAILURE, 0)) ∨
    (∃ bd handle,
      (create_from_body c m w).trace =
        [Call.message_get_body_type m 0 MESSAGE_BODY_TYPE.MESSAGE_BODY_TYPE_DATA,
          Call.message_get_body_amqp_data_in_place m 0 0 bd,
          Call.IoTHubMessage_CreateFromByteArray bd.bytes bd.length handle] ∧
      (create_from_body c m w).val = (FAILURE, handle)) := by
  simp only [create_from_body, bind_val, bind_trace, bind_world, ite_run, ite_val, ite_trace,
    pure_val, pure_trace, Ext.message_get_body_type, Ext.message_get_body_amqp_data_in_place,
    Ext.IoTHubMessage_CreateFromByteArray, ask_run]
  generalize c.message_get_body_type m w = X0
  by_cases h0 : X0.1.1 ≠ 0
  · simp only [if_pos h0]
    exact Or.inl ⟨X0.1.1, X0.1.2, Or.inl h0, by simp, trivial⟩
  simp only [if_neg h0]
  have h0' : X0.1.1 = 0 := not_not.mp h0
  by_cases h1 : X0.1.2 = MESSAGE_BODY_TYPE.MESSAGE_BODY_TYPE_DATA
  · simp only [if_pos h1]
    generalize c.message_get_body_amqp_data_in_place m 0 X0.2 = X1
    by_cases h2 : X1.1.1 ≠ 0
    · simp only [if_pos h2]
      exact Or.inr (Or.inl ⟨X1.1.1, X1.1.2, h2, by simp [h0', h1], trivial⟩)
    simp only [if_neg h2]
    have h2' : X1.1.1 = 0 := not_not.mp h2
    generalize c.IoTHubMessage_CreateFromByteArray X1.1.2.bytes X1.1.2.length X1.2 = X2
    refine Or.inr (Or.inr ⟨X1.1.2, X2.1, ?_, ?_⟩)
    · simp [h0', h1, h2']
    · by_cases h3 : X2.1 = 0
      · simp [h3]
      · simp [h3]
  · simp only [if_neg h1]
    exact Or.inl ⟨X0.1.1, X0.1.2, Or.inr h1, by simp, trivial⟩

theorem create_from_body_avoids (c : Collab σ) (m : Nat) (w : σ) :
    Avoids Call.isMessageDestroy (create_from_body c m w).trace := by
  rcases create_from_body_cases c m w with ⟨_, _, _, ht, _⟩ | ⟨_, _, _, ht, _⟩ |
    ⟨_, _, ht, _⟩ <;>
  · rw [ht]
    simp [avoids_cons, avoids_nil, Call.isMessageDestroy]

/-- Where a run of `IoTHubMessage_CreateFromUamqpMessage` can end, in terms
of its three parts: `B` creates the message, `R` and `A` are the readers. -/
theorem IoTHubMessage_CreateFromUamqpMessage_cases (c : Collab σ) (m old : Nat) (w : σ)
    (B : Out σ (Int × Nat)) (R A : Out σ Int)
    (hB : B = create_from_body c m w)
    (hR : R = readPropertiesFromuAMQPMessage c B.val.2 m B.world)
    (hA : A = readApplicationPropertiesFromuAMQPMessage c B.val.2 m R.world) :
    (B.val.2 = 0 ∧ (IoTHubMessage_CreateFromUamqpMessage c m old w).trace = B.trace ∧
      (IoTHubMessage_CreateFromUamqpMessage c m old w).val = (B.val.1, old)) ∨
    (B.val.2 ≠ 0 ∧ R.val ≠ 0 ∧
      (IoTHubMessage_CreateFromUamqpMessage c m old w).trace =
        B.trace ++ R.trace ++ [Call.IoTHubMessage_Destroy B.val.2] ∧
      (IoTHubMessage_CreateFromUamqpMessage c m old w).val = (FAILURE, old)) ∨
    (B.val.2 ≠ 0 ∧ R.val = 0 ∧ A.val ≠ 0 ∧
      (IoTHubMessage_CreateFromUamqpMessage c m old w).trace =
        B.trace ++ R.trace ++ A.trace ++ [Call.IoTHubMessage_Destroy B.val.2] ∧
      (IoTHubMessage_CreateFromUamqpMessage c m old w).val = (FAILURE, old)) ∨
    (B.val.2 ≠ 0 ∧ R.val = 0 ∧ A.val = 0 ∧
      (IoTHubMessage_CreateFromUamqpMessage c m old w).trace =
        B.trace ++ R.trace ++ A.trace ∧
      (IoTHubMessage_CreateFromUamqpMessage c m old w).val = (0, B.val.2)) := by
  simp only [IoTHubMessage_CreateFromUamqpMessage, bind_val, bind_trace, bind_world, ite_run,
    ite_val, ite_trace, pure_val, pure_trace, Ext.IoTHubMessage_Destroy, tell_run]
  rw [← hB, ← hR, ← hA]
  by_cases h0 : B.val.2 ≠ 0
  · simp only [if_pos h0]
    by_cases h1 : R.val ≠ RESULT_OK
    · simp only [if_pos h1]
      exact Or.inr (Or.inl ⟨h0, h1, by simp, trivial⟩)
    simp only [if_neg h1]
    by_cases h2 : A.val ≠ RESULT_OK
    · simp only [if_pos h2]
      exact Or.inr (Or.inr (Or.inl ⟨h0, not_not.mp h1, h2, by simp, trivial⟩))
    simp only [if_neg h2]
    exact Or.inr (Or.inr (Or.inr ⟨h0, not_not.mp h1, not_not.mp h2, by simp, rfl⟩))
  · simp only [if_neg h0]
    exact Or.inl ⟨not_not.mp h0, by simp, trivial⟩

end DecodeWhole

section ClaimsDecode

variable {σ : Type}

theorem filter_of_avoids (p : Call → Bool) (t : List Call) (h : Avoids p t) :
    t.filter p = [] := by
  rw [List.filter_eq_nil_iff]
  intro e he
  simp [h e he]

/-- C5. Decode success postcondition: when `message_get_body_type` answers
`MESSAGE_BODY_TYPE_DATA` and every collaborator call succeeds,
`IoTHubMessage_CreateFromUamqpMessage` returns 0 and stores in
`*iothubclient_message` the handle that `IoTHubMessage_CreateFromByteArray`
returned, which was called with exactly the bytes pointer and the length that
`message_get_body_amqp_data_in_place` reported for index 0. -/
theorem IoTHubMessage_CreateFromUamqpMessage_success_postcondition (c : Collab σ)
    (uamqp_message iothubclient_message : Nat) (w : σ)
    (hok : AllOk
      (IoTHubMessage_CreateFromUamqpMessage c uamqp_message iothubclient_message w).trace)
    (hdata : ∀ r t, Call.message_get_body_type uamqp_message r t ∈
      (IoTHubMessage_CreateFromUamqpMessage c uamqp_message iothubclient_message w).trace →
      t = MESSAGE_BODY_TYPE.MESSAGE_BODY_TYPE_DATA) :
    (IoTHubMessage_CreateFromUamqpMessage c uamqp_message iothubclient_message w).val.1 = 0 ∧
    ∃ amqp_data handle rest, handle ≠ 0 ∧
      (IoTHubMessage_CreateFromUamqpMessage c uamqp_message iothubclient_message w).trace =
        [Call.message_get_body_type uamqp_message 0
            MESSAGE_BODY_TYPE.MESSAGE_BODY_TYPE_DATA,
          Call.message_get_body_amqp_data_in_place uamqp_message 0 0 amqp_data,
          Call.IoTHubMessage_CreateFromByteArray amqp_data.bytes amqp_data.length handle] ++
          rest ∧
      (IoTHubMessage_CreateFromUamqpMessage c uamqp_message iothubclient_message w).val.2 =
        handle := by
  have hR := readPropertiesFromuAMQPMessage_ok c
    (create_from_body c uamqp_message w).val.2 uamqp_message
    (create_from_body c uamqp_message w).world
  have hA := readApplicationPropertiesFromuAMQPMessage_ok c
    (create_from_body c uamqp_message w).val.2 uamqp_message
    (readPropertiesFromuAMQPMessage c (create_from_body c uamqp_message w).val.2
      uamqp_message (create_from_body c uamqp_message w).world).world
  have hcases := IoTHubMessage_CreateFromUamqpMessage_cases c uamqp_message
    iothubclient_message w _ _ _ rfl rfl rfl
  have hB := create_from_body_cases c uamqp_message w
  generalize create_from_body c uamqp_message w = B at hR hA hcases hB
  generalize readPropertiesFromuAMQPMessage c B.val.2 uamqp_message B.world = R
    at hR hA hcases
  generalize readApplicationPropertiesFromuAMQPMessage c B.val.2 uamqp_message R.world = A
    at hA hcases
  generalize IoTHubMessage_CreateFromUamqpMessage c uamqp_message iothubclient_message w = F
    at hok hdata hcases
  have hpre : ∃ rest, F.trace = B.trace ++ rest := by
    rcases hcases with ⟨_, ht, _⟩ | ⟨_, _, ht, _⟩ | ⟨_, _, _, ht, _⟩ | ⟨_, _, _, ht, _⟩
    · exact ⟨[], by simp [ht]⟩
    · exact ⟨_, by rw [ht, List.append_assoc]⟩
    · exact ⟨_, by rw [ht, List.append_assoc, List.append_assoc]⟩
    · exact ⟨_, by rw [ht, List.append_assoc]⟩
  obtain ⟨rest, hrest⟩ := hpre
  have hBok : AllOk B.trace := by
    rw [hrest, allOk_append] at hok
    exact hok.1
  rcases hB with ⟨r, t, hrt, htB, _⟩ | ⟨r, bd, hr, htB, _⟩ | ⟨bd, handle, htB, hvB⟩
  · exfalso
    rcases hrt with hr | ht
    · rw [htB] at hBok
      simp [allOk_cons, Call.ok, hr] at hBok
    · apply ht
      apply hdata r
      rw [hrest, htB]
      simp
  · exfalso
    rw [htB] at hBok
    simp [allOk_cons, Call.ok, hr] at hBok
  · have hh : handle ≠ 0 := by
      rw [htB] at hBok
      simpa [allOk_cons, allOk_nil, Call.ok] using hBok
    have hB2 : B.val.2 = handle := by rw [hvB]
    rcases hcases with ⟨h0, _, _⟩ | ⟨_, hr, ht, _⟩ | ⟨_, _, ha, ht, _⟩ | ⟨_, _, _, ht, hv⟩
    · exact absurd (hB2 ▸ h0) hh
    · exfalso
      apply hr
      apply hR
      rw [ht, allOk_append, allOk_append] at hok
      exact hok.1.2
    · exfalso
      apply ha
      apply hA
      rw [ht, allOk_append, allOk_append, allOk_append] at hok
      exact hok.1.2
    · refine ⟨by rw [hv], bd, handle, R.trace ++ A.trace, hh, ?_, by rw [hv, hB2]⟩
      rw [ht, htB, List.append_assoc]

/-- C6. No partial message is returned: when
`IoTHubMessage_CreateFromUamqpMessage` returns non-zero,
`*iothubclient_message` is what it was before the call; it is written only
when the call returns 0, and then the message was created (a non-`NULL`
handle, which is the value written) and both readers returned 0. -/
theorem IoTHubMessage_CreateFromUamqpMessage_no_partial_message (c : Collab σ)
    (uamqp_message iothubclient_message : Nat) (w : σ) :
    ((IoTHubMessage_CreateFromUamqpMessage c uamqp_message iothubclient_message w).val.1 ≠ 0 →
      (IoTHubMessage_CreateFromUamqpMessage c uamqp_message iothubclient_message w).val.2 =
        iothubclient_message) ∧
    ((IoTHubMessage_CreateFromUamqpMessage c uamqp_message iothubclient_message w).val.2 ≠
        iothubclient_message →
      (IoTHubMessage_CreateFromUamqpMessage c uamqp_message iothubclient_message w).val.1 = 0) ∧
    ((IoTHubMessage_CreateFromUamqpMessage c uamqp_message iothubclient_message w).val.1 = 0 →
      (create_from_body c uamqp_message w).val.2 ≠ 0 ∧
      (IoTHubMessage_CreateFromUamqpMessage c uamqp_message iothubclient_message w).val.2 =
        (create_from_body c uamqp_message w).val.2 ∧
      (readPropertiesFromuAMQPMessage c (create_from_body c uamqp_message w).val.2
        uamqp_message (create_from_body c uamqp_message w).world).val = 0 ∧
      (readApplicationPropertiesFromuAMQPMessage c (create_from_body c uamqp_message w).val.2
        uamqp_message
        (readPropertiesFromuAMQPMessage c (create_from_body c uamqp_message w).val.2
          uamqp_message (create_from_body c uamqp_message w).world).world).val = 0) := by
  have hcases := IoTHubMessage_CreateFromUamqpMessage_cases c uamqp_message
    iothubclient_message w _ _ _ rfl rfl rfl
  have hB := create_from_body_cases c uamqp_message w
  generalize create_from_body c uamqp_message w = B at hcases hB ⊢
  generalize readPropertiesFromuAMQPMessage c B.val.2 uamqp_message B.world = R at hcases ⊢
  generalize readApplicationPropertiesFromuAMQPMessage c B.val.2 uamqp_message R.world = A
    at hcases ⊢
  generalize IoTHubMessage_CreateFromUamqpMessage c uamqp_message iothubclient_message w = F
    at hcases ⊢
  have hB1 : B.val.2 = 0 → B.val.1 ≠ 0 := by
    intro _
    rcases hB with ⟨_, _, _, _, hv⟩ | ⟨_, _, _, _, hv⟩ | ⟨_, _, _, hv⟩ <;>
      simp [hv, FAILURE]
  rcases hcases with ⟨h0, _, hv⟩ | ⟨_, _, _, hv⟩ | ⟨_, _, _, _, hv⟩ | ⟨h0, hr, ha, _, hv⟩
  · refine ⟨fun _ => by rw [hv], fun h => absurd (by rw [hv]) h, fun h => ?_⟩
    rw [hv] at h
    exact absurd h (hB1 h0)
  · refine ⟨fun _ => by rw [hv], fun h => absurd (by rw [hv]) h, fun h => ?_⟩
    rw [hv] at h
    simp [FAILURE] at h
  · refine ⟨fun _ => by rw [hv], fun h => absurd (by rw [hv]) h, fun h => ?_⟩
    rw [hv] at h
    simp [FAILURE] at h
  · refine ⟨fun h => absurd (by rw [hv]) h, fun _ => by rw [hv], fun _ => ?_⟩
    exact ⟨h0, by rw [hv], hr, ha⟩

/-- C7. Decode failure atomicity: in every run of
`IoTHubMessage_CreateFromUamqpMessage` the calls of `IoTHubMessage_Destroy` are
exactly one call, on the created message, when the message was created and
the result is non-zero, and none otherwise; with a created message the result
is non-zero exactly when one of the two readers returned non-zero. -/
theorem IoTHubMessage_CreateFromUamqpMessage_destroys (c : Collab σ)
    (uamqp_message iothubclient_message : Nat) (w : σ) :
    (IoTHubMessage_CreateFromUamqpMessage c uamqp_message iothubclient_message
        w).trace.filter Call.isMessageDestroy =
      (if (create_from_body c uamqp_message w).val.2 ≠ 0 ∧
          (IoTHubMessage_CreateFromUamqpMessage c uamqp_message iothubclient_message
            w).val.1 ≠ 0 then
        [Call.IoTHubMessage_Destroy (create_from_body c uamqp_message w).val.2]
      else []) ∧
    ((create_from_body c uamqp_message w).val.2 ≠ 0 →
      ((IoTHubMessage_CreateFromUamqpMessage c uamqp_message iothubclient_message
          w).val.1 ≠ 0 ↔
        ((readPropertiesFromuAMQPMessage c (create_from_body c uamqp_message w).val.2
          uamqp_message (create_from_body c uamqp_message w).world).val ≠ 0 ∨
        (readApplicationPropertiesFromuAMQPMessage c
          (create_from_body c uamqp_message w).val.2 uamqp_message
          (readPropertiesFromuAMQPMessage c (create_from_body c uamqp_message w).val.2
            uamqp_message (create_from_body c uamqp_message w).world).world).val ≠ 0))) ∧
    ((create_from_body c uamqp_message w).val.2 ≠ 0 →
      ∃ p n, Call.IoTHubMessage_CreateFromByteArray p n
          (create_from_body c uamqp_message w).val.2 ∈
        (IoTHubMessage_CreateFromUamqpMessage c uamqp_message iothubclient_message
          w).trace) := by
  have hcases := IoTHubMessage_CreateFromUamqpMessage_cases c uamqp_message
    iothubclient_message w _ _ _ rfl rfl rfl
  have aB := create_from_body_avoids c uamqp_message w
  have aR := readPropertiesFromuAMQPMessage_avoids c
    (create_from_body c uamqp_message w).val.2 uamqp_message
    (create_from_body c uamqp_message w).world
  have aA := readApplicationPropertiesFromuAMQPMessage_avoids c
    (create_from_body c uamqp_message w).val.2 uamqp_message
    (readPropertiesFromuAMQPMessage c (create_from_body c uamqp_message w).val.2
      uamqp_message (create_from_body c uamqp_message w).world).world
  have hB := create_from_body_cases c uamqp_message w
  generalize create_from_body c uamqp_message w = B at hcases aB aR aA hB ⊢
  generalize readPropertiesFromuAMQPMessage c B.val.2 uamqp_message B.world = R
    at hcases aR aA ⊢
  generalize readApplicationPropertiesFromuAMQPMessage c B.val.2 uamqp_message R.world = A
    at hcases aA ⊢
  generalize IoTHubMessage_CreateFromUamqpMessage c uamqp_message iothubclient_message w = F
    at hcases ⊢
  have hB1 : B.val.2 ≠ 0 →
      ∃ p n, Call.IoTHubMessage_CreateFromByteArray p n B.val.2 ∈ B.trace := by
    intro hne
    rcases hB with ⟨_, _, _, _, hv⟩ | ⟨_, _, _, _, hv⟩ | ⟨bd, handle, ht, hv⟩
    · rw [hv] at hne
      exact absurd rfl hne
    · rw [hv] at hne
      exact absurd rfl hne
    · exact ⟨bd.bytes, bd.length, by rw [ht, hv]; simp⟩
  have fB := filter_of_avoids _ _ aB
  have fR := filter_of_avoids _ _ aR
  have fA := filter_of_avoids _ _ aA
  rcases hcases with ⟨h0, ht, hv⟩ | ⟨h0, hr, ht, hv⟩ | ⟨h0, hr, ha, ht, hv⟩ |
    ⟨h0, hr, ha, ht, hv⟩
  · refine ⟨?_, fun h => absurd h0 h, fun h => absurd h0 h⟩
    rw [ht, fB]
    simp [h0]
  · refine ⟨?_, fun _ => ?_, fun h => ?_⟩
    · rw [ht, hv]
      simp [List.filter_append, fB, fR, Call.isMessageDestroy, h0, FAILURE]
    · rw [hv]
      simp [FAILURE, hr]
    · obtain ⟨p, n, hmem⟩ := hB1 h
      exact ⟨p, n, by rw [ht]; simp [hmem]⟩
  · refine ⟨?_, fun _ => ?_, fun h => ?_⟩
    · rw [ht, hv]
      simp [List.filter_append, fB, fR, fA, Call.isMessageDestroy, h0, FAILURE]
    · rw [hv]
      simp [FAILURE, ha]
    · obtain ⟨p, n, hmem⟩ := hB1 h
      exact ⟨p, n, by rw [ht]; simp [hmem]⟩
  · refine ⟨?_, fun _ => ?_, fun h => ?_⟩
    · rw [ht, hv]
      simp [List.filter_append, fB, fR, fA]
    · rw [hv]
      simp [hr, ha]
    · obtain ⟨p, n, hmem⟩ := hB1 h
      exact ⟨p, n, by rw [ht]; simp [hmem]⟩

end ClaimsDecode

/-- Witness for C5: the scripted AMQP message of the unit test. -/
theorem IoTHubMessage_CreateFromUamqpMessage_success_postcondition_witness :
    AllOk (IoTHubMessage_CreateFromUamqpMessage (mock testScript) 257 0 0).trace ∧
      (IoTHubMessage_CreateFromUamqpMessage (mock testScript) 257 0 0).val = (0, 256) :=
  ⟨by decide,
    Prod.ext
      (IoTHubMessage_CreateFromUamqpMessage_success_postcondition (mock testScript) 257 0 0
        (by decide)
        (fun r t hmem => by
          have hall : ∀ e ∈ (IoTHubMessage_CreateFromUamqpMessage (mock testScript) 257 0
              0).trace,
              (match e with
                | Call.message_get_body_type _ _ t =>
                  decide (t = MESSAGE_BODY_TYPE.MESSAGE_BODY_TYPE_DATA)
                | _ => true) = true := by decide
          simpa using hall _ hmem)).1
      (by decide)⟩

/-! ## Runs against the reference collaborator -/

section ReferenceRuns

theorem deref_new {α : Type} (heap : List α) (x : α) :
    deref (heap ++ [x]) (heap.length + 1) = some x := by
  simp [deref]

theorem deref_lt {α : Type} (heap : List α) (h : Nat) (x : α)
    (hx : deref heap h = some x) : h ≠ 0 ∧ h - 1 < heap.length ∧ heap[h - 1]? = some x := by
  unfold deref at hx
  by_cases h0 : h = 0
  · simp [h0] at hx
  · simp only [if_neg h0] at hx
    refine ⟨h0, ?_, hx⟩
    by_contra hge
    rw [List.getElem?_eq_none (Nat.le_of_not_lt hge)] at hx
    cases hx

theorem deref_append {α : Type} (heap extra : List α) (h : Nat) (x : α)
    (hx : deref heap h = some x) : deref (heap ++ extra) h = some x := by
  obtain ⟨h0, hlt, hget⟩ := deref_lt heap h x hx
  unfold deref
  rw [if_neg h0, List.getElem?_append_left hlt]
  exact hget

theorem deref_set_same {α : Type} (heap : List α) (h : Nat) (x y : α)
    (hx : deref heap h = some x) : deref (heap.set (h - 1) y) h = some y := by
  obtain ⟨h0, hlt, _⟩ := deref_lt heap h x hx
  unfold deref
  rw [if_neg h0]
  simp [List.getElem?_set, hlt]

theorem deref_set_other {α : Type} (heap : List α) (h k : Nat) (y : α)
    (h0 : h ≠ 0) (hk : k ≠ h) : deref (heap.set (h - 1) y) k = deref heap k := by
  unfold deref
  by_cases k0 : k = 0
  · simp [k0]
  · rw [if_neg k0, if_neg k0]
    have hne : h - 1 ≠ k - 1 := by omega
    simp [List.getElem?_set, hne]

theorem set_new {α : Type} (heap : List α) (x y : α) :
    (heap ++ [x]).set (heap.length + 1 - 1) y = heap ++ [y] := by
  simp

theorem deref_append_add {α : Type} (heap l : List α) (k : Nat) :
    deref (heap ++ l) (heap.length + (k + 1)) = deref l (k + 1) := by
  have h1 : heap.length + (k + 1) - 1 = heap.length + k := by omega
  have h2 : heap.length ≤ heap.length + k := by omega
  simp only [deref, Nat.succ_ne_zero, if_false, h1, Nat.add_sub_cancel, List.getElem?_append_right h2,
    Nat.add_sub_cancel_left]
  rw [if_neg (by omega)]

theorem deref_cons_one {α : Type} (a : α) (l : List α) : deref (a :: l) 1 = some a := by
  simp [deref]

theorem deref_cons_succ {α : Type} (a : α) (l : List α) (k : Nat) :
    deref (a :: l) (k + 1 + 1) = deref l (k + 1) := by
  simp [deref]

theorem reference_properties_create (enc : AmqpValue → List Nat) :
    (reference enc).properties_create =
    fun w => w.newProperties AmqpProperties.empty := rfl

theorem reference_properties_destroy (enc : AmqpValue → List Nat) :
    (reference enc).properties_destroy =
    fun _ w => w := rfl

theorem reference_IoTHubMessage_GetMessageId (enc : AmqpValue → List Nat) :
    (reference enc).IoTHubMessage_GetMessageId =
    fun h w =>
      ((deref w.messages h).bind ApplicationMessage.messageId, w) := rfl

theorem reference_IoTHubMessage_GetCorrelationId (enc : AmqpValue → List Nat) :
    (reference enc).IoTHubMessage_GetCorrelationId =
    fun h w =>
      ((deref w.messages h).bind ApplicationMessage.correlationId, w) := rfl

theorem reference_IoTHubMessage_GetContentTypeSystemProperty (enc : AmqpValue → List Nat) :
    (reference enc).IoTHubMessage_GetContentTypeSystemProperty =
    fun h w =>
      ((deref w.messages h).bind ApplicationMessage.contentType, w) := rfl

theorem reference_IoTHubMessage_GetContentEncodingSystemProperty (enc : AmqpValue → List Nat) :
    (reference enc).IoTHubMessage_GetContentEncodingSystemProperty =
    fun h w =>
      ((deref w.messages h).bind ApplicationMessage.contentEncoding, w) := rfl

theorem reference_amqpvalue_create_string (enc : AmqpValue → List Nat) :
    (reference enc).amqpvalue_create_string =
    fun s w => w.newValue (AmqpValue.simple (AmqpSimple.string s)) := rfl

theorem reference_amqpvalue_destroy (enc : AmqpValue → List Nat) :
    (reference enc).amqpvalue_destroy =
    fun _ w => w := rfl

theorem reference_properties_set_message_id (enc : AmqpValue → List Nat) :
    (reference enc).properties_set_message_id =
    fun p v w =>
      match (deref w.values v).bind AmqpValue.toSimple with
      | some x => w.setProperties p (fun r => { r with message_id := some x })
      | none => (1, w) := rfl

theorem reference_properties_set_correlation_id (enc : AmqpValue → List Nat) :
    (reference enc).properties_set_correlation_id =
    fun p v w =>
      match (deref w.values v).bind AmqpValue.toSimple with
      | some x => w.setProperties p (fun r => { r with correlation_id := some x })
      | none => (1, w) := rfl

theorem reference_properties_set_content_type (enc : AmqpValue → List Nat) :
    (reference enc).properties_set_content_type =
    fun p s w =>
      w.setProperties p (fun r => { r with content_type := some s }) := rfl

theorem reference_properties_set_content_encoding (enc : AmqpValue → List Nat) :
    (reference enc).properties_set_content_encoding =
    fun p s w =>
      w.setProperties p (fun r => { r with content_encoding := some s }) := rfl

theorem reference_amqpvalue_create_properties (enc : AmqpValue → List Nat) :
    (reference enc).amqpvalue_create_properties =
    fun p w =>
      match deref w.properties p with
      | some r => w.newValue (AmqpValue.properties r)
      | none => (0, w) := rfl

theorem reference_amqpvalue_get_encoded_size (enc : AmqpValue → List Nat) :
    (reference enc).amqpvalue_get_encoded_size =
    fun v w =>
      match deref w.values v with
      | some x => ((0, (enc x).length), w)
      | none => ((1, 0), w) := rfl

theorem reference_IoTHubMessage_Properties (enc : AmqpValue → List Nat) :
    (reference enc).IoTHubMessage_Properties =
    fun h w => (if (deref w.messages h).isSome then h else 0, w) := rfl

theorem reference_Map_GetInternals (enc : AmqpValue → List Nat) :
    (reference enc).Map_GetInternals =
    fun m w =>
      match deref w.messages m with
      | some msg =>
        ((0, fun i => (msg.properties.map Prod.fst).getD i "",
          fun i => (msg.properties.map Prod.snd).getD i "", msg.properties.length), w)
      | none => ((1, fun _ => "", fun _ => "", 0), w) := rfl

theorem reference_amqpvalue_create_map (enc : AmqpValue → List Nat) :
    (reference enc).amqpvalue_create_map =
    fun w => w.newValue (AmqpValue.map []) := rfl

theorem reference_amqpvalue_set_map_value (enc : AmqpValue → List Nat) :
    (reference enc).amqpvalue_set_map_value =
    fun m k v w =>
      match deref w.values m, (deref w.values k).bind AmqpValue.toSimple,
        (deref w.values v).bind AmqpValue.toSimple with
      | some (AmqpValue.map entries), some a, some b =>
        (0, { w with values := w.values.set (m - 1) (AmqpValue.map (upsert entries a b)) })
      | _, _, _ => (1, w) := rfl

theorem reference_amqpvalue_create_application_properties (enc : AmqpValue → List Nat) :
    (reference enc).amqpvalue_create_application_properties =
    fun m w =>
      match deref w.values m with
      | some (AmqpValue.map entries) => w.newValue (AmqpValue.application_properties entries)
      | _ => (0, w) := rfl

theorem reference_IoTHubMessage_GetContentType (enc : AmqpValue → List Nat) :
    (reference enc).IoTHubMessage_GetContentType =
    fun h w =>
      match deref w.messages h with
      | some msg =>
        (match msg.body with
          | MessageBody.byteArray _ => IOTHUBMESSAGE_CONTENT_TYPE.IOTHUBMESSAGE_BYTEARRAY
          | MessageBody.text _ => IOTHUBMESSAGE_CONTENT_TYPE.IOTHUBMESSAGE_STRING, w)
      | none => (IOTHUBMESSAGE_CONTENT_TYPE.IOTHUBMESSAGE_UNKNOWN, w) := rfl

theorem reference_IoTHubMessage_GetByteArray (enc : AmqpValue → List Nat) :
    (reference enc).IoTHubMessage_GetByteArray =
    fun h w =>
      match (deref w.messages h).map ApplicationMessage.body with
      | some (MessageBody.byteArray bytes) =>
        ((IOTHUB_MESSAGE_RESULT.IOTHUB_MESSAGE_OK, some (bytes.map some), bytes.length), w)
      | _ => ((IOTHUB_MESSAGE_RESULT.IOTHUB_MESSAGE_INVALID_ARG, none, 0), w) := rfl

theorem reference_IoTHubMessage_GetString (enc : AmqpValue → List Nat) :
    (reference enc).IoTHubMessage_GetString =
    fun h w =>
      match (deref w.messages h).map ApplicationMessage.body with
      | some (MessageBody.text s) => (some s, w)
      | _ => (none, w) := rfl

theorem reference_amqpvalue_create_data (enc : AmqpValue → List Nat) :
    (reference enc).amqpvalue_create_data =
    fun d w =>
      match d.bytes with
      | some cells => w.newValue (AmqpValue.data (readBytes cells d.length))
      | none => if d.length = 0 then w.newValue (AmqpValue.data []) else (0, w) := rfl

theorem reference_malloc (enc : AmqpValue → List Nat) :
    (reference enc).malloc =
    fun _ w => (true, w) := rfl

theorem reference_amqpvalue_encode (enc : AmqpValue → List Nat) :
    (reference enc).amqpvalue_encode =
    fun v w =>
      match deref w.values v with
      | some x => (([enc x], 0), w)
      | none => (([], 1), w) := rfl

theorem reference_message_get_body_type (enc : AmqpValue → List Nat) :
    (reference enc).message_get_body_type =
    fun m w =>
      match deref w.amqp_messages m with
      | some msg =>
        ((0, if msg.body = [] then MESSAGE_BODY_TYPE.MESSAGE_BODY_TYPE_NONE
          else MESSAGE_BODY_TYPE.MESSAGE_BODY_TYPE_DATA), w)
      | none => ((1, MESSAGE_BODY_TYPE.MESSAGE_BODY_TYPE_NONE), w) := rfl

theorem reference_message_get_body_amqp_data_in_place (enc : AmqpValue → List Nat) :
    (reference enc).message_get_body_amqp_data_in_place =
    fun m i w =>
      match (deref w.amqp_messages m).bind (fun msg => msg.body[i]?) with
      | some bytes => ((0, ⟨some (bytes.map some), bytes.length⟩), w)
      | none => ((1, ⟨none, 0⟩), w) := rfl

theorem reference_IoTHubMessage_CreateFromByteArray (enc : AmqpValue → List Nat) :
    (reference enc).IoTHubMessage_CreateFromByteArray =
    fun p n w =>
      match p with
      | some cells =>
        w.newMessage ⟨MessageBody.byteArray (readBytes cells n), none, none, none, none, []⟩
      | none =>
        if n = 0 then w.newMessage ⟨MessageBody.byteArray [], none, none, none, none, []⟩
        else (0, w) := rfl

theorem reference_IoTHubMessage_Destroy (enc : AmqpValue → List Nat) :
    (reference enc).IoTHubMessage_Destroy =
    fun _ w => w := rfl

theorem reference_message_get_properties (enc : AmqpValue → List Nat) :
    (reference enc).message_get_properties =
    fun m w =>
      match deref w.amqp_messages m with
      | some msg =>
        ((0, (w.newProperties (msg.properties.getD AmqpProperties.empty)).1),
          (w.newProperties (msg.properties.getD AmqpProperties.empty)).2)
      | none => ((1, 0), w) := rfl

theorem reference_properties_get_message_id (enc : AmqpValue → List Nat) :
    (reference enc).properties_get_message_id =
    fun p w =>
      match (deref w.properties p).bind AmqpProperties.message_id with
      | some x => ((0, (w.newValue (AmqpValue.simple x)).1), (w.newValue (AmqpValue.simple x)).2)
      | none => ((1, 0), w) := rfl

theorem reference_properties_get_correlation_id (enc : AmqpValue → List Nat) :
    (reference enc).properties_get_correlation_id =
    fun p w =>
      match (deref w.properties p).bind AmqpProperties.correlation_id with
      | some x => ((0, (w.newValue (AmqpValue.simple x)).1), (w.newValue (AmqpValue.simple x)).2)
      | none => ((1, 0), w) := rfl

theorem reference_amqpvalue_get_type (enc : AmqpValue → List Nat) :
    (reference enc).amqpvalue_get_type =
    fun v w =>
      match deref w.values v with
      | some (AmqpValue.simple (AmqpSimple.string _)) => (AMQP_TYPE.AMQP_TYPE_STRING, w)
      | some (AmqpValue.simple AmqpSimple.null) => (AMQP_TYPE.AMQP_TYPE_NULL, w)
      | some (AmqpValue.map _) => (AMQP_TYPE.AMQP_TYPE_MAP, w)
      | some _ => (AMQP_TYPE.AMQP_TYPE_DESCRIBED, w)
      | none => (AMQP_TYPE.AMQP_TYPE_UNKNOWN, w) := rfl

theorem reference_amqpvalue_get_string (enc : AmqpValue → List Nat) :
    (reference enc).amqpvalue_get_string =
    fun v w =>
      match deref w.values v with
      | some (AmqpValue.simple (AmqpSimple.string s)) => ((0, some s), w)
      | _ => ((1, none), w) := rfl

theorem reference_IoTHubMessage_SetMessageId (enc : AmqpValue → List Nat) :
    (reference enc).IoTHubMessage_SetMessageId =
    fun h s w =>
      match s with
      | some s =>
        if (w.setMessage h (fun m => { m with messageId := some s })).1 then
          (IOTHUB_MESSAGE_RESULT.IOTHUB_MESSAGE_OK,
            (w.setMessage h (fun m => { m with messageId := some s })).2)
        else (IOTHUB_MESSAGE_RESULT.IOTHUB_MESSAGE_INVALID_ARG, w)
      | none => (IOTHUB_MESSAGE_RESULT.IOTHUB_MESSAGE_INVALID_ARG, w) := rfl

theorem reference_IoTHubMessage_SetCorrelationId (enc : AmqpValue → List Nat) :
    (reference enc).IoTHubMessage_SetCorrelationId =
    fun h s w =>
      match s with
      | some s =>
        if (w.setMessage h (fun m => { m with correlationId := some s })).1 then
          (IOTHUB_MESSAGE_RESULT.IOTHUB_MESSAGE_OK,
            (w.setMessage h (fun m => { m with correlationId := some s })).2)
        else (IOTHUB_MESSAGE_RESULT.IOTHUB_MESSAGE_INVALID_ARG, w)
      | none => (IOTHUB_MESSAGE_RESULT.IOTHUB_MESSAGE_INVALID_ARG, w) := rfl

theorem reference_message_get_application_properties (enc : AmqpValue → List Nat) :
    (reference enc).message_get_application_properties =
    fun m w =>
      match deref w.amqp_messages m with
      | some msg =>
        (match msg.application_properties with
          | some entries =>
            ((0, (w.newValue (AmqpValue.application_properties entries)).1),
              (w.newValue (AmqpValue.application_properties entries)).2)
          | none => ((0, 0), w))
      | none => ((1, 0), w) := rfl

theorem reference_amqpvalue_get_inplace_described_value (enc : AmqpValue → List Nat) :
    (reference enc).amqpvalue_get_inplace_described_value =
    fun v w =>
      match deref w.values v with
      | some (AmqpValue.application_properties entries) => w.newValue (AmqpValue.map entries)
      | _ => (0, w) := rfl

theorem reference_amqpvalue_get_map_pair_count (enc : AmqpValue → List Nat) :
    (reference enc).amqpvalue_get_map_pair_count =
    fun v w =>
      match deref w.values v with
      | some (AmqpValue.map entries) => ((0, entries.length), w)
      | _ => ((1, 0), w) := rfl

theorem reference_amqpvalue_get_map_key_value_pair (enc : AmqpValue → List Nat) :
    (reference enc).amqpvalue_get_map_key_value_pair =
    fun v i w =>
      match (deref w.values v) with
      | some (AmqpValue.map entries) =>
        (match entries[i]? with
          | some (a, b) =>
            ((0, w.values.length + 1, w.values.length + 2),
              { w with values := w.values ++ [AmqpValue.simple a, AmqpValue.simple b] })
          | none => ((1, 0, 0), w))
      | _ => ((1, 0, 0), w) := rfl

theorem reference_Map_AddOrUpdate (enc : AmqpValue → List Nat) :
    (reference enc).Map_AddOrUpdate =
    fun m k v w =>
      match k, v with
      | some k, some v =>
        if (w.setMessage m (fun msg => { msg with properties := upsert msg.properties k v })).1
        then (0, (w.setMessage m
          (fun msg => { msg with properties := upsert msg.properties k v })).2)
        else (1, w)
      | _, _ => (1, w) := rfl

theorem reference_message_properties (enc : AmqpValue → List Nat) (w : World) (h : Nat)
    (msg : ApplicationMessage) (mid cid : String) (mp mpl : Nat)
    (hm : deref w.messages h = some msg)
    (hmid : msg.messageId = some mid) (hcid : msg.correlationId = some cid) :
    (create_message_properties_to_encode (reference enc) h mp mpl w).val =
      (0, w.values.length + 3, (enc (AmqpValue.properties
        ⟨some (AmqpSimple.string mid), some (AmqpSimple.string cid), msg.contentType,
          msg.contentEncoding⟩)).length) ∧
    (create_message_properties_to_encode (reference enc) h mp mpl w).world =
      { w with
        values := w.values ++ [AmqpValue.simple (AmqpSimple.string mid),
          AmqpValue.simple (AmqpSimple.string cid), AmqpValue.properties
            ⟨some (AmqpSimple.string mid), some (AmqpSimple.string cid), msg.contentType,
              msg.contentEncoding⟩],
        properties := w.properties ++ [⟨some (AmqpSimple.string mid),
          some (AmqpSimple.string cid), msg.contentType, msg.contentEncoding⟩] } := by
  cases hct : msg.contentType <;> cases hce : msg.contentEncoding <;>
  simp only [create_message_properties_to_encode, set_message_id_if_needed, hct, hce,
    set_message_correlation_id_if_needed, set_message_content_type_if_needed,
    set_message_content_encoding_if_needed, Ext.properties_create,
    Ext.IoTHubMessage_GetMessageId, Ext.IoTHubMessage_GetCorrelationId,
    Ext.IoTHubMessage_GetContentTypeSystemProperty,
    Ext.IoTHubMessage_GetContentEncodingSystemProperty, Ext.amqpvalue_create_string,
    Ext.amqpvalue_destroy, Ext.properties_set_message_id, Ext.properties_set_correlation_id,
    Ext.properties_set_content_type, Ext.properties_set_content_encoding,
    Ext.amqpvalue_create_properties, Ext.amqpvalue_get_encoded_size,
    bind_val, bind_world, ask_run, tell_run, reference_properties_create, reference_IoTHubMessage_GetMessageId, reference_IoTHubMessage_GetCorrelationId, reference_IoTHubMessage_GetContentTypeSystemProperty, reference_IoTHubMessage_GetContentEncodingSystemProperty, reference_amqpvalue_create_string, reference_amqpvalue_destroy, reference_properties_set_message_id, reference_properties_set_correlation_id, reference_properties_set_content_type, reference_properties_set_content_encoding, reference_amqpvalue_create_properties, reference_amqpvalue_get_encoded_size, World.newProperties, World.newValue,
    World.setProperties, AmqpProperties.empty, hm, hmid, hcid, Option.some_bind,
    Nat.succ_ne_zero, if_false, ite_run, ite_val, ite_world, pure_val, pure_world, deref_new,
    set_new, AmqpValue.toSimple, List.append_assoc, List.singleton_append, List.length_append,
    List.length_singleton, List.length_cons, List.length_nil, Nat.zero_add, Nat.add_assoc,
    Nat.reduceAdd, deref_append_add, deref_cons_one, deref_cons_succ, ne_eq, not_true_eq_false, ite_false, ite_true,
    RESULT_OK, FAILURE, not_false_eq_true]
  all_goals simp [deref]


theorem reference_properties_loop_step (enc : AmqpValue → List Nat)
    (keys values : Nat → String) (m fuel i : Nat) (r : Int) (w : World)
    (acc : List (AmqpSimple × AmqpSimple)) (hM : deref w.values m = some (AmqpValue.map acc)) :
    (create_application_properties_loop (reference enc) keys values m (fuel + 1) i r w).val =
      (create_application_properties_loop (reference enc) keys values m fuel (i + 1) 0
        ⟨w.messages, (w.values ++ [AmqpValue.simple (AmqpSimple.string (keys i)),
            AmqpValue.simple (AmqpSimple.string (values i))]).set (m - 1)
              (AmqpValue.map (upsert acc (AmqpSimple.string (keys i))
                (AmqpSimple.string (values i)))), w.properties, w.amqp_messages⟩).val ∧
    (create_application_properties_loop (reference enc) keys values m (fuel + 1) i r w).world =
      (create_application_properties_loop (reference enc) keys values m fuel (i + 1) 0
        ⟨w.messages, (w.values ++ [AmqpValue.simple (AmqpSimple.string (keys i)),
            AmqpValue.simple (AmqpSimple.string (values i))]).set (m - 1)
              (AmqpValue.map (upsert acc (AmqpSimple.string (keys i))
                (AmqpSimple.string (values i)))), w.properties, w.amqp_messages⟩).world := by
  have hM2 : ∀ extra, deref (w.values ++ extra) m = some (AmqpValue.map acc) :=
    fun extra => deref_append _ extra _ _ hM
  simp only [create_application_properties_loop, Ext.amqpvalue_create_string,
    Ext.amqpvalue_destroy, Ext.amqpvalue_set_map_value,
    bind_val, bind_world, ask_run, tell_run, reference_amqpvalue_create_string, reference_amqpvalue_destroy, reference_amqpvalue_set_map_value, World.newValue,
    Option.some_bind,
    Nat.succ_ne_zero, if_false, ite_run, ite_val, ite_world, pure_val, pure_world,
    AmqpValue.toSimple, List.append_assoc, List.singleton_append, List.length_append,
    List.length_singleton, List.length_cons, List.length_nil, Nat.zero_add, Nat.add_assoc,
    Nat.reduceAdd, deref_append_add, deref_cons_one, deref_cons_succ, ne_eq, not_true_eq_false,
    ite_false, ite_true, RESULT_OK, FAILURE, not_false_eq_true, hM2]
  exact ⟨trivial, trivial⟩


theorem reference_properties_loop (enc : AmqpValue → List Nat)
    (keys values : Nat → String) (m : Nat) :
    ∀ (fuel i : Nat) (w : World) (acc : List (AmqpSimple × AmqpSimple)),
      deref w.values m = some (AmqpValue.map acc) →
      (create_application_properties_loop (reference enc) keys values m fuel i 0 w).val = 0 ∧
      (create_application_properties_loop (reference enc) keys values m fuel i 0
        w).world.messages = w.messages ∧
      deref (create_application_properties_loop (reference enc) keys values m fuel i 0
        w).world.values m = some (AmqpValue.map
          (((List.range' i fuel).map (fun j => (keys j, values j))).foldl
            (fun a kv => upsert a (AmqpSimple.string kv.1) (AmqpSimple.string kv.2)) acc)) ∧
      ∀ k x, k ≠ m → deref w.values k = some x →
        deref (create_application_properties_loop (reference enc) keys values m fuel i 0
          w).world.values k = some x := by
  intro fuel
  induction fuel with
  | zero =>
    intro i w acc hM
    refine ⟨rfl, rfl, ?_, fun k x _ hk => hk⟩
    simpa [create_application_properties_loop, pure_world] using hM
  | succ fuel ih =>
    intro i w acc hM
    obtain ⟨sv, sw⟩ := reference_properties_loop_step enc keys values m fuel i 0 w acc hM
    have hM0 : m ≠ 0 := (deref_lt _ _ _ hM).1
    have hM2 : deref ((w.values ++ [AmqpValue.simple (AmqpSimple.string (keys i)),
        AmqpValue.simple (AmqpSimple.string (values i))]).set (m - 1)
          (AmqpValue.map (upsert acc (AmqpSimple.string (keys i))
            (AmqpSimple.string (values i))))) m = some (AmqpValue.map (upsert acc
              (AmqpSimple.string (keys i)) (AmqpSimple.string (values i)))) :=
      deref_set_same _ _ _ _ (deref_append _ _ _ _ hM)
    obtain ⟨h1, h2, h3, h4⟩ := ih (i + 1) ⟨w.messages, _, w.properties, w.amqp_messages⟩ _ hM2
    rw [sv, sw]
    refine ⟨h1, h2, ?_, ?_⟩
    · rw [h3]
      simp [List.range'_succ]
    · intro k x hk hx
      apply h4 k x hk
      show deref (List.set _ _ _) k = some x
      rw [deref_set_other _ _ _ _ hM0 hk]
      exact deref_append _ _ _ _ hx


theorem deref_length_succ {α : Type} (heap : List α) : deref heap (heap.length + 1) = none := by
  simp [deref]

theorem reference_application_properties (enc : AmqpValue → List Nat) (w : World) (h : Nat)
    (msg : ApplicationMessage) (ap apl : Nat)
    (hm : deref w.messages h = some msg) (hN : msg.properties ≠ []) :
    ∃ entries,
      entries = ((List.range' 0 msg.properties.length).map
        (fun j => ((msg.properties.map Prod.fst).getD j "",
          (msg.properties.map Prod.snd).getD j ""))).foldl
        (fun a kv => upsert a (AmqpSimple.string kv.1) (AmqpSimple.string kv.2)) [] ∧
      (create_application_properties_to_encode (reference enc) h ap apl w).val.1 = 0 ∧
      (create_application_properties_to_encode (reference enc) h ap apl w).val.2.2 =
        (enc (AmqpValue.application_properties entries)).length ∧
      deref (create_application_properties_to_encode (reference enc) h ap apl w).world.values
        (create_application_properties_to_encode (reference enc) h ap apl w).val.2.1 =
          some (AmqpValue.application_properties entries) ∧
      (create_application_properties_to_encode (reference enc) h ap apl w).world.messages =
        w.messages ∧
      ∀ k x, deref w.values k = some x →
        deref (create_application_properties_to_encode (reference enc) h ap apl w).world.values
          k = some x := by
  have hpos : msg.properties.length > 0 := List.length_pos.mpr hN
  have h0 : h ≠ 0 := (deref_lt _ _ _ hm).1
  obtain ⟨l1, l2, l3, l4⟩ := reference_properties_loop enc
    (fun i => (msg.properties.map Prod.fst).getD i "")
    (fun i => (msg.properties.map Prod.snd).getD i "") (w.values.length + 1)
    msg.properties.length 0 ⟨w.messages, w.values ++ [AmqpValue.map []], w.properties,
      w.amqp_messages⟩ [] (deref_new _ _)
  refine ⟨_, rfl, ?_⟩
  simp only [create_application_properties_to_encode, Ext.IoTHubMessage_Properties,
    Ext.Map_GetInternals, Ext.amqpvalue_create_map,
    Ext.amqpvalue_create_application_properties, Ext.amqpvalue_get_encoded_size,
    bind_val, bind_world, ask_run, tell_run, reference_IoTHubMessage_Properties, reference_Map_GetInternals, reference_amqpvalue_create_map, reference_amqpvalue_create_application_properties, reference_amqpvalue_get_encoded_size, World.newValue,
    hm, Option.isSome_some, if_true, h0, hpos,
    Nat.succ_ne_zero, if_false, ite_run, ite_val, ite_world, pure_val, pure_world,
    ne_eq, not_true_eq_false,
    ite_false, ite_true, RESULT_OK, FAILURE, not_false_eq_true, l1, l3, deref_new, true_and]
  refine ⟨l2, fun k x hk => deref_append _ _ _ _ (l4 k x ?_ (deref_append _ _ _ _ hk))⟩
  intro hk2
  rw [hk2, deref_length_succ] at hk
  cases hk


theorem readBytes_map_some (bytes : List Nat) (n : Nat) :
    readBytes (bytes.map some) n = bytes.take n := by
  have hf : ((fun cell : Option Nat => cell.getD 0) ∘ some) = id := by
    funext x
    rfl
  simp [readBytes, List.map_take, hf]

theorem reference_data (enc : AmqpValue → List Nat) (w : World) (h : Nat)
    (msg : ApplicationMessage) (bytes : List Nat) (dv dl : Nat)
    (hm : deref w.messages h = some msg) (hbody : msg.body = MessageBody.byteArray bytes) :
    (create_data_to_encode (reference enc) h dv dl w).val =
      (0, w.values.length + 1,
        (enc (AmqpValue.data (bytes.take (bytes.length % 2 ^ 32)))).length) ∧
    (create_data_to_encode (reference enc) h dv dl w).world =
      ⟨w.messages, w.values ++ [AmqpValue.data (bytes.take (bytes.length % 2 ^ 32))],
        w.properties, w.amqp_messages⟩ := by
  simp only [create_data_to_encode, create_data_value, Ext.IoTHubMessage_GetContentType,
    Ext.IoTHubMessage_GetByteArray, Ext.amqpvalue_create_data, Ext.amqpvalue_get_encoded_size,
    reference_IoTHubMessage_GetContentType, reference_IoTHubMessage_GetByteArray,
    reference_amqpvalue_create_data, reference_amqpvalue_get_encoded_size,
    bind_val, bind_world, ask_run, hm, hbody, Option.map_some', World.newValue,
    Nat.succ_ne_zero, if_false, ite_run, ite_val, ite_world, pure_val, pure_world,
    ne_eq, not_true_eq_false, ite_false, ite_true, RESULT_OK, FAILURE, not_false_eq_true,
    deref_new, readBytes_map_some, reduceCtorEq]
  exact ⟨trivial, trivial⟩




theorem memcpy_three (a b c : List Nat) :
    memcpy (memcpy (memcpy (List.replicate (a.length + b.length + c.length) none) 0 a)
      a.length b) (a.length + b.length) c = (a ++ b ++ c).map some := by
  have h1 := memcpy_append (List.replicate (a.length + b.length + c.length) none) 0 (a ++ b) c
  have h2 := memcpy_append (List.replicate (a.length + b.length + c.length) none) 0 a b
  have h3 := memcpy_fill [] (List.replicate (a.length + b.length + c.length) none)
    (a ++ b ++ c) (by simp [Nat.add_assoc])
  simp only [Nat.zero_add, List.length_append, List.nil_append, List.length_nil] at h1 h2 h3
  rw [← h2, ← h1]
  exact h3

theorem reference_encode (enc : AmqpValue → List Nat) (msg : ApplicationMessage)
    (bytes : List Nat) (mid cid : String) (b : BINARY_DATA)
    (hbody : msg.body = MessageBody.byteArray bytes)
    (hmid : msg.messageId = some mid) (hcid : msg.correlationId = some cid)
    (hN : msg.properties ≠ []) :
    (create_amqp_message_data_frame (reference enc) 1 b
        (World.sender msg)).val.message_properties_length =
      (enc (AmqpValue.properties ⟨some (AmqpSimple.string mid),
        some (AmqpSimple.string cid), msg.contentType, msg.contentEncoding⟩)).length ∧
    (create_amqp_message_data_frame (reference enc) 1 b
        (World.sender msg)).val.application_properties_length =
      (enc (AmqpValue.application_properties (((List.range' 0 msg.properties.length).map
        (fun j => ((msg.properties.map Prod.fst).getD j "",
          (msg.properties.map Prod.snd).getD j ""))).foldl
        (fun a kv => upsert a (AmqpSimple.string kv.1) (AmqpSimple.string kv.2)) []))).length ∧
    (create_amqp_message_data_frame (reference enc) 1 b (World.sender msg)).val.data_length =
      (enc (AmqpValue.data (bytes.take (bytes.length % 2 ^ 32)))).length ∧
    ((enc (AmqpValue.properties ⟨some (AmqpSimple.string mid),
        some (AmqpSimple.string cid), msg.contentType, msg.contentEncoding⟩)).length +
      (enc (AmqpValue.application_properties (((List.range' 0 msg.properties.length).map
        (fun j => ((msg.properties.map Prod.fst).getD j "",
          (msg.properties.map Prod.snd).getD j ""))).foldl
        (fun a kv => upsert a (AmqpSimple.string kv.1) (AmqpSimple.string kv.2)) []))).length +
      (enc (AmqpValue.data (bytes.take (bytes.length % 2 ^ 32)))).length < 2 ^ 64 →
    (create_amqp_message_data (reference enc) 1 b (World.sender msg)).val =
      (0, ⟨some ((enc (AmqpValue.properties ⟨some (AmqpSimple.string mid),
          some (AmqpSimple.string cid), msg.contentType, msg.contentEncoding⟩) ++
        enc (AmqpValue.application_properties (((List.range' 0 msg.properties.length).map
          (fun j => ((msg.properties.map Prod.fst).getD j "",
            (msg.properties.map Prod.snd).getD j ""))).foldl
          (fun a kv => upsert a (AmqpSimple.string kv.1) (AmqpSimple.string kv.2)) [])) ++
        enc (AmqpValue.data (bytes.take (bytes.length % 2 ^ 32)))).map some),
        (enc (AmqpValue.properties ⟨some (AmqpSimple.string mid),
          some (AmqpSimple.string cid), msg.contentType, msg.contentEncoding⟩)).length +
        (enc (AmqpValue.application_properties (((List.range' 0 msg.properties.length).map
          (fun j => ((msg.properties.map Prod.fst).getD j "",
            (msg.properties.map Prod.snd).getD j ""))).foldl
          (fun a kv => upsert a (AmqpSimple.string kv.1) (AmqpSimple.string kv.2)) []))).length +
        (enc (AmqpValue.data (bytes.take (bytes.length % 2 ^ 32)))).length⟩)) := by
  have hm : deref (World.sender msg).messages 1 = some msg := rfl
  obtain ⟨pv, pw⟩ := reference_message_properties enc (World.sender msg) 1 msg mid cid 0 0 hm
    hmid hcid
  obtain ⟨c, hc⟩ : ∃ c, c = reference enc := ⟨_, rfl⟩
  obtain ⟨w0, hw⟩ : ∃ w0, w0 = World.sender msg := ⟨_, rfl⟩
  rw [← hc, ← hw] at pv pw
  rw [← hc, ← hw, create_amqp_message_data_val]
  simp only [create_amqp_message_data_frame, bind_val, bind_world,
    ite_run, ite_val, ite_world, pure_val, pure_world, malloc_run, amqpvalue_encode_run]
  generalize create_message_properties_to_encode c 1 0 0 w0 = P at pv pw ⊢
  have hm1 : deref P.world.messages 1 = some msg := by rw [pw, hw]; exact hm
  have hp : deref P.world.values P.val.2.1 = some (AmqpValue.properties
      ⟨some (AmqpSimple.string mid), some (AmqpSimple.string cid), msg.contentType,
        msg.contentEncoding⟩) := by
    rw [pw, pv, hw]
    simp [World.sender, deref]
  obtain ⟨entries, he, a1, a2, a3, a4, a5⟩ :=
    reference_application_properties enc P.world 1 msg 0 0 hm1 hN
  rw [← he]
  rw [← hc] at a1 a2 a3 a4 a5
  generalize create_application_properties_to_encode c 1 0 0 P.world = A
    at a1 a2 a3 a4 a5 ⊢
  have hm2 : deref A.world.messages 1 = some msg := by rw [a4]; exact hm1
  obtain ⟨dv, dw⟩ := reference_data enc A.world 1 msg bytes 0 0 hm2 hbody
  rw [← hc] at dv dw
  generalize create_data_to_encode c 1 0 0 A.world = D at dv dw ⊢
  have e1 : deref D.world.values P.val.2.1 = some (AmqpValue.properties
      ⟨some (AmqpSimple.string mid), some (AmqpSimple.string cid), msg.contentType,
        msg.contentEncoding⟩) := by
    rw [dw]
    exact deref_append _ _ _ _ (a5 _ _ hp)
  have e2 : deref D.world.values A.val.2.1 =
      some (AmqpValue.application_properties entries) := by
    rw [dw]
    exact deref_append _ _ _ _ a3
  have e3 : deref D.world.values D.val.2.1 = some (AmqpValue.data
      (bytes.take (bytes.length % 2 ^ 32))) := by
    rw [dw, dv]
    exact deref_new _ _
  have p1 : P.val.1 = 0 := by rw [pv]
  have p2 : P.val.2.2 = (enc (AmqpValue.properties
      ⟨some (AmqpSimple.string mid), some (AmqpSimple.string cid), msg.contentType,
        msg.contentEncoding⟩)).length := by rw [pv]
  have d1 : D.val.1 = 0 := by rw [dv]
  have d2 : D.val.2.2 =
      (enc (AmqpValue.data (bytes.take (bytes.length % 2 ^ 32)))).length := by rw [dv]
  subst hc
  simp only [reference_malloc, reference_amqpvalue_encode,
    e1, e2, e3, p1, p2, a1, a2, d1, d2, RESULT_OK, FAILURE, ne_eq, not_true_eq_false, if_false,
    if_true, ite_false, ite_true, pure_val, List.foldl_cons, List.foldl_nil, encode_callback,
    Option.map_some', reduceCtorEq, not_false_eq_true]
  by_cases hb : (enc (AmqpValue.application_properties entries)).length > 0
  · simp only [hb, if_true, true_and, not_true_eq_false, if_false, Nat.zero_add,
      memcpy_three, e3, List.foldl_cons, List.foldl_nil, Option.map_some', ne_eq, ite_false,
      ite_true]
    intro hfit
    rw [size_t_sum_of_lt _ _ _ hfit, memcpy_three]
  · have hb0 : enc (AmqpValue.application_properties entries) = [] :=
      List.length_eq_zero.mp (by omega)
    have h3 := memcpy_three (enc (AmqpValue.properties ⟨some (AmqpSimple.string mid),
      some (AmqpSimple.string cid), msg.contentType, msg.contentEncoding⟩)) []
      (enc (AmqpValue.data (bytes.take (bytes.length % 2 ^ 32))))
    simp only [memcpy, List.length_nil, Nat.add_zero, List.append_nil] at h3
    simp only [hb0, List.length_nil, gt_iff_lt, Nat.lt_irrefl, false_and, if_false,
      Nat.zero_add, Nat.add_zero, List.append_nil, h3, e3, List.foldl_cons, List.foldl_nil,
      Option.map_some', ne_eq, ite_false, ite_true, not_true_eq_false]
    refine ⟨trivial, trivial, trivial, fun hfit => ?_⟩
    rw [size_t_sum_of_lt _ _ _ (by simpa using hfit), Nat.add_zero, h3]

theorem reference_read_loop_step (enc : AmqpValue → List Nat) (h v fuel i : Nat) (w : World)
    (entries : List (AmqpSimple × AmqpSimple)) (m : ApplicationMessage) (key value : String)
    (hV : deref w.values v = some (AmqpValue.map entries))
    (hH : deref w.messages h = some m)
    (hE : entries[i]? = some (AmqpSimple.string key, AmqpSimple.string value)) :
    (readApplicationProperties_loop (reference enc) h v (fuel + 1) i 0 w).val =
      (readApplicationProperties_loop (reference enc) h v fuel (i + 1) 0
        ⟨w.messages.set (h - 1) { m with properties := upsert m.properties key value },
          w.values ++ [AmqpValue.simple (AmqpSimple.string key),
            AmqpValue.simple (AmqpSimple.string value)], w.properties, w.amqp_messages⟩).val ∧
    (readApplicationProperties_loop (reference enc) h v (fuel + 1) i 0 w).world =
      (readApplicationProperties_loop (reference enc) h v fuel (i + 1) 0
        ⟨w.messages.set (h - 1) { m with properties := upsert m.properties key value },
          w.values ++ [AmqpValue.simple (AmqpSimple.string key),
            AmqpValue.simple (AmqpSimple.string value)], w.properties, w.amqp_messages⟩).world := by
  simp only [readApplicationProperties_loop, readApplicationProperties_pass,
    readApplicationProperties_copy, readApplicationProperties_release,
    Ext.amqpvalue_get_map_key_value_pair, Ext.amqpvalue_get_string, Ext.Map_AddOrUpdate,
    Ext.amqpvalue_destroy, reference_amqpvalue_get_map_key_value_pair,
    reference_amqpvalue_get_string, reference_Map_AddOrUpdate, reference_amqpvalue_destroy,
    bind_val, bind_world, ask_run, tell_run, hV, hH, hE, World.setMessage,
    Nat.succ_ne_zero, if_false, ite_run, ite_val, ite_world, pure_val, pure_world,
    List.append_assoc, List.singleton_append, List.length_append,
    List.length_singleton, List.length_cons, List.length_nil, Nat.zero_add, Nat.add_assoc,
    Nat.reduceAdd, deref_append_add, deref_cons_one, deref_cons_succ, ne_eq, not_true_eq_false,
    ite_false, ite_true, RESULT_OK, FAILURE, MAP_OK, not_false_eq_true]
  exact ⟨trivial, trivial⟩


theorem reference_read_loop (enc : AmqpValue → List Nat) (h v : Nat)
    (pairs : List (String × String)) :
    ∀ (fuel i : Nat) (w : World) (m : ApplicationMessage),
      deref w.values v = some (AmqpValue.map
        (pairs.map (fun kv => (AmqpSimple.string kv.1, AmqpSimple.string kv.2)))) →
      deref w.messages h = some m → i + fuel = pairs.length →
      (readApplicationProperties_loop (reference enc) h v fuel i 0 w).val = 0 ∧
      deref (readApplicationProperties_loop (reference enc) h v fuel i 0 w).world.messages h =
        some { m with properties :=
          (pairs.drop i).foldl (fun a kv => upsert a kv.1 kv.2) m.properties } := by
  intro fuel
  induction fuel with
  | zero =>
    intro i w m _ hH hi
    have hd : pairs.drop i = [] := List.drop_eq_nil_of_le (by omega)
    rw [hd]
    exact ⟨rfl, hH⟩
  | succ fuel ih =>
    intro i w m hV hH hi
    have hlt : i < pairs.length := by omega
    have hE : (pairs.map (fun kv => (AmqpSimple.string kv.1, AmqpSimple.string kv.2)))[i]? =
        some (AmqpSimple.string pairs[i].1, AmqpSimple.string pairs[i].2) := by
      rw [List.getElem?_map, List.getElem?_eq_getElem hlt]
      rfl
    obtain ⟨sv, sw⟩ := reference_read_loop_step enc h v fuel i w _ m _ _ hV hH hE
    obtain ⟨h1, h2⟩ := ih (i + 1)
      ⟨w.messages.set (h - 1) { m with properties := upsert m.properties pairs[i].1 pairs[i].2 },
        w.values ++ [AmqpValue.simple (AmqpSimple.string pairs[i].1),
          AmqpValue.simple (AmqpSimple.string pairs[i].2)], w.properties, w.amqp_messages⟩
      { m with properties := upsert m.properties pairs[i].1 pairs[i].2 }
      (deref_append _ _ _ _ hV) (deref_set_same _ _ _ _ hH) (by omega)
    rw [sv, sw]
    refine ⟨h1, ?_⟩
    rw [h2, List.drop_eq_getElem_cons hlt]
    rfl


theorem reference_create_from_body (enc : AmqpValue → List Nat) (received : AmqpMessage)
    (body : List Nat) (hb : received.body = [body]) :
    (create_from_body (reference enc) 1 (World.receiver received)).val = (FAILURE, 1) ∧
    (create_from_body (reference enc) 1 (World.receiver received)).world =
      ⟨[⟨MessageBody.byteArray body, none, none, none, none, []⟩], [], [], [received]⟩ := by
  simp only [create_from_body,
    Ext.message_get_body_type, Ext.message_get_body_amqp_data_in_place,
    Ext.IoTHubMessage_CreateFromByteArray,
    reference_message_get_body_type, reference_message_get_body_amqp_data_in_place,
    reference_IoTHubMessage_CreateFromByteArray,
    bind_val, bind_world, ask_run, tell_run, World.receiver, World.newMessage,
    deref_cons_one, hb,
    if_false, ite_run, ite_val, ite_world, pure_val, pure_world,
    List.nil_append, List.cons_append, List.length_cons, List.length_nil,
    Nat.zero_add, Nat.reduceAdd, ne_eq, not_true_eq_false, Option.some_bind,
    ite_false, ite_true, RESULT_OK, FAILURE, not_false_eq_true, reduceCtorEq,
    List.getElem?_cons_zero, readBytes_map_some, List.take_length, one_ne_zero]
  exact ⟨trivial, trivial⟩

theorem reference_read_properties (enc : AmqpValue → List Nat) (m0 : ApplicationMessage)
    (received : AmqpMessage) (mid cid : String) (ct ce : Option String)
    (hp : received.properties =
      some ⟨some (AmqpSimple.string mid), some (AmqpSimple.string cid), ct, ce⟩) :
    (readPropertiesFromuAMQPMessage (reference enc) 1 1 ⟨[m0], [], [], [received]⟩).val = 0 ∧
    (readPropertiesFromuAMQPMessage (reference enc) 1 1 ⟨[m0], [], [], [received]⟩).world =
      ⟨[{ m0 with messageId := some mid, correlationId := some cid }],
        [AmqpValue.simple (AmqpSimple.string mid), AmqpValue.simple (AmqpSimple.string cid)],
        [⟨some (AmqpSimple.string mid), some (AmqpSimple.string cid), ct, ce⟩],
        [received]⟩ := by
  simp only [readPropertiesFromuAMQPMessage, read_message_id, read_correlation_id,
    Ext.message_get_properties, Ext.properties_get_message_id,
    Ext.properties_get_correlation_id, Ext.amqpvalue_get_type, Ext.amqpvalue_get_string,
    Ext.IoTHubMessage_SetMessageId, Ext.IoTHubMessage_SetCorrelationId,
    Ext.properties_destroy,
    reference_message_get_properties, reference_properties_get_message_id,
    reference_properties_get_correlation_id, reference_amqpvalue_get_type,
    reference_amqpvalue_get_string, reference_IoTHubMessage_SetMessageId,
    reference_IoTHubMessage_SetCorrelationId, reference_properties_destroy,
    bind_val, bind_world, ask_run, tell_run, World.newValue,
    World.newProperties, World.setMessage, deref_cons_one, deref_cons_succ, hp,
    if_false, ite_run, ite_val, ite_world, pure_val, pure_world,
    List.nil_append, List.cons_append, List.length_cons, List.length_nil,
    Nat.zero_add, Nat.reduceAdd, ne_eq, not_true_eq_false, Option.some_bind, Option.getD_some,
    ite_false, ite_true, RESULT_OK, FAILURE, not_false_eq_true, reduceCtorEq, one_ne_zero,
    Nat.sub_self, List.set_cons_zero, Nat.reduceSub]
  exact ⟨trivial, trivial⟩


theorem reference_read_application_properties (enc : AmqpValue → List Nat)
    (m1 : ApplicationMessage) (received : AmqpMessage) (v1 v2 : AmqpValue)
    (props : List AmqpProperties) (pairs : List (String × String))
    (ha : received.application_properties =
      some (pairs.map (fun kv => (AmqpSimple.string kv.1, AmqpSimple.string kv.2)))) :
    (readApplicationPropertiesFromuAMQPMessage (reference enc) 1 1
      ⟨[m1], [v1, v2], props, [received]⟩).val = 0 ∧
    deref (readApplicationPropertiesFromuAMQPMessage (reference enc) 1 1
      ⟨[m1], [v1, v2], props, [received]⟩).world.messages 1 =
      some ⟨m1.body, m1.messageId, m1.correlationId, m1.contentType, m1.contentEncoding,
        pairs.foldl (fun a kv => upsert a kv.1 kv.2) m1.properties⟩ := by
  obtain ⟨l1, l2⟩ := reference_read_loop enc 1 4 pairs pairs.length 0
    ⟨[m1], [v1, v2, AmqpValue.application_properties
      (pairs.map (fun kv => (AmqpSimple.string kv.1, AmqpSimple.string kv.2))),
      AmqpValue.map (pairs.map (fun kv => (AmqpSimple.string kv.1, AmqpSimple.string kv.2)))],
      props, [received]⟩ m1 (by simp [deref]) (by simp [deref]) (by simp)
  simp only [readApplicationPropertiesFromuAMQPMessage, readApplicationProperties_map,
    Ext.IoTHubMessage_Properties,
    Ext.message_get_application_properties, Ext.amqpvalue_get_inplace_described_value,
    Ext.amqpvalue_get_map_pair_count, Ext.amqpvalue_destroy,
    reference_IoTHubMessage_Properties, reference_message_get_application_properties,
    reference_amqpvalue_get_inplace_described_value, reference_amqpvalue_get_map_pair_count,
    reference_amqpvalue_destroy,
    bind_val, bind_world, ask_run, tell_run, World.newValue, deref_cons_one, deref_cons_succ, ha,
    if_false, ite_run, ite_val, ite_world, pure_val, pure_world,
    List.nil_append, List.cons_append, List.length_cons, List.length_nil, List.length_map,
    Nat.zero_add, Nat.reduceAdd, ne_eq, not_true_eq_false, Option.some_bind, Option.isSome_some,
    ite_false, ite_true, RESULT_OK, FAILURE, not_false_eq_true, reduceCtorEq, one_ne_zero,
    Nat.sub_self, List.set_cons_zero, Nat.reduceSub, l1, l2, List.drop_zero]
  exact ⟨trivial, trivial⟩


theorem reference_decode (enc : AmqpValue → List Nat) (received : AmqpMessage)
    (mid cid : String) (ct ce : Option String) (pairs : List (String × String))
    (body : List Nat) (out0 : Nat)
    (hb : received.body = [body])
    (hp : received.properties =
      some ⟨some (AmqpSimple.string mid), some (AmqpSimple.string cid), ct, ce⟩)
    (ha : received.application_properties =
      some (pairs.map (fun kv => (AmqpSimple.string kv.1, AmqpSimple.string kv.2)))) :
    (IoTHubMessage_CreateFromUamqpMessage (reference enc) 1 out0
      (World.receiver received)).val = (0, 1) ∧
    deref (IoTHubMessage_CreateFromUamqpMessage (reference enc) 1 out0
      (World.receiver received)).world.messages 1 =
      some ⟨MessageBody.byteArray body, some mid, some cid, none, none,
        pairs.foldl (fun a kv => upsert a kv.1 kv.2) []⟩ := by
  obtain ⟨bv, bw⟩ := reference_create_from_body enc received body hb
  obtain ⟨rv, rw_⟩ := reference_read_properties enc
    ⟨MessageBody.byteArray body, none, none, none, none, []⟩ received mid cid ct ce hp
  obtain ⟨av, aw⟩ := reference_read_application_properties enc
    ⟨MessageBody.byteArray body, some mid, some cid, none, none, []⟩ received
    (AmqpValue.simple (AmqpSimple.string mid)) (AmqpValue.simple (AmqpSimple.string cid))
    [⟨some (AmqpSimple.string mid), some (AmqpSimple.string cid), ct, ce⟩] pairs ha
  obtain ⟨c, hc⟩ : ∃ c, c = reference enc := ⟨_, rfl⟩
  rw [← hc] at bv bw rv rw_ av aw
  rw [← hc]
  simp only [IoTHubMessage_CreateFromUamqpMessage, bind_val, bind_world, ite_run, ite_val,
    ite_world, pure_val, pure_world]
  generalize create_from_body c 1 (World.receiver received) = B at bv bw ⊢
  have b2 : B.val.2 = 1 := by rw [bv]
  rw [b2, bw]
  generalize readPropertiesFromuAMQPMessage c 1 1
    ⟨[⟨MessageBody.byteArray body, none, none, none, none, []⟩], [], [], [received]⟩ = R
    at rv rw_ ⊢
  rw [rv, rw_]
  generalize readApplicationPropertiesFromuAMQPMessage c 1 1
    ⟨[⟨MessageBody.byteArray body, some mid, some cid, none, none, []⟩],
      [AmqpValue.simple (AmqpSimple.string mid), AmqpValue.simple (AmqpSimple.string cid)],
      [⟨some (AmqpSimple.string mid), some (AmqpSimple.string cid), ct, ce⟩], [received]⟩ = A
    at av aw ⊢
  rw [av]
  simp only [RESULT_OK, one_ne_zero, ne_eq, not_true_eq_false, not_false_eq_true, if_true,
    if_false, ite_true, ite_false, aw, true_and]


theorem upsert_new {α β : Type} [DecidableEq α] (l : List (α × β)) (k : α) (v : β)
    (hk : k ∉ l.map Prod.fst) : upsert l k v = l ++ [(k, v)] := by
  induction l with
  | nil => rfl
  | cons x rest ih =>
    obtain ⟨k1, v1⟩ := x
    have h1 : k1 ≠ k := fun h => hk (by simp [h])
    have h2 : k ∉ rest.map Prod.fst := fun h => hk (by simp [h])
    simp [upsert, h1, ih h2]

theorem foldl_upsert_nodup {α β : Type} [DecidableEq α] (fk : String → α) (fv : String → β)
    (pairs : List (String × String)) :
    ∀ acc : List (α × β),
      (acc.map Prod.fst ++ pairs.map (fun kv => fk kv.1)).Nodup →
      pairs.foldl (fun a kv => upsert a (fk kv.1) (fv kv.2)) acc =
        acc ++ pairs.map (fun kv => (fk kv.1, fv kv.2)) := by
  induction pairs with
  | nil => intro acc _; simp
  | cons x rest ih =>
    intro acc hnd
    have hx : fk x.1 ∉ acc.map Prod.fst := by
      intro hmem
      have := List.nodup_append.mp hnd
      exact this.2.2 hmem (by simp)
    have hnd2 : ((acc ++ [(fk x.1, fv x.2)]).map Prod.fst ++
        rest.map (fun kv => fk kv.1)).Nodup := by
      simpa [List.append_assoc] using hnd
    rw [List.foldl_cons, upsert_new acc _ _ hx, ih _ hnd2]
    simp

theorem range_getD_pairs (pairs : List (String × String)) :
    (List.range' 0 pairs.length).map
      (fun j => ((pairs.map Prod.fst).getD j "", (pairs.map Prod.snd).getD j "")) = pairs := by
  apply List.ext_getElem
  · simp
  · intro i h1 h2
    simp at h1
    simp [List.getD, h1]

theorem codesString_stringCodes (s : String) : codesString (stringCodes s) = s := by
  have h : (Char.ofNat ∘ Char.toNat) = id := by
    funext c
    exact Char.ofNat_toNat c
  simp [codesString, stringCodes, h]

theorem amqpSimple_ofCode_code (x : AmqpSimple) : AmqpSimple.ofCode x.code = x := by
  cases x <;> simp [AmqpSimple.ofCode, AmqpSimple.code, codesString_stringCodes]

theorem amqpProperties_ofCode_code (p : AmqpProperties) : AmqpProperties.ofCode p.code = p := by
  obtain ⟨a, b, c, d⟩ := p
  cases a <;> cases b <;> cases c <;> cases d <;>
    simp [AmqpProperties.ofCode, AmqpProperties.code, amqpSimple_ofCode_code,
      codesString_stringCodes]

theorem entriesOfCode_entriesCode (entries : List (AmqpSimple × AmqpSimple)) :
    entriesOfCode (entriesCode entries) = entries := by
  induction entries with
  | nil => rfl
  | cons x rest ih =>
    simp only [entriesCode, entriesOfCode, List.map_cons, List.map_map] at ih ⊢
    rw [ih]
    simp [amqpSimple_ofCode_code]

theorem toyParse_toyEnc (p : AmqpProperties) (entries : List (AmqpSimple × AmqpSimple))
    (bytes : List Nat) :
    toyParse (toyEnc (AmqpValue.properties p) ++
      toyEnc (AmqpValue.application_properties entries) ++ toyEnc (AmqpValue.data bytes)) =
      some ⟨some p, some entries, [bytes]⟩ := by
  show toyParse [Encodable.encode p.code, Encodable.encode (entriesCode entries),
    Encodable.encode bytes] = _
  simp only [toyParse, Encodable.encodek, amqpProperties_ofCode_code,
    entriesOfCode_entriesCode]


theorem contents_filled (l : List Nat) (n : Nat) (hn : n = l.length) :
    BINARY_DATA.contents ⟨some (l.map some), n⟩ = l := by
  subst hn
  simp [BINARY_DATA.contents, readBytes_map_some]

/-- What the round trip over the reference collaborator returns, for every
body length, when the three lengths the builders compute sum below `2 ^ 64`:
the ids and the properties come back, the content type and encoding do not,
and the body is cut to its length modulo `2 ^ 32`. -/
theorem round_trip_reference (enc : AmqpValue → List Nat)
    (parse : List Nat → Option AmqpMessage)
    (hcodec : ∀ p entries bytes, parse (enc (AmqpValue.properties p) ++
      enc (AmqpValue.application_properties entries) ++ enc (AmqpValue.data bytes)) =
        some ⟨some p, some entries, [bytes]⟩)
    (msg : ApplicationMessage) (bytes : List Nat) (mid cid : String)
    (hbody : msg.body = MessageBody.byteArray bytes)
    (hmid : msg.messageId = some mid) (hcid : msg.correlationId = some cid)
    (hN : msg.properties ≠ []) (hkeys : (msg.properties.map Prod.fst).Nodup)
    (hfit : (create_amqp_message_data_frame (reference enc) 1 ⟨none, 0⟩
        (World.sender msg)).val.message_properties_length +
      (create_amqp_message_data_frame (reference enc) 1 ⟨none, 0⟩
        (World.sender msg)).val.application_properties_length +
      (create_amqp_message_data_frame (reference enc) 1 ⟨none, 0⟩
        (World.sender msg)).val.data_length < 2 ^ 64) :
    round_trip enc parse msg =
      some ⟨MessageBody.byteArray (bytes.take (bytes.length % 2 ^ 32)), some mid, some cid,
        none, none, msg.properties⟩ := by
  obtain ⟨l1, l2, l3, he⟩ := reference_encode enc msg bytes mid cid ⟨none, 0⟩ hbody hmid hcid hN
  rw [l1, l2, l3] at hfit
  replace he := he hfit
  have hnd : (([] : List (AmqpSimple × AmqpSimple)).map Prod.fst ++
      msg.properties.map (fun kv => AmqpSimple.string kv.1)).Nodup := by
    rw [List.map_nil, List.nil_append]
    have hinj : ((msg.properties.map Prod.fst).map AmqpSimple.string).Nodup :=
      List.Nodup.map (fun a b h => by injection h) hkeys
    simpa [List.map_map] using hinj
  have hnd2 : (([] : List (String × String)).map Prod.fst ++
      msg.properties.map (fun kv => id kv.1)).Nodup := by
    simpa using hkeys
  have f1 := foldl_upsert_nodup AmqpSimple.string AmqpSimple.string msg.properties [] hnd
  have f2 := foldl_upsert_nodup (fun s : String => s) (fun s : String => s) msg.properties [] hnd2
  rw [range_getD_pairs, f1, List.nil_append] at he
  obtain ⟨dv, dw⟩ := reference_decode enc
    ⟨some ⟨some (AmqpSimple.string mid), some (AmqpSimple.string cid), msg.contentType,
      msg.contentEncoding⟩,
      some (msg.properties.map (fun kv => (AmqpSimple.string kv.1, AmqpSimple.string kv.2))),
      [bytes.take (bytes.length % 2 ^ 32)]⟩ mid cid msg.contentType msg.contentEncoding
    msg.properties (bytes.take (bytes.length % 2 ^ 32)) 0 rfl rfl rfl
  simp only [List.nil_append, List.map_id', Prod.mk.eta] at f2
  rw [f2] at dw
  unfold round_trip
  simp only [he, ne_eq, not_true_eq_false, if_false, ite_false]
  rw [contents_filled _ _ (by simp [Nat.add_assoc]), hcodec]
  simp only [dv, dw, ne_eq, not_true_eq_false, if_false, ite_false]

theorem toyEnc_length (v : AmqpValue) : (toyEnc v).length = 1 := by
  cases v <;> rfl

end ReferenceRuns

/-! ## The round trip -/

section ClaimsRoundTrip

/-- C1, counterexample: over the reference collaborator and the toy encoding
layer, the message with a body of `2 ^ 32 + 1` zero bytes, both ids and one
user property is encoded and decoded without any failure, and the message that
comes back has a body of one byte: the `(uint32_t)` cast in
`create_data_to_encode` kept only the length modulo `2 ^ 32`. -/
theorem round_trip_cuts_large_body :
    round_trip toyEnc toyParse largeMessage =
      some ⟨MessageBody.byteArray [0], some "abc-123", some "corr-1", none, none,
        [("k1", "v1")]⟩ ∧
    largeMessage.body ≠ MessageBody.byteArray [0] := by
  constructor
  · have h := round_trip_reference toyEnc toyParse toyParse_toyEnc largeMessage
      (List.replicate (2 ^ 32 + 1) 0) "abc-123" "corr-1" rfl rfl rfl
      (List.cons_ne_nil _ _) (List.nodup_singleton "k1")
      (by
        obtain ⟨l1, l2, l3, -⟩ := reference_encode toyEnc largeMessage
          (List.replicate (2 ^ 32 + 1) 0) "abc-123" "corr-1" ⟨none, 0⟩ rfl rfl rfl
          (List.cons_ne_nil _ _)
        rw [l1, l2, l3, toyEnc_length, toyEnc_length, toyEnc_length]
        norm_num)
    have hlen : (List.replicate (2 ^ 32 + 1) 0).length % 2 ^ 32 = 1 := by
      rw [List.length_replicate]
      norm_num
    have htake : (List.replicate (2 ^ 32 + 1) 0).take 1 = [0] := by
      rw [List.take_replicate]
      have hmin : min 1 (2 ^ 32 + 1) = 1 := by norm_num
      rw [hmin]
      rfl
    rw [hlen, htake] at h
    exact h
  · intro h
    have hl : (List.replicate (2 ^ 32 + 1) 0).length = [0].length :=
      congrArg List.length (MessageBody.byteArray.inj h)
    rw [List.length_replicate] at hl
    norm_num at hl

/-- C1, amended: for every application message with a byte-array body
shorter than `2 ^ 32` bytes, a message-id, a correlation-id and at least one
user property with unique keys, and for every encoding layer whose parser
inverts its encoder on three-section buffers, when the three section lengths
that `create_amqp_message_data` computes for the message sum below `2 ^ 64`
(the code adds them as `size_t` values): encoding with
`create_amqp_message_data` over the reference collaborator, parsing the buffer
and decoding with `IoTHubMessage_CreateFromUamqpMessage` all succeed, and the
message that comes back has the original message-id and correlation-id, the
original properties as a set of key/value pairs, and the original body. -/
theorem round_trip_reconstructs (enc : AmqpValue → List Nat)
    (parse : List Nat → Option AmqpMessage)
    (hcodec : ∀ p entries bytes, parse (enc (AmqpValue.properties p) ++
      enc (AmqpValue.application_properties entries) ++ enc (AmqpValue.data bytes)) =
        some ⟨some p, some entries, [bytes]⟩)
    (msg : ApplicationMessage) (bytes : List Nat) (mid cid : String)
    (hbody : msg.body = MessageBody.byteArray bytes) (hsize : bytes.length < 2 ^ 32)
    (hmid : msg.messageId = some mid) (hcid : msg.correlationId = some cid)
    (hN : msg.properties ≠ []) (hkeys : (msg.properties.map Prod.fst).Nodup)
    (hfit : (create_amqp_message_data_frame (reference enc) 1 ⟨none, 0⟩
        (World.sender msg)).val.message_properties_length +
      (create_amqp_message_data_frame (reference enc) 1 ⟨none, 0⟩
        (World.sender msg)).val.application_properties_length +
      (create_amqp_message_data_frame (reference enc) 1 ⟨none, 0⟩
        (World.sender msg)).val.data_length < 2 ^ 64) :
    ∃ out, round_trip enc parse msg = some out ∧
      out.messageId = msg.messageId ∧ out.correlationId = msg.correlationId ∧
      (∀ kv, kv ∈ out.properties ↔ kv ∈ msg.properties) ∧ out.body = msg.body := by
  refine ⟨_, round_trip_reference enc parse hcodec msg bytes mid cid hbody hmid hcid hN hkeys
    hfit, hmid.symm, hcid.symm, fun kv => Iff.rfl, ?_⟩
  rw [hbody, Nat.mod_eq_of_lt hsize, List.take_length]

theorem round_trip_reconstructs_witness :
    ∃ out, round_trip toyEnc toyParse exampleMessage = some out ∧
      out.messageId = some "abc-123" ∧ out.correlationId = some "corr-1" ∧
      (∀ kv, kv ∈ out.properties ↔ kv ∈ [("k1", "v1"), ("k2", "v2")]) ∧
      out.body = MessageBody.byteArray [104, 101, 108, 108, 111] :=
  round_trip_reconstructs toyEnc toyParse toyParse_toyEnc exampleMessage
    [104, 101, 108, 108, 111] "abc-123" "corr-1" rfl (by decide) rfl rfl (by decide)
    (by decide)
    (by
      obtain ⟨l1, l2, l3, -⟩ := reference_encode toyEnc exampleMessage
        [104, 101, 108, 108, 111] "abc-123" "corr-1" ⟨none, 0⟩ rfl rfl rfl (by decide)
      rw [l1, l2, l3, toyEnc_length, toyEnc_length, toyEnc_length]
      norm_num)

end ClaimsRoundTrip

/-! ## Which component makes which call: the encoder -/

section Kinds

variable {σ : Type}

theorem only_nil (p : Call → Bool) : Only p [] := by simp [Only]

theorem only_cons (p : Call → Bool) (e : Call) (t : List Call) :
    Only p (e :: t) ↔ p e = true ∧ Only p t := by
  simp [Only]

theorem only_append (p : Call → Bool) (s t : List Call) :
    Only p (s ++ t) ↔ Only p s ∧ Only p t := by
  simp only [Only, List.mem_append]
  constructor
  · intro h
    exact ⟨fun e he => h e (Or.inl he), fun e he => h e (Or.inr he)⟩
  · rintro ⟨h1, h2⟩ e (he | he)
    · exact h1 e he
    · exact h2 e he

theorem set_message_id_if_needed_only (c : Collab σ) (h p : Nat) (w : σ) :
    Only Call.isPropertiesBuilderCall (set_message_id_if_needed c h p w).trace := by
  simp only [set_message_id_if_needed, Ext.IoTHubMessage_GetMessageId,
    Ext.amqpvalue_create_string, Ext.properties_set_message_id, Ext.amqpvalue_destroy,
    bind_trace, bind_val, bind_world, ask_run]
  cases (c.IoTHubMessage_GetMessageId h w).1 with
  | none => simp [only_cons, only_nil, only_append, Call.isPropertiesBuilderCall, pure_trace]
  | some mid =>
    simp only [bind_trace, bind_val, bind_world, ask_run, tell_run, ite_run, ite_trace,
      pure_trace]
    split_ifs <;> simp [only_cons, only_nil, only_append, Call.isPropertiesBuilderCall]

theorem set_message_correlation_id_if_needed_only (c : Collab σ) (h p : Nat) (w : σ) :
    Only Call.isPropertiesBuilderCall
      (set_message_correlation_id_if_needed c h p w).trace := by
  simp only [set_message_correlation_id_if_needed, Ext.IoTHubMessage_GetCorrelationId,
    Ext.amqpvalue_create_string, Ext.properties_set_correlation_id, Ext.amqpvalue_destroy,
    bind_trace, bind_val, bind_world, ask_run]
  cases (c.IoTHubMessage_GetCorrelationId h w).1 with
  | none => simp [only_cons, only_nil, only_append, Call.isPropertiesBuilderCall, pure_trace]
  | some mid =>
    simp only [bind_trace, bind_val, bind_world, ask_run, tell_run, ite_run, ite_trace,
      pure_trace]
    split_ifs <;> simp [only_cons, only_nil, only_append, Call.isPropertiesBuilderCall]

theorem set_message_content_type_if_needed_only (c : Collab σ) (h p : Nat) (w : σ) :
    Only Call.isPropertiesBuilderCall
      (set_message_content_type_if_needed c h p w).trace := by
  simp only [set_message_content_type_if_needed,
    Ext.IoTHubMessage_GetContentTypeSystemProperty, Ext.properties_set_content_type,
    bind_trace, bind_val, bind_world, ask_run]
  cases (c.IoTHubMessage_GetContentTypeSystemProperty h w).1 with
  | none => simp [only_cons, only_nil, only_append, Call.isPropertiesBuilderCall, pure_trace]
  | some s =>
    simp only [bind_trace, bind_val, bind_world, ask_run, ite_run, ite_trace, pure_trace]
    split_ifs <;> simp [only_cons, only_nil, only_append, Call.isPropertiesBuilderCall]

theorem set_message_content_encoding_if_needed_only (c : Collab σ) (h p : Nat) (w : σ) :
    Only Call.isPropertiesBuilderCall
      (set_message_content_encoding_if_needed c h p w).trace := by
  simp only [set_message_content_encoding_if_needed,
    Ext.IoTHubMessage_GetContentEncodingSystemProperty, Ext.properties_set_content_encoding,
    bind_trace, bind_val, bind_world, ask_run]
  cases (c.IoTHubMessage_GetContentEncodingSystemProperty h w).1 with
  | none => simp [only_cons, only_nil, only_append, Call.isPropertiesBuilderCall, pure_trace]
  | some s =>
    simp only [bind_trace, bind_val, bind_world, ask_run, ite_run, ite_trace, pure_trace]
    split_ifs <;> simp [only_cons, only_nil, only_append, Call.isPropertiesBuilderCall]

theorem create_message_properties_to_encode_only (c : Collab σ) (h a b : Nat) (w : σ) :
    Only Call.isPropertiesBuilderCall (create_message_properties_to_encode c h a b w).trace := by
  simp only [create_message_properties_to_encode, bind_trace, bind_val, bind_world, ite_run,
    ite_trace, pure_trace, Ext.properties_create, Ext.amqpvalue_create_properties,
    Ext.amqpvalue_get_encoded_size, ask_run]
  split_ifs <;>
    simp [only_cons, only_nil, only_append, Call.isPropertiesBuilderCall,
      set_message_id_if_needed_only, set_message_correlation_id_if_needed_only,
      set_message_content_type_if_needed_only,
      set_message_content_encoding_if_needed_only]

theorem create_application_properties_loop_only (c : Collab σ)
    (keys values : Nat → String) (m : Nat) (fuel i : Nat) (r0 : Int) (w : σ) :
    Only Call.isApplicationPropertiesBuilderCall
      (create_application_properties_loop c keys values m fuel i r0 w).trace := by
  induction fuel generalizing i r0 w with
  | zero => simp [create_application_properties_loop, pure_trace, only_nil]
  | succ n ih =>
    simp only [create_application_properties_loop, bind_trace, bind_val, bind_world, ite_run,
      ite_trace, pure_trace, Ext.amqpvalue_create_string, Ext.amqpvalue_set_map_value,
      Ext.amqpvalue_destroy, ask_run, tell_run]
    split_ifs <;>
      simp [only_cons, only_nil, only_append, Call.isApplicationPropertiesBuilderCall, ih]

theorem create_application_properties_to_encode_only (c : Collab σ) (h a b : Nat) (w : σ) :
    Only Call.isApplicationPropertiesBuilderCall
      (create_application_properties_to_encode c h a b w).trace := by
  simp only [create_application_properties_to_encode, bind_trace, bind_val, bind_world,
    ite_run, ite_trace, pure_trace, Ext.IoTHubMessage_Properties, Ext.Map_GetInternals,
    Ext.amqpvalue_create_map, Ext.amqpvalue_create_application_properties,
    Ext.amqpvalue_get_encoded_size, ask_run]
  split_ifs <;>
    simp [only_cons, only_nil, only_append, Call.isApplicationPropertiesBuilderCall,
      create_application_properties_loop_only]

theorem create_data_value_only (c : Collab σ) (ct : IOTHUBMESSAGE_CONTENT_TYPE)
    (p : BytePtr) (n dl : Nat) (w : σ) :
    Only Call.isDataBuilderCall (create_data_value c ct p n dl w).trace := by
  simp only [create_data_value, bind_trace, bind_val, bind_world, ite_run, ite_trace,
    pure_trace, Ext.amqpvalue_create_data, Ext.amqpvalue_get_encoded_size, ask_run]
  split_ifs <;> simp [only_cons, only_nil, only_append, Call.isDataBuilderCall]

theorem create_data_to_encode_only (c : Collab σ) (h a b : Nat) (w : σ) :
    Only Call.isDataBuilderCall (create_data_to_encode c h a b w).trace := by
  simp only [create_data_to_encode, bind_trace, bind_val, bind_world,
    Ext.IoTHubMessage_GetContentType, ask_run]
  cases (c.IoTHubMessage_GetContentType h w).1 with
  | IOTHUBMESSAGE_BYTEARRAY =>
    simp only [bind_trace, bind_val, bind_world, ite_run, ite_trace, pure_trace,
      Ext.IoTHubMessage_GetByteArray, ask_run]
    split_ifs <;>
      simp [only_cons, only_nil, only_append, Call.isDataBuilderCall, create_data_value_only]
  | IOTHUBMESSAGE_STRING =>
    simp only [bind_trace, bind_val, bind_world, Ext.IoTHubMessage_GetString, ask_run]
    cases (c.IoTHubMessage_GetString h (c.IoTHubMessage_GetContentType h w).2).1 with
    | none => simp [only_cons, only_nil, only_append, Call.isDataBuilderCall, pure_trace]
    | some text =>
      simp [only_cons, only_nil, only_append, Call.isDataBuilderCall, create_data_value_only]
  | IOTHUBMESSAGE_UNKNOWN =>
    simp [only_cons, only_nil, only_append, Call.isDataBuilderCall, pure_trace]

end Kinds


section ClaimsUnknownContent

variable {σ : Type}

/-- How `create_data_to_encode` starts: it asks for the content type, and on
the answer unknown it stops there with a failure. -/
theorem create_data_to_encode_head (c : Collab σ) (h a b : Nat) (w : σ) :
    ∃ t rest, (create_data_to_encode c h a b w).trace =
        Call.IoTHubMessage_GetContentType h t :: rest ∧
      (t = IOTHUBMESSAGE_CONTENT_TYPE.IOTHUBMESSAGE_UNKNOWN →
        rest = [] ∧ (create_data_to_encode c h a b w).val.1 ≠ 0) := by
  simp only [create_data_to_encode, bind_trace, bind_val, bind_world,
    Ext.IoTHubMessage_GetContentType, ask_run]
  refine ⟨(c.IoTHubMessage_GetContentType h w).1, _, rfl, fun htu => ?_⟩
  rw [htu]
  exact ⟨rfl, by simp [pure_val, FAILURE]⟩

/-- C11. Unknown content type is a hard stop: in a run of
`create_amqp_message_data` in which every answer of
`IoTHubMessage_GetContentType` for the message is `IOTHUBMESSAGE_UNKNOWN`,
whatever the other collaborators answer, the result is non-zero, the caller
gets a `NULL` buffer and length 0, `malloc` is never called and no data value
is created. -/
theorem create_amqp_message_data_unknown_content_type (c : Collab σ) (message_handle : Nat)
    (body_binary_data : BINARY_DATA) (w : σ)
    (hunknown : ∀ t, Call.IoTHubMessage_GetContentType message_handle t ∈
      (create_amqp_message_data c message_handle body_binary_data w).trace →
      t = IOTHUBMESSAGE_CONTENT_TYPE.IOTHUBMESSAGE_UNKNOWN) :
    (create_amqp_message_data c message_handle body_binary_data w).val.1 ≠ 0 ∧
    (create_amqp_message_data c message_handle body_binary_data w).val.2 = ⟨none, 0⟩ ∧
    (∀ n r, Call.malloc n r ∉
      (create_amqp_message_data c message_handle body_binary_data w).trace) ∧
    (∀ d r, Call.amqpvalue_create_data d r ∉
      (create_amqp_message_data c message_handle body_binary_data w).trace) := by
  rw [create_amqp_message_data_trace] at hunknown ⊢
  rw [create_amqp_message_data_val]
  have hP := create_message_properties_to_encode_only c message_handle 0 0 w
  have hA := create_application_properties_to_encode_only c message_handle 0 0
    (create_message_properties_to_encode c message_handle 0 0 w).world
  obtain ⟨t, rest, hD, hDu⟩ := create_data_to_encode_head c message_handle 0 0
    (create_application_properties_to_encode c message_handle 0 0
      (create_message_properties_to_encode c message_handle 0 0 w).world).world
  have notP : ∀ e, e ∈ (create_message_properties_to_encode c message_handle 0 0 w).trace →
      (∀ n r, e ≠ Call.malloc n r) ∧ (∀ d r, e ≠ Call.amqpvalue_create_data d r) := by
    intro e he
    have hk := hP e he
    constructor <;> intro x y hxy <;> rw [hxy] at hk <;>
      simp [Call.isPropertiesBuilderCall] at hk
  have notA : ∀ e, e ∈ (create_application_properties_to_encode c message_handle 0 0
      (create_message_properties_to_encode c message_handle 0 0 w).world).trace →
      (∀ n r, e ≠ Call.malloc n r) ∧ (∀ d r, e ≠ Call.amqpvalue_create_data d r) := by
    intro e he
    have hk := hA e he
    constructor <;> intro x y hxy <;> rw [hxy] at hk <;>
      simp [Call.isApplicationPropertiesBuilderCall] at hk
  rcases create_amqp_message_data_frame_cases c message_handle body_binary_data w _ _ _ _
      rfl rfl rfl rfl with
    ⟨h1, ht, hr, hb⟩ | ⟨_, h2, ht, hr, hb⟩ | ⟨_, _, h3, ht, hr, hb⟩ |
    ⟨_, _, h3, _, _, _, _, _, _, hcase⟩
  · rw [ht, hr, hb]
    exact ⟨h1, rfl, fun n r hm => (notP _ hm).1 n r rfl, fun d r hm => (notP _ hm).2 d r rfl⟩
  · rw [ht, hr, hb]
    refine ⟨h2, rfl, fun n r hm => ?_, fun d r hm => ?_⟩
    · rcases List.mem_append.mp hm with hm | hm
      · exact (notP _ hm).1 n r rfl
      · exact (notA _ hm).1 n r rfl
    · rcases List.mem_append.mp hm with hm | hm
      · exact (notP _ hm).2 d r rfl
      · exact (notA _ hm).2 d r rfl
  · rw [ht] at hunknown
    have htu : t = IOTHUBMESSAGE_CONTENT_TYPE.IOTHUBMESSAGE_UNKNOWN :=
      hunknown t (by rw [hD]; simp)
    obtain ⟨hrest, _⟩ := hDu htu
    rw [ht, hr, hb, hD, hrest]
    refine ⟨h3, rfl, fun n r hm => ?_, fun d r hm => ?_⟩
    · rcases List.mem_append.mp hm with hm | hm
      · rcases List.mem_append.mp hm with hm | hm
        · exact (notP _ hm).1 n r rfl
        · exact (notA _ hm).1 n r rfl
      · simp at hm
    · rcases List.mem_append.mp hm with hm | hm
      · rcases List.mem_append.mp hm with hm | hm
        · exact (notP _ hm).2 d r rfl
        · exact (notA _ hm).2 d r rfl
      · simp at hm
  · exfalso
    have hmem : Call.IoTHubMessage_GetContentType message_handle t ∈
        (create_amqp_message_data_frame c message_handle body_binary_data w).trace := by
      rcases hcase with ⟨ht, _⟩ | ⟨_, _, _, _, _, _, _, ht, _⟩ | ⟨_, _, ht, _⟩ <;>
        (rw [ht, hD]; simp)
    have htu := hunknown t hmem
    exact (hDu htu).2 h3

end ClaimsUnknownContent


theorem create_amqp_message_data_unknown_content_type_witness :
    (create_amqp_message_data
      (mock { testScript with content := IOTHUBMESSAGE_CONTENT_TYPE.IOTHUBMESSAGE_UNKNOWN })
      259 ⟨none, 0⟩ 0).val = (1, ⟨none, 0⟩) ∧
    Call.IoTHubMessage_GetContentType 259 IOTHUBMESSAGE_CONTENT_TYPE.IOTHUBMESSAGE_UNKNOWN ∈
      (create_amqp_message_data
        (mock { testScript with content := IOTHUBMESSAGE_CONTENT_TYPE.IOTHUBMESSAGE_UNKNOWN })
        259 ⟨none, 0⟩ 0).trace :=
  ⟨Prod.ext (by decide)
    (create_amqp_message_data_unknown_content_type
      (mock { testScript with content := IOTHUBMESSAGE_CONTENT_TYPE.IOTHUBMESSAGE_UNKNOWN })
      259 ⟨none, 0⟩ 0
      (fun t hmem => by
        have hall : ∀ e ∈ (create_amqp_message_data
            (mock { testScript with
              content := IOTHUBMESSAGE_CONTENT_TYPE.IOTHUBMESSAGE_UNKNOWN })
            259 ⟨none, 0⟩ 0).trace,
            (match e with
              | Call.IoTHubMessage_GetContentType _ t =>
                decide (t = IOTHUBMESSAGE_CONTENT_TYPE.IOTHUBMESSAGE_UNKNOWN)
              | _ => true) = true := by decide
        simpa using hall _ hmem)).2.1,
    by decide⟩

section ClaimsBodyLength

variable {σ : Type}

/-- The log of `create_data_to_encode` for a byte-array body that was
obtained: the data value is created from the returned pointer and the returned
size cut to 32 bits. -/
theorem create_data_to_encode_byteArray_trace (c : Collab σ) (h a b : Nat) (w : σ)
    (hct : (c.IoTHubMessage_GetContentType h w).1 =
      IOTHUBMESSAGE_CONTENT_TYPE.IOTHUBMESSAGE_BYTEARRAY)
    (hba : (c.IoTHubMessage_GetByteArray h (c.IoTHubMessage_GetContentType h w).2).1.1 =
      IOTHUB_MESSAGE_RESULT.IOTHUB_MESSAGE_OK) :
    ∃ v rest, (create_data_to_encode c h a b w).trace =
      Call.IoTHubMessage_GetContentType h IOTHUBMESSAGE_CONTENT_TYPE.IOTHUBMESSAGE_BYTEARRAY ::
      Call.IoTHubMessage_GetByteArray h IOTHUB_MESSAGE_RESULT.IOTHUB_MESSAGE_OK
        (c.IoTHubMessage_GetByteArray h (c.IoTHubMessage_GetContentType h w).2).1.2.1
        (c.IoTHubMessage_GetByteArray h (c.IoTHubMessage_GetContentType h w).2).1.2.2 ::
      Call.amqpvalue_create_data
        ⟨(c.IoTHubMessage_GetByteArray h (c.IoTHubMessage_GetContentType h w).2).1.2.1,
          (c.IoTHubMessage_GetByteArray h (c.IoTHubMessage_GetContentType h w).2).1.2.2 %
            2 ^ 32⟩ v :: rest := by
  simp only [create_data_to_encode, bind_trace, bind_val, bind_world,
    Ext.IoTHubMessage_GetContentType, ask_run, hct]
  simp only [bind_trace, bind_val, bind_world, ite_run, ite_trace, pure_trace,
    Ext.IoTHubMessage_GetByteArray, ask_run, hba, ne_eq, not_true_eq_false, if_false,
    create_data_value, Ext.amqpvalue_create_data, reduceCtorEq]
  exact ⟨_, _, rfl⟩

/-- The log of the last branch of `create_data_to_encode`: one data value is
created, from the pointer and the size cut to 32 bits, then its size is asked
for. -/
theorem create_data_value_trace (c : Collab σ) (ct : IOTHUBMESSAGE_CONTENT_TYPE)
    (p : BytePtr) (n dl : Nat) (w : σ) :
    ∃ v rest, (create_data_value c ct p n dl w).trace =
        Call.amqpvalue_create_data
          ⟨p, (if ct = IOTHUBMESSAGE_CONTENT_TYPE.IOTHUBMESSAGE_STRING then strlen p else n) %
            2 ^ 32⟩ v :: rest ∧
      (rest = [] ∨ ∃ r size, rest = [Call.amqpvalue_get_encoded_size v r size]) := by
  simp only [create_data_value, bind_trace, bind_val, bind_world, ite_run, ite_trace,
    pure_trace, Ext.amqpvalue_create_data, Ext.amqpvalue_get_encoded_size, ask_run]
  refine ⟨_, _, rfl, ?_⟩
  split_ifs
  all_goals first | exact Or.inl rfl | exact Or.inr ⟨_, _, rfl⟩

theorem strlen_c_str (s : String) (hs : ∀ ch : Char, ch ∈ s.data → ch.toNat ≠ 0) :
    strlen (some (c_str s)) = s.length := by
  have key : ∀ l : List Char, (∀ ch : Char, ch ∈ l → ch.toNat ≠ 0) →
      ((l.map (fun ch : Char => some ch.toNat) ++ [some 0]).takeWhile
        (fun x => x != some 0)).length = l.length := by
    intro l
    induction l with
    | nil => intro _; simp
    | cons x xs ih =>
      intro hl
      have hx : x.toNat ≠ 0 := hl x (by simp)
      have hxs := ih (fun ch hch => hl ch (by simp [hch]))
      simp only [List.map_cons, List.cons_append, List.length_cons]
      rw [List.takeWhile_cons_of_pos (by simpa using hx)]
      simp only [List.length_cons, hxs]
  exact key s.data hs

/-- C12, amended: whenever `create_data_to_encode` creates a data value, it
does so either for a byte-array body, from exactly the pointer that
`IoTHubMessage_GetByteArray` returned and the returned size reduced modulo
`2 ^ 32` (the `uint32_t` cast, which leaves a size below `2 ^ 32` as it is), or
for a string body, from the text pointer and `strlen` of the text reduced
modulo `2 ^ 32`, `strlen` being the character count without the terminator. -/
theorem create_data_to_encode_body_length (c : Collab σ) (h a b : Nat) (w : σ)
    (d : data) (v : Nat)
    (hmem : Call.amqpvalue_create_data d v ∈ (create_data_to_encode c h a b w).trace) :
    (∃ p n rest, (create_data_to_encode c h a b w).trace =
        Call.IoTHubMessage_GetContentType h IOTHUBMESSAGE_CONTENT_TYPE.IOTHUBMESSAGE_BYTEARRAY ::
        Call.IoTHubMessage_GetByteArray h IOTHUB_MESSAGE_RESULT.IOTHUB_MESSAGE_OK p n ::
        Call.amqpvalue_create_data d v :: rest ∧
      d = ⟨p, n % 2 ^ 32⟩ ∧ (n < 2 ^ 32 → d = ⟨p, n⟩)) ∨
    (∃ s rest, (create_data_to_encode c h a b w).trace =
        Call.IoTHubMessage_GetContentType h IOTHUBMESSAGE_CONTENT_TYPE.IOTHUBMESSAGE_STRING ::
        Call.IoTHubMessage_GetString h (some s) ::
        Call.amqpvalue_create_data d v :: rest ∧
      d = ⟨some (c_str s), strlen (some (c_str s)) % 2 ^ 32⟩ ∧
      ((∀ ch : Char, ch ∈ s.data → ch.toNat ≠ 0) → strlen (some (c_str s)) = s.length)) := by
  revert hmem
  simp only [create_data_to_encode, bind_trace, bind_val, bind_world,
    Ext.IoTHubMessage_GetContentType, ask_run]
  cases (c.IoTHubMessage_GetContentType h w).1 with
  | IOTHUBMESSAGE_BYTEARRAY =>
    simp only [bind_trace, bind_val, bind_world, ite_run, ite_trace, pure_trace,
      Ext.IoTHubMessage_GetByteArray, ask_run]
    generalize c.IoTHubMessage_GetByteArray h (c.IoTHubMessage_GetContentType h w).2 = X1
    by_cases h1 : X1.1.1 ≠ IOTHUB_MESSAGE_RESULT.IOTHUB_MESSAGE_OK
    · simp only [if_pos h1]
      intro hmem
      simp at hmem
    · simp only [if_neg h1]
      have h1' : X1.1.1 = IOTHUB_MESSAGE_RESULT.IOTHUB_MESSAGE_OK := not_not.mp h1
      obtain ⟨v0, rest, ht, hrest⟩ := create_data_value_trace c
        IOTHUBMESSAGE_CONTENT_TYPE.IOTHUBMESSAGE_BYTEARRAY X1.1.2.1 X1.1.2.2 b X1.2
      simp only [reduceCtorEq, if_false] at ht
      rw [ht, h1']
      intro hmem
      have hd : Call.amqpvalue_create_data d v = Call.amqpvalue_create_data
          ⟨X1.1.2.1, X1.1.2.2 % 2 ^ 32⟩ v0 := by
        rcases hrest with hrest | ⟨r, size, hrest⟩ <;> subst hrest <;> simpa using hmem
      injection hd with hd1 hd2
      subst hd1 hd2
      refine Or.inl ⟨X1.1.2.1, X1.1.2.2, rest, ?_, rfl, ?_⟩
      · simp
      · intro hn
        rw [Nat.mod_eq_of_lt hn]
  | IOTHUBMESSAGE_STRING =>
    simp only [bind_trace, bind_val, bind_world, Ext.IoTHubMessage_GetString, ask_run]
    cases (c.IoTHubMessage_GetString h (c.IoTHubMessage_GetContentType h w).2).1 with
    | none =>
      intro hmem
      simp [pure_trace] at hmem
    | some text =>
      obtain ⟨v0, rest, ht, hrest⟩ := create_data_value_trace c
        IOTHUBMESSAGE_CONTENT_TYPE.IOTHUBMESSAGE_STRING (some (c_str text)) 0 b
        (c.IoTHubMessage_GetString h (c.IoTHubMessage_GetContentType h w).2).2
      simp only [if_true] at ht
      simp only [ht]
      intro hmem
      have hd : Call.amqpvalue_create_data d v = Call.amqpvalue_create_data
          ⟨some (c_str text), strlen (some (c_str text)) % 2 ^ 32⟩ v0 := by
        rcases hrest with hrest | ⟨r, size, hrest⟩ <;> subst hrest <;> simpa using hmem
      injection hd with hd1 hd2
      subst hd1 hd2
      exact Or.inr ⟨text, rest, by simp, rfl, strlen_c_str text⟩
  | IOTHUBMESSAGE_UNKNOWN =>
    intro hmem
    simp [pure_trace] at hmem

end ClaimsBodyLength


theorem create_data_to_encode_body_length_witness :
    Call.amqpvalue_create_data ⟨some [some 1, some 2, some 3], 3⟩ 1002 ∈
      (create_data_to_encode (mock testScript) 259 0 0 0).trace ∧
    ((∃ p n rest, (create_data_to_encode (mock testScript) 259 0 0 0).trace =
        Call.IoTHubMessage_GetContentType 259
          IOTHUBMESSAGE_CONTENT_TYPE.IOTHUBMESSAGE_BYTEARRAY ::
        Call.IoTHubMessage_GetByteArray 259 IOTHUB_MESSAGE_RESULT.IOTHUB_MESSAGE_OK p n ::
        Call.amqpvalue_create_data ⟨some [some 1, some 2, some 3], 3⟩ 1002 :: rest ∧
      (⟨some [some 1, some 2, some 3], 3⟩ : data) = ⟨p, n % 2 ^ 32⟩ ∧
      (n < 2 ^ 32 → (⟨some [some 1, some 2, some 3], 3⟩ : data) = ⟨p, n⟩)) ∨
    (∃ s rest, (create_data_to_encode (mock testScript) 259 0 0 0).trace =
        Call.IoTHubMessage_GetContentType 259 IOTHUBMESSAGE_CONTENT_TYPE.IOTHUBMESSAGE_STRING ::
        Call.IoTHubMessage_GetString 259 (some s) ::
        Call.amqpvalue_create_data ⟨some [some 1, some 2, some 3], 3⟩ 1002 :: rest ∧
      (⟨some [some 1, some 2, some 3], 3⟩ : data) =
        ⟨some (c_str s), strlen (some (c_str s)) % 2 ^ 32⟩ ∧
      ((∀ ch : Char, ch ∈ s.data → ch.toNat ≠ 0) → strlen (some (c_str s)) = s.length))) :=
  ⟨by decide,
    create_data_to_encode_body_length (mock testScript) 259 0 0 0 _ _ (by decide)⟩

/-- C12, counterexample: for the message whose byte-array body has
`2 ^ 32 + 1` bytes, `IoTHubMessage_GetByteArray` returns the length
`2 ^ 32 + 1` and `create_data_to_encode` creates the data value with length 1,
not with the returned length. -/
theorem create_data_to_encode_cuts_returned_length :
    ∃ v rest, (create_data_to_encode (reference toyEnc) 1 0 0
        (World.sender largeMessage)).trace =
      Call.IoTHubMessage_GetContentType 1 IOTHUBMESSAGE_CONTENT_TYPE.IOTHUBMESSAGE_BYTEARRAY ::
      Call.IoTHubMessage_GetByteArray 1 IOTHUB_MESSAGE_RESULT.IOTHUB_MESSAGE_OK
        (some ((List.replicate (2 ^ 32 + 1) 0).map some)) (2 ^ 32 + 1) ::
      Call.amqpvalue_create_data ⟨some ((List.replicate (2 ^ 32 + 1) 0).map some), 1⟩ v ::
      rest := by
  obtain ⟨v, rest, ht⟩ := create_data_to_encode_byteArray_trace (reference toyEnc) 1 0 0
    (World.sender largeMessage) rfl rfl
  have hp : ((reference toyEnc).IoTHubMessage_GetByteArray 1
      ((reference toyEnc).IoTHubMessage_GetContentType 1 (World.sender largeMessage)).2).1.2.1 =
      some ((List.replicate (2 ^ 32 + 1) 0).map some) := rfl
  have hn : ((reference toyEnc).IoTHubMessage_GetByteArray 1
      ((reference toyEnc).IoTHubMessage_GetContentType 1 (World.sender largeMessage)).2).1.2.2 =
      (List.replicate (2 ^ 32 + 1) 0).length := rfl
  have hmod : (2 ^ 32 + 1) % 2 ^ 32 = 1 := by norm_num
  rw [hp, hn, List.length_replicate, hmod] at ht
  exact ⟨v, rest, ht⟩

section DecodeShapes

variable {σ : Type}

theorem read_message_id_cases (c : Collab σ) (h p : Nat) (rv : Int) (w : σ) :
    ∃ o : FieldOutcome, o.valid ∧
      (read_message_id c h p rv w).trace = exp_calls_read_message_id h p o ∧
      (read_message_id c h p rv w).val = if o.fatal then FAILURE else rv := by
  simp only [read_message_id, bind_val, bind_trace, bind_world, ite_run, ite_val, ite_trace,
    pure_val, pure_trace, Ext.properties_get_message_id, Ext.amqpvalue_get_type,
    Ext.amqpvalue_get_string, Ext.IoTHubMessage_SetMessageId, ask_run]
  generalize c.properties_get_message_id p w = X0
  by_cases h0 : X0.1.1 ≠ 0
  · simp only [if_pos h0]
    exact ⟨FieldOutcome.unread X0.1.1 X0.1.2, h0, by simp [exp_calls_read_message_id],
      by simp [FieldOutcome.fatal]⟩
  simp only [if_neg h0]
  have h0' : X0.1.1 = 0 := not_not.mp h0
  generalize c.amqpvalue_get_type X0.1.2 X0.2 = X1
  by_cases h1 : X1.1 ≠ AMQP_TYPE.AMQP_TYPE_NULL
  · simp only [if_pos h1]
    generalize c.amqpvalue_get_string X0.1.2 X1.2 = X2
    by_cases h2 : X2.1.1 ≠ 0
    · simp only [if_pos h2]
      exact ⟨FieldOutcome.unextracted X0.1.2 X1.1 X2.1.1 X2.1.2, ⟨h1, h2⟩,
        by simp [exp_calls_read_message_id, h0'], by simp [FieldOutcome.fatal]⟩
    simp only [if_neg h2]
    have h2' : X2.1.1 = 0 := not_not.mp h2
    generalize c.IoTHubMessage_SetMessageId h X2.1.2 X2.2 = X3
    refine ⟨FieldOutcome.set X0.1.2 X1.1 X2.1.2 X3.1, h1,
      by simp [exp_calls_read_message_id, h0', h2'], ?_⟩
    by_cases h3 : X3.1 ≠ IOTHUB_MESSAGE_RESULT.IOTHUB_MESSAGE_OK
    · simp [if_pos h3, FieldOutcome.fatal, h3]
    · simp [if_neg h3, FieldOutcome.fatal, not_not.mp h3]
  · simp only [if_neg h1]
    exact ⟨FieldOutcome.null X0.1.2, trivial,
      by simp [exp_calls_read_message_id, h0', not_not.mp h1], by simp [FieldOutcome.fatal]⟩

theorem read_correlation_id_cases (c : Collab σ) (h p : Nat) (rv : Int) (w : σ) :
    ∃ o : FieldOutcome, o.valid ∧
      (read_correlation_id c h p rv w).trace = exp_calls_read_correlation_id h p o ∧
      (read_correlation_id c h p rv w).val = if o.fatal then FAILURE else rv := by
  simp only [read_correlation_id, bind_val, bind_trace, bind_world, ite_run, ite_val, ite_trace,
    pure_val, pure_trace, Ext.properties_get_correlation_id, Ext.amqpvalue_get_type,
    Ext.amqpvalue_get_string, Ext.IoTHubMessage_SetCorrelationId, ask_run]
  generalize c.properties_get_correlation_id p w = X0
  by_cases h0 : X0.1.1 ≠ 0
  · simp only [if_pos h0]
    exact ⟨FieldOutcome.unread X0.1.1 X0.1.2, h0, by simp [exp_calls_read_correlation_id],
      by simp [FieldOutcome.fatal]⟩
  simp only [if_neg h0]
  have h0' : X0.1.1 = 0 := not_not.mp h0
  generalize c.amqpvalue_get_type X0.1.2 X0.2 = X1
  by_cases h1 : X1.1 ≠ AMQP_TYPE.AMQP_TYPE_NULL
  · simp only [if_pos h1]
    generalize c.amqpvalue_get_string X0.1.2 X1.2 = X2
    by_cases h2 : X2.1.1 ≠ 0
    · simp only [if_pos h2]
      exact ⟨FieldOutcome.unextracted X0.1.2 X1.1 X2.1.1 X2.1.2, ⟨h1, h2⟩,
        by simp [exp_calls_read_correlation_id, h0'], by simp [FieldOutcome.fatal]⟩
    simp only [if_neg h2]
    have h2' : X2.1.1 = 0 := not_not.mp h2
    generalize c.IoTHubMessage_SetCorrelationId h X2.1.2 X2.2 = X3
    refine ⟨FieldOutcome.set X0.1.2 X1.1 X2.1.2 X3.1, h1,
      by simp [exp_calls_read_correlation_id, h0', h2'], ?_⟩
    by_cases h3 : X3.1 ≠ IOTHUB_MESSAGE_RESULT.IOTHUB_MESSAGE_OK
    · simp [if_pos h3, FieldOutcome.fatal, h3]
    · simp [if_neg h3, FieldOutcome.fatal, not_not.mp h3]
  · simp only [if_neg h1]
    exact ⟨FieldOutcome.null X0.1.2, trivial,
      by simp [exp_calls_read_correlation_id, h0', not_not.mp h1], by simp [FieldOutcome.fatal]⟩

/-- How a run of `readPropertiesFromuAMQPMessage` can end: the container
could not be retrieved, or both fields were processed, each in one of its four
ways, and the container was released; the result is a failure exactly when one
of the fields ended in a fatal way. -/
theorem readPropertiesFromuAMQPMessage_cases (c : Collab σ) (h m : Nat) (w : σ) :
    (∃ r p, r ≠ 0 ∧
      (readPropertiesFromuAMQPMessage c h m w).trace = [Call.message_get_properties m r p] ∧
      (readPropertiesFromuAMQPMessage c h m w).val = FAILURE) ∨
    (∃ p o1 o2, FieldOutcome.valid o1 ∧ FieldOutcome.valid o2 ∧
      (readPropertiesFromuAMQPMessage c h m w).trace =
        Call.message_get_properties m 0 p ::
          (exp_calls_read_message_id h p o1 ++ exp_calls_read_correlation_id h p o2 ++
            [Call.properties_destroy p]) ∧
      (readPropertiesFromuAMQPMessage c h m w).val =
        if o1.fatal = true ∨ o2.fatal = true then FAILURE else 0) := by
  simp only [readPropertiesFromuAMQPMessage, bind_val, bind_trace, bind_world, ite_run,
    ite_val, ite_trace, pure_val, pure_trace, Ext.message_get_properties,
    Ext.properties_destroy, ask_run, tell_run]
  generalize c.message_get_properties m w = X0
  by_cases h0 : X0.1.1 ≠ 0
  · simp only [if_pos h0]
    exact Or.inl ⟨X0.1.1, X0.1.2, h0, by simp, trivial⟩
  simp only [if_neg h0]
  have h0' : X0.1.1 = 0 := not_not.mp h0
  obtain ⟨o1, v1, t1, r1⟩ := read_message_id_cases c h X0.1.2 0 X0.2
  obtain ⟨o2, v2, t2, r2⟩ := read_correlation_id_cases c h X0.1.2
    (read_message_id c h X0.1.2 0 X0.2).val (read_message_id c h X0.1.2 0 X0.2).world
  refine Or.inr ⟨X0.1.2, o1, o2, v1, v2, ?_, ?_⟩
  · rw [t1, t2, h0']
    simp
  · rw [r2, r1]
    cases o1.fatal <;> cases o2.fatal <;> simp [FAILURE]

theorem only_read_message_id (h p : Nat) (o : FieldOutcome) :
    Only Call.isPropertiesReaderCall (exp_calls_read_message_id h p o) := by
  cases o <;> simp [exp_calls_read_message_id, only_cons, only_nil, Call.isPropertiesReaderCall]

theorem only_read_correlation_id (h p : Nat) (o : FieldOutcome) :
    Only Call.isPropertiesReaderCall (exp_calls_read_correlation_id h p o) := by
  cases o <;>
    simp [exp_calls_read_correlation_id, only_cons, only_nil, Call.isPropertiesReaderCall]

theorem readPropertiesFromuAMQPMessage_only (c : Collab σ) (h m : Nat) (w : σ) :
    Only Call.isPropertiesReaderCall (readPropertiesFromuAMQPMessage c h m w).trace := by
  rcases readPropertiesFromuAMQPMessage_cases c h m w with
    ⟨r, p, _, ht, _⟩ | ⟨p, o1, o2, _, _, ht, _⟩
  · rw [ht]
    simp [only_cons, only_nil, Call.isPropertiesReaderCall]
  · rw [ht]
    simp [only_cons, only_nil, only_append, Call.isPropertiesReaderCall,
      only_read_message_id, only_read_correlation_id]

theorem create_from_body_only (c : Collab σ) (m : Nat) (w : σ) :
    Only Call.isBodyReaderCall (create_from_body c m w).trace := by
  rcases create_from_body_cases c m w with
    ⟨r, t, _, ht, _⟩ | ⟨r, bd, _, ht, _⟩ | ⟨bd, handle, ht, _⟩ <;>
    (rw [ht]; simp [only_cons, only_nil, Call.isBodyReaderCall])

end DecodeShapes

section MapShapes

variable {σ : Type}

theorem readApplicationProperties_release_trace (c : Collab σ) (k v : Nat) (w : σ) :
    (readApplicationProperties_release c k v w).trace = exp_calls_release k v := by
  simp only [readApplicationProperties_release, bind_val, bind_trace, bind_world, ite_run,
    ite_val, ite_trace, ite_world, pure_val, pure_trace, pure_world, Ext.amqpvalue_destroy,
    tell_run, exp_calls_release]
  split_ifs <;> simp

/-- One pass through the loop body ends in one of the four ways of
`PassOutcome`; its result is 0 exactly when the pair was inserted. -/
theorem readApplicationProperties_pass_cases (c : Collab σ) (map ipdv i : Nat) (w : σ) :
    ∃ o : PassOutcome, o.valid ∧
      (readApplicationProperties_pass c map ipdv i w).trace = exp_calls_pass map ipdv i o ∧
      (readApplicationProperties_pass c map ipdv i w).val = if o.ok then 0 else FAILURE := by
  simp only [readApplicationProperties_pass, bind_val, bind_trace, bind_world, pure_val,
    pure_trace, Ext.amqpvalue_get_map_key_value_pair, ask_run,
    readApplicationProperties_release_trace, readApplicationProperties_copy, ite_run, ite_val,
    ite_trace, ite_world, Ext.amqpvalue_get_string, Ext.Map_AddOrUpdate]
  generalize c.amqpvalue_get_map_key_value_pair ipdv i w = X0
  by_cases h0 : X0.1.1 ≠ 0
  · simp only [if_pos h0]
    exact ⟨.unpaired X0.1.1 X0.1.2.1 X0.1.2.2, h0, by simp [exp_calls_pass], by
      simp [PassOutcome.ok]⟩
  simp only [if_neg h0]
  have h0' : X0.1.1 = 0 := not_not.mp h0
  generalize c.amqpvalue_get_string X0.1.2.1 X0.2 = X1
  by_cases h1 : X1.1.1 ≠ 0
  · simp only [if_pos h1]
    exact ⟨.keyless X0.1.2.1 X0.1.2.2 X1.1.1 X1.1.2, h1, by simp [exp_calls_pass, h0'], by
      simp [PassOutcome.ok]⟩
  simp only [if_neg h1]
  have h1' : X1.1.1 = 0 := not_not.mp h1
  generalize c.amqpvalue_get_string X0.1.2.2 X1.2 = X2
  by_cases h2 : X2.1.1 ≠ 0
  · simp only [if_pos h2]
    exact ⟨.valueless X0.1.2.1 X0.1.2.2 X1.1.2 X2.1.1 X2.1.2, h2, by
      simp [exp_calls_pass, h0', h1'], by simp [PassOutcome.ok]⟩
  simp only [if_neg h2]
  have h2' : X2.1.1 = 0 := not_not.mp h2
  generalize c.Map_AddOrUpdate map X1.1.2 X2.1.2 X2.2 = X3
  refine ⟨.inserted X0.1.2.1 X0.1.2.2 X1.1.2 X2.1.2 X3.1, trivial, by
      simp [exp_calls_pass, h0', h1', h2'], ?_⟩
  by_cases h3 : X3.1 = MAP_OK
  · simp [PassOutcome.ok, h3, h2']
  · simp [PassOutcome.ok, h3]

/-- The loop, started with result 0 at index `i` with `fuel` indices left:
its log is that of consecutive passes from `i` on; either every pass inserted
its pair, there are `fuel` of them and the result is 0, or the last pass is
the only one that did not, and the result is not 0. -/
theorem readApplicationProperties_loop_cases (c : Collab σ) (map ipdv : Nat) (fuel i : Nat)
    (w : σ) :
    ∃ passes : List PassOutcome, (∀ o ∈ passes, PassOutcome.valid o) ∧
      (readApplicationProperties_loop c map ipdv fuel i 0 w).trace =
        exp_calls_passes map ipdv i passes ∧
      (((∀ o ∈ passes, PassOutcome.ok o = true) ∧ passes.length = fuel ∧
          (readApplicationProperties_loop c map ipdv fuel i 0 w).val = 0) ∨
        (∃ good bad, passes = good ++ [bad] ∧ (∀ o ∈ good, PassOutcome.ok o = true) ∧
          PassOutcome.ok bad = false ∧ passes.length ≤ fuel ∧
          (readApplicationProperties_loop c map ipdv fuel i 0 w).val = FAILURE)) := by
  induction fuel generalizing i w with
  | zero =>
    exact ⟨[], by simp, rfl, Or.inl ⟨by simp, rfl, rfl⟩⟩
  | succ n ih =>
    simp only [readApplicationProperties_loop, RESULT_OK, if_true, bind_val, bind_trace,
      bind_world]
    obtain ⟨o, hv, ht, hr⟩ := readApplicationProperties_pass_cases c map ipdv i w
    generalize readApplicationProperties_pass c map ipdv i w = X at ht hr ⊢
    cases hok : o.ok
    · rw [hok] at hr
      simp only [Bool.false_eq_true, if_false] at hr
      rw [hr]
      refine ⟨[o], by simpa using hv, ?_, Or.inr ⟨[], o, rfl, by simp, hok, by simp, ?_⟩⟩
      · cases n <;>
          simp [readApplicationProperties_loop, FAILURE, RESULT_OK, ht, exp_calls_passes,
            pure_trace]
      · cases n <;> simp [readApplicationProperties_loop, FAILURE, RESULT_OK, pure_val]
    · rw [hok] at hr
      simp only [if_true] at hr
      rw [hr]
      obtain ⟨ps, hvs, hts, hcase⟩ := ih (i + 1) X.world
      refine ⟨o :: ps, ?_, ?_, ?_⟩
      · intro o2 ho2
        rcases List.mem_cons.mp ho2 with e | e
        · rw [e]; exact hv
        · exact hvs o2 e
      · rw [ht, hts]; rfl
      · rcases hcase with ⟨hall, hlen, hval⟩ | ⟨good, bad, hps, hgood, hbad, hlen, hval⟩
        · refine Or.inl ⟨?_, by simp [hlen], hval⟩
          intro o2 ho2
          rcases List.mem_cons.mp ho2 with e | e
          · rw [e]; exact hok
          · exact hall o2 e
        · refine Or.inr ⟨o :: good, bad, by simp [hps], ?_, hbad, by simpa using hlen, hval⟩
          intro o2 ho2
          rcases List.mem_cons.mp ho2 with e | e
          · rw [e]; exact hok
          · exact hgood o2 e

/-- How a run of `readApplicationPropertiesFromuAMQPMessage` can end. -/
theorem readApplicationPropertiesFromuAMQPMessage_cases (c : Collab σ) (h m : Nat) (w : σ) :
    ((readApplicationPropertiesFromuAMQPMessage c h m w).trace =
        [Call.IoTHubMessage_Properties h 0] ∧
      (readApplicationPropertiesFromuAMQPMessage c h m w).val = FAILURE) ∨
    (∃ map r a, map ≠ 0 ∧ r ≠ 0 ∧
      (readApplicationPropertiesFromuAMQPMessage c h m w).trace =
        [Call.IoTHubMessage_Properties h map,
          Call.message_get_application_properties m r a] ∧
      (readApplicationPropertiesFromuAMQPMessage c h m w).val = FAILURE) ∨
    (∃ map, map ≠ 0 ∧
      (readApplicationPropertiesFromuAMQPMessage c h m w).trace =
        [Call.IoTHubMessage_Properties h map,
          Call.message_get_application_properties m 0 0] ∧
      (readApplicationPropertiesFromuAMQPMessage c h m w).val = 0) ∨
    (∃ map a, map ≠ 0 ∧ a ≠ 0 ∧
      (readApplicationPropertiesFromuAMQPMessage c h m w).trace =
        [Call.IoTHubMessage_Properties h map,
          Call.message_get_application_properties m 0 a,
          Call.amqpvalue_get_inplace_described_value a 0,
          Call.amqpvalue_destroy a] ∧
      (readApplicationPropertiesFromuAMQPMessage c h m w).val = FAILURE) ∨
    (∃ map a ipdv r n, map ≠ 0 ∧ a ≠ 0 ∧ ipdv ≠ 0 ∧ r ≠ 0 ∧
      (readApplicationPropertiesFromuAMQPMessage c h m w).trace =
        [Call.IoTHubMessage_Properties h map,
          Call.message_get_application_properties m 0 a,
          Call.amqpvalue_get_inplace_described_value a ipdv,
          Call.amqpvalue_get_map_pair_count ipdv r n,
          Call.amqpvalue_destroy a] ∧
      (readApplicationPropertiesFromuAMQPMessage c h m w).val = FAILURE) ∨
    (∃ map a ipdv n passes, map ≠ 0 ∧ a ≠ 0 ∧ ipdv ≠ 0 ∧
      (∀ o ∈ passes, PassOutcome.valid o) ∧
      (readApplicationPropertiesFromuAMQPMessage c h m w).trace =
        Call.IoTHubMessage_Properties h map ::
          Call.message_get_application_properties m 0 a ::
          Call.amqpvalue_get_inplace_described_value a ipdv ::
          Call.amqpvalue_get_map_pair_count ipdv 0 n ::
          (exp_calls_passes map ipdv 0 passes ++ [Call.amqpvalue_destroy a]) ∧
      (((∀ o ∈ passes, PassOutcome.ok o = true) ∧ passes.length = n ∧
          (readApplicationPropertiesFromuAMQPMessage c h m w).val = 0) ∨
        (∃ good bad, passes = good ++ [bad] ∧ (∀ o ∈ good, PassOutcome.ok o = true) ∧
          PassOutcome.ok bad = false ∧ passes.length ≤ n ∧
          (readApplicationPropertiesFromuAMQPMessage c h m w).val = FAILURE))) := by
  simp only [readApplicationPropertiesFromuAMQPMessage, bind_val, bind_trace, bind_world,
    ite_run, ite_val, ite_trace, pure_val, pure_trace, Ext.IoTHubMessage_Properties,
    Ext.message_get_application_properties, Ext.amqpvalue_destroy, ask_run, tell_run,
    readApplicationProperties_map, Ext.amqpvalue_get_inplace_described_value,
    Ext.amqpvalue_get_map_pair_count]
  generalize c.IoTHubMessage_Properties h w = X0
  by_cases h0 : X0.1 = 0
  · simp only [if_pos h0]
    exact Or.inl ⟨by simp [h0], trivial⟩
  simp only [if_neg h0]
  generalize c.message_get_application_properties m X0.2 = X1
  by_cases h1 : X1.1.1 ≠ 0
  · simp only [if_pos h1]
    exact Or.inr (Or.inl ⟨X0.1, X1.1.1, X1.1.2, h0, h1, by simp, trivial⟩)
  simp only [if_neg h1]
  have h1' : X1.1.1 = 0 := not_not.mp h1
  by_cases h2 : X1.1.2 = 0
  · simp only [if_pos h2]
    exact Or.inr (Or.inr (Or.inl ⟨X0.1, h0, by simp [h1', h2], trivial⟩))
  simp only [if_neg h2]
  generalize c.amqpvalue_get_inplace_described_value X1.1.2 X1.2 = X2
  by_cases h3 : X2.1 = 0
  · simp only [if_pos h3]
    exact Or.inr (Or.inr (Or.inr (Or.inl ⟨X0.1, X1.1.2, h0, h2, by simp [h1', h3], trivial⟩)))
  simp only [if_neg h3]
  generalize c.amqpvalue_get_map_pair_count X2.1 X2.2 = X3
  by_cases h4 : X3.1.1 ≠ 0
  · simp only [if_pos h4]
    exact Or.inr (Or.inr (Or.inr (Or.inr (Or.inl
      ⟨X0.1, X1.1.2, X2.1, X3.1.1, X3.1.2, h0, h2, h3, h4, by simp [h1'], trivial⟩))))
  simp only [if_neg h4]
  have h4' : X3.1.1 = 0 := not_not.mp h4
  rw [h4']
  obtain ⟨ps, hvs, hts, hcase⟩ := readApplicationProperties_loop_cases c X0.1 X2.1 X3.1.2 0 X3.2
  refine Or.inr (Or.inr (Or.inr (Or.inr (Or.inr
    ⟨X0.1, X1.1.2, X2.1, X3.1.2, ps, h0, h2, h3, hvs, by simp [h1', hts], hcase⟩))))

end MapShapes

section DecodeNormalForm

variable {σ : Type}

theorem only_release (k v : Nat) :
    Only Call.isApplicationPropertiesReaderCall (exp_calls_release k v) := by
  unfold exp_calls_release
  split_ifs <;> simp [only_cons, only_nil, only_append, Call.isApplicationPropertiesReaderCall]

theorem only_pass (map ipdv i : Nat) (o : PassOutcome) :
    Only Call.isApplicationPropertiesReaderCall (exp_calls_pass map ipdv i o) := by
  cases o <;>
    simp [exp_calls_pass, only_cons, only_nil, only_append, only_release,
      Call.isApplicationPropertiesReaderCall]

theorem only_passes (map ipdv i : Nat) (ps : List PassOutcome) :
    Only Call.isApplicationPropertiesReaderCall (exp_calls_passes map ipdv i ps) := by
  induction ps generalizing i with
  | nil => exact only_nil _
  | cons o rest ih =>
    simp only [exp_calls_passes, only_append]
    exact ⟨only_pass map ipdv i o, ih (i + 1)⟩

theorem readApplicationPropertiesFromuAMQPMessage_only (c : Collab σ) (h m : Nat) (w : σ) :
    Only Call.isApplicationPropertiesReaderCall
      (readApplicationPropertiesFromuAMQPMessage c h m w).trace := by
  rcases readApplicationPropertiesFromuAMQPMessage_cases c h m w with
    ⟨ht, _⟩ | ⟨_, _, _, _, _, ht, _⟩ | ⟨_, _, ht, _⟩ | ⟨_, _, _, _, ht, _⟩ |
    ⟨_, _, _, _, _, _, _, _, _, ht, _⟩ | ⟨_, _, _, _, _, _, _, _, _, ht, _⟩ <;>
    (rw [ht]
     simp [only_cons, only_nil, only_append, only_passes,
       Call.isApplicationPropertiesReaderCall])

/-- The normal form of a run of `IoTHubMessage_CreateFromUamqpMessage`: either
no message was created and the log is that of the first half, or the message
was created with the three body calls, the properties reader ran, and what
follows it is the application-properties reader, the release of the message,
or both. -/
theorem IoTHubMessage_CreateFromUamqpMessage_normal_form (c : Collab σ) (m old : Nat)
    (w : σ) :
    ((decode_body_run c m w).val.2 = 0 ∧
      (IoTHubMessage_CreateFromUamqpMessage c m old w).trace = (decode_body_run c m w).trace ∧
      (IoTHubMessage_CreateFromUamqpMessage c m old w).val = (FAILURE, old)) ∨
    (∃ bd handle tail, handle ≠ 0 ∧ (decode_body_run c m w).val.2 = handle ∧
      (decode_body_run c m w).trace =
        [Call.message_get_body_type m 0 MESSAGE_BODY_TYPE.MESSAGE_BODY_TYPE_DATA,
          Call.message_get_body_amqp_data_in_place m 0 0 bd,
          Call.IoTHubMessage_CreateFromByteArray bd.bytes bd.length handle] ∧
      (IoTHubMessage_CreateFromUamqpMessage c m old w).trace =
        (decode_body_run c m w).trace ++ ((decode_properties_run c m w).trace ++ tail) ∧
      Only Call.isAfterPropertiesCall tail ∧
      (((decode_properties_run c m w).val ≠ 0 ∧ tail = [Call.IoTHubMessage_Destroy handle] ∧
          (IoTHubMessage_CreateFromUamqpMessage c m old w).val = (FAILURE, old)) ∨
        ((decode_properties_run c m w).val = 0 ∧
          (decode_application_properties_run c m w).val ≠ 0 ∧
          tail = (decode_application_properties_run c m w).trace ++
            [Call.IoTHubMessage_Destroy handle] ∧
          (IoTHubMessage_CreateFromUamqpMessage c m old w).val = (FAILURE, old)) ∨
        ((decode_properties_run c m w).val = 0 ∧
          (decode_application_properties_run c m w).val = 0 ∧
          tail = (decode_application_properties_run c m w).trace ∧
          (IoTHubMessage_CreateFromUamqpMessage c m old w).val = (0, handle)))) := by
  have hA : Only Call.isAfterPropertiesCall (decode_application_properties_run c m w).trace := by
    intro e he
    have := readApplicationPropertiesFromuAMQPMessage_only c _ _ _ e he
    simp [Call.isAfterPropertiesCall, this]
  have hD : ∀ h, Only Call.isAfterPropertiesCall [Call.IoTHubMessage_Destroy h] := by
    intro h
    simp [only_cons, only_nil, Call.isAfterPropertiesCall, Call.isMessageDestroy]
  have hcases := IoTHubMessage_CreateFromUamqpMessage_cases c m old w (decode_body_run c m w)
    (decode_properties_run c m w) (decode_application_properties_run c m w) rfl rfl rfl
  rcases create_from_body_cases c m w with
    ⟨r, t, _, hbt, hbv⟩ | ⟨r, bd, _, hbt, hbv⟩ | ⟨bd, handle, hbt, hbv⟩
  · have hz : (decode_body_run c m w).val.2 = 0 := by
      show (create_from_body c m w).val.2 = 0
      rw [hbv]
    have hf : (decode_body_run c m w).val.1 = FAILURE := by
      show (create_from_body c m w).val.1 = FAILURE
      rw [hbv]
    rcases hcases with ⟨_, ht, hv⟩ | ⟨hn, _⟩ | ⟨hn, _⟩ | ⟨hn, _⟩
    · exact Or.inl ⟨hz, ht, by rw [hv, hf]⟩
    all_goals exact absurd hz hn
  · have hz : (decode_body_run c m w).val.2 = 0 := by
      show (create_from_body c m w).val.2 = 0
      rw [hbv]
    have hf : (decode_body_run c m w).val.1 = FAILURE := by
      show (create_from_body c m w).val.1 = FAILURE
      rw [hbv]
    rcases hcases with ⟨_, ht, hv⟩ | ⟨hn, _⟩ | ⟨hn, _⟩ | ⟨hn, _⟩
    · exact Or.inl ⟨hz, ht, by rw [hv, hf]⟩
    all_goals exact absurd hz hn
  · have hh : (decode_body_run c m w).val.2 = handle := by
      show (create_from_body c m w).val.2 = handle
      rw [hbv]
    have hf : (decode_body_run c m w).val.1 = FAILURE := by
      show (create_from_body c m w).val.1 = FAILURE
      rw [hbv]
    rcases hcases with ⟨hz, ht, hv⟩ | ⟨hn, hr, ht, hv⟩ | ⟨hn, hr, ha, ht, hv⟩ |
      ⟨hn, hr, ha, ht, hv⟩
    · exact Or.inl ⟨hz, ht, by rw [hv, hf]⟩
    · rw [hh] at hn ht
      exact Or.inr ⟨bd, handle, _, hn, hh, hbt, by simp only [ht, List.append_assoc], hD handle,
        Or.inl ⟨hr, rfl, hv⟩⟩
    · rw [hh] at hn ht
      refine Or.inr ⟨bd, handle, _, hn, hh, hbt, by
        simp only [ht, List.append_assoc], ?_,
        Or.inr (Or.inl ⟨hr, ha, rfl, hv⟩)⟩
      exact (only_append _ _ _).mpr ⟨hA, hD handle⟩
    · rw [hh] at hn hv
      exact Or.inr ⟨bd, handle, _, hn, hh, hbt, by simp only [ht, List.append_assoc], hA,
        Or.inr (Or.inr ⟨hr, ha, rfl, hv⟩)⟩

/-- When a predicate holds of exactly one call of a log, the log splits at
that call in one way only. -/
theorem split_unique (p : Call → Bool) (a b a2 b2 : List Call) (e e2 : Call)
    (ha : Avoids p a) (hb : Avoids p b) (he2 : p e2 = true)
    (h : a ++ e :: b = a2 ++ e2 :: b2) : a = a2 ∧ e = e2 ∧ b = b2 := by
  induction a generalizing a2 with
  | nil =>
    cases a2 with
    | nil =>
      simp only [List.nil_append, List.cons.injEq] at h
      exact ⟨rfl, h.1, h.2⟩
    | cons x rest =>
      simp only [List.nil_append, List.cons_append, List.cons.injEq] at h
      have hmem : e2 ∈ b := by rw [h.2]; simp
      have := hb e2 hmem
      rw [he2] at this
      exact absurd this (by decide)
  | cons y a1 ih =>
    cases a2 with
    | nil =>
      simp only [List.nil_append, List.cons_append, List.cons.injEq] at h
      have := ha y (by simp)
      rw [h.1, he2] at this
      exact absurd this (by decide)
    | cons x rest =>
      simp only [List.cons_append, List.cons.injEq] at h
      obtain ⟨h1, h2, h3⟩ := ih rest ((avoids_cons p y a1).mp ha).2 h.2
      exact ⟨by rw [h.1, h1], h2, h3⟩

end DecodeNormalForm

section ClaimsUnsupportedBody

variable {σ : Type}

/-- C13. Unsupported body type: when `message_get_body_type` succeeds with a
type other than `MESSAGE_BODY_TYPE_DATA`, `IoTHubMessage_CreateFromUamqpMessage`
returns non-zero and leaves `*iothubclient_message` as it was; that call is the
only one it makes, so `IoTHubMessage_CreateFromByteArray` is never called and
neither the properties reader nor the application-properties reader runs. -/
theorem IoTHubMessage_CreateFromUamqpMessage_unsupported_body_type (c : Collab σ)
    (uamqp_message iothubclient_message : Nat) (w : σ) (body_type : MESSAGE_BODY_TYPE)
    (hread : Call.message_get_body_type uamqp_message 0 body_type ∈
      (IoTHubMessage_CreateFromUamqpMessage c uamqp_message iothubclient_message w).trace)
    (hother : body_type ≠ MESSAGE_BODY_TYPE.MESSAGE_BODY_TYPE_DATA) :
    (IoTHubMessage_CreateFromUamqpMessage c uamqp_message iothubclient_message w).val.1 ≠ 0 ∧
    (IoTHubMessage_CreateFromUamqpMessage c uamqp_message iothubclient_message w).val.2 =
      iothubclient_message ∧
    (IoTHubMessage_CreateFromUamqpMessage c uamqp_message iothubclient_message w).trace =
      [Call.message_get_body_type uamqp_message 0 body_type] ∧
    (∀ bytes length handle, Call.IoTHubMessage_CreateFromByteArray bytes length handle ∉
      (IoTHubMessage_CreateFromUamqpMessage c uamqp_message iothubclient_message w).trace) ∧
    (∀ e ∈ (IoTHubMessage_CreateFromUamqpMessage c uamqp_message iothubclient_message w).trace,
      e.isPropertiesReaderCall = false ∧ e.isApplicationPropertiesReaderCall = false) := by
  have key : (IoTHubMessage_CreateFromUamqpMessage c uamqp_message iothubclient_message
        w).trace = [Call.message_get_body_type uamqp_message 0 body_type] ∧
      (IoTHubMessage_CreateFromUamqpMessage c uamqp_message iothubclient_message w).val =
        (FAILURE, iothubclient_message) := by
    rcases IoTHubMessage_CreateFromUamqpMessage_normal_form c uamqp_message
      iothubclient_message w with
      ⟨_, ht, hv⟩ | ⟨bd, handle, tail, _, _, hbt, ht, htail, _⟩
    · rw [ht] at hread ⊢
      refine ⟨?_, hv⟩
      have hB : (decode_body_run c uamqp_message w).trace =
          (create_from_body c uamqp_message w).trace := rfl
      rw [hB] at hread ⊢
      rcases create_from_body_cases c uamqp_message w with
        ⟨r, t, _, hbt, _⟩ | ⟨r, bd, _, hbt, _⟩ | ⟨bd, handle, hbt, _⟩
      · rw [hbt] at hread ⊢
        simp only [List.mem_singleton, Call.message_get_body_type.injEq] at hread
        rw [← hread.2.1, ← hread.2.2]
      · rw [hbt] at hread
        simp at hread
        exact absurd hread hother
      · rw [hbt] at hread
        simp at hread
        exact absurd hread hother
    · rw [ht, hbt] at hread
      simp only [List.mem_append, List.mem_cons, Call.message_get_body_type.injEq,
        reduceCtorEq, List.mem_nil_iff, or_false, false_or] at hread
      rcases hread with hd | hR | hT
      · exact absurd hd.2.2 hother
      · have := readPropertiesFromuAMQPMessage_only c _ _ _ _ hR
        simp [Call.isPropertiesReaderCall] at this
      · have := htail _ hT
        simp [Call.isAfterPropertiesCall, Call.isApplicationPropertiesReaderCall,
          Call.isMessageDestroy] at this
  rw [key.1, key.2]
  refine ⟨by simp [FAILURE], rfl, rfl, ?_, ?_⟩
  · intro bytes length handle
    simp
  · intro e he
    rw [List.mem_singleton] at he
    rw [he]
    exact ⟨rfl, rfl⟩

end ClaimsUnsupportedBody

theorem IoTHubMessage_CreateFromUamqpMessage_unsupported_body_type_witness :
    (IoTHubMessage_CreateFromUamqpMessage
      (mock { testScript with bodyType := MESSAGE_BODY_TYPE.MESSAGE_BODY_TYPE_VALUE })
      257 99 0).val = (1, 99) ∧
    (IoTHubMessage_CreateFromUamqpMessage
      (mock { testScript with bodyType := MESSAGE_BODY_TYPE.MESSAGE_BODY_TYPE_VALUE })
      257 99 0).trace =
      [Call.message_get_body_type 257 0 MESSAGE_BODY_TYPE.MESSAGE_BODY_TYPE_VALUE] :=
  ⟨by decide,
    (IoTHubMessage_CreateFromUamqpMessage_unsupported_body_type
      (mock { testScript with bodyType := MESSAGE_BODY_TYPE.MESSAGE_BODY_TYPE_VALUE })
      257 99 0 MESSAGE_BODY_TYPE.MESSAGE_BODY_TYPE_VALUE (by decide) (by decide)).2.2.1⟩

section PassLemmas

theorem release_is_pass (k v : Nat) : Only Call.isPassCall (exp_calls_release k v) := by
  unfold exp_calls_release
  split_ifs <;> simp [only_cons, only_nil, only_append, Call.isPassCall]

theorem pass_is_pass (map ipdv i : Nat) (o : PassOutcome) :
    Only Call.isPassCall (exp_calls_pass map ipdv i o) := by
  cases o <;>
    simp [exp_calls_pass, only_cons, only_nil, only_append, release_is_pass, Call.isPassCall]

theorem passes_are_passes (map ipdv i : Nat) (ps : List PassOutcome) :
    Only Call.isPassCall (exp_calls_passes map ipdv i ps) := by
  induction ps generalizing i with
  | nil => exact only_nil _
  | cons o rest ih =>
    simp only [exp_calls_passes, only_append]
    exact ⟨pass_is_pass map ipdv i o, ih (i + 1)⟩

theorem release_inserts (k v : Nat) :
    (exp_calls_release k v).countP Call.isMapInsert = 0 := by
  unfold exp_calls_release
  split_ifs <;> simp [List.countP_cons, Call.isMapInsert]

theorem pass_inserts (map ipdv i : Nat) (o : PassOutcome) (hok : o.ok = true) :
    (exp_calls_pass map ipdv i o).countP Call.isMapInsert = 1 := by
  cases o <;> simp [PassOutcome.ok] at hok
  simp [exp_calls_pass, List.countP_cons, List.countP_append, release_inserts,
    Call.isMapInsert]

theorem passes_inserts (map ipdv i : Nat) (ps : List PassOutcome)
    (hok : ∀ o ∈ ps, PassOutcome.ok o = true) :
    (exp_calls_passes map ipdv i ps).countP Call.isMapInsert = ps.length := by
  induction ps generalizing i with
  | nil => rfl
  | cons o rest ih =>
    simp only [exp_calls_passes, List.countP_append, List.length_cons]
    rw [pass_inserts map ipdv i o (hok o (by simp)), ih (i + 1) (fun o2 h2 => hok o2 (by simp [h2]))]
    omega

theorem release_reads (k v : Nat) (ipdv j : Nat) (r : Int) (k2 v2 : Nat) :
    Call.amqpvalue_get_map_key_value_pair ipdv j r k2 v2 ∉ exp_calls_release k v := by
  unfold exp_calls_release
  split_ifs <;> simp

theorem pass_reads (map ipdv i : Nat) (o : PassOutcome) (ipdv2 j : Nat) (r : Int)
    (k v : Nat) (h : Call.amqpvalue_get_map_key_value_pair ipdv2 j r k v ∈
      exp_calls_pass map ipdv i o) : j = i := by
  cases o <;>
    simp [exp_calls_pass, release_reads] at h <;> exact h.2.1

theorem passes_reads (map ipdv i : Nat) (ps : List PassOutcome) (ipdv2 j : Nat) (r : Int)
    (k v : Nat) (h : Call.amqpvalue_get_map_key_value_pair ipdv2 j r k v ∈
      exp_calls_passes map ipdv i ps) : i ≤ j ∧ j < i + ps.length := by
  induction ps generalizing i with
  | nil => simp [exp_calls_passes] at h
  | cons o rest ih =>
    simp only [exp_calls_passes, List.mem_append] at h
    rcases h with h | h
    · have := pass_reads map ipdv i o ipdv2 j r k v h
      simp [this]
    · have := ih (i + 1) h
      simp only [List.length_cons]
      omega

end PassLemmas

section ClaimsApplicationPropertiesReader

variable {σ : Type}

/-- C17. Absent application-properties on decode: when
`message_get_application_properties` succeeds and yields `NULL`,
`readApplicationPropertiesFromuAMQPMessage` returns 0 after two calls (the
property map of the message and that read) and calls none of
`amqpvalue_get_inplace_described_value`, `amqpvalue_get_map_pair_count`,
`Map_AddOrUpdate`, `amqpvalue_destroy`; when this is the run inside
`IoTHubMessage_CreateFromUamqpMessage`, on a message the first half created and
after a properties reader that returned 0, the decode returns 0 with that
message. -/
theorem readApplicationPropertiesFromuAMQPMessage_absent (c : Collab σ)
    (iothub_message_handle uamqp_message : Nat) (w : σ)
    (habsent : Call.message_get_application_properties uamqp_message 0 0 ∈
      (readApplicationPropertiesFromuAMQPMessage c iothub_message_handle uamqp_message
        w).trace) :
    (readApplicationPropertiesFromuAMQPMessage c iothub_message_handle uamqp_message w).val
      = 0 ∧
    (∃ map, map ≠ 0 ∧
      (readApplicationPropertiesFromuAMQPMessage c iothub_message_handle uamqp_message
        w).trace =
        [Call.IoTHubMessage_Properties iothub_message_handle map,
          Call.message_get_application_properties uamqp_message 0 0]) ∧
    (∀ a v, Call.amqpvalue_get_inplace_described_value a v ∉
      (readApplicationPropertiesFromuAMQPMessage c iothub_message_handle uamqp_message
        w).trace) ∧
    (∀ v r n, Call.amqpvalue_get_map_pair_count v r n ∉
      (readApplicationPropertiesFromuAMQPMessage c iothub_message_handle uamqp_message
        w).trace) ∧
    (∀ map k v r, Call.Map_AddOrUpdate map k v r ∉
      (readApplicationPropertiesFromuAMQPMessage c iothub_message_handle uamqp_message
        w).trace) ∧
    (∀ v, Call.amqpvalue_destroy v ∉
      (readApplicationPropertiesFromuAMQPMessage c iothub_message_handle uamqp_message
        w).trace) ∧
    (∀ iothubclient_message w0,
      iothub_message_handle = (decode_body_run c uamqp_message w0).val.2 →
      w = (decode_properties_run c uamqp_message w0).world →
      iothub_message_handle ≠ 0 → (decode_properties_run c uamqp_message w0).val = 0 →
      (IoTHubMessage_CreateFromUamqpMessage c uamqp_message iothubclient_message w0).val =
        (0, iothub_message_handle)) := by
  have key : (readApplicationPropertiesFromuAMQPMessage c iothub_message_handle uamqp_message
        w).val = 0 ∧ ∃ map, map ≠ 0 ∧
      (readApplicationPropertiesFromuAMQPMessage c iothub_message_handle uamqp_message
        w).trace =
        [Call.IoTHubMessage_Properties iothub_message_handle map,
          Call.message_get_application_properties uamqp_message 0 0] := by
    rcases readApplicationPropertiesFromuAMQPMessage_cases c iothub_message_handle
      uamqp_message w with
      ⟨ht, _⟩ | ⟨_, r, _, _, hr, ht, _⟩ | ⟨map, hmap, ht, hv⟩ | ⟨_, a, _, ha, ht, _⟩ |
      ⟨_, a, _, _, _, _, ha, _, _, ht, _⟩ | ⟨map, a, ipdv, n, ps, _, ha, _, _, ht, _⟩
    · rw [ht] at habsent
      simp at habsent
    · rw [ht] at habsent
      simp at habsent
      exact absurd habsent.1.symm hr
    · exact ⟨hv, map, hmap, ht⟩
    · rw [ht] at habsent
      simp at habsent
      exact absurd habsent.symm ha
    · rw [ht] at habsent
      simp at habsent
      exact absurd habsent.symm ha
    · rw [ht] at habsent
      simp only [List.mem_cons, List.mem_append, reduceCtorEq, false_or,
        Call.message_get_application_properties.injEq, true_and, List.mem_nil_iff,
        or_false] at habsent
      rcases habsent with e | e
      · exact absurd e.symm ha
      · have := passes_are_passes _ _ _ _ _ e
        simp [Call.isPassCall] at this
  obtain ⟨hv, map, hmap, ht⟩ := key
  refine ⟨hv, ⟨map, hmap, ht⟩, ?_, ?_, ?_, ?_, ?_⟩
  · intro a v
    rw [ht]
    simp
  · intro v r n
    rw [ht]
    simp
  · intro map2 k v r
    rw [ht]
    simp
  · intro v
    rw [ht]
    simp
  · intro old w0 hh hw hn hr
    have hA : (decode_application_properties_run c uamqp_message w0).val = 0 := by
      show (readApplicationPropertiesFromuAMQPMessage c
        (decode_body_run c uamqp_message w0).val.2 uamqp_message
        (decode_properties_run c uamqp_message w0).world).val = 0
      rw [← hh, ← hw]
      exact hv
    rcases IoTHubMessage_CreateFromUamqpMessage_cases c uamqp_message old w0
      (decode_body_run c uamqp_message w0) (decode_properties_run c uamqp_message w0)
      (decode_application_properties_run c uamqp_message w0) rfl rfl rfl with
      ⟨hz, _⟩ | ⟨_, hr2, _⟩ | ⟨_, _, ha2, _⟩ | ⟨_, _, _, _, hval⟩
    · rw [← hh] at hz
      exact absurd hz hn
    · exact absurd hr hr2
    · exact absurd hA ha2
    · rw [hval, ← hh]

/-- C18. The application-properties reader copies pairs in index order up to
the first failure: when the pair count was read as `n`, the log of
`readApplicationPropertiesFromuAMQPMessage` is its four opening calls, then
consecutive passes for the indices 0, 1, 2, ... (each one reads pair `i`,
extracts the key and the value as strings and calls `Map_AddOrUpdate` on the
target map with these two strings), then the release of the
application-properties value.  Either every pass inserted its pair, and then
there are `n` passes, `Map_AddOrUpdate` was called `n` times and the reader
returns 0; or the last pass is the only one with a failing sub-step, its index
is below `n`, and the reader returns non-zero.  No pair is read at an index
beyond the last pass. -/
theorem readApplicationPropertiesFromuAMQPMessage_copies_in_order (c : Collab σ)
    (iothub_message_handle uamqp_message : Nat) (w : σ) (ipdv n : Nat)
    (hcount : Call.amqpvalue_get_map_pair_count ipdv 0 n ∈
      (readApplicationPropertiesFromuAMQPMessage c iothub_message_handle uamqp_message
        w).trace) :
    ∃ map a passes, (∀ o ∈ passes, PassOutcome.valid o) ∧
      (readApplicationPropertiesFromuAMQPMessage c iothub_message_handle uamqp_message
        w).trace =
        Call.IoTHubMessage_Properties iothub_message_handle map ::
          Call.message_get_application_properties uamqp_message 0 a ::
          Call.amqpvalue_get_inplace_described_value a ipdv ::
          Call.amqpvalue_get_map_pair_count ipdv 0 n ::
          (exp_calls_passes map ipdv 0 passes ++ [Call.amqpvalue_destroy a]) ∧
      (∀ v j r key value, Call.amqpvalue_get_map_key_value_pair v j r key value ∈
        (readApplicationPropertiesFromuAMQPMessage c iothub_message_handle uamqp_message
          w).trace → j < passes.length) ∧
      (((∀ o ∈ passes, PassOutcome.ok o = true) ∧ passes.length = n ∧
          (readApplicationPropertiesFromuAMQPMessage c iothub_message_handle uamqp_message
            w).trace.countP Call.isMapInsert = n ∧
          (readApplicationPropertiesFromuAMQPMessage c iothub_message_handle uamqp_message
            w).val = 0) ∨
        (∃ good bad, passes = good ++ [bad] ∧ (∀ o ∈ good, PassOutcome.ok o = true) ∧
          PassOutcome.ok bad = false ∧ good.length < n ∧
          (readApplicationPropertiesFromuAMQPMessage c iothub_message_handle uamqp_message
            w).val ≠ 0)) := by
  rcases readApplicationPropertiesFromuAMQPMessage_cases c iothub_message_handle
    uamqp_message w with
    ⟨ht, _⟩ | ⟨_, _, _, _, _, ht, _⟩ | ⟨_, _, ht, _⟩ | ⟨_, _, _, _, ht, _⟩ |
    ⟨_, _, _, r, _, _, _, _, hr, ht, _⟩ | ⟨map, a, ipdv2, n2, ps, _, _, _, hvalid, ht, hcase⟩
  · rw [ht] at hcount
    simp at hcount
  · rw [ht] at hcount
    simp at hcount
  · rw [ht] at hcount
    simp at hcount
  · rw [ht] at hcount
    simp at hcount
  · rw [ht] at hcount
    simp at hcount
    exact absurd hcount.2.1.symm hr
  · have hcount2 := hcount
    rw [ht] at hcount2
    simp only [List.mem_cons, List.mem_append, reduceCtorEq, false_or,
      Call.amqpvalue_get_map_pair_count.injEq, true_and, List.mem_nil_iff,
      or_false] at hcount2
    rcases hcount2 with e | e
    · obtain ⟨e1, e2⟩ := e
      subst e1
      subst e2
      refine ⟨map, a, ps, hvalid, ht, ?_, ?_⟩
      · intro v j r key value hmem
        rw [ht] at hmem
        simp only [List.mem_cons, List.mem_append, reduceCtorEq, false_or,
          List.mem_nil_iff, or_false] at hmem
        have := passes_reads _ _ _ _ _ _ _ _ _ hmem
        omega
      · rcases hcase with ⟨hall, hlen, hval⟩ | ⟨good, bad, hps, hgood, hbad, hlen, hval⟩
        · refine Or.inl ⟨hall, hlen, ?_, hval⟩
          rw [ht]
          simp [List.countP_cons, List.countP_append, Call.isMapInsert,
            passes_inserts _ _ _ _ hall, hlen]
        · refine Or.inr ⟨good, bad, hps, hgood, hbad, ?_, by rw [hval]; simp [FAILURE]⟩
          rw [hps] at hlen
          simp at hlen
          omega
    · have := passes_are_passes _ _ _ _ _ e
      simp [Call.isPassCall] at this

end ClaimsApplicationPropertiesReader

theorem readApplicationPropertiesFromuAMQPMessage_absent_witness :
    (readApplicationPropertiesFromuAMQPMessage
      (mock { testScript with hasApplicationProperties := false }) 256 257 0).val = 0 ∧
    (readApplicationPropertiesFromuAMQPMessage
      (mock { testScript with hasApplicationProperties := false }) 256 257 0).trace =
      [Call.IoTHubMessage_Properties 256 259,
        Call.message_get_application_properties 257 0 0] :=
  ⟨(readApplicationPropertiesFromuAMQPMessage_absent
      (mock { testScript with hasApplicationProperties := false }) 256 257 0
      (by decide)).1, by decide⟩

theorem readApplicationPropertiesFromuAMQPMessage_copies_in_order_witness :
    Call.amqpvalue_get_map_pair_count 261 0 2 ∈
      (readApplicationPropertiesFromuAMQPMessage
        (mock { testScript with keys := ["k1", "k2"], values := ["v1", "v2"] })
        256 257 0).trace ∧
    ∃ map a passes, (∀ o ∈ passes, PassOutcome.valid o) ∧
      (readApplicationPropertiesFromuAMQPMessage
        (mock { testScript with keys := ["k1", "k2"], values := ["v1", "v2"] })
        256 257 0).trace =
        Call.IoTHubMessage_Properties 256 map ::
          Call.message_get_application_properties 257 0 a ::
          Call.amqpvalue_get_inplace_described_value a 261 ::
          Call.amqpvalue_get_map_pair_count 261 0 2 ::
          (exp_calls_passes map 261 0 passes ++ [Call.amqpvalue_destroy a]) ∧
      (∀ v j r key value, Call.amqpvalue_get_map_key_value_pair v j r key value ∈
        (readApplicationPropertiesFromuAMQPMessage
          (mock { testScript with keys := ["k1", "k2"], values := ["v1", "v2"] })
          256 257 0).trace → j < passes.length) ∧
      (((∀ o ∈ passes, PassOutcome.ok o = true) ∧ passes.length = 2 ∧
          (readApplicationPropertiesFromuAMQPMessage
            (mock { testScript with keys := ["k1", "k2"], values := ["v1", "v2"] })
            256 257 0).trace.countP Call.isMapInsert = 2 ∧
          (readApplicationPropertiesFromuAMQPMessage
            (mock { testScript with keys := ["k1", "k2"], values := ["v1", "v2"] })
            256 257 0).val = 0) ∨
        (∃ good bad, passes = good ++ [bad] ∧ (∀ o ∈ good, PassOutcome.ok o = true) ∧
          PassOutcome.ok bad = false ∧ good.length < 2 ∧
          (readApplicationPropertiesFromuAMQPMessage
            (mock { testScript with keys := ["k1", "k2"], values := ["v1", "v2"] })
            256 257 0).val ≠ 0)) :=
  ⟨by decide,
    readApplicationPropertiesFromuAMQPMessage_copies_in_order
      (mock { testScript with keys := ["k1", "k2"], values := ["v1", "v2"] })
      256 257 0 261 2 (by decide)⟩

/-- The log of the application-properties reader on a scripted message with
two pairs: the pairs are copied in index order. -/
theorem readApplicationPropertiesFromuAMQPMessage_two_pairs :
    (readApplicationPropertiesFromuAMQPMessage
      (mock { testScript with keys := ["k1", "k2"], values := ["v1", "v2"] })
      256 257 0).trace =
      [Call.IoTHubMessage_Properties 256 259,
        Call.message_get_application_properties 257 0 260,
        Call.amqpvalue_get_inplace_described_value 260 261,
        Call.amqpvalue_get_map_pair_count 261 0 2,
        Call.amqpvalue_get_map_key_value_pair 261 0 0 3000 3001,
        Call.amqpvalue_get_string 3000 0 (some "k1"),
        Call.amqpvalue_get_string 3001 0 (some "v1"),
        Call.Map_AddOrUpdate 259 (some "k1") (some "v1") 0,
        Call.amqpvalue_destroy 3000,
        Call.amqpvalue_destroy 3001,
        Call.amqpvalue_get_map_key_value_pair 261 1 0 3002 3003,
        Call.amqpvalue_get_string 3002 0 (some "k2"),
        Call.amqpvalue_get_string 3003 0 (some "v2"),
        Call.Map_AddOrUpdate 259 (some "k2") (some "v2") 0,
        Call.amqpvalue_destroy 3002,
        Call.amqpvalue_destroy 3003,
        Call.amqpvalue_destroy 260] := by
  decide

section FieldLemmas

theorem message_id_head (h p : Nat) (o : FieldOutcome) :
    exp_calls_read_message_id h p o =
      Call.properties_get_message_id p o.result o.value ::
        (exp_calls_read_message_id h p o).tail := by
  cases o <;> rfl

theorem message_id_avoids (h p : Nat) (o : FieldOutcome) :
    Avoids Call.isMessageIdRead (exp_calls_read_message_id h p o).tail ∧
      Avoids Call.isCorrelationIdRead (exp_calls_read_message_id h p o) := by
  cases o <;>
    simp [exp_calls_read_message_id, avoids_cons, avoids_nil, Call.isMessageIdRead,
      Call.isCorrelationIdRead]

theorem message_id_null (h p : Nat) (o : FieldOutcome) (v : Nat) (rest post : List Call)
    (hv : o.valid) (hr : o.result = 0)
    (heq : (exp_calls_read_message_id h p o).tail ++ rest =
      Call.amqpvalue_get_type v AMQP_TYPE.AMQP_TYPE_NULL :: post) :
    post = rest ∧ o.fatal = false ∧
      ∀ h2 s r, Call.IoTHubMessage_SetMessageId h2 s r ∉ exp_calls_read_message_id h p o := by
  cases o with
  | unread result value => exact absurd hr hv
  | null value =>
    simp [exp_calls_read_message_id] at heq
    exact ⟨heq.2.symm, rfl, by simp [exp_calls_read_message_id]⟩
  | unextracted value type result text =>
    simp [exp_calls_read_message_id] at heq
    exact absurd heq.1.2 hv.1
  | set value type text result =>
    simp [exp_calls_read_message_id] at heq
    exact absurd heq.1.2 hv

theorem message_id_unread (h p : Nat) (o : FieldOutcome) (hr : o.result ≠ 0) :
    (exp_calls_read_message_id h p o).tail = [] ∧ o.fatal = false ∧
      ∀ h2 s r, Call.IoTHubMessage_SetMessageId h2 s r ∉ exp_calls_read_message_id h p o := by
  cases o <;> simp [FieldOutcome.result] at hr
  exact ⟨rfl, rfl, by simp [exp_calls_read_message_id]⟩

theorem message_id_ok (h p : Nat) (o : FieldOutcome) (hv : o.valid)
    (hok : AllOk (exp_calls_read_message_id h p o)) : o.fatal = false := by
  cases o with
  | unread result value => rfl
  | null value => rfl
  | unextracted value type result text =>
    simp [exp_calls_read_message_id, allOk_cons, allOk_nil, Call.ok] at hok
    exact absurd hok hv.2
  | set value type text result =>
    simp [exp_calls_read_message_id, allOk_cons, allOk_nil, Call.ok] at hok
    simp [FieldOutcome.fatal, hok]

theorem message_id_other (h p : Nat) (o : FieldOutcome) :
    (∀ h2 s r, Call.IoTHubMessage_SetCorrelationId h2 s r ∉ exp_calls_read_message_id h p o) ∧
      ∀ m r q, Call.message_get_properties m r q ∉ exp_calls_read_message_id h p o := by
  cases o <;> simp [exp_calls_read_message_id]

theorem message_id_fatal (h p : Nat) (o : FieldOutcome) (hv : o.valid) :
    o.fatal = true ↔
      (∃ v r s, r ≠ 0 ∧ Call.amqpvalue_get_string v r s ∈ exp_calls_read_message_id h p o) ∨
      (∃ s r, r ≠ IOTHUB_MESSAGE_RESULT.IOTHUB_MESSAGE_OK ∧
        Call.IoTHubMessage_SetMessageId h s r ∈ exp_calls_read_message_id h p o) := by
  cases o with
  | unread result value => simp [exp_calls_read_message_id, FieldOutcome.fatal]
  | null value => simp [exp_calls_read_message_id, FieldOutcome.fatal]
  | unextracted value type result text =>
    simp only [FieldOutcome.fatal, true_iff]
    exact Or.inl ⟨value, result, text, hv.2, by simp [exp_calls_read_message_id]⟩
  | set value type text result =>
    simp [exp_calls_read_message_id, FieldOutcome.fatal]

theorem correlation_id_head (h p : Nat) (o : FieldOutcome) :
    exp_calls_read_correlation_id h p o =
      Call.properties_get_correlation_id p o.result o.value ::
        (exp_calls_read_correlation_id h p o).tail := by
  cases o <;> rfl

theorem correlation_id_avoids (h p : Nat) (o : FieldOutcome) :
    Avoids Call.isCorrelationIdRead (exp_calls_read_correlation_id h p o).tail ∧
      Avoids Call.isMessageIdRead (exp_calls_read_correlation_id h p o) := by
  cases o <;>
    simp [exp_calls_read_correlation_id, avoids_cons, avoids_nil, Call.isCorrelationIdRead,
      Call.isMessageIdRead]

theorem correlation_id_null (h p : Nat) (o : FieldOutcome) (v : Nat) (rest post : List Call)
    (hv : o.valid) (hr : o.result = 0)
    (heq : (exp_calls_read_correlation_id h p o).tail ++ rest =
      Call.amqpvalue_get_type v AMQP_TYPE.AMQP_TYPE_NULL :: post) :
    post = rest ∧ o.fatal = false ∧
      ∀ h2 s r, Call.IoTHubMessage_SetCorrelationId h2 s r ∉ exp_calls_read_correlation_id h p o := by
  cases o with
  | unread result value => exact absurd hr hv
  | null value =>
    simp [exp_calls_read_correlation_id] at heq
    exact ⟨heq.2.symm, rfl, by simp [exp_calls_read_correlation_id]⟩
  | unextracted value type result text =>
    simp [exp_calls_read_correlation_id] at heq
    exact absurd heq.1.2 hv.1
  | set value type text result =>
    simp [exp_calls_read_correlation_id] at heq
    exact absurd heq.1.2 hv

theorem correlation_id_unread (h p : Nat) (o : FieldOutcome) (hr : o.result ≠ 0) :
    (exp_calls_read_correlation_id h p o).tail = [] ∧ o.fatal = false ∧
      ∀ h2 s r, Call.IoTHubMessage_SetCorrelationId h2 s r ∉ exp_calls_read_correlation_id h p o := by
  cases o <;> simp [FieldOutcome.result] at hr
  exact ⟨rfl, rfl, by simp [exp_calls_read_correlation_id]⟩

theorem correlation_id_ok (h p : Nat) (o : FieldOutcome) (hv : o.valid)
    (hok : AllOk (exp_calls_read_correlation_id h p o)) : o.fatal = false := by
  cases o with
  | unread result value => rfl
  | null value => rfl
  | unextracted value type result text =>
    simp [exp_calls_read_correlation_id, allOk_cons, allOk_nil, Call.ok] at hok
    exact absurd hok hv.2
  | set value type text result =>
    simp [exp_calls_read_correlation_id, allOk_cons, allOk_nil, Call.ok] at hok
    simp [FieldOutcome.fatal, hok]

theorem correlation_id_other (h p : Nat) (o : FieldOutcome) :
    (∀ h2 s r, Call.IoTHubMessage_SetMessageId h2 s r ∉ exp_calls_read_correlation_id h p o) ∧
      ∀ m r q, Call.message_get_properties m r q ∉ exp_calls_read_correlation_id h p o := by
  cases o <;> simp [exp_calls_read_correlation_id]

theorem correlation_id_fatal (h p : Nat) (o : FieldOutcome) (hv : o.valid) :
    o.fatal = true ↔
      (∃ v r s, r ≠ 0 ∧ Call.amqpvalue_get_string v r s ∈ exp_calls_read_correlation_id h p o) ∨
      (∃ s r, r ≠ IOTHUB_MESSAGE_RESULT.IOTHUB_MESSAGE_OK ∧
        Call.IoTHubMessage_SetCorrelationId h s r ∈ exp_calls_read_correlation_id h p o) := by
  cases o with
  | unread result value => simp [exp_calls_read_correlation_id, FieldOutcome.fatal]
  | null value => simp [exp_calls_read_correlation_id, FieldOutcome.fatal]
  | unextracted value type result text =>
    simp only [FieldOutcome.fatal, true_iff]
    exact Or.inl ⟨value, result, text, hv.2, by simp [exp_calls_read_correlation_id]⟩
  | set value type text result =>
    simp [exp_calls_read_correlation_id, FieldOutcome.fatal]

end FieldLemmas

section DecodeFields

variable {σ : Type}

/-- The properties reader always reads the correlation-id once the container
was retrieved, whatever happened to the message-id. -/
theorem readPropertiesFromuAMQPMessage_reads_correlation_id (c : Collab σ) (h m : Nat)
    (w : σ) (p : Nat)
    (hp : Call.message_get_properties m 0 p ∈ (readPropertiesFromuAMQPMessage c h m w).trace) :
    ∃ r v, Call.properties_get_correlation_id p r v ∈
      (readPropertiesFromuAMQPMessage c h m w).trace := by
  rcases readPropertiesFromuAMQPMessage_cases c h m w with
    ⟨r, q, hr, ht, _⟩ | ⟨q, o1, o2, _, _, ht, _⟩
  · rw [ht] at hp
    simp at hp
    exact absurd hp.1.symm hr
  · rw [ht] at hp ⊢
    simp only [List.mem_cons, List.mem_append, Call.message_get_properties.injEq, true_and,
      reduceCtorEq, List.mem_nil_iff, or_false, (message_id_other h q o1).2,
      (correlation_id_other h q o2).2] at hp
    subst hp
    refine ⟨o2.result, o2.value, ?_⟩
    rw [correlation_id_head h p o2]
    simp

/-- The shape of a run of `IoTHubMessage_CreateFromUamqpMessage` around the
two id fields: either neither field is read, or the log is the three body
calls and the retrieval of the container, the message-id step, the
correlation-id step, the release of the container, and what follows the
properties reader. -/
theorem IoTHubMessage_CreateFromUamqpMessage_fields (c : Collab σ) (m old : Nat) (w : σ) :
    (Avoids Call.isMessageIdRead (IoTHubMessage_CreateFromUamqpMessage c m old w).trace ∧
      Avoids Call.isCorrelationIdRead (IoTHubMessage_CreateFromUamqpMessage c m old w).trace) ∨
    (∃ bd h p o1 o2 tail, h ≠ 0 ∧ FieldOutcome.valid o1 ∧ FieldOutcome.valid o2 ∧
      (IoTHubMessage_CreateFromUamqpMessage c m old w).trace =
        [Call.message_get_body_type m 0 MESSAGE_BODY_TYPE.MESSAGE_BODY_TYPE_DATA,
          Call.message_get_body_amqp_data_in_place m 0 0 bd,
          Call.IoTHubMessage_CreateFromByteArray bd.bytes bd.length h,
          Call.message_get_properties m 0 p] ++
        (exp_calls_read_message_id h p o1 ++ (exp_calls_read_correlation_id h p o2 ++
          Call.properties_destroy p :: tail)) ∧
      Only Call.isAfterPropertiesCall tail ∧
      (decode_properties_run c m w).val =
        (if o1.fatal = true ∨ o2.fatal = true then FAILURE else 0) ∧
      (o1.fatal = false → o2.fatal = false → AllOk tail →
        (IoTHubMessage_CreateFromUamqpMessage c m old w).val.1 = 0)) := by
  rcases IoTHubMessage_CreateFromUamqpMessage_normal_form c m old w with
    ⟨_, ht, _⟩ | ⟨bd, handle, tail, hn, hh, hbt, ht, htail, hcase⟩
  · left
    have hB := create_from_body_only c m w
    rw [ht]
    constructor <;>
    · intro e he
      have := hB e he
      revert this
      cases e <;> simp [Call.isBodyReaderCall, Call.isMessageIdRead, Call.isCorrelationIdRead]
  · have htailA : Avoids Call.isMessageIdRead tail ∧ Avoids Call.isCorrelationIdRead tail := by
      constructor <;>
      · intro e he
        have := htail e he
        revert this
        cases e <;>
          simp [Call.isAfterPropertiesCall, Call.isApplicationPropertiesReaderCall,
            Call.isMessageDestroy, Call.isMessageIdRead, Call.isCorrelationIdRead]
    have hR : decode_properties_run c m w =
        readPropertiesFromuAMQPMessage c handle m (decode_body_run c m w).world := by
      unfold decode_properties_run
      rw [hh]
    rcases readPropertiesFromuAMQPMessage_cases c handle m (decode_body_run c m w).world with
      ⟨r, p, hr, hrt, _⟩ | ⟨p, o1, o2, hv1, hv2, hrt, hrv⟩
    · left
      rw [ht, hbt, hR, hrt]
      simp [avoids_append, avoids_cons, avoids_nil, htailA, Call.isMessageIdRead,
        Call.isCorrelationIdRead]
    · right
      refine ⟨bd, handle, p, o1, o2, tail, hn, hv1, hv2, ?_, htail, ?_, ?_⟩
      · rw [ht, hbt, hR, hrt]
        simp
      · rw [hR, hrv]
      · intro f1 f2 hok
        have hz : (decode_properties_run c m w).val = 0 := by
          rw [hR, hrv, f1, f2]
          simp
        rcases hcase with ⟨hne, _⟩ | ⟨_, hane, htl, _⟩ | ⟨_, _, _, hval⟩
        · exact absurd hz hne
        · rw [htl, allOk_append] at hok
          exact absurd (readApplicationPropertiesFromuAMQPMessage_ok c _ _ _ hok.1) hane
        · rw [hval]

end DecodeFields

section ClaimsPropertiesReader

variable {σ : Type}

/-- C16. Exact failure condition of the properties reader:
`readPropertiesFromuAMQPMessage` returns non-zero if and only if one of its
calls to `message_get_properties`, `amqpvalue_get_string`,
`IoTHubMessage_SetMessageId` or `IoTHubMessage_SetCorrelationId` failed; and
its log is either the failed retrieval of the container alone, or the
retrieval, the message-id step, the correlation-id step and the release, where
a step makes the reader fail exactly when its field was read with a type other
than `AMQP_TYPE_NULL` and the extraction or the setter failed (so a failure of
the message-id step is not undone by the correlation-id step). -/
theorem readPropertiesFromuAMQPMessage_fails_iff (c : Collab σ)
    (iothub_message_handle uamqp_message : Nat) (w : σ) :
    ((readPropertiesFromuAMQPMessage c iothub_message_handle uamqp_message w).val ≠ 0 ↔
      (∃ r p, r ≠ 0 ∧ Call.message_get_properties uamqp_message r p ∈
        (readPropertiesFromuAMQPMessage c iothub_message_handle uamqp_message w).trace) ∨
      (∃ v r s, r ≠ 0 ∧ Call.amqpvalue_get_string v r s ∈
        (readPropertiesFromuAMQPMessage c iothub_message_handle uamqp_message w).trace) ∨
      (∃ s r, r ≠ IOTHUB_MESSAGE_RESULT.IOTHUB_MESSAGE_OK ∧
        Call.IoTHubMessage_SetMessageId iothub_message_handle s r ∈
          (readPropertiesFromuAMQPMessage c iothub_message_handle uamqp_message w).trace) ∨
      (∃ s r, r ≠ IOTHUB_MESSAGE_RESULT.IOTHUB_MESSAGE_OK ∧
        Call.IoTHubMessage_SetCorrelationId iothub_message_handle s r ∈
          (readPropertiesFromuAMQPMessage c iothub_message_handle uamqp_message w).trace)) ∧
    ((∃ r p, r ≠ 0 ∧
        (readPropertiesFromuAMQPMessage c iothub_message_handle uamqp_message w).trace =
          [Call.message_get_properties uamqp_message r p]) ∨
      (∃ p o1 o2, FieldOutcome.valid o1 ∧ FieldOutcome.valid o2 ∧
        (readPropertiesFromuAMQPMessage c iothub_message_handle uamqp_message w).trace =
          Call.message_get_properties uamqp_message 0 p ::
            (exp_calls_read_message_id iothub_message_handle p o1 ++
              exp_calls_read_correlation_id iothub_message_handle p o2 ++
              [Call.properties_destroy p]) ∧
        ((readPropertiesFromuAMQPMessage c iothub_message_handle uamqp_message w).val ≠ 0 ↔
          o1.fatal = true ∨ o2.fatal = true))) := by
  rcases readPropertiesFromuAMQPMessage_cases c iothub_message_handle uamqp_message w with
    ⟨r, p, hr, ht, hv⟩ | ⟨p, o1, o2, hv1, hv2, ht, hv⟩
  · refine ⟨?_, Or.inl ⟨r, p, hr, ht⟩⟩
    rw [ht, hv]
    simp only [FAILURE, ne_eq, one_ne_zero, not_false_eq_true, true_iff]
    exact Or.inl ⟨r, p, hr, by simp⟩
  · have hiff : (readPropertiesFromuAMQPMessage c iothub_message_handle uamqp_message w).val
        ≠ 0 ↔ o1.fatal = true ∨ o2.fatal = true := by
      rw [hv]
      by_cases hf : o1.fatal = true ∨ o2.fatal = true
      · simp [hf, FAILURE]
      · simp [hf]
    refine ⟨?_, Or.inr ⟨p, o1, o2, hv1, hv2, ht, hiff⟩⟩
    rw [hiff, message_id_fatal iothub_message_handle p o1 hv1,
      correlation_id_fatal iothub_message_handle p o2 hv2, ht]
    have m1 := message_id_other iothub_message_handle p o1
    have c1 := correlation_id_other iothub_message_handle p o2
    simp only [List.mem_cons, List.mem_append, reduceCtorEq, false_or, List.mem_nil_iff,
      or_false, Call.message_get_properties.injEq, true_and, m1.1, m1.2, c1.1, c1.2]
    constructor
    · rintro ((⟨v, r, s, hr, hm⟩ | ⟨s, r, hr, hm⟩) | (⟨v, r, s, hr, hm⟩ | ⟨s, r, hr, hm⟩))
      · exact Or.inr (Or.inl ⟨v, r, s, hr, Or.inl hm⟩)
      · exact Or.inr (Or.inr (Or.inl ⟨s, r, hr, hm⟩))
      · exact Or.inr (Or.inl ⟨v, r, s, hr, Or.inr hm⟩)
      · exact Or.inr (Or.inr (Or.inr ⟨s, r, hr, hm⟩))
    · rintro (⟨r, q, hr, hm⟩ | ⟨v, r, s, hr, hm | hm⟩ | ⟨s, r, hr, hm⟩ | ⟨s, r, hr, hm⟩)
      · exact absurd hm.1 hr
      · exact Or.inl (Or.inl ⟨v, r, s, hr, hm⟩)
      · exact Or.inr (Or.inl ⟨v, r, s, hr, hm⟩)
      · exact Or.inl (Or.inr ⟨s, r, hr, hm⟩)
      · exact Or.inr (Or.inr ⟨s, r, hr, hm⟩)

/-- C20. The decode properties step does not stop at a fatal message-id error:
on the scripted message, when `amqpvalue_get_string` fails for the message-id
(first run) or `IoTHubMessage_SetMessageId` fails (second run),
`readPropertiesFromuAMQPMessage` still calls `properties_get_correlation_id`,
`amqpvalue_get_string` for the correlation-id and
`IoTHubMessage_SetCorrelationId` before it returns the failure. -/
theorem readPropertiesFromuAMQPMessage_continues_after_message_id_failure :
    (readPropertiesFromuAMQPMessage (mock { testScript with failAt := some 3 })
        256 257 0).val = FAILURE ∧
    (readPropertiesFromuAMQPMessage (mock { testScript with failAt := some 3 })
        256 257 0).trace =
      [Call.message_get_properties 257 0 263,
        Call.properties_get_message_id 263 0 2001,
        Call.amqpvalue_get_type 2001 AMQP_TYPE.AMQP_TYPE_STRING,
        Call.amqpvalue_get_string 2001 1 (some "Test string!! $%^%2F0x011"),
        Call.properties_get_correlation_id 263 0 2002,
        Call.amqpvalue_get_type 2002 AMQP_TYPE.AMQP_TYPE_STRING,
        Call.amqpvalue_get_string 2002 0 (some "Test Correlation Id"),
        Call.IoTHubMessage_SetCorrelationId 256 (some "Test Correlation Id")
          IOTHUB_MESSAGE_RESULT.IOTHUB_MESSAGE_OK,
        Call.properties_destroy 263] ∧
    (readPropertiesFromuAMQPMessage (mock { testScript with failAt := some 4 })
        256 257 0).val = FAILURE ∧
    (readPropertiesFromuAMQPMessage (mock { testScript with failAt := some 4 })
        256 257 0).trace =
      [Call.message_get_properties 257 0 263,
        Call.properties_get_message_id 263 0 2001,
        Call.amqpvalue_get_type 2001 AMQP_TYPE.AMQP_TYPE_STRING,
        Call.amqpvalue_get_string 2001 0 (some "Test string!! $%^%2F0x011"),
        Call.IoTHubMessage_SetMessageId 256 (some "Test string!! $%^%2F0x011")
          IOTHUB_MESSAGE_RESULT.IOTHUB_MESSAGE_ERROR,
        Call.properties_get_correlation_id 263 0 2002,
        Call.amqpvalue_get_type 2002 AMQP_TYPE.AMQP_TYPE_STRING,
        Call.amqpvalue_get_string 2002 0 (some "Test Correlation Id"),
        Call.IoTHubMessage_SetCorrelationId 256 (some "Test Correlation Id")
          IOTHUB_MESSAGE_RESULT.IOTHUB_MESSAGE_OK,
        Call.properties_destroy 263] := by
  decide

end ClaimsPropertiesReader

section ClaimsIdFields

variable {σ : Type}

theorem after_properties_avoids (tail : List Call)
    (h : Only Call.isAfterPropertiesCall tail) :
    Avoids Call.isMessageIdRead tail ∧ Avoids Call.isCorrelationIdRead tail ∧
      (∀ h2 s r, Call.IoTHubMessage_SetMessageId h2 s r ∉ tail) ∧
      (∀ h2 s r, Call.IoTHubMessage_SetCorrelationId h2 s r ∉ tail) := by
  refine ⟨?_, ?_, ?_, ?_⟩
  · intro e he
    have := h e he
    revert this
    cases e <;>
      simp [Call.isAfterPropertiesCall, Call.isApplicationPropertiesReaderCall,
        Call.isMessageDestroy, Call.isMessageIdRead]
  · intro e he
    have := h e he
    revert this
    cases e <;>
      simp [Call.isAfterPropertiesCall, Call.isApplicationPropertiesReaderCall,
        Call.isMessageDestroy, Call.isCorrelationIdRead]
  · intro h2 s r he
    have := h _ he
    simp [Call.isAfterPropertiesCall, Call.isApplicationPropertiesReaderCall,
      Call.isMessageDestroy] at this
  · intro h2 s r he
    have := h _ he
    simp [Call.isAfterPropertiesCall, Call.isApplicationPropertiesReaderCall,
      Call.isMessageDestroy] at this

/-- C14. Null-type tolerance on decode: when, in a run of
`IoTHubMessage_CreateFromUamqpMessage`, the read of the message-id (or of the
correlation-id) succeeds and the type check that follows it answers
`AMQP_TYPE_NULL`, the next call is the read of the correlation-id (or the
release of the properties container), so `amqpvalue_get_string` is not called
for that field, its setter is never called in the run, and when every call of
the run succeeds the result is 0. -/
theorem IoTHubMessage_CreateFromUamqpMessage_null_type_tolerance (c : Collab σ)
    (uamqp_message iothubclient_message : Nat) (w : σ) (properties value : Nat)
    (read : Call) (pre post : List Call)
    (hfield : read = Call.properties_get_message_id properties 0 value ∨
      read = Call.properties_get_correlation_id properties 0 value)
    (hnull : (IoTHubMessage_CreateFromUamqpMessage c uamqp_message iothubclient_message
        w).trace =
      pre ++ read :: Call.amqpvalue_get_type value AMQP_TYPE.AMQP_TYPE_NULL :: post) :
    (read = Call.properties_get_message_id properties 0 value →
      (∃ r v rest, post = Call.properties_get_correlation_id properties r v :: rest) ∧
      ∀ h s r, Call.IoTHubMessage_SetMessageId h s r ∉
        (IoTHubMessage_CreateFromUamqpMessage c uamqp_message iothubclient_message
          w).trace) ∧
    (read = Call.properties_get_correlation_id properties 0 value →
      (∃ rest, post = Call.properties_destroy properties :: rest) ∧
      ∀ h s r, Call.IoTHubMessage_SetCorrelationId h s r ∉
        (IoTHubMessage_CreateFromUamqpMessage c uamqp_message iothubclient_message
          w).trace) ∧
    (AllOk (IoTHubMessage_CreateFromUamqpMessage c uamqp_message iothubclient_message
        w).trace →
      (IoTHubMessage_CreateFromUamqpMessage c uamqp_message iothubclient_message
        w).val.1 = 0) := by
  have hmem : read ∈ (IoTHubMessage_CreateFromUamqpMessage c uamqp_message
      iothubclient_message w).trace := by
    rw [hnull]
    simp
  rcases IoTHubMessage_CreateFromUamqpMessage_fields c uamqp_message iothubclient_message w
    with ⟨a1, a2⟩ | ⟨bd, h, p, o1, o2, tail, hn, hv1, hv2, ht, htail, hrv, hok⟩
  · rcases hfield with e | e
    · have := a1 _ hmem
      rw [e] at this
      simp [Call.isMessageIdRead] at this
    · have := a2 _ hmem
      rw [e] at this
      simp [Call.isCorrelationIdRead] at this
  obtain ⟨t1, t2, t3, t4⟩ := after_properties_avoids tail htail
  refine ⟨?_, ?_, ?_⟩
  · intro e
    have ht2 : (IoTHubMessage_CreateFromUamqpMessage c uamqp_message iothubclient_message
        w).trace =
        [Call.message_get_body_type uamqp_message 0 MESSAGE_BODY_TYPE.MESSAGE_BODY_TYPE_DATA,
          Call.message_get_body_amqp_data_in_place uamqp_message 0 0 bd,
          Call.IoTHubMessage_CreateFromByteArray bd.bytes bd.length h,
          Call.message_get_properties uamqp_message 0 p] ++
        Call.properties_get_message_id p o1.result o1.value ::
          ((exp_calls_read_message_id h p o1).tail ++
            (exp_calls_read_correlation_id h p o2 ++ Call.properties_destroy p :: tail)) := by
      rw [ht]
      nth_rewrite 1 [message_id_head h p o1]
      rfl
    have hb : Avoids Call.isMessageIdRead ((exp_calls_read_message_id h p o1).tail ++
        (exp_calls_read_correlation_id h p o2 ++ Call.properties_destroy p :: tail)) := by
      simp [avoids_append, avoids_cons, (message_id_avoids h p o1).1,
        (correlation_id_avoids h p o2).2, t1, Call.isMessageIdRead]
    rw [e] at hnull
    obtain ⟨_, hev, hrest⟩ := split_unique Call.isMessageIdRead _ _ pre _ _ _
      (by simp [avoids_cons, avoids_nil, Call.isMessageIdRead]) hb (by rfl) (ht2.symm.trans hnull)
    simp only [Call.properties_get_message_id.injEq] at hev
    obtain ⟨hp, hres, _⟩ := hev
    obtain ⟨hpost, _, hset⟩ := message_id_null h p o1 value _ post hv1 hres hrest
    constructor
    · rw [hpost, correlation_id_head h p o2, ← hp]
      exact ⟨_, _, _, rfl⟩
    · intro h2 s r
      rw [ht]
      simp [hset h2 s r, (correlation_id_other h p o2).1 h2 s r, t3 h2 s r]
  · intro e
    have ht2 : (IoTHubMessage_CreateFromUamqpMessage c uamqp_message iothubclient_message
        w).trace =
        ([Call.message_get_body_type uamqp_message 0 MESSAGE_BODY_TYPE.MESSAGE_BODY_TYPE_DATA,
          Call.message_get_body_amqp_data_in_place uamqp_message 0 0 bd,
          Call.IoTHubMessage_CreateFromByteArray bd.bytes bd.length h,
          Call.message_get_properties uamqp_message 0 p] ++
          exp_calls_read_message_id h p o1) ++
        Call.properties_get_correlation_id p o2.result o2.value ::
          ((exp_calls_read_correlation_id h p o2).tail ++
            Call.properties_destroy p :: tail) := by
      rw [ht]
      nth_rewrite 1 [correlation_id_head h p o2]
      simp
    have hb : Avoids Call.isCorrelationIdRead ((exp_calls_read_correlation_id h p o2).tail ++
        Call.properties_destroy p :: tail) := by
      simp [avoids_append, avoids_cons, (correlation_id_avoids h p o2).1, t2,
        Call.isCorrelationIdRead]
    rw [e] at hnull
    obtain ⟨_, hev, hrest⟩ := split_unique Call.isCorrelationIdRead _ _ pre _ _ _
      (by simp [avoids_append, avoids_cons, avoids_nil, Call.isCorrelationIdRead,
        (message_id_avoids h p o1).2]) hb (by rfl) (ht2.symm.trans hnull)
    simp only [Call.properties_get_correlation_id.injEq] at hev
    obtain ⟨hp, hres, _⟩ := hev
    obtain ⟨hpost, _, hset⟩ := correlation_id_null h p o2 value _ post hv2 hres hrest
    constructor
    · rw [hpost, ← hp]
      exact ⟨_, rfl⟩
    · intro h2 s r
      rw [ht]
      simp [hset h2 s r, (message_id_other h p o1).1 h2 s r, t4 h2 s r]
  · intro hall
    rw [ht] at hall
    simp only [allOk_append, allOk_cons] at hall
    exact hok (message_id_ok h p o1 hv1 hall.2.1) (correlation_id_ok h p o2 hv2 hall.2.2.1)
      hall.2.2.2.2

/-- C15. A failing field read is not fatal on decode: when, in a run of
`IoTHubMessage_CreateFromUamqpMessage`, `properties_get_message_id` (or
`properties_get_correlation_id`) returns non-zero and every other call of the
run succeeds, the properties reader returns 0, the decode returns 0, the next
call after the failed read is the read of the correlation-id (or the release
of the properties container), and the setter of the field is never called. -/
theorem IoTHubMessage_CreateFromUamqpMessage_field_read_failure_not_fatal (c : Collab σ)
    (uamqp_message iothubclient_message : Nat) (w : σ) (properties value : Nat)
    (result : Int) (read : Call) (pre post : List Call)
    (hfield : read = Call.properties_get_message_id properties result value ∨
      read = Call.properties_get_correlation_id properties result value)
    (hfail : result ≠ 0)
    (hrun : (IoTHubMessage_CreateFromUamqpMessage c uamqp_message iothubclient_message
        w).trace = pre ++ read :: post)
    (hpre : AllOk pre) (hpost : AllOk post) :
    (decode_properties_run c uamqp_message w).val = 0 ∧
    (IoTHubMessage_CreateFromUamqpMessage c uamqp_message iothubclient_message w).val.1 = 0 ∧
    (read = Call.properties_get_message_id properties result value →
      (∃ r v rest, post = Call.properties_get_correlation_id properties r v :: rest) ∧
      ∀ h s r, Call.IoTHubMessage_SetMessageId h s r ∉
        (IoTHubMessage_CreateFromUamqpMessage c uamqp_message iothubclient_message
          w).trace) ∧
    (read = Call.properties_get_correlation_id properties result value →
      (∃ rest, post = Call.properties_destroy properties :: rest) ∧
      ∀ h s r, Call.IoTHubMessage_SetCorrelationId h s r ∉
        (IoTHubMessage_CreateFromUamqpMessage c uamqp_message iothubclient_message
          w).trace) := by
  have hmem : read ∈ (IoTHubMessage_CreateFromUamqpMessage c uamqp_message
      iothubclient_message w).trace := by
    rw [hrun]
    simp
  rcases IoTHubMessage_CreateFromUamqpMessage_fields c uamqp_message iothubclient_message w
    with ⟨a1, a2⟩ | ⟨bd, h, p, o1, o2, tail, hn, hv1, hv2, ht, htail, hrv, hok⟩
  · rcases hfield with e | e
    · have := a1 _ hmem
      rw [e] at this
      simp [Call.isMessageIdRead] at this
    · have := a2 _ hmem
      rw [e] at this
      simp [Call.isCorrelationIdRead] at this
  obtain ⟨t1, t2, t3, t4⟩ := after_properties_avoids tail htail
  have hmid : read = Call.properties_get_message_id properties result value →
      p = properties ∧ post = exp_calls_read_correlation_id h p o2 ++
        Call.properties_destroy p :: tail ∧ o1.fatal = false ∧
      ∀ h2 s r, Call.IoTHubMessage_SetMessageId h2 s r ∉ exp_calls_read_message_id h p o1 := by
    intro e
    have ht2 : (IoTHubMessage_CreateFromUamqpMessage c uamqp_message iothubclient_message
        w).trace =
        [Call.message_get_body_type uamqp_message 0 MESSAGE_BODY_TYPE.MESSAGE_BODY_TYPE_DATA,
          Call.message_get_body_amqp_data_in_place uamqp_message 0 0 bd,
          Call.IoTHubMessage_CreateFromByteArray bd.bytes bd.length h,
          Call.message_get_properties uamqp_message 0 p] ++
        Call.properties_get_message_id p o1.result o1.value ::
          ((exp_calls_read_message_id h p o1).tail ++
            (exp_calls_read_correlation_id h p o2 ++ Call.properties_destroy p :: tail)) := by
      rw [ht]
      nth_rewrite 1 [message_id_head h p o1]
      rfl
    have hb : Avoids Call.isMessageIdRead ((exp_calls_read_message_id h p o1).tail ++
        (exp_calls_read_correlation_id h p o2 ++ Call.properties_destroy p :: tail)) := by
      simp [avoids_append, avoids_cons, (message_id_avoids h p o1).1,
        (correlation_id_avoids h p o2).2, t1, Call.isMessageIdRead]
    rw [e] at hrun
    obtain ⟨_, hev, hrest⟩ := split_unique Call.isMessageIdRead _ _ pre _ _ _
      (by simp [avoids_cons, avoids_nil, Call.isMessageIdRead]) hb (by rfl) (ht2.symm.trans hrun)
    simp only [Call.properties_get_message_id.injEq] at hev
    obtain ⟨hp, hres, _⟩ := hev
    obtain ⟨htl, hf, hset⟩ := message_id_unread h p o1 (by rw [hres]; exact hfail)
    rw [htl, List.nil_append] at hrest
    exact ⟨hp, hrest.symm, hf, hset⟩
  have hcid : read = Call.properties_get_correlation_id properties result value →
      p = properties ∧ pre =
        [Call.message_get_body_type uamqp_message 0 MESSAGE_BODY_TYPE.MESSAGE_BODY_TYPE_DATA,
          Call.message_get_body_amqp_data_in_place uamqp_message 0 0 bd,
          Call.IoTHubMessage_CreateFromByteArray bd.bytes bd.length h,
          Call.message_get_properties uamqp_message 0 p] ++
          exp_calls_read_message_id h p o1 ∧
      post = Call.properties_destroy p :: tail ∧ o2.fatal = false ∧
      ∀ h2 s r, Call.IoTHubMessage_SetCorrelationId h2 s r ∉
        exp_calls_read_correlation_id h p o2 := by
    intro e
    have ht2 : (IoTHubMessage_CreateFromUamqpMessage c uamqp_message iothubclient_message
        w).trace =
        ([Call.message_get_body_type uamqp_message 0 MESSAGE_BODY_TYPE.MESSAGE_BODY_TYPE_DATA,
          Call.message_get_body_amqp_data_in_place uamqp_message 0 0 bd,
          Call.IoTHubMessage_CreateFromByteArray bd.bytes bd.length h,
          Call.message_get_properties uamqp_message 0 p] ++
          exp_calls_read_message_id h p o1) ++
        Call.properties_get_correlation_id p o2.result o2.value ::
          ((exp_calls_read_correlation_id h p o2).tail ++
            Call.properties_destroy p :: tail) := by
      rw [ht]
      nth_rewrite 1 [correlation_id_head h p o2]
      simp
    have hb : Avoids Call.isCorrelationIdRead ((exp_calls_read_correlation_id h p o2).tail ++
        Call.properties_destroy p :: tail) := by
      simp [avoids_append, avoids_cons, (correlation_id_avoids h p o2).1, t2,
        Call.isCorrelationIdRead]
    rw [e] at hrun
    obtain ⟨hpre2, hev, hrest⟩ := split_unique Call.isCorrelationIdRead _ _ pre _ _ _
      (by simp [avoids_append, avoids_cons, avoids_nil, Call.isCorrelationIdRead,
        (message_id_avoids h p o1).2]) hb (by rfl) (ht2.symm.trans hrun)
    simp only [Call.properties_get_correlation_id.injEq] at hev
    obtain ⟨hp, hres, _⟩ := hev
    obtain ⟨htl, hf, hset⟩ := correlation_id_unread h p o2 (by rw [hres]; exact hfail)
    rw [htl, List.nil_append] at hrest
    exact ⟨hp, hpre2.symm, hrest.symm, hf, hset⟩
  have hfatal : o1.fatal = false ∧ o2.fatal = false ∧ AllOk tail := by
    rcases hfield with e | e
    · obtain ⟨_, hpo, hf, _⟩ := hmid e
      rw [hpo] at hpost
      simp only [allOk_append, allOk_cons] at hpost
      exact ⟨hf, correlation_id_ok h p o2 hv2 hpost.1, hpost.2.2⟩
    · obtain ⟨_, hpr, hpo, hf, _⟩ := hcid e
      rw [hpr] at hpre
      rw [hpo] at hpost
      simp only [allOk_append, allOk_cons] at hpre hpost
      exact ⟨message_id_ok h p o1 hv1 hpre.2, hf, hpost.2⟩
  obtain ⟨f1, f2, f3⟩ := hfatal
  refine ⟨?_, hok f1 f2 f3, ?_, ?_⟩
  · rw [hrv, f1, f2]
    simp
  · intro e
    obtain ⟨hp, hpo, _, hset⟩ := hmid e
    constructor
    · rw [hpo, correlation_id_head h p o2, ← hp]
      exact ⟨_, _, _, rfl⟩
    · intro h2 s r
      rw [ht]
      simp [hset h2 s r, (correlation_id_other h p o2).1 h2 s r, t3 h2 s r]
  · intro e
    obtain ⟨hp, _, hpo, _, hset⟩ := hcid e
    constructor
    · rw [hpo, ← hp]
      exact ⟨_, rfl⟩
    · intro h2 s r
      rw [ht]
      simp [hset h2 s r, (message_id_other h p o1).1 h2 s r, t4 h2 s r]

end ClaimsIdFields

theorem IoTHubMessage_CreateFromUamqpMessage_null_type_tolerance_witness :
    (IoTHubMessage_CreateFromUamqpMessage (mock { testScript with messageId := none }) 257 0 0).trace =
      [Call.message_get_body_type 257 0 MESSAGE_BODY_TYPE.MESSAGE_BODY_TYPE_DATA,
        Call.message_get_body_amqp_data_in_place 257 0 0 ⟨some [some 1, some 2, some 3], 3⟩,
        Call.IoTHubMessage_CreateFromByteArray (some [some 1, some 2, some 3]) 3 256,
        Call.message_get_properties 257 0 263] ++
      Call.properties_get_message_id 263 0 2001 ::
      Call.amqpvalue_get_type 2001 AMQP_TYPE.AMQP_TYPE_NULL ::
      [Call.properties_get_correlation_id 263 0 2002,
        Call.amqpvalue_get_type 2002 AMQP_TYPE.AMQP_TYPE_STRING,
        Call.amqpvalue_get_string 2002 0 (some "Test Correlation Id"),
        Call.IoTHubMessage_SetCorrelationId 256 (some "Test Correlation Id")
          IOTHUB_MESSAGE_RESULT.IOTHUB_MESSAGE_OK,
        Call.properties_destroy 263,
        Call.IoTHubMessage_Properties 256 259,
        Call.message_get_application_properties 257 0 260,
        Call.amqpvalue_get_inplace_described_value 260 261,
        Call.amqpvalue_get_map_pair_count 261 0 1,
        Call.amqpvalue_get_map_key_value_pair 261 0 0 3000 3001,
        Call.amqpvalue_get_string 3000 0 (some "PROPERTY1"),
        Call.amqpvalue_get_string 3001 0 (some "sdfksdfjjjjlsdf"),
        Call.Map_AddOrUpdate 259 (some "PROPERTY1") (some "sdfksdfjjjjlsdf") 0,
        Call.amqpvalue_destroy 3000,
        Call.amqpvalue_destroy 3001,
        Call.amqpvalue_destroy 260] ∧
    (IoTHubMessage_CreateFromUamqpMessage (mock { testScript with messageId := none }) 257 0 0).val.1 = 0 :=
  ⟨by decide,
    (IoTHubMessage_CreateFromUamqpMessage_null_type_tolerance (mock { testScript with messageId := none }) 257 0 0 263 2001
      (Call.properties_get_message_id 263 0 2001)
      [Call.message_get_body_type 257 0 MESSAGE_BODY_TYPE.MESSAGE_BODY_TYPE_DATA,
        Call.message_get_body_amqp_data_in_place 257 0 0 ⟨some [some 1, some 2, some 3], 3⟩,
        Call.IoTHubMessage_CreateFromByteArray (some [some 1, some 2, some 3]) 3 256,
        Call.message_get_properties 257 0 263]
      [Call.properties_get_correlation_id 263 0 2002,
        Call.amqpvalue_get_type 2002 AMQP_TYPE.AMQP_TYPE_STRING,
        Call.amqpvalue_get_string 2002 0 (some "Test Correlation Id"),
        Call.IoTHubMessage_SetCorrelationId 256 (some "Test Correlation Id")
          IOTHUB_MESSAGE_RESULT.IOTHUB_MESSAGE_OK,
        Call.properties_destroy 263,
        Call.IoTHubMessage_Properties 256 259,
        Call.message_get_application_properties 257 0 260,
        Call.amqpvalue_get_inplace_described_value 260 261,
        Call.amqpvalue_get_map_pair_count 261 0 1,
        Call.amqpvalue_get_map_key_value_pair 261 0 0 3000 3001,
        Call.amqpvalue_get_string 3000 0 (some "PROPERTY1"),
        Call.amqpvalue_get_string 3001 0 (some "sdfksdfjjjjlsdf"),
        Call.Map_AddOrUpdate 259 (some "PROPERTY1") (some "sdfksdfjjjjlsdf") 0,
        Call.amqpvalue_destroy 3000,
        Call.amqpvalue_destroy 3001,
        Call.amqpvalue_destroy 260]
      (Or.inl rfl) (by decide)).2.2 (by decide)⟩

theorem IoTHubMessage_CreateFromUamqpMessage_field_read_failure_not_fatal_witness :
    (IoTHubMessage_CreateFromUamqpMessage (mock { testScript with failAt := some 8 }) 257 0 0).trace =
      [Call.message_get_body_type 257 0 MESSAGE_BODY_TYPE.MESSAGE_BODY_TYPE_DATA,
        Call.message_get_body_amqp_data_in_place 257 0 0 ⟨some [some 1, some 2, some 3], 3⟩,
        Call.IoTHubMessage_CreateFromByteArray (some [some 1, some 2, some 3]) 3 256,
        Call.message_get_properties 257 0 263,
        Call.properties_get_message_id 263 0 2001,
        Call.amqpvalue_get_type 2001 AMQP_TYPE.AMQP_TYPE_STRING,
        Call.amqpvalue_get_string 2001 0 (some "Test string!! $%^%2F0x011"),
        Call.IoTHubMessage_SetMessageId 256 (some "Test string!! $%^%2F0x011")
          IOTHUB_MESSAGE_RESULT.IOTHUB_MESSAGE_OK] ++
      Call.properties_get_correlation_id 263 1 2002 ::
      [Call.properties_destroy 263,
        Call.IoTHubMessage_Properties 256 259,
        Call.message_get_application_properties 257 0 260,
        Call.amqpvalue_get_inplace_described_value 260 261,
        Call.amqpvalue_get_map_pair_count 261 0 1,
        Call.amqpvalue_get_map_key_value_pair 261 0 0 3000 3001,
        Call.amqpvalue_get_string 3000 0 (some "PROPERTY1"),
        Call.amqpvalue_get_string 3001 0 (some "sdfksdfjjjjlsdf"),
        Call.Map_AddOrUpdate 259 (some "PROPERTY1") (some "sdfksdfjjjjlsdf") 0,
        Call.amqpvalue_destroy 3000,
        Call.amqpvalue_destroy 3001,
        Call.amqpvalue_destroy 260] ∧
    (decode_properties_run (mock { testScript with failAt := some 8 }) 257 0).val = 0 ∧
    (IoTHubMessage_CreateFromUamqpMessage (mock { testScript with failAt := some 8 }) 257 0 0).val.1 = 0 :=
  ⟨by decide,
    (IoTHubMessage_CreateFromUamqpMessage_field_read_failure_not_fatal (mock { testScript with failAt := some 8 }) 257 0 0 263 2002 1
      (Call.properties_get_correlation_id 263 1 2002)
      [Call.message_get_body_type 257 0 MESSAGE_BODY_TYPE.MESSAGE_BODY_TYPE_DATA,
        Call.message_get_body_amqp_data_in_place 257 0 0 ⟨some [some 1, some 2, some 3], 3⟩,
        Call.IoTHubMessage_CreateFromByteArray (some [some 1, some 2, some 3]) 3 256,
        Call.message_get_properties 257 0 263,
        Call.properties_get_message_id 263 0 2001,
        Call.amqpvalue_get_type 2001 AMQP_TYPE.AMQP_TYPE_STRING,
        Call.amqpvalue_get_string 2001 0 (some "Test string!! $%^%2F0x011"),
        Call.IoTHubMessage_SetMessageId 256 (some "Test string!! $%^%2F0x011")
          IOTHUB_MESSAGE_RESULT.IOTHUB_MESSAGE_OK]
      [Call.properties_destroy 263,
        Call.IoTHubMessage_Properties 256 259,
        Call.message_get_application_properties 257 0 260,
        Call.amqpvalue_get_inplace_described_value 260 261,
        Call.amqpvalue_get_map_pair_count 261 0 1,
        Call.amqpvalue_get_map_key_value_pair 261 0 0 3000 3001,
        Call.amqpvalue_get_string 3000 0 (some "PROPERTY1"),
        Call.amqpvalue_get_string 3001 0 (some "sdfksdfjjjjlsdf"),
        Call.Map_AddOrUpdate 259 (some "PROPERTY1") (some "sdfksdfjjjjlsdf") 0,
        Call.amqpvalue_destroy 3000,
        Call.amqpvalue_destroy 3001,
        Call.amqpvalue_destroy 260]
      (Or.inr rfl) (by decide) (by decide) (by decide) (by decide)).1,
    by decide⟩

section ReferenceText

theorem reference_data_any (enc : AmqpValue → List Nat) (w : World) (h : Nat)
    (msg : ApplicationMessage) (dv dl : Nat)
    (hm : deref w.messages h = some msg) :
    (create_data_to_encode (reference enc) h dv dl w).val =
      (0, w.values.length + 1, (enc (AmqpValue.data (MessageBody.wire msg.body))).length) ∧
    (create_data_to_encode (reference enc) h dv dl w).world =
      ⟨w.messages, w.values ++ [AmqpValue.data (MessageBody.wire msg.body)],
        w.properties, w.amqp_messages⟩ := by
  cases hbody : msg.body with
  | byteArray bytes => exact reference_data enc w h msg bytes dv dl hm hbody
  | text s =>
    simp only [create_data_to_encode, create_data_value, Ext.IoTHubMessage_GetContentType,
      Ext.IoTHubMessage_GetString, Ext.amqpvalue_create_data, Ext.amqpvalue_get_encoded_size,
      reference_IoTHubMessage_GetContentType, reference_IoTHubMessage_GetString,
      reference_amqpvalue_create_data, reference_amqpvalue_get_encoded_size,
      bind_val, bind_world, ask_run, hm, hbody, Option.map_some', World.newValue,
      Nat.succ_ne_zero, if_false, ite_run, ite_val, ite_world, pure_val, pure_world,
      ne_eq, not_true_eq_false, ite_false, ite_true, RESULT_OK, FAILURE, not_false_eq_true,
      deref_new, reduceCtorEq, MessageBody.wire]
    exact ⟨trivial, trivial⟩

theorem reference_encode_any (enc : AmqpValue → List Nat) (msg : ApplicationMessage)
    (mid cid : String) (b : BINARY_DATA)
    (hmid : msg.messageId = some mid) (hcid : msg.correlationId = some cid)
    (hN : msg.properties ≠ []) :
    (create_amqp_message_data_frame (reference enc) 1 b
        (World.sender msg)).val.message_properties_length =
      (enc (AmqpValue.properties ⟨some (AmqpSimple.string mid),
        some (AmqpSimple.string cid), msg.contentType, msg.contentEncoding⟩)).length ∧
    (create_amqp_message_data_frame (reference enc) 1 b
        (World.sender msg)).val.application_properties_length =
      (enc (AmqpValue.application_properties (((List.range' 0 msg.properties.length).map
        (fun j => ((msg.properties.map Prod.fst).getD j "",
          (msg.properties.map Prod.snd).getD j ""))).foldl
        (fun a kv => upsert a (AmqpSimple.string kv.1) (AmqpSimple.string kv.2)) []))).length ∧
    (create_amqp_message_data_frame (reference enc) 1 b (World.sender msg)).val.data_length =
      (enc (AmqpValue.data (MessageBody.wire msg.body))).length ∧
    ((enc (AmqpValue.properties ⟨some (AmqpSimple.string mid),
        some (AmqpSimple.string cid), msg.contentType, msg.contentEncoding⟩)).length +
      (enc (AmqpValue.application_properties (((List.range' 0 msg.properties.length).map
        (fun j => ((msg.properties.map Prod.fst).getD j "",
          (msg.properties.map Prod.snd).getD j ""))).foldl
        (fun a kv => upsert a (AmqpSimple.string kv.1) (AmqpSimple.string kv.2)) []))).length +
      (enc (AmqpValue.data (MessageBody.wire msg.body))).length < 2 ^ 64 →
    (create_amqp_message_data (reference enc) 1 b (World.sender msg)).val =
      (0, ⟨some ((enc (AmqpValue.properties ⟨some (AmqpSimple.string mid),
          some (AmqpSimple.string cid), msg.contentType, msg.contentEncoding⟩) ++
        enc (AmqpValue.application_properties (((List.range' 0 msg.properties.length).map
          (fun j => ((msg.properties.map Prod.fst).getD j "",
            (msg.properties.map Prod.snd).getD j ""))).foldl
          (fun a kv => upsert a (AmqpSimple.string kv.1) (AmqpSimple.string kv.2)) [])) ++
        enc (AmqpValue.data (MessageBody.wire msg.body))).map some),
        (enc (AmqpValue.properties ⟨some (AmqpSimple.string mid),
          some (AmqpSimple.string cid), msg.contentType, msg.contentEncoding⟩)).length +
        (enc (AmqpValue.application_properties (((List.range' 0 msg.properties.length).map
          (fun j => ((msg.properties.map Prod.fst).getD j "",
            (msg.properties.map Prod.snd).getD j ""))).foldl
          (fun a kv => upsert a (AmqpSimple.string kv.1) (AmqpSimple.string kv.2)) []))).length +
        (enc (AmqpValue.data (MessageBody.wire msg.body))).length⟩)) := by
  have hm : deref (World.sender msg).messages 1 = some msg := rfl
  obtain ⟨pv, pw⟩ := reference_message_properties enc (World.sender msg) 1 msg mid cid 0 0 hm
    hmid hcid
  obtain ⟨c, hc⟩ : ∃ c, c = reference enc := ⟨_, rfl⟩
  obtain ⟨w0, hw⟩ : ∃ w0, w0 = World.sender msg := ⟨_, rfl⟩
  rw [← hc, ← hw] at pv pw
  rw [← hc, ← hw, create_amqp_message_data_val]
  simp only [create_amqp_message_data_frame, bind_val, bind_world,
    ite_run, ite_val, ite_world, pure_val, pure_world, malloc_run, amqpvalue_encode_run]
  generalize create_message_properties_to_encode c 1 0 0 w0 = P at pv pw ⊢
  have hm1 : deref P.world.messages 1 = some msg := by rw [pw, hw]; exact hm
  have hp : deref P.world.values P.val.2.1 = some (AmqpValue.properties
      ⟨some (AmqpSimple.string mid), some (AmqpSimple.string cid), msg.contentType,
        msg.contentEncoding⟩) := by
    rw [pw, pv, hw]
    simp [World.sender, deref]
  obtain ⟨entries, he, a1, a2, a3, a4, a5⟩ :=
    reference_application_properties enc P.world 1 msg 0 0 hm1 hN
  rw [← he]
  rw [← hc] at a1 a2 a3 a4 a5
  generalize create_application_properties_to_encode c 1 0 0 P.world = A
    at a1 a2 a3 a4 a5 ⊢
  have hm2 : deref A.world.messages 1 = some msg := by rw [a4]; exact hm1
  obtain ⟨dv, dw⟩ := reference_data_any enc A.world 1 msg 0 0 hm2
  rw [← hc] at dv dw
  generalize create_data_to_encode c 1 0 0 A.world = D at dv dw ⊢
  have e1 : deref D.world.values P.val.2.1 = some (AmqpValue.properties
      ⟨some (AmqpSimple.string mid), some (AmqpSimple.string cid), msg.contentType,
        msg.contentEncoding⟩) := by
    rw [dw]
    exact deref_append _ _ _ _ (a5 _ _ hp)
  have e2 : deref D.world.values A.val.2.1 =
      some (AmqpValue.application_properties entries) := by
    rw [dw]
    exact deref_append _ _ _ _ a3
  have e3 : deref D.world.values D.val.2.1 = some (AmqpValue.data
      (MessageBody.wire msg.body)) := by
    rw [dw, dv]
    exact deref_new _ _
  have p1 : P.val.1 = 0 := by rw [pv]
  have p2 : P.val.2.2 = (enc (AmqpValue.properties
      ⟨some (AmqpSimple.string mid), some (AmqpSimple.string cid), msg.contentType,
        msg.contentEncoding⟩)).length := by rw [pv]
  have d1 : D.val.1 = 0 := by rw [dv]
  have d2 : D.val.2.2 =
      (enc (AmqpValue.data (MessageBody.wire msg.body))).length := by rw [dv]
  subst hc
  simp only [reference_malloc, reference_amqpvalue_encode,
    e1, e2, e3, p1, p2, a1, a2, d1, d2, RESULT_OK, FAILURE, ne_eq, not_true_eq_false, if_false,
    if_true, ite_false, ite_true, pure_val, List.foldl_cons, List.foldl_nil, encode_callback,
    Option.map_some', reduceCtorEq, not_false_eq_true]
  by_cases hb : (enc (AmqpValue.application_properties entries)).length > 0
  · simp only [hb, if_true, true_and, not_true_eq_false, if_false, Nat.zero_add,
      memcpy_three, e3, List.foldl_cons, List.foldl_nil, Option.map_some', ne_eq, ite_false,
      ite_true]
    intro hfit
    rw [size_t_sum_of_lt _ _ _ hfit, memcpy_three]
  · have hb0 : enc (AmqpValue.application_properties entries) = [] :=
      List.length_eq_zero.mp (by omega)
    have h3 := memcpy_three (enc (AmqpValue.properties ⟨some (AmqpSimple.string mid),
      some (AmqpSimple.string cid), msg.contentType, msg.contentEncoding⟩)) []
      (enc (AmqpValue.data (MessageBody.wire msg.body)))
    simp only [memcpy, List.length_nil, Nat.add_zero, List.append_nil] at h3
    simp only [hb0, List.length_nil, gt_iff_lt, Nat.lt_irrefl, false_and, if_false,
      Nat.zero_add, Nat.add_zero, List.append_nil, h3, e3, List.foldl_cons, List.foldl_nil,
      Option.map_some', ne_eq, ite_false, ite_true, not_true_eq_false]
    refine ⟨trivial, trivial, trivial, fun hfit => ?_⟩
    rw [size_t_sum_of_lt _ _ _ (by simpa using hfit), Nat.add_zero, h3]

/-- What the round trip over the reference collaborator returns, for every
kind of body: the ids and the properties come back, the content type and
encoding do not, and the body comes back as a byte array with the bytes that
reached the data section. -/
theorem round_trip_reference_any (enc : AmqpValue → List Nat)
    (parse : List Nat → Option AmqpMessage)
    (hcodec : ∀ p entries bytes, parse (enc (AmqpValue.properties p) ++
      enc (AmqpValue.application_properties entries) ++ enc (AmqpValue.data bytes)) =
        some ⟨some p, some entries, [bytes]⟩)
    (msg : ApplicationMessage) (mid cid : String)
    (hmid : msg.messageId = some mid) (hcid : msg.correlationId = some cid)
    (hN : msg.properties ≠ []) (hkeys : (msg.properties.map Prod.fst).Nodup)
    (hfit : (create_amqp_message_data_frame (reference enc) 1 ⟨none, 0⟩
        (World.sender msg)).val.message_properties_length +
      (create_amqp_message_data_frame (reference enc) 1 ⟨none, 0⟩
        (World.sender msg)).val.application_properties_length +
      (create_amqp_message_data_frame (reference enc) 1 ⟨none, 0⟩
        (World.sender msg)).val.data_length < 2 ^ 64) :
    round_trip enc parse msg =
      some ⟨MessageBody.byteArray (MessageBody.wire msg.body), some mid, some cid,
        none, none, msg.properties⟩ := by
  obtain ⟨l1, l2, l3, he⟩ := reference_encode_any enc msg mid cid ⟨none, 0⟩ hmid hcid hN
  rw [l1, l2, l3] at hfit
  replace he := he hfit
  have hnd : (([] : List (AmqpSimple × AmqpSimple)).map Prod.fst ++
      msg.properties.map (fun kv => AmqpSimple.string kv.1)).Nodup := by
    rw [List.map_nil, List.nil_append]
    have hinj : ((msg.properties.map Prod.fst).map AmqpSimple.string).Nodup :=
      List.Nodup.map (fun a b h => by injection h) hkeys
    simpa [List.map_map] using hinj
  have hnd2 : (([] : List (String × String)).map Prod.fst ++
      msg.properties.map (fun kv => id kv.1)).Nodup := by
    simpa using hkeys
  have f1 := foldl_upsert_nodup AmqpSimple.string AmqpSimple.string msg.properties [] hnd
  have f2 := foldl_upsert_nodup (fun s : String => s) (fun s : String => s) msg.properties [] hnd2
  rw [range_getD_pairs, f1, List.nil_append] at he
  obtain ⟨dv, dw⟩ := reference_decode enc
    ⟨some ⟨some (AmqpSimple.string mid), some (AmqpSimple.string cid), msg.contentType,
      msg.contentEncoding⟩,
      some (msg.properties.map (fun kv => (AmqpSimple.string kv.1, AmqpSimple.string kv.2))),
      [MessageBody.wire msg.body]⟩ mid cid msg.contentType msg.contentEncoding
    msg.properties (MessageBody.wire msg.body) 0 rfl rfl rfl
  simp only [List.nil_append, List.map_id', Prod.mk.eta] at f2
  rw [f2] at dw
  unfold round_trip
  simp only [he, ne_eq, not_true_eq_false, if_false, ite_false]
  rw [contents_filled _ _ (by simp [Nat.add_assoc]), hcodec]
  simp only [dv, dw, ne_eq, not_true_eq_false, if_false, ite_false]

end ReferenceText

section ClaimsScenario

theorem scenario_wire :
    MessageBody.wire scenarioMessage.body = [104, 101, 108, 108, 111] := by
  decide

/-- C19, counterexample: over the reference collaborator and the toy encoding
layer the example message (text body "hello", both ids, content type
"text/plain", content encoding "utf-8", two user properties) is encoded and
decoded without any failure, and the message that comes back differs from it:
it has no content type and no content encoding, and its body is a byte array.
`IoTHubMessage_CreateFromUamqpMessage` never reads the content type or the
content encoding of the properties section and always creates the message with
`IoTHubMessage_CreateFromByteArray`. -/
theorem round_trip_drops_content_type :
    round_trip toyEnc toyParse scenarioMessage =
      some ⟨MessageBody.byteArray [104, 101, 108, 108, 111], some "abc-123", some "corr-1",
        none, none, [("k1", "v1"), ("k2", "v2")]⟩ ∧
    scenarioMessage.contentType = some "text/plain" ∧
    scenarioMessage.contentEncoding = some "utf-8" ∧
    scenarioMessage.body = MessageBody.text "hello" := by
  refine ⟨?_, rfl, rfl, rfl⟩
  have h := round_trip_reference_any toyEnc toyParse toyParse_toyEnc scenarioMessage
    "abc-123" "corr-1" rfl rfl (by decide) (by decide)
    (by
      obtain ⟨l1, l2, l3, -⟩ := reference_encode_any toyEnc scenarioMessage
        "abc-123" "corr-1" ⟨none, 0⟩ rfl rfl (by decide)
      rw [l1, l2, l3, toyEnc_length, toyEnc_length, toyEnc_length]
      norm_num)
  rw [scenario_wire] at h
  exact h

/-- C19, amended: for every encoding layer whose parser inverts its encoder
on three-section buffers and for which the three section lengths that
`create_amqp_message_data` computes for the example message sum below `2 ^ 64`
(the code adds them as `size_t` values), `create_amqp_message_data` succeeds
on the example message over the reference collaborator, and decoding the
parsed buffer with
`IoTHubMessage_CreateFromUamqpMessage` succeeds and gives a message with the
same message-id, correlation-id and property map, whose body is the byte array
of the character codes of "hello", without content type and without content
encoding. -/
theorem round_trip_example_scenario (enc : AmqpValue → List Nat)
    (parse : List Nat → Option AmqpMessage)
    (hcodec : ∀ p entries bytes, parse (enc (AmqpValue.properties p) ++
      enc (AmqpValue.application_properties entries) ++ enc (AmqpValue.data bytes)) =
        some ⟨some p, some entries, [bytes]⟩)
    (hfit : (create_amqp_message_data_frame (reference enc) 1 ⟨none, 0⟩
        (World.sender scenarioMessage)).val.message_properties_length +
      (create_amqp_message_data_frame (reference enc) 1 ⟨none, 0⟩
        (World.sender scenarioMessage)).val.application_properties_length +
      (create_amqp_message_data_frame (reference enc) 1 ⟨none, 0⟩
        (World.sender scenarioMessage)).val.data_length < 2 ^ 64) :
    (create_amqp_message_data (reference enc) 1 ⟨none, 0⟩
      (World.sender scenarioMessage)).val.1 = 0 ∧
    ∃ out, round_trip enc parse scenarioMessage = some out ∧
      out.messageId = scenarioMessage.messageId ∧
      out.correlationId = scenarioMessage.correlationId ∧
      out.properties = scenarioMessage.properties ∧
      out.body = MessageBody.byteArray [104, 101, 108, 108, 111] ∧
      out.contentType = none ∧ out.contentEncoding = none := by
  constructor
  · obtain ⟨l1, l2, l3, he⟩ := reference_encode_any enc scenarioMessage "abc-123" "corr-1"
      ⟨none, 0⟩ rfl rfl (by decide)
    rw [l1, l2, l3] at hfit
    rw [he hfit]
  · have h := round_trip_reference_any enc parse hcodec scenarioMessage
      "abc-123" "corr-1" rfl rfl (by decide) (by decide) hfit
    rw [scenario_wire] at h
    exact ⟨_, h, rfl, rfl, rfl, rfl, rfl, rfl⟩

end ClaimsScenario

theorem round_trip_example_scenario_witness :
    ∃ out, round_trip toyEnc toyParse scenarioMessage = some out ∧
      out.messageId = some "abc-123" ∧ out.correlationId = some "corr-1" ∧
      out.properties = [("k1", "v1"), ("k2", "v2")] ∧
      out.body = MessageBody.byteArray [104, 101, 108, 108, 111] ∧
      out.contentType = none ∧ out.contentEncoding = none :=
  (round_trip_example_scenario toyEnc toyParse toyParse_toyEnc
    (by
      obtain ⟨l1, l2, l3, -⟩ := reference_encode_any toyEnc scenarioMessage
        "abc-123" "corr-1" ⟨none, 0⟩ rfl rfl (by decide)
      rw [l1, l2, l3, toyEnc_length, toyEnc_length, toyEnc_length]
      norm_num)).2

section ClaimsOutputReset

variable {σ : Type}

/-- C30. The encode result does not depend on the prior contents of the output
struct: `create_amqp_message_data` starts by storing `NULL` and 0 in
`*body_binary_data`, so two runs with the same collaborator, message and world
and different initial contents of the struct are the same run: same return
code, same final bytes and length, same calls. -/
theorem create_amqp_message_data_ignores_prior_output (c : Collab σ) (message_handle : Nat)
    (first second : BINARY_DATA) (w : σ) :
    create_amqp_message_data c message_handle first w =
      create_amqp_message_data c message_handle second w ∧
    (create_amqp_message_data c message_handle first w).val.1 =
      (create_amqp_message_data c message_handle second w).val.1 ∧
    (create_amqp_message_data c message_handle first w).val.2.length =
      (create_amqp_message_data c message_handle second w).val.2.length ∧
    (create_amqp_message_data c message_handle first w).val.2.bytes =
      (create_amqp_message_data c message_handle second w).val.2.bytes :=
  ⟨rfl, rfl, rfl, rfl⟩

end ClaimsOutputReset

section ClaimsMessageIdRequirement

/-- C21, counterexample: on the scripted message, when
`properties_get_message_id` fails, `IoTHubMessage_CreateFromUamqpMessage` does
not fail and does not return immediately: it goes on with the correlation-id
and the application properties and returns 0 with the created message, as the
branch itself says ("No failure, since it is optional"). -/
theorem IoTHubMessage_CreateFromUamqpMessage_ignores_message_id_read_failure :
    (IoTHubMessage_CreateFromUamqpMessage (mock { testScript with failAt := some 4 })
        257 0 0).val = (0, 256) ∧
    (IoTHubMessage_CreateFromUamqpMessage (mock { testScript with failAt := some 4 })
        257 0 0).trace =
      [Call.message_get_body_type 257 0 MESSAGE_BODY_TYPE.MESSAGE_BODY_TYPE_DATA,
        Call.message_get_body_amqp_data_in_place 257 0 0 ⟨some [some 1, some 2, some 3], 3⟩,
        Call.IoTHubMessage_CreateFromByteArray (some [some 1, some 2, some 3]) 3 256,
        Call.message_get_properties 257 0 263,
        Call.properties_get_message_id 263 1 2001,
        Call.properties_get_correlation_id 263 0 2002,
        Call.amqpvalue_get_type 2002 AMQP_TYPE.AMQP_TYPE_STRING,
        Call.amqpvalue_get_string 2002 0 (some "Test Correlation Id"),
        Call.IoTHubMessage_SetCorrelationId 256 (some "Test Correlation Id")
          IOTHUB_MESSAGE_RESULT.IOTHUB_MESSAGE_OK,
        Call.properties_destroy 263,
        Call.IoTHubMessage_Properties 256 259,
        Call.message_get_application_properties 257 0 260,
        Call.amqpvalue_get_inplace_described_value 260 261,
        Call.amqpvalue_get_map_pair_count 261 0 1,
        Call.amqpvalue_get_map_key_value_pair 261 0 0 3000 3001,
        Call.amqpvalue_get_string 3000 0 (some "PROPERTY1"),
        Call.amqpvalue_get_string 3001 0 (some "sdfksdfjjjjlsdf"),
        Call.Map_AddOrUpdate 259 (some "PROPERTY1") (some "sdfksdfjjjjlsdf") 0,
        Call.amqpvalue_destroy 3000,
        Call.amqpvalue_destroy 3001,
        Call.amqpvalue_destroy 260] := by
  decide

end ClaimsMessageIdRequirement

section ClaimsMessageIdRead
variable {σ : Type}

theorem readApplicationPropertiesFromuAMQPMessage_head (c : Collab σ) (h m : Nat) (w : σ) :
    ∃ map rest, (readApplicationPropertiesFromuAMQPMessage c h m w).trace =
      Call.IoTHubMessage_Properties h map :: rest := by
  rcases readApplicationPropertiesFromuAMQPMessage_cases c h m w with
    ⟨ht, _⟩ | ⟨_, _, _, _, _, ht, _⟩ | ⟨_, _, ht, _⟩ | ⟨_, _, _, _, ht, _⟩ |
    ⟨_, _, _, _, _, _, _, _, _, ht, _⟩ | ⟨_, _, _, _, _, _, _, _, _, ht, _⟩ <;>
  exact ⟨_, _, ht⟩

/-- C21, amended: a failing `properties_get_message_id` does not make
`IoTHubMessage_CreateFromUamqpMessage` fail and does not make it return.  In
every run in which that read fails, the log is the three body calls, the
retrieval of the container, the failed read, then the correlation-id step
(whose first call is `properties_get_correlation_id`), the release of the
container and what follows the properties reader; `IoTHubMessage_SetMessageId`
is not called; the properties reader fails exactly when the correlation-id step
does; when it does not, the application-properties reader runs next and the
result is 0 exactly when that reader returns 0. -/
theorem IoTHubMessage_CreateFromUamqpMessage_message_id_read_failure (c : Collab σ)
    (uamqp_message iothubclient_message : Nat) (w : σ) (properties value : Nat)
    (result : Int)
    (hread : Call.properties_get_message_id properties result value ∈
      (IoTHubMessage_CreateFromUamqpMessage c uamqp_message iothubclient_message w).trace)
    (hfail : result ≠ 0) :
    ∃ bd handle o2 tail, handle ≠ 0 ∧ FieldOutcome.valid o2 ∧
      (IoTHubMessage_CreateFromUamqpMessage c uamqp_message iothubclient_message w).trace =
        [Call.message_get_body_type uamqp_message 0 MESSAGE_BODY_TYPE.MESSAGE_BODY_TYPE_DATA,
          Call.message_get_body_amqp_data_in_place uamqp_message 0 0 bd,
          Call.IoTHubMessage_CreateFromByteArray bd.bytes bd.length handle,
          Call.message_get_properties uamqp_message 0 properties,
          Call.properties_get_message_id properties result value] ++
        (exp_calls_read_correlation_id handle properties o2 ++
          Call.properties_destroy properties :: tail) ∧
      (∃ r v rest, exp_calls_read_correlation_id handle properties o2 =
        Call.properties_get_correlation_id properties r v :: rest) ∧
      (∀ h s r, Call.IoTHubMessage_SetMessageId h s r ∉
        (IoTHubMessage_CreateFromUamqpMessage c uamqp_message iothubclient_message w).trace) ∧
      (decode_properties_run c uamqp_message w).val =
        (if o2.fatal = true then FAILURE else 0) ∧
      (o2.fatal = true → tail = [Call.IoTHubMessage_Destroy handle] ∧
        (IoTHubMessage_CreateFromUamqpMessage c uamqp_message iothubclient_message w).val =
          (FAILURE, iothubclient_message)) ∧
      (o2.fatal = false →
        (∃ map rest, tail = Call.IoTHubMessage_Properties handle map :: rest) ∧
        ((IoTHubMessage_CreateFromUamqpMessage c uamqp_message iothubclient_message
            w).val.1 = 0 ↔
          (decode_application_properties_run c uamqp_message w).val = 0)) := by
  rcases IoTHubMessage_CreateFromUamqpMessage_normal_form c uamqp_message
    iothubclient_message w with ⟨_, ht, _⟩ | ⟨bd, handle, tail, hne, hh, hbt, ht, htail, hcase⟩
  · rw [ht] at hread
    have := create_from_body_only c uamqp_message w _ hread
    simp [Call.isBodyReaderCall] at this
  obtain ⟨t1, _, t3, _⟩ := after_properties_avoids tail htail
  have hR : (decode_properties_run c uamqp_message w) =
      readPropertiesFromuAMQPMessage c handle uamqp_message
        (decode_body_run c uamqp_message w).world := by
    unfold decode_properties_run
    rw [hh]
  rw [ht, hbt] at hread
  have hnb : Call.properties_get_message_id properties result value ∉
      [Call.message_get_body_type uamqp_message 0 MESSAGE_BODY_TYPE.MESSAGE_BODY_TYPE_DATA,
        Call.message_get_body_amqp_data_in_place uamqp_message 0 0 bd,
        Call.IoTHubMessage_CreateFromByteArray bd.bytes bd.length handle] := by simp
  have hnt : Call.properties_get_message_id properties result value ∉ tail := by
    intro hm
    have := t1 _ hm
    simp [Call.isMessageIdRead] at this
  have hinR : Call.properties_get_message_id properties result value ∈
      (decode_properties_run c uamqp_message w).trace := by
    rcases List.mem_append.mp hread with hm | hm
    · exact absurd hm hnb
    · rcases List.mem_append.mp hm with hm | hm
      · exact hm
      · exact absurd hm hnt
  rcases readPropertiesFromuAMQPMessage_cases c handle uamqp_message
    (decode_body_run c uamqp_message w).world with
    ⟨r, p, _, hrt, _⟩ | ⟨p, o1, o2, hv1, hv2, hrt, hrv⟩
  · rw [hR, hrt] at hinR
    simp at hinR
  rw [← hR] at hrt hrv
  -- the failed read is the first call of the message-id step
  have hmid : p = properties ∧ o1.result = result ∧ o1.value = value := by
    rw [hrt, message_id_head handle p o1] at hinR
    simp only [List.mem_cons, List.mem_append, List.cons_append, reduceCtorEq, false_or,
      List.mem_singleton, or_false, Call.properties_get_message_id.injEq] at hinR
    rcases hinR with hm | (hm | hm) | hm
    · exact ⟨hm.1.symm, hm.2.1.symm, hm.2.2.symm⟩
    · have := (message_id_avoids handle p o1).1 _ hm
      simp [Call.isMessageIdRead] at this
    · have := (correlation_id_avoids handle p o2).2 _ hm
      simp [Call.isMessageIdRead] at this
    · cases hm
  obtain ⟨hp, hres, hval⟩ := hmid
  subst hp
  obtain ⟨htl, hf, hset⟩ := message_id_unread handle p o1 (by rw [hres]; exact hfail)
  have hmsg : exp_calls_read_message_id handle p o1 =
      [Call.properties_get_message_id p result value] := by
    rw [message_id_head handle p o1, htl, hres, hval]
  have hT : (IoTHubMessage_CreateFromUamqpMessage c uamqp_message iothubclient_message
      w).trace =
      [Call.message_get_body_type uamqp_message 0 MESSAGE_BODY_TYPE.MESSAGE_BODY_TYPE_DATA,
        Call.message_get_body_amqp_data_in_place uamqp_message 0 0 bd,
        Call.IoTHubMessage_CreateFromByteArray bd.bytes bd.length handle,
        Call.message_get_properties uamqp_message 0 p,
        Call.properties_get_message_id p result value] ++
      (exp_calls_read_correlation_id handle p o2 ++ Call.properties_destroy p :: tail) := by
    rw [ht, hbt, hrt, hmsg]
    simp
  have hrv2 : (decode_properties_run c uamqp_message w).val =
      (if o2.fatal = true then FAILURE else 0) := by
    rw [hrv, hf]
    simp
  refine ⟨bd, handle, o2, tail, hne, hv2, hT, ?_, ?_, hrv2, ?_, ?_⟩
  · rw [correlation_id_head handle p o2]
    exact ⟨_, _, _, rfl⟩
  · intro h s r hm
    rw [hT] at hm
    simp only [List.mem_append, List.mem_cons, reduceCtorEq, false_or, List.mem_nil_iff,
      or_false] at hm
    rcases hm with hm | hm
    · exact (correlation_id_other handle p o2).1 h s r hm
    · exact t3 h s r hm
  · intro hfat
    rw [hrv2, if_pos hfat] at hcase
    rcases hcase with ⟨_, htl2, hv⟩ | ⟨h0, _⟩ | ⟨h0, _⟩
    · exact ⟨htl2, hv⟩
    · simp [FAILURE] at h0
    · simp [FAILURE] at h0
  · intro hfat
    have hz : (decode_properties_run c uamqp_message w).val = 0 := by
      rw [hrv2, hfat]
      simp
    obtain ⟨map, rest, hhead⟩ := readApplicationPropertiesFromuAMQPMessage_head c
      (decode_body_run c uamqp_message w).val.2 uamqp_message
      (decode_properties_run c uamqp_message w).world
    have hA : (readApplicationPropertiesFromuAMQPMessage c
        (decode_body_run c uamqp_message w).val.2 uamqp_message
        (decode_properties_run c uamqp_message w).world).trace =
        (decode_application_properties_run c uamqp_message w).trace := rfl
    rw [hA, hh] at hhead
    rcases hcase with ⟨hn0, _⟩ | ⟨_, hA0, htl2, hv⟩ | ⟨_, hA0, htl2, hv⟩
    · exact absurd hz hn0
    · refine ⟨⟨map, rest ++ [Call.IoTHubMessage_Destroy handle], by rw [htl2, hhead]; rfl⟩, ?_⟩
      rw [hv]
      constructor
      · intro h0
        simp [FAILURE] at h0
      · intro h0
        exact absurd h0 hA0
    · refine ⟨⟨map, rest, by rw [htl2, hhead]⟩, ?_⟩
      rw [hv]
      exact ⟨fun _ => hA0, fun _ => rfl⟩

end ClaimsMessageIdRead

theorem IoTHubMessage_CreateFromUamqpMessage_message_id_read_failure_witness :
    Call.properties_get_message_id 263 1 2001 ∈
      (IoTHubMessage_CreateFromUamqpMessage (mock { testScript with failAt := some 4 })
        257 0 0).trace ∧
    ∀ h s r, Call.IoTHubMessage_SetMessageId h s r ∉
      (IoTHubMessage_CreateFromUamqpMessage (mock { testScript with failAt := some 4 })
        257 0 0).trace :=
  ⟨by decide,
    (IoTHubMessage_CreateFromUamqpMessage_message_id_read_failure
      (mock { testScript with failAt := some 4 }) 257 0 0 263 2001 1 (by decide)
      (by decide)).elim (fun _ h => h.elim (fun _ h2 => h2.elim (fun _ h3 =>
        h3.elim (fun _ h4 => h4.2.2.2.2.1))))⟩

section EncodeOrder

variable {σ : Type}

theorem only_encodes (done : List (Nat × List (List Nat))) :
    Only Call.isEncode (done.map (fun x => Call.amqpvalue_encode x.1 x.2 0)) := by
  intro e he
  rw [List.mem_map] at he
  obtain ⟨x, _, hx⟩ := he
  rw [← hx]
  rfl

theorem builders_avoid_assembly (c : Collab σ) (h : Nat) (w : σ) :
    Avoids Call.isAssembly (encode_properties_run c h w).trace ∧
    Avoids Call.isAssembly (encode_application_properties_run c h w).trace ∧
    Avoids Call.isAssembly (encode_data_run c h w).trace := by
  refine ⟨?_, ?_, ?_⟩
  · intro e he
    have := create_message_properties_to_encode_only c h 0 0 w e he
    revert this
    cases e <;> simp [Call.isPropertiesBuilderCall, Call.isAssembly]
  · intro e he
    have := create_application_properties_to_encode_only c h 0 0 _ e he
    revert this
    cases e <;> simp [Call.isApplicationPropertiesBuilderCall, Call.isAssembly]
  · intro e he
    have := create_data_to_encode_only c h 0 0 _ e he
    revert this
    cases e <;> simp [Call.isDataBuilderCall, Call.isAssembly]

/-- The shape of a run of `create_amqp_message_data`: the builders that ran,
then, when the three of them succeeded, one `malloc` of the `size_t` sum of the
three lengths and the serialisations; with the result and the output struct. -/
theorem create_amqp_message_data_shape (c : Collab σ) (h : Nat) (b : BINARY_DATA) (w : σ) :
    ((encode_properties_run c h w).val.1 ≠ 0 ∧
      (create_amqp_message_data c h b w).trace = (encode_properties_run c h w).trace ∧
      (create_amqp_message_data c h b w).val =
        ((encode_properties_run c h w).val.1, ⟨none, 0⟩)) ∨
    ((encode_properties_run c h w).val.1 = 0 ∧
      (encode_application_properties_run c h w).val.1 ≠ 0 ∧
      (create_amqp_message_data c h b w).trace =
        (encode_properties_run c h w).trace ++
          (encode_application_properties_run c h w).trace ∧
      (create_amqp_message_data c h b w).val =
        ((encode_application_properties_run c h w).val.1, ⟨none, 0⟩)) ∨
    ((encode_properties_run c h w).val.1 = 0 ∧
      (encode_application_properties_run c h w).val.1 = 0 ∧
      (encode_data_run c h w).val.1 ≠ 0 ∧
      (create_amqp_message_data c h b w).trace =
        (encode_properties_run c h w).trace ++
          (encode_application_properties_run c h w).trace ++ (encode_data_run c h w).trace ∧
      (create_amqp_message_data c h b w).val = ((encode_data_run c h w).val.1, ⟨none, 0⟩)) ∨
    ((encode_properties_run c h w).val.1 = 0 ∧
      (encode_application_properties_run c h w).val.1 = 0 ∧
      (encode_data_run c h w).val.1 = 0 ∧
      ∃ (block : BytePtr) (encodes : List Call),
        (create_amqp_message_data c h b w).trace =
          (encode_properties_run c h w).trace ++
            (encode_application_properties_run c h w).trace ++
            (encode_data_run c h w).trace ++
            Call.malloc (size_t_sum (encode_properties_run c h w).val.2.2
              (encode_application_properties_run c h w).val.2.2
              (encode_data_run c h w).val.2.2) block :: encodes ∧
        Only Call.isEncode encodes ∧
        ((block = none ∧ encodes = [] ∧
            (create_amqp_message_data c h b w).val = (FAILURE, ⟨none, 0⟩)) ∨
          (block = some (List.replicate (size_t_sum (encode_properties_run c h w).val.2.2
              (encode_application_properties_run c h w).val.2.2
              (encode_data_run c h w).val.2.2) none) ∧
            (create_amqp_message_data c h b w).val.2 =
              (if (create_amqp_message_data c h b w).val.1 = 0 then
                { bytes := (after_chunks ⟨block, 0⟩ (encodedChunks encodes)).bytes,
                  length := size_t_sum (encode_properties_run c h w).val.2.2
                    (encode_application_properties_run c h w).val.2.2
                    (encode_data_run c h w).val.2.2 }
              else after_chunks ⟨block, 0⟩ (encodedChunks encodes)) ∧
            ((create_amqp_message_data c h b w).val.1 = 0 ↔ AllOk encodes)))) := by
  have hc := create_amqp_message_data_frame_cases c h b w (encode_properties_run c h w)
    (encode_application_properties_run c h w) (encode_data_run c h w)
    (create_amqp_message_data_frame c h b w) rfl rfl rfl rfl
  rw [create_amqp_message_data_trace, create_amqp_message_data_val]
  rcases hc with ⟨h1, ht, hr, hb⟩ | ⟨h1, h2, ht, hr, hb⟩ | ⟨h1, h2, h3, ht, hr, hb⟩ |
    ⟨h1, h2, h3, _, _, _, _, _, _, hcase⟩
  · exact Or.inl ⟨h1, ht, by rw [hr, hb]⟩
  · exact Or.inr (Or.inl ⟨h1, h2, ht, by rw [hr, hb]⟩)
  · exact Or.inr (Or.inr (Or.inl ⟨h1, h2, h3, ht, by rw [hr, hb]⟩))
  · refine Or.inr (Or.inr (Or.inr ⟨h1, h2, h3, ?_⟩))
    rcases hcase with ⟨ht, hr, hb⟩ | ⟨done, v, chunks, r, rest, hrne, _, ht, hr, hb⟩ |
      ⟨done, _, ht, hr, hb⟩
    · refine ⟨none, [], ?_, only_nil _, Or.inl ⟨rfl, rfl, by rw [hr, hb]⟩⟩
      rw [ht]
    · refine ⟨_, done.map (fun x => Call.amqpvalue_encode x.1 x.2 0) ++
        [Call.amqpvalue_encode v chunks r], ?_, ?_, Or.inr ⟨rfl, ?_, ?_⟩⟩
      · rw [ht]
        simp
      · rw [only_append]
        exact ⟨only_encodes done, by simp [only_cons, only_nil, Call.isEncode]⟩
      · have hone : encodedChunks [Call.amqpvalue_encode v chunks r] = chunks := by
          simp [encodedChunks, Call.chunks]
        simp only [hr, hb, if_neg hrne, encodedChunks_append, encodedChunks_encoded, hone]
      · simp only [hr]
        constructor
        · intro h0
          exact absurd h0 hrne
        · intro hall
          have := hall (Call.amqpvalue_encode v chunks r) (by simp)
          simp only [Call.ok, beq_iff_eq] at this
          exact absurd this hrne
    · refine ⟨_, done.map (fun x => Call.amqpvalue_encode x.1 x.2 0), ?_,
        only_encodes done, Or.inr ⟨rfl, ?_, ?_⟩⟩
      · rw [ht]
        simp
      · simp only [hr, hb, if_true, encodedChunks_encoded]
      · simp only [hr, true_iff]
        exact allOk_encoded done

theorem countP_malloc_of_avoids (t : List Call) (h : Avoids Call.isAssembly t) :
    t.countP Call.isMalloc = 0 := by
  rw [List.countP_eq_zero]
  intro e he
  have := h e he
  revert this
  cases e <;> simp [Call.isAssembly, Call.isMalloc]

theorem countP_malloc_of_encodes (t : List Call) (h : Only Call.isEncode t) :
    t.countP Call.isMalloc = 0 := by
  rw [List.countP_eq_zero]
  intro e he
  have := h e he
  revert this
  cases e <;> simp [Call.isEncode, Call.isMalloc]

/-- The assembly calls of a run of `create_amqp_message_data`: none unless
the three builders succeeded, else one `malloc` followed by serialisations
only. -/
theorem create_amqp_message_data_assembly (c : Collab σ) (message_handle : Nat)
    (body_binary_data : BINARY_DATA) (w : σ) :
    (Avoids Call.isAssembly (create_amqp_message_data c message_handle body_binary_data w).trace ∧
      ¬ ((encode_properties_run c message_handle w).val.1 = 0 ∧ (encode_application_properties_run c message_handle w).val.1 = 0 ∧ (encode_data_run c message_handle w).val.1 = 0)) ∨
    ((encode_properties_run c message_handle w).val.1 = 0 ∧ (encode_application_properties_run c message_handle w).val.1 = 0 ∧ (encode_data_run c message_handle w).val.1 = 0 ∧
      ∃ pre block encodes, (create_amqp_message_data c message_handle body_binary_data w).trace =
          pre ++ Call.malloc (size_t_sum (encode_properties_run c message_handle w).val.2.2 (encode_application_properties_run c message_handle w).val.2.2 (encode_data_run c message_handle w).val.2.2) block :: encodes ∧
        Avoids Call.isAssembly pre ∧ Only Call.isEncode encodes ∧
        (block = none → encodes = [])) := by
  obtain ⟨aP, aA, aD⟩ := builders_avoid_assembly c message_handle w
  rcases create_amqp_message_data_shape c message_handle body_binary_data w with
    ⟨h1, ht, _⟩ | ⟨h1, h2, ht, _⟩ | ⟨h1, h2, h3, ht, _⟩ |
    ⟨h1, h2, h3, block, encodes, ht, henc, hcase⟩
  · exact Or.inl ⟨by rw [ht]; exact aP, fun hh => h1 hh.1⟩
  · exact Or.inl ⟨by rw [ht, avoids_append]; exact ⟨aP, aA⟩, fun hh => h2 hh.2.1⟩
  · exact Or.inl ⟨by rw [ht, avoids_append, avoids_append]; exact ⟨⟨aP, aA⟩, aD⟩,
      fun hh => h3 hh.2.2⟩
  · refine Or.inr ⟨h1, h2, h3, _, block, encodes, ht, ?_, henc, ?_⟩
    · rw [avoids_append, avoids_append]
      exact ⟨⟨aP, aA⟩, aD⟩
    · intro hb
      rcases hcase with ⟨_, he, _⟩ | ⟨hb2, _⟩
      · exact he
      · rw [hb2] at hb
        cases hb

end EncodeOrder

section ClaimsBuilderOrder

variable {σ : Type}

/-- C25. Builder order and short-circuit on encode: the log of
`create_amqp_message_data` is the log of the properties builder, then (when
that succeeded) the log of the application-properties builder, then (when that
succeeded too) the log of the body encoder, then (when the three succeeded) one
`malloc` of the `size_t` sum of the three lengths (their sum modulo `2 ^ 64`)
and after it serialisations only, none when `malloc` answered `NULL`.  So
after a failed properties builder neither `IoTHubMessage_Properties`,
`Map_GetInternals` nor `IoTHubMessage_GetContentType` is called, after a
failed application-properties builder
`IoTHubMessage_GetContentType` is not called, `malloc` is called at most once
and only after the three builders succeeded, and `amqpvalue_encode` is called
only after `malloc` returned a block. -/
theorem create_amqp_message_data_builder_order (c : Collab σ) (message_handle : Nat)
    (body_binary_data : BINARY_DATA) (w : σ) :
    ((encode_properties_run c message_handle w).val.1 ≠ 0 →
      (create_amqp_message_data c message_handle body_binary_data w).trace = (encode_properties_run c message_handle w).trace ∧ (create_amqp_message_data c message_handle body_binary_data w).val.1 ≠ 0 ∧
      (∀ h r, Call.IoTHubMessage_Properties h r ∉ (create_amqp_message_data c message_handle body_binary_data w).trace) ∧
      (∀ m r n, Call.Map_GetInternals m r n ∉ (create_amqp_message_data c message_handle body_binary_data w).trace) ∧
      (∀ h r, Call.IoTHubMessage_GetContentType h r ∉ (create_amqp_message_data c message_handle body_binary_data w).trace)) ∧
    ((encode_properties_run c message_handle w).val.1 = 0 → (encode_application_properties_run c message_handle w).val.1 ≠ 0 →
      (create_amqp_message_data c message_handle body_binary_data w).trace = (encode_properties_run c message_handle w).trace ++ (encode_application_properties_run c message_handle w).trace ∧ (create_amqp_message_data c message_handle body_binary_data w).val.1 ≠ 0 ∧
      (∀ h r, Call.IoTHubMessage_GetContentType h r ∉ (create_amqp_message_data c message_handle body_binary_data w).trace)) ∧
    ((encode_properties_run c message_handle w).val.1 = 0 → (encode_application_properties_run c message_handle w).val.1 = 0 → (encode_data_run c message_handle w).val.1 ≠ 0 →
      (create_amqp_message_data c message_handle body_binary_data w).trace = (encode_properties_run c message_handle w).trace ++ (encode_application_properties_run c message_handle w).trace ++ (encode_data_run c message_handle w).trace ∧ (create_amqp_message_data c message_handle body_binary_data w).val.1 ≠ 0) ∧
    ((encode_properties_run c message_handle w).val.1 = 0 → (encode_application_properties_run c message_handle w).val.1 = 0 → (encode_data_run c message_handle w).val.1 = 0 →
      ∃ block encodes, (create_amqp_message_data c message_handle body_binary_data w).trace = (encode_properties_run c message_handle w).trace ++ (encode_application_properties_run c message_handle w).trace ++ (encode_data_run c message_handle w).trace ++
          Call.malloc (size_t_sum (encode_properties_run c message_handle w).val.2.2 (encode_application_properties_run c message_handle w).val.2.2 (encode_data_run c message_handle w).val.2.2) block :: encodes ∧
        Only Call.isEncode encodes ∧ (block = none → encodes = [])) ∧
    Only Call.isPropertiesBuilderCall (encode_properties_run c message_handle w).trace ∧
    Only Call.isApplicationPropertiesBuilderCall (encode_application_properties_run c message_handle w).trace ∧
    Only Call.isDataBuilderCall (encode_data_run c message_handle w).trace ∧
    (create_amqp_message_data c message_handle body_binary_data w).trace.countP Call.isMalloc ≤ 1 ∧
    (∀ n r, Call.malloc n r ∈ (create_amqp_message_data c message_handle body_binary_data w).trace →
      (encode_properties_run c message_handle w).val.1 = 0 ∧ (encode_application_properties_run c message_handle w).val.1 = 0 ∧ (encode_data_run c message_handle w).val.1 = 0) ∧
    (∀ v chunks r, Call.amqpvalue_encode v chunks r ∈ (create_amqp_message_data c message_handle body_binary_data w).trace →
      ∃ pre n block rest, (create_amqp_message_data c message_handle body_binary_data w).trace = pre ++ Call.malloc n (some block) :: rest ∧
        Call.amqpvalue_encode v chunks r ∈ rest) := by
  have hs := create_amqp_message_data_shape c message_handle body_binary_data w
  have ha := create_amqp_message_data_assembly c message_handle body_binary_data w
  have kP : Only Call.isPropertiesBuilderCall (encode_properties_run c message_handle w).trace :=
    create_message_properties_to_encode_only c message_handle 0 0 w
  have kA : Only Call.isApplicationPropertiesBuilderCall (encode_application_properties_run c message_handle w).trace :=
    create_application_properties_to_encode_only c message_handle 0 0 _
  have kD : Only Call.isDataBuilderCall (encode_data_run c message_handle w).trace :=
    create_data_to_encode_only c message_handle 0 0 _
  refine ⟨?_, ?_, ?_, ?_, kP, kA, kD, ?_, ?_, ?_⟩
  · intro hP
    rcases hs with ⟨_, ht, hv⟩ | ⟨h1, _⟩ | ⟨h1, _⟩ | ⟨h1, _⟩
    · rw [ht, hv]
      refine ⟨rfl, hP, ?_, ?_, ?_⟩
      · intro h r hm
        have := kP _ hm
        simp [Call.isPropertiesBuilderCall] at this
      · intro m r n hm
        have := kP _ hm
        simp [Call.isPropertiesBuilderCall] at this
      · intro h r hm
        have := kP _ hm
        simp [Call.isPropertiesBuilderCall] at this
    all_goals exact absurd h1 hP
  · intro hP hA
    rcases hs with ⟨h1, _⟩ | ⟨_, _, ht, hv⟩ | ⟨_, h2, _⟩ | ⟨_, h2, _⟩
    · exact absurd hP h1
    · rw [ht, hv]
      refine ⟨rfl, hA, ?_⟩
      intro h r hm
      rcases List.mem_append.mp hm with hm | hm
      · have := kP _ hm
        simp [Call.isPropertiesBuilderCall] at this
      · have := kA _ hm
        simp [Call.isApplicationPropertiesBuilderCall] at this
    all_goals exact absurd h2 hA
  · intro hP hA hD
    rcases hs with ⟨h1, _⟩ | ⟨_, h2, _⟩ | ⟨_, _, _, ht, hv⟩ | ⟨_, _, h3, _⟩
    · exact absurd hP h1
    · exact absurd hA h2
    · rw [ht, hv]
      exact ⟨rfl, hD⟩
    · exact absurd h3 hD
  · intro hP hA hD
    rcases hs with ⟨h1, _⟩ | ⟨_, h2, _⟩ | ⟨_, _, h3, _⟩ | ⟨_, _, _, block, encodes, ht, henc, hcase⟩
    · exact absurd hP h1
    · exact absurd hA h2
    · exact absurd hD h3
    · refine ⟨block, encodes, ht, henc, ?_⟩
      intro hb
      rcases hcase with ⟨_, he, _⟩ | ⟨hb2, _⟩
      · exact he
      · rw [hb2] at hb
        cases hb
  · rcases ha with ⟨hav, _⟩ | ⟨_, _, _, pre, block, encodes, ht, hpre, henc, _⟩
    · rw [countP_malloc_of_avoids _ hav]
      exact Nat.zero_le 1
    · rw [ht, List.countP_append, List.countP_cons, countP_malloc_of_avoids _ hpre,
        countP_malloc_of_encodes _ henc]
      simp [Call.isMalloc]
  · intro n r hm
    rcases ha with ⟨hav, _⟩ | ⟨h1, h2, h3, _⟩
    · have := hav _ hm
      simp [Call.isAssembly] at this
    · exact ⟨h1, h2, h3⟩
  · intro v chunks r hm
    rcases ha with ⟨hav, _⟩ | ⟨_, _, _, pre, block, encodes, ht, hpre, henc, hnone⟩
    · have := hav _ hm
      simp [Call.isAssembly] at this
    · rw [ht] at hm ⊢
      rcases List.mem_append.mp hm with hm1 | hm1
      · have := hpre _ hm1
        simp [Call.isAssembly] at this
      · have hm2 : Call.amqpvalue_encode v chunks r ∈ encodes := by
          simpa using hm1
        clear hm hm1
        cases block with
        | none =>
          rw [hnone rfl] at hm2
          cases hm2
        | some cells => exact ⟨pre, _, cells, encodes, rfl, hm2⟩

end ClaimsBuilderOrder

section ClaimsZeroAllocation

variable {σ : Type}

/-- C22, counterexample: with an AMQP layer in which every value has an empty
encoding the three lengths sum to zero, `create_amqp_message_data` calls
`malloc(0)`, and when that answers a block it returns 0 with a zero-length
buffer. -/
theorem create_amqp_message_data_zero_length_success :
    (create_amqp_message_data emptySections 259 ⟨none, 0⟩ 0).val = (0, ⟨some [], 0⟩) ∧
    Call.malloc 0 (some []) ∈ (create_amqp_message_data emptySections 259 ⟨none, 0⟩ 0).trace ∧
    reportedSizes (create_amqp_message_data emptySections 259 ⟨none, 0⟩ 0).trace =
      [0, 0, 0] := by
  decide

/-- C22, amended: `create_amqp_message_data` has no zero-length check.  Once
the three builders have succeeded it calls `malloc` exactly once, with the
`size_t` sum of the three lengths they computed (their sum modulo `2 ^ 64`),
whatever that is, zero included, and after it only serialisations follow.
When `malloc` answers `NULL` nothing is serialised, the result is non-zero and
the output struct is `NULL` and 0; when it answers a block, also for a size of
zero, the result is 0 exactly when every serialisation succeeds, and then the
reported length is the requested size. -/
theorem create_amqp_message_data_allocation (c : Collab σ) (message_handle : Nat)
    (body_binary_data : BINARY_DATA) (w : σ)
    (hp : (encode_properties_run c message_handle w).val.1 = 0)
    (ha : (encode_application_properties_run c message_handle w).val.1 = 0)
    (hd : (encode_data_run c message_handle w).val.1 = 0) :
    ∃ (block : BytePtr) (encodes : List Call),
      (create_amqp_message_data c message_handle body_binary_data w).trace =
        (encode_properties_run c message_handle w).trace ++
          (encode_application_properties_run c message_handle w).trace ++
          (encode_data_run c message_handle w).trace ++
          Call.malloc (((encode_properties_run c message_handle w).val.2.2 +
            (encode_application_properties_run c message_handle w).val.2.2 +
            (encode_data_run c message_handle w).val.2.2) % 2 ^ 64) block :: encodes ∧
      Only Call.isEncode encodes ∧
      (create_amqp_message_data c message_handle body_binary_data w).trace.countP
        Call.isMalloc = 1 ∧
      (block = none → encodes = [] ∧
        (create_amqp_message_data c message_handle body_binary_data w).val.1 ≠ 0 ∧
        (create_amqp_message_data c message_handle body_binary_data w).val.2 = ⟨none, 0⟩) ∧
      (block ≠ none →
        block = some (List.replicate (((encode_properties_run c message_handle w).val.2.2 +
          (encode_application_properties_run c message_handle w).val.2.2 +
          (encode_data_run c message_handle w).val.2.2) % 2 ^ 64) none) ∧
        ((create_amqp_message_data c message_handle body_binary_data w).val.1 = 0 ↔
          ∀ e ∈ encodes, e.ok = true) ∧
        ((create_amqp_message_data c message_handle body_binary_data w).val.1 = 0 →
          (create_amqp_message_data c message_handle body_binary_data w).val.2.length =
            ((encode_properties_run c message_handle w).val.2.2 +
              (encode_application_properties_run c message_handle w).val.2.2 +
              (encode_data_run c message_handle w).val.2.2) % 2 ^ 64)) := by
  obtain ⟨aP, aA, aD⟩ := builders_avoid_assembly c message_handle w
  have hpre : Avoids Call.isAssembly ((encode_properties_run c message_handle w).trace ++
      (encode_application_properties_run c message_handle w).trace ++
      (encode_data_run c message_handle w).trace) := by
    rw [avoids_append, avoids_append]
    exact ⟨⟨aP, aA⟩, aD⟩
  rcases create_amqp_message_data_shape c message_handle body_binary_data w with
    ⟨h1, _⟩ | ⟨_, h2, _⟩ | ⟨_, _, h3, _⟩ | ⟨_, _, _, block, encodes, ht, henc, hcase⟩
  · exact absurd hp h1
  · exact absurd ha h2
  · exact absurd hd h3
  refine ⟨block, encodes, ht, henc, ?_, ?_, ?_⟩
  · rw [ht, List.countP_append, countP_malloc_of_avoids _ hpre, List.countP_cons,
      countP_malloc_of_encodes _ henc]
    rfl
  · intro hb
    rcases hcase with ⟨_, he, hv⟩ | ⟨hb2, _⟩
    · rw [hv]
      exact ⟨he, by simp [FAILURE], rfl⟩
    · rw [hb2] at hb
      cases hb
  · intro hb
    rcases hcase with ⟨hb2, _⟩ | ⟨hb2, hv, hiff⟩
    · exact absurd hb2 hb
    · refine ⟨hb2, hiff, ?_⟩
      intro h0
      rw [hv, if_pos h0]
      rfl

end ClaimsZeroAllocation

theorem create_amqp_message_data_allocation_witness :
    (encode_properties_run emptySections 259 0).val.1 = 0 ∧
    (encode_application_properties_run emptySections 259 0).val.1 = 0 ∧
    (encode_data_run emptySections 259 0).val.1 = 0 ∧
    (create_amqp_message_data emptySections 259 ⟨none, 0⟩ 0).trace.countP Call.isMalloc = 1 :=
  ⟨by decide, by decide, by decide,
    (create_amqp_message_data_allocation emptySections 259 ⟨none, 0⟩ 0 (by decide) (by decide)
      (by decide)).elim (fun _ h => h.elim (fun _ h2 => h2.2.2.1))⟩

section Cursor

variable {σ : Type}

theorem cursors_le (n : Nat) (chunks : List (List Nat)) (context : BINARY_DATA) :
    (∀ k ∈ cursors context chunks, k ≤ n) ↔
      (chunks ≠ [] → context.length + chunks.flatten.length ≤ n) := by
  induction chunks generalizing context with
  | nil => simp [cursors]
  | cons chunk rest ih =>
    have hl : (encode_callback context chunk).2.length = context.length + chunk.length := rfl
    simp only [cursors, List.mem_cons, forall_eq_or_imp, ih, hl, ne_eq, reduceCtorEq,
      not_false_eq_true, List.flatten_cons, List.length_append, true_implies]
    constructor
    · rintro ⟨h1, h2⟩
      by_cases hr : rest = []
      · subst hr
        simpa using h1
      · have := h2 hr
        omega
    · intro h
      refine ⟨by omega, fun _ => by omega⟩

theorem after_chunks_bytes_length (chunks : List (List Nat)) (context : BINARY_DATA)
    (cells : List (Option Nat)) (hc : context.bytes = some cells) :
    ∃ cells2, (after_chunks context chunks).bytes = some cells2 ∧
      cells2.length = cells.length := by
  induction chunks generalizing context cells with
  | nil => exact ⟨cells, hc, rfl⟩
  | cons chunk rest ih =>
    have hstep : after_chunks context (chunk :: rest) =
        after_chunks (encode_callback context chunk).2 rest := rfl
    rw [hstep]
    obtain ⟨c2, h2, h3⟩ := ih (encode_callback context chunk).2
      (memcpy cells context.length chunk) (by simp [encode_callback, hc])
    exact ⟨c2, h2, by rw [h3, memcpy_length]⟩

end Cursor

section ClaimsCursor

variable {σ : Type}

theorem flatten_length_le_sizes (encs : List (Nat × List (List Nat)))
    (secs : List (Nat × Nat)) (tail : List Nat)
    (hfront : secs.map Prod.fst = encs.map Prod.fst ++ tail)
    (hle : ∀ x ∈ encs, ∀ s ∈ secs, x.1 = s.1 → x.2.flatten.length ≤ s.2) :
    (encs.flatMap Prod.snd).flatten.length ≤ (secs.map Prod.snd).sum := by
  induction encs generalizing secs with
  | nil => simp
  | cons x encs ih =>
    cases secs with
    | nil => simp at hfront
    | cons s secs =>
      simp only [List.map_cons, List.cons_append, List.cons.injEq] at hfront
      have h1 := hle x (by simp) s (by simp) hfront.1.symm
      have h2 := ih secs hfront.2
        (fun y hy t ht hyt => hle y (by simp [hy]) t (by simp [ht]) hyt)
      simp only [List.flatMap_cons, List.flatten_append, List.length_append, List.map_cons,
        List.sum_cons]
      omega

/-- A successful builder has asked for the encoded size of the value it
returns, and returns the size it was told; the application-properties builder
does so when the length it returns is positive. -/
theorem builders_report_sizes (c : Collab σ) (h : Nat) (w : σ) :
    ((encode_properties_run c h w).val.1 = 0 →
      Call.amqpvalue_get_encoded_size (encode_properties_run c h w).val.2.1 0
        (encode_properties_run c h w).val.2.2 ∈ (encode_properties_run c h w).trace) ∧
    ((encode_application_properties_run c h w).val.1 = 0 →
      (encode_application_properties_run c h w).val.2.2 > 0 →
      Call.amqpvalue_get_encoded_size (encode_application_properties_run c h w).val.2.1 0
        (encode_application_properties_run c h w).val.2.2 ∈
          (encode_application_properties_run c h w).trace) ∧
    ((encode_data_run c h w).val.1 = 0 →
      Call.amqpvalue_get_encoded_size (encode_data_run c h w).val.2.1 0
        (encode_data_run c h w).val.2.2 ∈ (encode_data_run c h w).trace) := by
  refine ⟨?_, ?_, ?_⟩
  · intro h1
    obtain ⟨properties, f1, f2, f3, f4, pv, ps, eP, vP⟩ :=
      create_message_properties_to_encode_calls c h 0 0 w h1
    unfold encode_properties_run
    rw [eP, vP]
    simp [exp_calls_message_properties]
  · intro h2 hpos
    obtain ⟨map, entries, amqp_map, av, as, eA, vA⟩ :=
      create_application_properties_to_encode_calls c h 0 0 _ h2
    unfold encode_application_properties_run at hpos ⊢
    rw [vA] at hpos
    rw [eA, vA]
    cases entries with
    | nil => simp at hpos
    | cons e es => simp [exp_calls_application_properties]
  · intro h3
    obtain ⟨body, dv, ds, eD, vD⟩ := create_data_to_encode_calls c h 0 0 _ h3
    unfold encode_data_run
    rw [eD, vD]
    simp [exp_calls_data]

/-- C23, amended: in every run of `create_amqp_message_data` that allocates
the buffer, the capacity of the buffer is the `size_t` sum of the three
lengths the builders computed before the allocation, that is their sum modulo
`2 ^ 64`.  `encode_callback` itself compares nothing; but when the three
lengths sum below `2 ^ 64` and every serialisation hands the callback at most
the number of bytes that `amqpvalue_get_encoded_size` reported for its value,
the capacity is the sum of the three lengths and the write cursor
`body_binary_data->length` does not exceed it after any invocation of
`encode_callback`. -/
theorem create_amqp_message_data_cursor (c : Collab σ) (message_handle : Nat)
    (body_binary_data : BINARY_DATA) (w : σ) (size : Nat) (cells : List (Option Nat))
    (halloc : Call.malloc size (some cells) ∈
      (create_amqp_message_data c message_handle body_binary_data w).trace) :
    size = ((encode_properties_run c message_handle w).val.2.2 +
      (encode_application_properties_run c message_handle w).val.2.2 +
      (encode_data_run c message_handle w).val.2.2) % 2 ^ 64 ∧
    cells.length = size ∧
    ((encode_properties_run c message_handle w).val.2.2 +
        (encode_application_properties_run c message_handle w).val.2.2 +
        (encode_data_run c message_handle w).val.2.2 < 2 ^ 64 →
      (∀ v chunks r n, Call.amqpvalue_encode v chunks r ∈
          (create_amqp_message_data c message_handle body_binary_data w).trace →
        Call.amqpvalue_get_encoded_size v 0 n ∈
          (create_amqp_message_data c message_handle body_binary_data w).trace →
        chunks.flatten.length ≤ n) →
      size = (encode_properties_run c message_handle w).val.2.2 +
        (encode_application_properties_run c message_handle w).val.2.2 +
        (encode_data_run c message_handle w).val.2.2 ∧
      ∀ k ∈ cursors ⟨some cells, 0⟩ (encodedChunks
        (create_amqp_message_data c message_handle body_binary_data w).trace), k ≤ size) := by
  obtain ⟨aP, aA, aD⟩ := builders_avoid_assembly c message_handle w
  obtain ⟨sP, sA, sD⟩ := builders_report_sizes c message_handle w
  have hpre : Avoids Call.isAssembly ((encode_properties_run c message_handle w).trace ++
      (encode_application_properties_run c message_handle w).trace ++
      (encode_data_run c message_handle w).trace) := by
    rw [avoids_append, avoids_append]
    exact ⟨⟨aP, aA⟩, aD⟩
  have hc := create_amqp_message_data_frame_cases c message_handle body_binary_data w
    (encode_properties_run c message_handle w)
    (encode_application_properties_run c message_handle w)
    (encode_data_run c message_handle w)
    (create_amqp_message_data_frame c message_handle body_binary_data w) rfl rfl rfl rfl
  rw [create_amqp_message_data_trace] at halloc ⊢
  generalize encode_properties_run c message_handle w = P at *
  generalize encode_application_properties_run c message_handle w = A at *
  generalize encode_data_run c message_handle w = D at *
  generalize (create_amqp_message_data_frame c message_handle body_binary_data w).trace = T
    at *
  have hnot : ∀ t, Avoids Call.isAssembly t → Call.malloc size (some cells) ∉ t := by
    intro t ht hm
    have := ht _ hm
    simp [Call.isAssembly] at this
  -- what the run serialised: a prefix of the sections, with the log after the builders
  have key : ∃ (encs : List (Nat × List (List Nat))) (tail : List Nat) (es : List Call),
      sections_to_encode P.val.2.1 A.val.2.1 D.val.2.1 A.val.2.2 =
        encs.map Prod.fst ++ tail ∧
      T = P.trace ++ A.trace ++ D.trace ++
        Call.malloc (size_t_sum P.val.2.2 A.val.2.2 D.val.2.2)
          (some (List.replicate (size_t_sum P.val.2.2 A.val.2.2 D.val.2.2) none)) :: es ∧
      encodedChunks es = encs.flatMap Prod.snd ∧
      (∀ x ∈ encs, ∃ r, Call.amqpvalue_encode x.1 x.2 r ∈ es) ∧
      Only Call.isEncode es ∧
      P.val.1 = 0 ∧ A.val.1 = 0 ∧ D.val.1 = 0 := by
    rcases hc with ⟨_, ht, _⟩ | ⟨_, _, ht, _⟩ | ⟨_, _, _, ht, _⟩ |
      ⟨h1, h2, h3, _, _, _, _, _, _, hcase⟩
    · rw [ht] at halloc
      exact absurd halloc (hnot _ aP)
    · rw [ht] at halloc
      exact absurd halloc (hnot _ ((avoids_append _ _ _).mpr ⟨aP, aA⟩))
    · rw [ht] at halloc
      exact absurd halloc (hnot _ hpre)
    rcases hcase with ⟨ht, _⟩ | ⟨done, v, chunks, r, rest, _, hsec, ht, _⟩ |
      ⟨done, hsec, ht, _⟩
    · rw [ht] at halloc
      rcases List.mem_append.mp halloc with hm | hm
      · exact absurd hm (hnot _ hpre)
      · simp at hm
    · refine ⟨done ++ [(v, chunks)], rest,
        done.map (fun x => Call.amqpvalue_encode x.1 x.2 0) ++
          [Call.amqpvalue_encode v chunks r], ?_, ?_, ?_, ?_, ?_, h1, h2, h3⟩
      · rw [hsec]
        simp
      · rw [ht]
        simp
      · rw [encodedChunks_append, encodedChunks_encoded]
        simp [encodedChunks, Call.chunks]
      · intro x hx
        rcases List.mem_append.mp hx with hx | hx
        · exact ⟨0, List.mem_append_left _ (List.mem_map.mpr ⟨x, hx, rfl⟩)⟩
        · simp only [List.mem_singleton] at hx
          subst hx
          exact ⟨r, by simp⟩
      · rw [only_append]
        exact ⟨only_encodes done, by simp [only_cons, only_nil, Call.isEncode]⟩
    · refine ⟨done, [], done.map (fun x => Call.amqpvalue_encode x.1 x.2 0), ?_, ?_, ?_, ?_,
        only_encodes done, h1, h2, h3⟩
      · rw [← hsec]
        simp
      · rw [ht]
        simp
      · exact encodedChunks_encoded done
      · intro x hx
        exact ⟨0, List.mem_map.mpr ⟨x, hx, rfl⟩⟩
  obtain ⟨encs, tail, es, hsec, ht, hchunks, hencs, hes, h1, h2, h3⟩ := key
  have hsize : size = size_t_sum P.val.2.2 A.val.2.2 D.val.2.2 ∧
      cells = List.replicate (size_t_sum P.val.2.2 A.val.2.2 D.val.2.2) none := by
    have hm := halloc
    rw [ht] at hm
    rcases List.mem_append.mp hm with hm | hm
    · exact absurd hm (hnot _ hpre)
    · rcases List.mem_cons.mp hm with hm | hm
      · simpa using hm
      · have := hes _ hm
        simp [Call.isEncode] at this
  refine ⟨hsize.1, by rw [hsize.2, List.length_replicate, ← hsize.1], ?_⟩
  intro hfit hcontract
  have hsum : size = P.val.2.2 + A.val.2.2 + D.val.2.2 := by
    rw [hsize.1]
    exact size_t_sum_of_lt _ _ _ hfit
  refine ⟨hsum, ?_⟩
  have hT : encodedChunks T = encs.flatMap Prod.snd := by
    rw [ht, encodedChunks_append, encodedChunks_of_avoids _ hpre, ← hchunks]
    rfl
  have hsecs : ([(P.val.2.1, P.val.2.2)] ++
      (if A.val.2.2 > 0 then [(A.val.2.1, A.val.2.2)] else []) ++
      [(D.val.2.1, D.val.2.2)]).map Prod.fst = encs.map Prod.fst ++ tail := by
    rw [← hsec]
    unfold sections_to_encode
    split_ifs <;> rfl
  have hin : ∀ e, e ∈ P.trace ∨ e ∈ A.trace ∨ e ∈ D.trace ∨ e ∈ es → e ∈ T := by
    intro e he
    rw [ht]
    simp only [List.mem_append, List.mem_cons]
    rcases he with he | he | he | he
    · exact Or.inl (Or.inl (Or.inl he))
    · exact Or.inl (Or.inl (Or.inr he))
    · exact Or.inl (Or.inr he)
    · exact Or.inr (Or.inr he)
  have hle := flatten_length_le_sizes encs _ tail hsecs (by
    intro x hx s hs hxs
    obtain ⟨r, hr⟩ := hencs x hx
    have hsz : Call.amqpvalue_get_encoded_size s.1 0 s.2 ∈ T := by
      simp only [List.mem_append, List.mem_singleton] at hs
      rcases hs with (hs | hs) | hs
      · subst hs
        exact hin _ (Or.inl (sP h1))
      · by_cases hpos : A.val.2.2 > 0
        · rw [if_pos hpos, List.mem_singleton] at hs
          subst hs
          exact hin _ (Or.inr (Or.inl (sA h2 hpos)))
        · rw [if_neg hpos] at hs
          cases hs
      · subst hs
        exact hin _ (Or.inr (Or.inr (Or.inl (sD h3))))
    exact hcontract x.1 x.2 r s.2 (hin _ (Or.inr (Or.inr (Or.inr hr)))) (hxs ▸ hsz))
  have hbound : (([(P.val.2.1, P.val.2.2)] ++
      (if A.val.2.2 > 0 then [(A.val.2.1, A.val.2.2)] else []) ++
      [(D.val.2.1, D.val.2.2)]).map Prod.snd).sum ≤ P.val.2.2 + A.val.2.2 + D.val.2.2 := by
    split_ifs <;>
      simp only [List.map_append, List.map_cons, List.map_nil, List.sum_append, List.sum_cons,
        List.sum_nil, List.append_nil] <;>
      omega
  rw [cursors_le, hT]
  intro _
  simp only [Nat.zero_add]
  omega

end ClaimsCursor

theorem create_amqp_message_data_cursor_witness :
    Call.malloc 6 (some [none, none, none, none, none, none]) ∈
      (create_amqp_message_data (mock testScript) 259 ⟨none, 0⟩ 0).trace ∧
    ∀ k ∈ cursors ⟨some [none, none, none, none, none, none], 0⟩
      (encodedChunks (create_amqp_message_data (mock testScript) 259 ⟨none, 0⟩ 0).trace),
      k ≤ 6 :=
  ⟨by decide,
    ((create_amqp_message_data_cursor (mock testScript) 259 ⟨none, 0⟩ 0 6
      [none, none, none, none, none, none] (by decide)).2.2 (by decide)
      (fun v chunks r n he hs => by
        have hall : ∀ e1 ∈ (create_amqp_message_data (mock testScript) 259 ⟨none, 0⟩ 0).trace,
            ∀ e2 ∈ (create_amqp_message_data (mock testScript) 259 ⟨none, 0⟩ 0).trace,
            (match e1, e2 with
              | Call.amqpvalue_encode v1 ch _, Call.amqpvalue_get_encoded_size v2 r2 m =>
                decide (v1 = v2 → r2 = 0 → ch.flatten.length ≤ m)
              | _, _ => true) = true := by decide
        simpa using hall _ he _ hs)).2⟩

/-- C23, counterexample: with an AMQP layer that reports `2 ^ 63` bytes for the
properties value and for the data value of a message without user properties,
and whose serialisations hand the callback nothing, the run allocates the
buffer with `malloc(0)` and returns 0: the capacity of the buffer is 0, not the
sum `2 ^ 63 + 0 + 2 ^ 63` of the three lengths computed before the allocation,
which were added as `size_t` values. -/
theorem create_amqp_message_data_capacity_wraps :
    (create_amqp_message_data wrapping 259 ⟨none, 0⟩ 0).trace.filter Call.isMalloc =
      [Call.malloc 0 (some [])] ∧
    (encode_properties_run wrapping 259 0).val.2.2 = 2 ^ 63 ∧
    (encode_application_properties_run wrapping 259 0).val.2.2 = 0 ∧
    (encode_data_run wrapping 259 0).val.2.2 = 2 ^ 63 ∧
    encodedChunks (create_amqp_message_data wrapping 259 ⟨none, 0⟩ 0).trace = [] ∧
    (create_amqp_message_data wrapping 259 ⟨none, 0⟩ 0).val.1 = 0 ∧
    (0 : Nat) ≠ 2 ^ 63 + 0 + 2 ^ 63 := by
  decide

section DataShape

variable {σ : Type}

/-- How the last branch of `create_data_to_encode` can end: the data value
could not be created, or it was created and its encoded size was asked for;
the result is 0 exactly when that call answered 0. -/
theorem create_data_value_cases (c : Collab σ) (ct : IOTHUBMESSAGE_CONTENT_TYPE)
    (p : BytePtr) (n dl : Nat) (w : σ) :
    ((create_data_value c ct p n dl w).trace =
        [Call.amqpvalue_create_data
          ⟨p, (if ct = IOTHUBMESSAGE_CONTENT_TYPE.IOTHUBMESSAGE_STRING then strlen p else n) %
            2 ^ 32⟩ 0] ∧
      (create_data_value c ct p n dl w).val.1 ≠ 0) ∨
    (∃ v r size, v ≠ 0 ∧ (create_data_value c ct p n dl w).trace =
        [Call.amqpvalue_create_data
          ⟨p, (if ct = IOTHUBMESSAGE_CONTENT_TYPE.IOTHUBMESSAGE_STRING then strlen p else n) %
            2 ^ 32⟩ v, Call.amqpvalue_get_encoded_size v r size] ∧
      ((create_data_value c ct p n dl w).val.1 = 0 ↔ r = 0)) := by
  simp only [create_data_value, bind_trace, bind_val, bind_world, ite_run, ite_trace, ite_val,
    pure_trace, pure_val, Ext.amqpvalue_create_data, Ext.amqpvalue_get_encoded_size, ask_run]
  generalize c.amqpvalue_create_data _ w = X0
  by_cases h0 : X0.1 = 0
  · simp only [if_pos h0]
    exact Or.inl ⟨by simp [h0], by simp [FAILURE]⟩
  simp only [if_neg h0]
  generalize c.amqpvalue_get_encoded_size X0.1 X0.2 = X1
  refine Or.inr ⟨X0.1, X1.1.1, X1.1.2, h0, by simp, ?_⟩
  by_cases h1 : X1.1.1 ≠ 0
  · simp [if_pos h1, h1, FAILURE]
  · simp [if_neg h1, not_not.mp h1, RESULT_OK]

/-- How a run of `create_data_to_encode` can end: without a data value (the
content type is unknown or the body getter failed), or with the body obtained
and the calls of the last branch on the `data` struct built from it. -/
theorem create_data_to_encode_cases (c : Collab σ) (h a b : Nat) (w : σ) :
    ((∀ d v, Call.amqpvalue_create_data d v ∉ (create_data_to_encode c h a b w).trace) ∧
      (create_data_to_encode c h a b w).val.1 ≠ 0) ∨
    (∃ body : EncodedBody,
      ((create_data_to_encode c h a b w).trace =
          exp_calls_body h body ++ [Call.amqpvalue_create_data body.bin_data 0] ∧
        (create_data_to_encode c h a b w).val.1 ≠ 0) ∨
      (∃ v r size, v ≠ 0 ∧ (create_data_to_encode c h a b w).trace =
          exp_calls_body h body ++ [Call.amqpvalue_create_data body.bin_data v,
            Call.amqpvalue_get_encoded_size v r size] ∧
        ((create_data_to_encode c h a b w).val.1 = 0 ↔ r = 0))) := by
  simp only [create_data_to_encode, bind_trace, bind_val, bind_world,
    Ext.IoTHubMessage_GetContentType, ask_run]
  cases hct : (c.IoTHubMessage_GetContentType h w).1 with
  | IOTHUBMESSAGE_BYTEARRAY =>
    simp only [bind_trace, bind_val, bind_world, ite_run, ite_trace, ite_val, pure_trace,
      pure_val, Ext.IoTHubMessage_GetByteArray, ask_run]
    generalize c.IoTHubMessage_GetByteArray h (c.IoTHubMessage_GetContentType h w).2 = X1
    by_cases h1 : X1.1.1 ≠ IOTHUB_MESSAGE_RESULT.IOTHUB_MESSAGE_OK
    · simp only [if_pos h1]
      exact Or.inl ⟨by simp, by simp [FAILURE]⟩
    · simp only [if_neg h1]
      have h1b : X1.1.1 = IOTHUB_MESSAGE_RESULT.IOTHUB_MESSAGE_OK := not_not.mp h1
      refine Or.inr ⟨EncodedBody.byteArray X1.1.2.1 X1.1.2.2, ?_⟩
      rcases create_data_value_cases c IOTHUBMESSAGE_CONTENT_TYPE.IOTHUBMESSAGE_BYTEARRAY
        X1.1.2.1 X1.1.2.2 b X1.2 with ⟨ht, hv⟩ | ⟨v, r, size, hv0, ht, hv⟩
      · simp only [reduceCtorEq, if_false] at ht
        exact Or.inl ⟨by rw [ht, h1b]; rfl, hv⟩
      · simp only [reduceCtorEq, if_false] at ht
        exact Or.inr ⟨v, r, size, hv0, by rw [ht, h1b]; rfl, hv⟩
  | IOTHUBMESSAGE_STRING =>
    simp only [bind_trace, bind_val, bind_world, Ext.IoTHubMessage_GetString, ask_run]
    cases hs : (c.IoTHubMessage_GetString h (c.IoTHubMessage_GetContentType h w).2).1 with
    | none => exact Or.inl ⟨by simp [pure_trace], by simp [pure_val, FAILURE]⟩
    | some text =>
      refine Or.inr ⟨EncodedBody.text text, ?_⟩
      rcases create_data_value_cases c IOTHUBMESSAGE_CONTENT_TYPE.IOTHUBMESSAGE_STRING
        (some (c_str text)) 0 b
        (c.IoTHubMessage_GetString h (c.IoTHubMessage_GetContentType h w).2).2 with
        ⟨ht, hv⟩ | ⟨v, r, size, hv0, ht, hv⟩
      · simp only [if_true] at ht
        exact Or.inl ⟨by simp only [ht]; rfl, hv⟩
      · simp only [if_true] at ht
        exact Or.inr ⟨v, r, size, hv0, by simp only [ht]; rfl, hv⟩
  | IOTHUBMESSAGE_UNKNOWN => exact Or.inl ⟨by simp [pure_trace], by simp [pure_val, FAILURE]⟩

theorem mod_eq_self_iff (n : Nat) : n % 2 ^ 32 = n ↔ n < 2 ^ 32 := by
  constructor
  · intro h
    rw [← h]
    exact Nat.mod_lt _ (by norm_num)
  · exact Nat.mod_eq_of_lt

end DataShape

section ClaimsTruncation

variable {σ : Type}

/-- C29. Body length is truncated to 32 bits: whenever `create_data_to_encode`
creates the data value, the length it passes to `amqpvalue_create_data` is the
size that `IoTHubMessage_GetByteArray` returned, or `strlen` of the text that
`IoTHubMessage_GetString` returned, modulo `2 ^ 32`; it is that size itself
exactly when the size is below `2 ^ 32`; and the size plays no part in the
result, which is 0 exactly when the data value was created and
`amqpvalue_get_encoded_size` answered 0 for it. -/
theorem create_data_to_encode_truncates_length (c : Collab σ) (messageHandle : Nat)
    (data_value data_length : Nat) (w : σ) (d : data) (v : Nat)
    (hcreated : Call.amqpvalue_create_data d v ∈ (create_data_to_encode c messageHandle data_value data_length w).trace) :
    ((∃ p size, Call.IoTHubMessage_GetByteArray messageHandle
          IOTHUB_MESSAGE_RESULT.IOTHUB_MESSAGE_OK p size ∈ (create_data_to_encode c messageHandle data_value data_length w).trace ∧
        d = ⟨p, size % 2 ^ 32⟩ ∧ (d.length = size ↔ size < 2 ^ 32)) ∨
      (∃ s, Call.IoTHubMessage_GetString messageHandle (some s) ∈ (create_data_to_encode c messageHandle data_value data_length w).trace ∧
        d = ⟨some (c_str s), strlen (some (c_str s)) % 2 ^ 32⟩ ∧
        (d.length = strlen (some (c_str s)) ↔ strlen (some (c_str s)) < 2 ^ 32))) ∧
    ((create_data_to_encode c messageHandle data_value data_length w).val.1 = 0 ↔
      v ≠ 0 ∧ ∃ size, Call.amqpvalue_get_encoded_size v 0 size ∈ (create_data_to_encode c messageHandle data_value data_length w).trace) := by
  have hbody : ∀ body : EncodedBody, d = body.bin_data →
      (∀ e ∈ exp_calls_body messageHandle body, e ∈ (create_data_to_encode c messageHandle data_value data_length w).trace) →
      (∃ p size, Call.IoTHubMessage_GetByteArray messageHandle
          IOTHUB_MESSAGE_RESULT.IOTHUB_MESSAGE_OK p size ∈ (create_data_to_encode c messageHandle data_value data_length w).trace ∧
        d = ⟨p, size % 2 ^ 32⟩ ∧ (d.length = size ↔ size < 2 ^ 32)) ∨
      (∃ s, Call.IoTHubMessage_GetString messageHandle (some s) ∈ (create_data_to_encode c messageHandle data_value data_length w).trace ∧
        d = ⟨some (c_str s), strlen (some (c_str s)) % 2 ^ 32⟩ ∧
        (d.length = strlen (some (c_str s)) ↔ strlen (some (c_str s)) < 2 ^ 32)) := by
    intro body hd hmem
    cases body with
    | byteArray buffer n =>
      refine Or.inl ⟨buffer, n, hmem _ (by simp [exp_calls_body]), hd, ?_⟩
      rw [hd]
      exact mod_eq_self_iff n
    | text s =>
      refine Or.inr ⟨s, hmem _ (by simp [exp_calls_body]), hd, ?_⟩
      rw [hd]
      exact mod_eq_self_iff _
  have hnot : ∀ body : EncodedBody, ∀ x y z,
      Call.amqpvalue_get_encoded_size x y z ∉ exp_calls_body messageHandle body ∧
      Call.amqpvalue_create_data d v ∉ exp_calls_body messageHandle body := by
    intro body x y z
    cases body <;> simp [exp_calls_body]
  rcases create_data_to_encode_cases c messageHandle data_value data_length w with
    ⟨hno, _⟩ | ⟨body, ⟨ht, hv⟩ | ⟨v2, r, size, hv0, ht, hv⟩⟩
  · exact absurd hcreated (hno d v)
  · have hc := hcreated
    rw [ht] at hc
    simp only [List.mem_append, (hnot body 0 0 0).2, false_or, List.mem_singleton,
      Call.amqpvalue_create_data.injEq] at hc
    obtain ⟨hd, hv2⟩ := hc
    refine ⟨hbody body hd (fun e he => by rw [ht]; simp [he]), ?_⟩
    constructor
    · intro h0
      exact absurd h0 hv
    · intro hh
      exact absurd hv2 hh.1
  · have hc := hcreated
    rw [ht] at hc
    simp only [List.mem_append, (hnot body 0 0 0).2, false_or, List.mem_cons,
      Call.amqpvalue_create_data.injEq, reduceCtorEq, List.mem_nil_iff, or_false] at hc
    obtain ⟨hd, hv2⟩ := hc
    refine ⟨hbody body hd (fun e he => by rw [ht]; simp [he]), ?_⟩
    rw [hv, hv2]
    constructor
    · intro hr
      exact ⟨hv0, size, by rw [ht, hr]; simp⟩
    · rintro ⟨_, size2, hm⟩
      rw [ht] at hm
      simp only [List.mem_append, (hnot body v2 0 size2).1, false_or, List.mem_cons,
        reduceCtorEq, Call.amqpvalue_get_encoded_size.injEq, true_and, List.mem_nil_iff,
        or_false] at hm
      exact hm.1.symm

end ClaimsTruncation

theorem create_data_to_encode_truncates_length_witness :
    Call.amqpvalue_create_data ⟨some [some 1, some 2, some 3], 3⟩ 1002 ∈
      (create_data_to_encode (mock testScript) 259 0 0 0).trace ∧
    (create_data_to_encode (mock testScript) 259 0 0 0).val.1 = 0 :=
  ⟨by decide,
    (create_data_to_encode_truncates_length (mock testScript) 259 0 0 0
      ⟨some [some 1, some 2, some 3], 3⟩ 1002 (by decide)).2.mpr
      ⟨by decide, 2, by decide⟩⟩

/-- The body of `2 ^ 32 + 1` bytes is accepted: the data builder returns 0. -/
theorem create_data_to_encode_accepts_large_body :
    (create_data_to_encode (reference toyEnc) 1 0 0 (World.sender largeMessage)).val.1 = 0 := by
  rw [(reference_data toyEnc (World.sender largeMessage) 1 largeMessage
    (List.replicate (2 ^ 32 + 1) 0) 0 0 rfl rfl).1]

section ScopedLemmas

variable {σ : Type}

theorem stringsAfter_other (live : List Nat) (e : Call) (t : List Call)
    (he : e.isStringCall = false) : stringsAfter live (e :: t) = stringsAfter live t := by
  cases e <;> first | rfl | simp [Call.isStringCall] at he

theorem stringsAfter_append (live : List Nat) (s t : List Call) :
    stringsAfter live (s ++ t) = (stringsAfter live s).bind (fun l => stringsAfter l t) := by
  induction s generalizing live with
  | nil => rfl
  | cons e s ih =>
    by_cases he : e.isStringCall = false
    · rw [List.cons_append, stringsAfter_other _ _ _ he, stringsAfter_other _ _ _ he, ih]
    · cases e <;> simp [Call.isStringCall] at he
      · simp only [List.cons_append, stringsAfter]
        exact ih _
      · simp only [List.cons_append, stringsAfter]
        split_ifs
        · exact ih _
        · rfl

theorem scoped_nil : Scoped [] := fun _ => rfl

theorem scoped_append (s t : List Call) (hs : Scoped s) (ht : Scoped t) : Scoped (s ++ t) := by
  intro live
  rw [stringsAfter_append, hs live]
  exact ht live

theorem scoped_cons (e : Call) (t : List Call) (he : e.isStringCall = false)
    (ht : Scoped t) : Scoped (e :: t) := by
  intro live
  rw [stringsAfter_other _ _ _ he]
  exact ht live

theorem scoped_of_avoids (t : List Call) (h : Avoids Call.isStringCall t) : Scoped t := by
  induction t with
  | nil => exact scoped_nil
  | cons e t ih =>
    obtain ⟨he, ht⟩ := (avoids_cons _ _ _).mp h
    exact scoped_cons e t he (ih ht)

theorem scoped_failed (text : String) (t : List Call) (ht : Scoped t) :
    Scoped (Call.amqpvalue_create_string text 0 :: t) := by
  intro live
  simp only [stringsAfter, if_true]
  exact ht live

theorem scoped_created (text : String) (v : Nat) (mid t : List Call) (hv : v ≠ 0)
    (hmid : Avoids Call.isStringCall mid) (ht : Scoped t) :
    Scoped (Call.amqpvalue_create_string text v :: (mid ++ Call.amqpvalue_destroy v :: t)) := by
  intro live
  simp only [stringsAfter, if_neg hv]
  rw [stringsAfter_append, scoped_of_avoids mid hmid]
  simp only [Option.some_bind, stringsAfter, List.mem_cons, true_or, if_true,
    List.erase_cons_head]
  exact ht live

theorem scoped_pair (key text : String) (k v : Nat) (mid t : List Call) (hk : k ≠ 0)
    (hmid : Avoids Call.isStringCall mid) (ht : Scoped t) :
    Scoped (Call.amqpvalue_create_string key k :: Call.amqpvalue_create_string text v ::
      (mid ++ Call.amqpvalue_destroy k :: (if v = 0 then t
        else Call.amqpvalue_destroy v :: t))) := by
  by_cases hv : v = 0
  · rw [if_pos hv, hv]
    have := scoped_created key k (Call.amqpvalue_create_string text 0 :: mid) t hk
    intro live
    simp only [stringsAfter, if_neg hk, if_true]
    rw [stringsAfter_append, scoped_of_avoids mid hmid]
    simp only [Option.some_bind, stringsAfter, List.mem_cons, true_or, if_true,
      List.erase_cons_head]
    exact ht live
  · rw [if_neg hv]
    intro live
    simp only [stringsAfter, if_neg hk, if_neg hv]
    rw [stringsAfter_append, scoped_of_avoids mid hmid]
    by_cases hkv : v = k
    · subst hkv
      simp only [Option.some_bind, stringsAfter, List.mem_cons, true_or, if_true,
        List.erase_cons_head]
      exact ht live
    · have herase : (v :: k :: live).erase k = v :: live := by
        rw [List.erase_cons_tail (by simpa using hkv), List.erase_cons_head]
      simp only [Option.some_bind, stringsAfter, List.mem_cons, true_or, or_true, if_true,
        herase, List.erase_cons_head]
      exact ht live

theorem set_message_id_if_needed_scoped (c : Collab σ) (h p : Nat) (w : σ) :
    Scoped (set_message_id_if_needed c h p w).trace := by
  simp only [set_message_id_if_needed, Ext.IoTHubMessage_GetMessageId,
    Ext.amqpvalue_create_string, Ext.properties_set_message_id, Ext.amqpvalue_destroy,
    bind_trace, bind_val, bind_world, ask_run]
  cases (c.IoTHubMessage_GetMessageId h w).1 with
  | none => exact scoped_of_avoids _ (by simp [avoids_cons, avoids_nil, avoids_append,
      Call.isStringCall, pure_trace])
  | some mid =>
    simp only [bind_trace, bind_val, bind_world, ask_run, tell_run, ite_run, ite_trace,
      pure_trace]
    refine scoped_cons _ _ rfl ?_
    generalize c.amqpvalue_create_string mid (c.IoTHubMessage_GetMessageId h w).2 = X
    by_cases hx : X.1 = 0
    · simp only [if_pos hx, List.append_nil, List.singleton_append, hx]
      exact scoped_failed mid [] scoped_nil
    · simp only [if_neg hx]
      have := scoped_created mid X.1 [Call.properties_set_message_id p X.1
        (c.properties_set_message_id p X.1 X.2).1] [] hx
        (by simp [avoids_cons, avoids_nil, Call.isStringCall]) scoped_nil
      split_ifs <;> simpa using this

theorem set_message_correlation_id_if_needed_scoped (c : Collab σ) (h p : Nat) (w : σ) :
    Scoped (set_message_correlation_id_if_needed c h p w).trace := by
  simp only [set_message_correlation_id_if_needed, Ext.IoTHubMessage_GetCorrelationId,
    Ext.amqpvalue_create_string, Ext.properties_set_correlation_id, Ext.amqpvalue_destroy,
    bind_trace, bind_val, bind_world, ask_run]
  cases (c.IoTHubMessage_GetCorrelationId h w).1 with
  | none => exact scoped_of_avoids _ (by simp [avoids_cons, avoids_nil, avoids_append,
      Call.isStringCall, pure_trace])
  | some mid =>
    simp only [bind_trace, bind_val, bind_world, ask_run, tell_run, ite_run, ite_trace,
      pure_trace]
    refine scoped_cons _ _ rfl ?_
    generalize c.amqpvalue_create_string mid (c.IoTHubMessage_GetCorrelationId h w).2 = X
    by_cases hx : X.1 = 0
    · simp only [if_pos hx, List.append_nil, List.singleton_append, hx]
      exact scoped_failed mid [] scoped_nil
    · simp only [if_neg hx]
      have := scoped_created mid X.1 [Call.properties_set_correlation_id p X.1
        (c.properties_set_correlation_id p X.1 X.2).1] [] hx
        (by simp [avoids_cons, avoids_nil, Call.isStringCall]) scoped_nil
      split_ifs <;> simpa using this

theorem set_message_content_type_if_needed_scoped (c : Collab σ) (h p : Nat) (w : σ) :
    Scoped (set_message_content_type_if_needed c h p w).trace := by
  refine scoped_of_avoids _ ?_
  intro e he
  have := set_message_content_type_if_needed_only c h p w e he
  revert this he
  simp only [set_message_content_type_if_needed,
    Ext.IoTHubMessage_GetContentTypeSystemProperty, Ext.properties_set_content_type,
    bind_trace, bind_val, bind_world, ask_run]
  cases (c.IoTHubMessage_GetContentTypeSystemProperty h w).1 with
  | none =>
    intro he _
    simp [pure_trace] at he
    rw [he]
    rfl
  | some s =>
    simp only [bind_trace, bind_val, bind_world, ask_run, ite_run, ite_trace, pure_trace]
    intro he _
    split_ifs at he <;> simp at he <;> rcases he with he | he <;> rw [he] <;> rfl

theorem set_message_content_encoding_if_needed_scoped (c : Collab σ) (h p : Nat) (w : σ) :
    Scoped (set_message_content_encoding_if_needed c h p w).trace := by
  refine scoped_of_avoids _ ?_
  intro e he
  revert he
  simp only [set_message_content_encoding_if_needed,
    Ext.IoTHubMessage_GetContentEncodingSystemProperty, Ext.properties_set_content_encoding,
    bind_trace, bind_val, bind_world, ask_run]
  cases (c.IoTHubMessage_GetContentEncodingSystemProperty h w).1 with
  | none =>
    intro he
    simp [pure_trace] at he
    rw [he]
    rfl
  | some s =>
    simp only [bind_trace, bind_val, bind_world, ask_run, ite_run, ite_trace, pure_trace]
    intro he
    split_ifs at he <;> simp at he <;> rcases he with he | he <;> rw [he] <;> rfl

theorem create_message_properties_to_encode_scoped (c : Collab σ) (h a b : Nat) (w : σ) :
    Scoped (create_message_properties_to_encode c h a b w).trace := by
  simp only [create_message_properties_to_encode, bind_trace, bind_val, bind_world, ite_run,
    ite_trace, pure_trace, Ext.properties_create, Ext.amqpvalue_create_properties,
    Ext.amqpvalue_get_encoded_size, ask_run]
  have s1 := set_message_id_if_needed_scoped c h
  have s2 := set_message_correlation_id_if_needed_scoped c h
  have s3 := set_message_content_type_if_needed_scoped c h
  have s4 := set_message_content_encoding_if_needed_scoped c h
  split_ifs <;>
    repeat' first
      | exact scoped_nil
      | exact s1 _ _
      | exact s2 _ _
      | exact s3 _ _
      | exact s4 _ _
      | apply scoped_append

theorem create_application_properties_loop_scoped (c : Collab σ)
    (keys values : Nat → String) (m : Nat) (fuel i : Nat) (r0 : Int) (w : σ) :
    Scoped (create_application_properties_loop c keys values m fuel i r0 w).trace := by
  induction fuel generalizing i r0 w with
  | zero => exact scoped_nil
  | succ n ih =>
    simp only [create_application_properties_loop, bind_trace, bind_val, bind_world, ite_run,
      ite_trace, pure_trace, Ext.amqpvalue_create_string, Ext.amqpvalue_set_map_value,
      Ext.amqpvalue_destroy, ask_run, tell_run]
    generalize c.amqpvalue_create_string (keys i) w = X
    by_cases hx : X.1 = 0
    · simp only [if_pos hx, List.append_nil, hx]
      exact scoped_failed _ [] scoped_nil
    simp only [if_neg hx]
    generalize c.amqpvalue_create_string (values i) X.2 = Y
    by_cases hy : Y.1 = 0
    · simp only [if_pos hy, hy]
      have := scoped_pair (keys i) (values i) X.1 0 [] [] hx (avoids_nil _) scoped_nil
      simpa using this
    simp only [if_neg hy]
    generalize c.amqpvalue_set_map_value m X.1 Y.1 Y.2 = Z
    by_cases hz : Z.1 ≠ 0
    · simp only [if_pos hz]
      have := scoped_pair (keys i) (values i) X.1 Y.1 [Call.amqpvalue_set_map_value m X.1 Y.1 Z.1]
        [] hx (by simp [avoids_cons, avoids_nil, Call.isStringCall]) scoped_nil
      simpa [hy] using this
    · simp only [if_neg hz]
      have := scoped_pair (keys i) (values i) X.1 Y.1 [Call.amqpvalue_set_map_value m X.1 Y.1 Z.1]
        _ hx (by simp [avoids_cons, avoids_nil, Call.isStringCall])
        (ih (i + 1) Z.1 (c.amqpvalue_destroy Y.1 (c.amqpvalue_destroy X.1 Z.2)))
      simpa [hy] using this

theorem create_application_properties_to_encode_scoped (c : Collab σ) (h a b : Nat) (w : σ) :
    Scoped (create_application_properties_to_encode c h a b w).trace := by
  simp only [create_application_properties_to_encode, bind_trace, bind_val, bind_world,
    ite_run, ite_trace, pure_trace, Ext.IoTHubMessage_Properties, Ext.Map_GetInternals,
    Ext.amqpvalue_create_map, Ext.amqpvalue_create_application_properties,
    Ext.amqpvalue_get_encoded_size, ask_run]
  have s1 := create_application_properties_loop_scoped c
  split_ifs <;>
    repeat' first
      | exact scoped_nil
      | exact s1 _ _ _ _ _ _ _
      | apply scoped_append

theorem create_data_to_encode_scoped (c : Collab σ) (h a b : Nat) (w : σ) :
    Scoped (create_data_to_encode c h a b w).trace := by
  refine scoped_of_avoids _ ?_
  intro e he
  have := create_data_to_encode_only c h a b w e he
  revert this
  cases e <;> simp [Call.isDataBuilderCall, Call.isStringCall]

theorem scoped_of_encodes (t : List Call) (h : Only Call.isEncode t) : Scoped t := by
  refine scoped_of_avoids _ ?_
  intro e he
  have := h e he
  revert this
  cases e <;> simp [Call.isEncode, Call.isStringCall]

theorem create_amqp_message_data_scoped (c : Collab σ) (h : Nat) (b : BINARY_DATA) (w : σ) :
    Scoped (create_amqp_message_data c h b w).trace := by
  have sP : Scoped (encode_properties_run c h w).trace :=
    create_message_properties_to_encode_scoped c h 0 0 w
  have sA : Scoped (encode_application_properties_run c h w).trace :=
    create_application_properties_to_encode_scoped c h 0 0 _
  have sD : Scoped (encode_data_run c h w).trace := create_data_to_encode_scoped c h 0 0 _
  rcases create_amqp_message_data_shape c h b w with
    ⟨_, ht, _⟩ | ⟨_, _, ht, _⟩ | ⟨_, _, _, ht, _⟩ | ⟨_, _, _, block, encodes, ht, henc, _⟩
  · rw [ht]
    exact sP
  · rw [ht]
    exact scoped_append _ _ sP sA
  · rw [ht]
    exact scoped_append _ _ (scoped_append _ _ sP sA) sD
  · rw [ht]
    exact scoped_append _ _ (scoped_append _ _ (scoped_append _ _ sP sA) sD)
      (scoped_cons _ _ rfl (scoped_of_encodes _ henc))

/-- What the bookkeeping of `stringsAfter` means in numbers: for a value other
than `NULL`, the values held before plus the creations equal the values held
after plus the releases; and `NULL` is never released. -/
theorem stringsAfter_count (t : List Call) (live out : List Nat)
    (h : stringsAfter live t = some out) (h0 : 0 ∉ live) :
    0 ∉ out ∧ Call.amqpvalue_destroy 0 ∉ t ∧
    ∀ v, v ≠ 0 → live.count v + t.countP (Call.createsString v) =
      out.count v + t.countP (Call.destroysValue v) := by
  induction t generalizing live with
  | nil =>
    simp only [stringsAfter, Option.some.injEq] at h
    subst h
    exact ⟨h0, by simp, fun v _ => by simp⟩
  | cons e t ih =>
    by_cases he : e.isStringCall = false
    · rw [stringsAfter_other _ _ _ he] at h
      obtain ⟨a1, a2, a3⟩ := ih live h h0
      refine ⟨a1, ?_, ?_⟩
      · intro hm
        rcases List.mem_cons.mp hm with hm | hm
        · rw [← hm] at he
          simp [Call.isStringCall] at he
        · exact a2 hm
      · intro v hv
        have e1 : Call.createsString v e = false := by
          cases e <;> first | rfl | simp [Call.isStringCall] at he
        have e2 : Call.destroysValue v e = false := by
          cases e <;> first | rfl | simp [Call.isStringCall] at he
        rw [List.countP_cons, List.countP_cons, e1, e2]
        simpa using a3 v hv
    · cases e <;> simp [Call.isStringCall] at he
      · rename_i text r
        simp only [stringsAfter] at h
        by_cases hr : r = 0
        · rw [if_pos hr] at h
          obtain ⟨a1, a2, a3⟩ := ih live h h0
          refine ⟨a1, by simpa using a2, ?_⟩
          intro v hv
          have e1 : Call.createsString v (Call.amqpvalue_create_string text r) = false := by
            simp only [Call.createsString, beq_eq_false_iff_ne, ne_eq]
            rw [hr]
            exact fun hh => hv hh.symm
          rw [List.countP_cons, List.countP_cons, e1]
          simpa [Call.destroysValue] using a3 v hv
        · rw [if_neg hr] at h
          obtain ⟨a1, a2, a3⟩ := ih (r :: live) h (by
            simp only [List.mem_cons, not_or]
            exact ⟨fun hh => hr hh.symm, h0⟩)
          refine ⟨a1, by simpa using a2, ?_⟩
          intro v hv
          have := a3 v hv
          rw [List.countP_cons, List.countP_cons]
          rw [List.count_cons] at this
          simp only [Call.createsString, Call.destroysValue, Bool.false_eq_true, if_false,
            Nat.add_zero]
          omega
      · rename_i r
        simp only [stringsAfter] at h
        by_cases hr : r ∈ live
        · rw [if_pos hr] at h
          obtain ⟨a1, a2, a3⟩ := ih (live.erase r) h (fun hh => h0 (List.mem_of_mem_erase hh))
          have hr0 : r ≠ 0 := fun hh => h0 (hh ▸ hr)
          refine ⟨a1, ?_, ?_⟩
          · intro hm
            rcases List.mem_cons.mp hm with hm | hm
            · simp only [Call.amqpvalue_destroy.injEq] at hm
              exact hr0 hm.symm
            · exact a2 hm
          · intro v hv
            have := a3 v hv
            rw [List.countP_cons, List.countP_cons]
            simp only [Call.createsString, Call.destroysValue, Bool.false_eq_true, if_false,
              Nat.add_zero]
            by_cases hrv : r = v
            · subst hrv
              rw [List.count_erase_self] at this
              have hpos : 0 < live.count r := List.count_pos_iff.mpr hr
              simp only [beq_self_eq_true, if_true]
              omega
            · rw [List.count_erase_of_ne (fun hh => hrv hh.symm)] at this
              have hb : (r == v) = false := by simpa using hrv
              simp only [hb, Bool.false_eq_true, if_false]
              omega
        · rw [if_neg hr] at h
          cases h

/-- The bookkeeping is not vacuous: a created string that is not released is
still held, a second release is refused, and so is the release of a string
that failed to be created. -/
theorem stringsAfter_examples :
    stringsAfter [] [Call.amqpvalue_create_string "a" 5] = some [5] ∧
    stringsAfter [] [Call.amqpvalue_create_string "a" 5, Call.amqpvalue_destroy 5,
      Call.amqpvalue_destroy 5] = none ∧
    stringsAfter [] [Call.amqpvalue_create_string "a" 0, Call.amqpvalue_destroy 0] = none := by
  decide

end ScopedLemmas

section ClaimsScopedStrings

variable {σ : Type}

/-- C27. Scoped release of temporary string values on encode: in every run of
`create_amqp_message_data`, whatever fails, the string values are released in
scope.  Each of the steps that create strings (the message-id step, the
correlation-id step, the loop over the properties from any index on) releases
what it created before it returns: after it, exactly the values held before
are held.  The same holds for the two builders and for the whole run.  In
numbers: for every value other than `NULL`, the whole run has as many
successful `amqpvalue_create_string` calls answering that value as
`amqpvalue_destroy` calls on it, and `amqpvalue_destroy` is never called on
`NULL`. -/
theorem create_amqp_message_data_releases_strings (c : Collab σ) (message_handle : Nat)
    (body_binary_data : BINARY_DATA) (w : σ) :
    Scoped (create_amqp_message_data c message_handle body_binary_data w).trace ∧
    (∀ properties w1,
      Scoped (set_message_id_if_needed c message_handle properties w1).trace) ∧
    (∀ properties w1,
      Scoped (set_message_correlation_id_if_needed c message_handle properties w1).trace) ∧
    (∀ keys values map fuel i result w1,
      Scoped (create_application_properties_loop c keys values map fuel i result w1).trace) ∧
    Scoped (encode_properties_run c message_handle w).trace ∧
    Scoped (encode_application_properties_run c message_handle w).trace ∧
    (∀ v, v ≠ 0 → (create_amqp_message_data c message_handle body_binary_data w).trace.countP (Call.createsString v) =
      (create_amqp_message_data c message_handle body_binary_data w).trace.countP (Call.destroysValue v)) ∧
    Call.amqpvalue_destroy 0 ∉ (create_amqp_message_data c message_handle body_binary_data w).trace := by
  have hs := create_amqp_message_data_scoped c message_handle body_binary_data w
  obtain ⟨_, a2, a3⟩ := stringsAfter_count _ [] [] (hs []) (by simp)
  refine ⟨hs, fun p w1 => set_message_id_if_needed_scoped c message_handle p w1,
    fun p w1 => set_message_correlation_id_if_needed_scoped c message_handle p w1,
    fun keys values map fuel i result w1 =>
      create_application_properties_loop_scoped c keys values map fuel i result w1,
    create_message_properties_to_encode_scoped c message_handle 0 0 w,
    create_application_properties_to_encode_scoped c message_handle 0 0 _, ?_, a2⟩
  intro v hv
  simpa using a3 v hv

end ClaimsScopedStrings

section ClaimsSections

/-- C24. The encoded sections are not released: in the scripted run of the
unit test, which returns 0, the properties value 1013, the
application-properties value 1023 and the data value 1027 are created and
serialised, and `amqpvalue_destroy` is called on the four temporary strings
only. -/
theorem create_amqp_message_data_keeps_sections :
    (create_amqp_message_data (mock testScript) 259 ⟨none, 0⟩ 0).val.1 = 0 ∧
    Call.amqpvalue_create_properties 263 1013 ∈
      (create_amqp_message_data (mock testScript) 259 ⟨none, 0⟩ 0).trace ∧
    Call.amqpvalue_create_application_properties 1017 1023 ∈
      (create_amqp_message_data (mock testScript) 259 ⟨none, 0⟩ 0).trace ∧
    Call.amqpvalue_create_data ⟨some [some 1, some 2, some 3], 3⟩ 1027 ∈
      (create_amqp_message_data (mock testScript) 259 ⟨none, 0⟩ 0).trace ∧
    (create_amqp_message_data (mock testScript) 259 ⟨none, 0⟩ 0).trace.filter
        Call.isValueDestroy =
      [Call.amqpvalue_destroy 1002, Call.amqpvalue_destroy 1006, Call.amqpvalue_destroy 1018,
        Call.amqpvalue_destroy 1019] ∧
    Call.amqpvalue_destroy 1013 ∉
      (create_amqp_message_data (mock testScript) 259 ⟨none, 0⟩ 0).trace ∧
    Call.amqpvalue_destroy 1023 ∉
      (create_amqp_message_data (mock testScript) 259 ⟨none, 0⟩ 0).trace ∧
    Call.amqpvalue_destroy 1027 ∉
      (create_amqp_message_data (mock testScript) 259 ⟨none, 0⟩ 0).trace := by
  decide

end ClaimsSections

section InsertShapes

variable {σ : Type}

/-- The loop of the builder, started at index `i` with `fuel` indices left:
its log is that of consecutive passes from `i` on; either every pass inserted
its pair, there are `fuel` of them and the result is 0, or the last pass is the
only one that did not, and the result is not 0. -/
theorem create_application_properties_loop_cases (c : Collab σ)
    (keys values : Nat → String) (m : Nat) (fuel i : Nat) (w : σ) :
    ∃ passes : List InsertOutcome, (∀ o ∈ passes, InsertOutcome.valid o) ∧
      (create_application_properties_loop c keys values m fuel i 0 w).trace =
        exp_calls_inserts m keys values i passes ∧
      (((∀ o ∈ passes, InsertOutcome.ok o = true) ∧ passes.length = fuel ∧
          (create_application_properties_loop c keys values m fuel i 0 w).val = 0) ∨
        (∃ good bad, passes = good ++ [bad] ∧ (∀ o ∈ good, InsertOutcome.ok o = true) ∧
          InsertOutcome.ok bad = false ∧ passes.length ≤ fuel ∧
          (create_application_properties_loop c keys values m fuel i 0 w).val = FAILURE)) := by
  induction fuel generalizing i w with
  | zero => exact ⟨[], by simp, rfl, Or.inl ⟨by simp, rfl, rfl⟩⟩
  | succ n ih =>
    simp only [create_application_properties_loop, bind_trace, bind_val, bind_world, ite_run,
      ite_trace, ite_val, pure_trace, pure_val, Ext.amqpvalue_create_string,
      Ext.amqpvalue_set_map_value, Ext.amqpvalue_destroy, ask_run, tell_run]
    generalize c.amqpvalue_create_string (keys i) w = X
    by_cases hx : X.1 = 0
    · simp only [if_pos hx]
      refine ⟨[InsertOutcome.keyless], by simp [InsertOutcome.valid], ?_,
        Or.inr ⟨[], InsertOutcome.keyless, rfl, by simp, rfl, by simp, trivial⟩⟩
      simp [exp_calls_inserts, exp_calls_insert, hx]
    simp only [if_neg hx]
    generalize c.amqpvalue_create_string (values i) X.2 = Y
    by_cases hy : Y.1 = 0
    · simp only [if_pos hy]
      refine ⟨[InsertOutcome.valueless X.1], by simpa [InsertOutcome.valid] using hx, ?_,
        Or.inr ⟨[], InsertOutcome.valueless X.1, rfl, by simp, rfl, by simp, trivial⟩⟩
      simp [exp_calls_inserts, exp_calls_insert, hy]
    simp only [if_neg hy]
    generalize c.amqpvalue_set_map_value m X.1 Y.1 Y.2 = Z
    by_cases hz : Z.1 ≠ 0
    · simp only [if_pos hz]
      refine ⟨[InsertOutcome.rejected X.1 Y.1 Z.1],
        by simpa [InsertOutcome.valid] using ⟨hx, hy, hz⟩, ?_,
        Or.inr ⟨[], InsertOutcome.rejected X.1 Y.1 Z.1, rfl, by simp, rfl, by simp, trivial⟩⟩
      simp [exp_calls_inserts, exp_calls_insert]
    simp only [if_neg hz]
    have hz0 : Z.1 = 0 := not_not.mp hz
    rw [hz0]
    obtain ⟨ps, hvs, hts, hcase⟩ := ih (i + 1)
      (c.amqpvalue_destroy Y.1 (c.amqpvalue_destroy X.1 Z.2))
    refine ⟨InsertOutcome.inserted X.1 Y.1 :: ps, ?_, ?_, ?_⟩
    · intro o ho
      rcases List.mem_cons.mp ho with e | e
      · rw [e]
        exact ⟨hx, hy⟩
      · exact hvs o e
    · rw [hts]
      simp [exp_calls_inserts, exp_calls_insert]
    · rcases hcase with ⟨hall, hlen, hval⟩ | ⟨good, bad, hps, hgood, hbad, hlen, hval⟩
      · refine Or.inl ⟨?_, by simp [hlen], hval⟩
        intro o ho
        rcases List.mem_cons.mp ho with e | e
        · rw [e]
          rfl
        · exact hall o e
      · refine Or.inr ⟨InsertOutcome.inserted X.1 Y.1 :: good, bad, by simp [hps], ?_, hbad,
          by simpa using hlen, hval⟩
        intro o ho
        rcases List.mem_cons.mp ho with e | e
        · rw [e]
          rfl
        · exact hgood o e

theorem insert_sets (m : Nat) (k v : String) (o : InsertOutcome) (hv : o.valid) :
    (exp_calls_insert m k v o).countP Call.isMapValueSet = if o.ok then 1 else 0 := by
  cases o with
  | keyless => rfl
  | valueless key => rfl
  | rejected key value result =>
    have hr : result ≠ 0 := hv.2.2
    simp only [exp_calls_insert, List.countP_cons, List.countP_nil, InsertOutcome.ok,
      Bool.false_eq_true, if_false]
    have : Call.isMapValueSet (Call.amqpvalue_set_map_value m key value result) = false := by
      cases result with
      | ofNat n =>
        cases n with
        | zero => exact absurd rfl hr
        | succ n => rfl
      | negSucc n => rfl
    simp only [this, Bool.false_eq_true, if_false]
    rfl
  | inserted key value => rfl

theorem inserts_sets (m : Nat) (keys values : Nat → String) (i : Nat)
    (ps : List InsertOutcome) (hv : ∀ o ∈ ps, InsertOutcome.valid o)
    (hok : ∀ o ∈ ps, InsertOutcome.ok o = true) :
    (exp_calls_inserts m keys values i ps).countP Call.isMapValueSet = ps.length := by
  induction ps generalizing i with
  | nil => rfl
  | cons o rest ih =>
    simp only [exp_calls_inserts, List.countP_append, List.length_cons]
    rw [insert_sets m _ _ o (hv o (by simp)), hok o (by simp),
      ih (i + 1) (fun o2 h2 => hv o2 (by simp [h2])) (fun o2 h2 => hok o2 (by simp [h2]))]
    simp
    omega

theorem inserts_create_nothing (m : Nat) (keys values : Nat → String) (i : Nat)
    (ps : List InsertOutcome) (x y : Nat) :
    Call.amqpvalue_create_application_properties x y ∉ exp_calls_inserts m keys values i ps := by
  induction ps generalizing i with
  | nil => simp [exp_calls_inserts]
  | cons o rest ih =>
    simp only [exp_calls_inserts, List.mem_append, not_or]
    exact ⟨by cases o <;> simp [exp_calls_insert], ih (i + 1)⟩

theorem inserts_get_nothing (m : Nat) (keys values : Nat → String) (i : Nat)
    (ps : List InsertOutcome) (x : Nat) (y : Int) (z : Nat) :
    Call.Map_GetInternals x y z ∉ exp_calls_inserts m keys values i ps := by
  induction ps generalizing i with
  | nil => simp [exp_calls_inserts]
  | cons o rest ih =>
    simp only [exp_calls_inserts, List.mem_append, not_or]
    exact ⟨by cases o <;> simp [exp_calls_insert], ih (i + 1)⟩

end InsertShapes

section ClaimsBuilderPairs

variable {σ : Type}

/-- C26. The application-properties builder processes pairs in index order
up to the first failure: when `Map_GetInternals` succeeded with a count
`n > 0`, the log of `create_application_properties_to_encode` is the two
opening calls, the creation of one AMQP map, and consecutive passes for the
indices 0, 1, 2, ... of the key and value arrays (each pass creates the string
value of the key and of the value, inserts the pair with
`amqpvalue_set_map_value` and releases both strings).  Either the map could not
be created; or the last pass is the only one that failed (key creation, value
creation or insertion), its index is below `n`, the builder returns non-zero
and no application-properties value is created; or every pass inserted its
pair, there are `n` of them, and the map is wrapped with
`amqpvalue_create_application_properties` and its encoded size is asked for:
when both succeed the builder returns 0 with that value and that size. -/
theorem create_application_properties_to_encode_inserts_in_order (c : Collab σ)
    (messageHandle application_properties application_properties_length : Nat) (w : σ)
    (map n : Nat)
    (hcount : Call.Map_GetInternals map 0 n ∈
      (create_application_properties_to_encode c messageHandle application_properties
        application_properties_length w).trace)
    (hn : n > 0) :
    ∃ amqp_map passes rest,
      (create_application_properties_to_encode c messageHandle application_properties
        application_properties_length w).trace =
        Call.IoTHubMessage_Properties messageHandle map :: Call.Map_GetInternals map 0 n ::
          Call.amqpvalue_create_map amqp_map ::
          (exp_calls_inserts amqp_map (property_keys_of c messageHandle w)
            (property_values_of c messageHandle w) 0 passes ++ rest) ∧
      (∀ o ∈ passes, InsertOutcome.valid o) ∧
      ((amqp_map = 0 ∧ passes = [] ∧ rest = [] ∧ (create_application_properties_to_encode c messageHandle application_properties
        application_properties_length w).val.1 ≠ 0) ∨
        (amqp_map ≠ 0 ∧
          (∃ good bad, passes = good ++ [bad] ∧ (∀ o ∈ good, InsertOutcome.ok o = true) ∧
            InsertOutcome.ok bad = false ∧ good.length < n) ∧
          rest = [] ∧ (create_application_properties_to_encode c messageHandle application_properties
        application_properties_length w).val.1 ≠ 0 ∧
          ∀ x y, Call.amqpvalue_create_application_properties x y ∉ (create_application_properties_to_encode c messageHandle application_properties
        application_properties_length w).trace) ∨
        (amqp_map ≠ 0 ∧ (∀ o ∈ passes, InsertOutcome.ok o = true) ∧ passes.length = n ∧
          (create_application_properties_to_encode c messageHandle application_properties
        application_properties_length w).trace.countP Call.isMapValueSet = n ∧
          ((rest = [Call.amqpvalue_create_application_properties amqp_map 0] ∧
              (create_application_properties_to_encode c messageHandle application_properties
        application_properties_length w).val.1 ≠ 0) ∨
            (∃ value r size, value ≠ 0 ∧
              rest = [Call.amqpvalue_create_application_properties amqp_map value,
                Call.amqpvalue_get_encoded_size value r size] ∧
              (r ≠ 0 → (create_application_properties_to_encode c messageHandle application_properties
        application_properties_length w).val.1 ≠ 0) ∧
              (r = 0 → (create_application_properties_to_encode c messageHandle application_properties
        application_properties_length w).val = (0, value, size)))))) := by
  revert hcount
  simp only [create_application_properties_to_encode, property_keys_of, property_values_of,
    bind_trace, bind_val, bind_world, ite_run, ite_trace, ite_val, pure_trace, pure_val,
    Ext.IoTHubMessage_Properties, Ext.Map_GetInternals, Ext.amqpvalue_create_map,
    Ext.amqpvalue_create_application_properties, Ext.amqpvalue_get_encoded_size, ask_run]
  generalize c.IoTHubMessage_Properties messageHandle w = X0
  by_cases h0 : X0.1 = 0
  · simp only [if_pos h0]
    intro hcount
    simp at hcount
  simp only [if_neg h0]
  generalize c.Map_GetInternals X0.1 X0.2 = X1
  by_cases h1 : X1.1.1 ≠ 0
  · simp only [if_pos h1]
    intro hcount
    simp at hcount
    exact absurd hcount.2.1.symm h1
  simp only [if_neg h1]
  have h1z : X1.1.1 = 0 := not_not.mp h1
  by_cases h2 : X1.1.2.2.2 > 0
  swap
  · simp only [if_neg h2]
    intro hcount
    simp at hcount
    omega
  simp only [if_pos h2]
  generalize c.amqpvalue_create_map X1.2 = X2
  by_cases h3 : X2.1 = 0
  · simp only [if_pos h3]
    intro hcount
    simp at hcount
    obtain ⟨e1, _, e3⟩ := hcount
    subst e1
    subst e3
    exact ⟨0, [], [], by simp [exp_calls_inserts, h1z, h3], by simp,
      Or.inl ⟨rfl, rfl, rfl, by simp [FAILURE]⟩⟩
  simp only [if_neg h3]
  rw [h1z]
  obtain ⟨ps, hvs, hts, hcase⟩ := create_application_properties_loop_cases c X1.1.2.1
    X1.1.2.2.1 X2.1 X1.1.2.2.2 0 X2.2
  generalize create_application_properties_loop c X1.1.2.1 X1.1.2.2.1 X2.1 X1.1.2.2.2 0 0
    X2.2 = L at hts hcase ⊢
  have hno : ∀ x y z i, Call.Map_GetInternals x y z ∉
      exp_calls_inserts X2.1 X1.1.2.1 X1.1.2.2.1 i ps :=
    fun x y z i => inserts_get_nothing _ _ _ i ps x y z
  rcases hcase with ⟨hall, hlen, hval⟩ | ⟨good, bad, hps, hgood, hbad, hlen, hval⟩
  · simp only [hval, if_true]
    generalize c.amqpvalue_create_application_properties X2.1 L.world = X3
    by_cases h4 : X3.1 = 0
    · simp only [if_pos h4]
      intro hcount
      simp [hts, hno] at hcount
      obtain ⟨e1, e3⟩ := hcount
      subst e1
      subst e3
      refine ⟨X2.1, ps, [Call.amqpvalue_create_application_properties X2.1 0], by
        simp [hts, h4], hvs, Or.inr (Or.inr ⟨h3, hall, hlen, ?_, Or.inl ⟨rfl, by
          simp [FAILURE]⟩⟩)⟩
      simp [hts, List.countP_cons, List.countP_append, Call.isMapValueSet,
        inserts_sets _ _ _ _ _ hvs hall, hlen]
    · simp only [if_neg h4]
      generalize c.amqpvalue_get_encoded_size X3.1 X3.2 = X4
      intro hcount
      simp [hts, hno] at hcount
      obtain ⟨e1, e3⟩ := hcount
      subst e1
      subst e3
      refine ⟨X2.1, ps, [Call.amqpvalue_create_application_properties X2.1 X3.1,
        Call.amqpvalue_get_encoded_size X3.1 X4.1.1 X4.1.2], by simp [hts], hvs,
        Or.inr (Or.inr ⟨h3, hall, hlen, ?_, Or.inr ⟨X3.1, X4.1.1, X4.1.2, h4, rfl, ?_, ?_⟩⟩)⟩
      · simp [hts, List.countP_cons, List.countP_append, Call.isMapValueSet,
          inserts_sets _ _ _ _ _ hvs hall, hlen]
      · intro hr
        simp [if_pos hr, FAILURE]
      · intro hr
        simp [hr]
  · have hne : L.val ≠ 0 := by
      rw [hval]
      simp [FAILURE]
    simp only [if_neg hne]
    intro hcount
    simp [hts, hno] at hcount
    obtain ⟨e1, e3⟩ := hcount
    subst e1
    subst e3
    refine ⟨X2.1, ps, [], by simp [hts], hvs, Or.inr (Or.inl ⟨h3, ⟨good, bad, hps, hgood,
      hbad, ?_⟩, rfl, by simpa using hne, ?_⟩)⟩
    · rw [hps] at hlen
      simp at hlen
      omega
    · intro x y
      simp [hts, inserts_create_nothing]

end ClaimsBuilderPairs

theorem create_application_properties_to_encode_inserts_in_order_witness :
    Call.Map_GetInternals 259 0 2 ∈
      (create_application_properties_to_encode
        (mock { testScript with keys := ["k1", "k2"], values := ["v1", "v2"] }) 259 0 0 0).trace ∧
    ∃ amqp_map passes rest,
      (create_application_properties_to_encode
        (mock { testScript with keys := ["k1", "k2"], values := ["v1", "v2"] }) 259 0 0 0).trace =
        Call.IoTHubMessage_Properties 259 259 :: Call.Map_GetInternals 259 0 2 ::
          Call.amqpvalue_create_map amqp_map ::
          (exp_calls_inserts amqp_map (property_keys_of (mock { testScript with keys := ["k1", "k2"], values := ["v1", "v2"] }) 259 0)
            (property_values_of (mock { testScript with keys := ["k1", "k2"], values := ["v1", "v2"] }) 259 0) 0 passes ++ rest) ∧
      (∀ o ∈ passes, InsertOutcome.valid o) ∧
      ((amqp_map = 0 ∧ passes = [] ∧ rest = [] ∧ (create_application_properties_to_encode
        (mock { testScript with keys := ["k1", "k2"], values := ["v1", "v2"] }) 259 0 0 0).val.1 ≠ 0) ∨
        (amqp_map ≠ 0 ∧
          (∃ good bad, passes = good ++ [bad] ∧ (∀ o ∈ good, InsertOutcome.ok o = true) ∧
            InsertOutcome.ok bad = false ∧ good.length < 2) ∧
          rest = [] ∧ (create_application_properties_to_encode
        (mock { testScript with keys := ["k1", "k2"], values := ["v1", "v2"] }) 259 0 0 0).val.1 ≠ 0 ∧
          ∀ x y, Call.amqpvalue_create_application_properties x y ∉ (create_application_properties_to_encode
        (mock { testScript with keys := ["k1", "k2"], values := ["v1", "v2"] }) 259 0 0 0).trace) ∨
        (amqp_map ≠ 0 ∧ (∀ o ∈ passes, InsertOutcome.ok o = true) ∧ passes.length = 2 ∧
          (create_application_properties_to_encode
        (mock { testScript with keys := ["k1", "k2"], values := ["v1", "v2"] }) 259 0 0 0).trace.countP Call.isMapValueSet = 2 ∧
          ((rest = [Call.amqpvalue_create_application_properties amqp_map 0] ∧
              (create_application_properties_to_encode
        (mock { testScript with keys := ["k1", "k2"], values := ["v1", "v2"] }) 259 0 0 0).val.1 ≠ 0) ∨
            (∃ value r size, value ≠ 0 ∧
              rest = [Call.amqpvalue_create_application_properties amqp_map value,
                Call.amqpvalue_get_encoded_size value r size] ∧
              (r ≠ 0 → (create_application_properties_to_encode
        (mock { testScript with keys := ["k1", "k2"], values := ["v1", "v2"] }) 259 0 0 0).val.1 ≠ 0) ∧
              (r = 0 → (create_application_properties_to_encode
        (mock { testScript with keys := ["k1", "k2"], values := ["v1", "v2"] }) 259 0 0 0).val = (0, value, size)))))) :=
  ⟨by decide,
    create_application_properties_to_encode_inserts_in_order
      (mock { testScript with keys := ["k1", "k2"], values := ["v1", "v2"] }) 259 0 0 0
      259 2 (by decide) (by decide)⟩

/-- The log of the builder on a scripted message with two properties: the
pairs are inserted in index order. -/
theorem create_application_properties_to_encode_two_pairs :
    (create_application_properties_to_encode
        (mock { testScript with keys := ["k1", "k2"], values := ["v1", "v2"] }) 259 0 0 0).trace =
      [Call.IoTHubMessage_Properties 259 259,
        Call.Map_GetInternals 259 0 2,
        Call.amqpvalue_create_map 1002,
        Call.amqpvalue_create_string "k1" 1003,
        Call.amqpvalue_create_string "v1" 1004,
        Call.amqpvalue_set_map_value 1002 1003 1004 0,
        Call.amqpvalue_destroy 1003,
        Call.amqpvalue_destroy 1004,
        Call.amqpvalue_create_string "k2" 1008,
        Call.amqpvalue_create_string "v2" 1009,
        Call.amqpvalue_set_map_value 1002 1008 1009 0,
        Call.amqpvalue_destroy 1008,
        Call.amqpvalue_destroy 1009,
        Call.amqpvalue_create_application_properties 1002 1013,
        Call.amqpvalue_get_encoded_size 1013 0 2] := by
  decide

section HeldLemmas

variable {σ : Type}

theorem heldAfter_other (s : Held) (e : Call) (t : List Call)
    (he : e.isHeldCall = false) : heldAfter s (e :: t) = heldAfter s t := by
  cases e <;> first | rfl | simp [Call.isHeldCall] at he

theorem heldAfter_append (s : Held) (a b : List Call) :
    heldAfter s (a ++ b) = (heldAfter s a).bind (fun s2 => heldAfter s2 b) := by
  induction a generalizing s with
  | nil => rfl
  | cons e a ih =>
    by_cases he : e.isHeldCall = false
    · rw [List.cons_append, heldAfter_other _ _ _ he, heldAfter_other _ _ _ he, ih]
    · cases e <;> simp [Call.isHeldCall] at he
      all_goals
        simp only [List.cons_append, heldAfter]
        split_ifs <;> first | exact ih _ | rfl

theorem heldAfter_neutral (s : Held) (t : List Call) (h : Avoids Call.isHeldCall t) :
    heldAfter s t = some s := by
  induction t with
  | nil => rfl
  | cons e t ih =>
    obtain ⟨he, ht⟩ := (avoids_cons _ _ _).mp h
    rw [heldAfter_other _ _ _ he]
    exact ih ht

theorem heldAfter_neutral_append (s : Held) (a b : List Call)
    (h : Avoids Call.isHeldCall a) : heldAfter s (a ++ b) = heldAfter s b := by
  rw [heldAfter_append, heldAfter_neutral s a h]
  rfl

theorem read_message_id_neutral (h p : Nat) (o : FieldOutcome) :
    Avoids Call.isHeldCall (exp_calls_read_message_id h p o) := by
  cases o <;> simp [exp_calls_read_message_id, avoids_cons, avoids_nil, Call.isHeldCall]

theorem read_correlation_id_neutral (h p : Nat) (o : FieldOutcome) :
    Avoids Call.isHeldCall (exp_calls_read_correlation_id h p o) := by
  cases o <;> simp [exp_calls_read_correlation_id, avoids_cons, avoids_nil, Call.isHeldCall]

theorem readPropertiesFromuAMQPMessage_held (c : Collab σ) (h m : Nat) (w : σ)
    (outer : Option Nat) (pair : List Nat) :
    heldAfter ⟨none, outer, pair⟩ (readPropertiesFromuAMQPMessage c h m w).trace =
      some ⟨none, outer, pair⟩ := by
  rcases readPropertiesFromuAMQPMessage_cases c h m w with
    ⟨r, p, hr, ht, _⟩ | ⟨p, o1, o2, _, _, ht, _⟩
  · rw [ht]
    simp [heldAfter, hr]
  · rw [ht]
    simp only [heldAfter, ne_eq, not_true_eq_false, if_false, if_true, List.append_assoc]
    rw [heldAfter_neutral_append _ _ _ (read_message_id_neutral h p o1),
      heldAfter_neutral_append _ _ _ (read_correlation_id_neutral h p o2)]
    simp [heldAfter]

theorem release_held (container : Option Nat) (a k v : Nat) (t : List Call) :
    heldAfter ⟨container, some a, (if k = 0 then [] else [k]) ++ (if v = 0 then [] else [v])⟩
      (exp_calls_release k v ++ t) = heldAfter ⟨container, some a, []⟩ t := by
  by_cases hk : k = 0 <;> by_cases hv : v = 0
  · simp [exp_calls_release, hk, hv]
  · simp [exp_calls_release, hk, hv, heldAfter]
  · simp [exp_calls_release, hk, hv, heldAfter]
  · by_cases hkv : v = k
    · subst hkv
      simp [exp_calls_release, hk, heldAfter]
    · have hkv2 : ¬ k = v := fun hh => hkv hh.symm
      simp [exp_calls_release, hk, hv, heldAfter, hkv, hkv2]

theorem pass_held (container : Option Nat) (a map ipdv i : Nat) (o : PassOutcome)
    (t : List Call) :
    heldAfter ⟨container, some a, []⟩ (exp_calls_pass map ipdv i o ++ t) =
      heldAfter ⟨container, some a, []⟩ t := by
  cases o with
  | unpaired result key value =>
    simp only [exp_calls_pass, List.singleton_append, List.cons_append, heldAfter, ne_eq,
      reduceCtorEq, not_false_eq_true, and_self, if_true]
    exact release_held container a key value t
  | keyless key value result name =>
    simp only [exp_calls_pass, List.cons_append, heldAfter, ne_eq, reduceCtorEq,
      not_false_eq_true, and_self, if_true, List.nil_append]
    exact release_held container a key value t
  | valueless key value name result text =>
    simp only [exp_calls_pass, List.cons_append, heldAfter, ne_eq, reduceCtorEq,
      not_false_eq_true, and_self, if_true, List.nil_append]
    exact release_held container a key value t
  | inserted key value name text result =>
    simp only [exp_calls_pass, List.cons_append, heldAfter, ne_eq, reduceCtorEq,
      not_false_eq_true, and_self, if_true, List.nil_append]
    exact release_held container a key value t

theorem passes_held (container : Option Nat) (a map ipdv i : Nat) (ps : List PassOutcome)
    (t : List Call) :
    heldAfter ⟨container, some a, []⟩ (exp_calls_passes map ipdv i ps ++ t) =
      heldAfter ⟨container, some a, []⟩ t := by
  induction ps generalizing i with
  | nil => rfl
  | cons o rest ih =>
    simp only [exp_calls_passes, List.append_assoc]
    rw [pass_held, ih]

theorem readApplicationPropertiesFromuAMQPMessage_held (c : Collab σ) (h m : Nat) (w : σ)
    (container : Option Nat) :
    heldAfter ⟨container, none, []⟩ (readApplicationPropertiesFromuAMQPMessage c h m w).trace =
      some ⟨container, none, []⟩ := by
  rcases readApplicationPropertiesFromuAMQPMessage_cases c h m w with
    ⟨ht, _⟩ | ⟨_, r, _, _, hr, ht, _⟩ | ⟨_, _, ht, _⟩ | ⟨_, a, _, ha, ht, _⟩ |
    ⟨_, a, _, _, _, _, ha, _, _, ht, _⟩ | ⟨map, a, ipdv, n, ps, _, ha, _, _, ht, _⟩
  · rw [ht]
    rfl
  · rw [ht]
    simp [heldAfter, hr]
  · rw [ht]
    simp [heldAfter]
  · rw [ht]
    simp [heldAfter, ha]
  · rw [ht]
    simp [heldAfter, ha]
  · rw [ht]
    simp only [heldAfter, ne_eq, not_true_eq_false, ha, or_self, if_false, if_true]
    rw [passes_held]
    simp [heldAfter]

theorem IoTHubMessage_CreateFromUamqpMessage_held (c : Collab σ) (m old : Nat) (w : σ) :
    heldAfter Held.nothing (IoTHubMessage_CreateFromUamqpMessage c m old w).trace =
      some Held.nothing := by
  have hD : ∀ x, Avoids Call.isHeldCall [Call.IoTHubMessage_Destroy x] := by
    intro x
    simp [avoids_cons, avoids_nil, Call.isHeldCall]
  rcases IoTHubMessage_CreateFromUamqpMessage_normal_form c m old w with
    ⟨_, ht, _⟩ | ⟨bd, handle, tail, _, _, hbt, ht, _, hcase⟩
  · rw [ht]
    refine heldAfter_neutral _ _ ?_
    intro e he
    have := create_from_body_only c m w e he
    revert this
    cases e <;> simp [Call.isBodyReaderCall, Call.isHeldCall]
  · rw [ht, hbt]
    have hB : Avoids Call.isHeldCall
        [Call.message_get_body_type m 0 MESSAGE_BODY_TYPE.MESSAGE_BODY_TYPE_DATA,
          Call.message_get_body_amqp_data_in_place m 0 0 bd,
          Call.IoTHubMessage_CreateFromByteArray bd.bytes bd.length handle] := by
      simp [avoids_cons, avoids_nil, Call.isHeldCall]
    rw [heldAfter_neutral_append _ _ _ hB, heldAfter_append]
    have hR : heldAfter Held.nothing (decode_properties_run c m w).trace =
        some Held.nothing := readPropertiesFromuAMQPMessage_held c _ m _ none []
    rw [hR]
    simp only [Option.some_bind]
    have hA : heldAfter Held.nothing (decode_application_properties_run c m w).trace =
        some Held.nothing := readApplicationPropertiesFromuAMQPMessage_held c _ m _ none
    rcases hcase with ⟨_, htl, _⟩ | ⟨_, _, htl, _⟩ | ⟨_, _, htl, _⟩
    · rw [htl]
      exact heldAfter_neutral _ _ (hD handle)
    · rw [htl, heldAfter_append, hA]
      exact heldAfter_neutral _ _ (hD handle)
    · rw [htl]
      exact hA

/-- The bookkeeping is not vacuous: a container that is not released is still
held, a second release is refused, the outer value cannot be released while a
handle of the pair is held, and a pair cannot be read before the previous one
was released. -/
theorem heldAfter_examples :
    heldAfter Held.nothing [Call.message_get_properties 1 0 5] = some ⟨some 5, none, []⟩ ∧
    heldAfter Held.nothing [Call.message_get_properties 1 0 5, Call.properties_destroy 5,
      Call.properties_destroy 5] = none ∧
    heldAfter Held.nothing [Call.message_get_properties 1 1 5, Call.properties_destroy 5] =
      none ∧
    heldAfter Held.nothing [Call.message_get_application_properties 1 0 7,
      Call.amqpvalue_get_map_key_value_pair 8 0 0 10 11, Call.amqpvalue_destroy 7] = none ∧
    heldAfter Held.nothing [Call.message_get_application_properties 1 0 7,
      Call.amqpvalue_get_map_key_value_pair 8 0 0 10 11, Call.amqpvalue_destroy 10,
      Call.amqpvalue_get_map_key_value_pair 8 1 0 12 13] = none ∧
    heldAfter Held.nothing [Call.message_get_application_properties 1 0 7,
      Call.amqpvalue_get_map_key_value_pair 8 0 1 10 0, Call.amqpvalue_destroy 10,
      Call.amqpvalue_destroy 7] = some Held.nothing := by
  decide

theorem filter_nil_of_only (p q : Call → Bool) (t : List Call) (h : Only q t)
    (hpq : ∀ e, q e = true → p e = false) : t.filter p = [] := by
  rw [List.filter_eq_nil_iff]
  intro e he
  rw [hpq e (h e he)]
  simp

theorem readPropertiesFromuAMQPMessage_container (c : Collab σ) (h m : Nat) (w : σ) :
    (∃ r p, r ≠ 0 ∧ (readPropertiesFromuAMQPMessage c h m w).trace.filter
        Call.isContainerCall = [Call.message_get_properties m r p]) ∨
    (∃ p, (readPropertiesFromuAMQPMessage c h m w).trace.filter Call.isContainerCall =
        [Call.message_get_properties m 0 p, Call.properties_destroy p]) := by
  rcases readPropertiesFromuAMQPMessage_cases c h m w with
    ⟨r, p, hr, ht, _⟩ | ⟨p, o1, o2, _, _, ht, _⟩
  · refine Or.inl ⟨r, p, hr, ?_⟩
    rw [ht]
    rfl
  · refine Or.inr ⟨p, ?_⟩
    have h1 : (exp_calls_read_message_id h p o1).filter Call.isContainerCall = [] := by
      cases o1 <;> rfl
    have h2 : (exp_calls_read_correlation_id h p o2).filter Call.isContainerCall = [] := by
      cases o2 <;> rfl
    rw [ht]
    simp only [List.filter_cons, List.filter_append, h1, h2, Call.isContainerCall, if_true,
      List.nil_append, List.filter_nil]

theorem readApplicationPropertiesFromuAMQPMessage_outer (c : Collab σ) (h m : Nat) (w : σ) :
    (∀ r a, Call.message_get_application_properties m r a ∈
        (readApplicationPropertiesFromuAMQPMessage c h m w).trace → r = 0 → a ≠ 0 →
      ∃ pre, (readApplicationPropertiesFromuAMQPMessage c h m w).trace =
        pre ++ [Call.amqpvalue_destroy a]) ∧
    (∀ v, Call.amqpvalue_destroy v ∈ (readApplicationPropertiesFromuAMQPMessage c h m w).trace →
      ∃ a, a ≠ 0 ∧ Call.message_get_application_properties m 0 a ∈
        (readApplicationPropertiesFromuAMQPMessage c h m w).trace) := by
  rcases readApplicationPropertiesFromuAMQPMessage_cases c h m w with
    ⟨ht, _⟩ | ⟨_, r0, a0, _, hr, ht, _⟩ | ⟨_, _, ht, _⟩ | ⟨_, a0, _, ha, ht, _⟩ |
    ⟨_, a0, _, _, _, _, ha, _, _, ht, _⟩ | ⟨map, a0, ipdv, n, ps, _, ha, _, _, ht, _⟩
  · rw [ht]
    simp
  · rw [ht]
    refine ⟨?_, by simp⟩
    intro r a hmem hr0 _
    simp at hmem
    exact absurd (hmem.1 ▸ hr0) hr
  · rw [ht]
    refine ⟨?_, by simp⟩
    intro r a hmem _ ha
    simp at hmem
    exact absurd hmem.2 ha
  · rw [ht]
    refine ⟨?_, ?_⟩
    · intro r a hmem _ _
      simp at hmem
      rw [hmem.2]
      exact ⟨[Call.IoTHubMessage_Properties h _,
        Call.message_get_application_properties m 0 a0,
        Call.amqpvalue_get_inplace_described_value a0 0], rfl⟩
    · intro v _
      exact ⟨a0, ha, by simp⟩
  · rw [ht]
    refine ⟨?_, ?_⟩
    · intro r a hmem _ _
      simp at hmem
      rw [hmem.2]
      exact ⟨[Call.IoTHubMessage_Properties h _,
        Call.message_get_application_properties m 0 a0,
        Call.amqpvalue_get_inplace_described_value a0 _,
        Call.amqpvalue_get_map_pair_count _ _ _], rfl⟩
    · intro v _
      exact ⟨a0, ha, by simp⟩
  · rw [ht]
    refine ⟨?_, ?_⟩
    · intro r a hmem _ _
      have hps : Call.message_get_application_properties m r a ∉
          exp_calls_passes map ipdv 0 ps := fun hin => by
        have := passes_are_passes map ipdv 0 ps _ hin
        simp [Call.isPassCall] at this
      simp [hps] at hmem
      rw [hmem.2]
      refine ⟨Call.IoTHubMessage_Properties h map ::
        Call.message_get_application_properties m 0 a0 ::
        Call.amqpvalue_get_inplace_described_value a0 ipdv ::
        Call.amqpvalue_get_map_pair_count ipdv 0 n :: exp_calls_passes map ipdv 0 ps, ?_⟩
      simp
    · intro v _
      exact ⟨a0, ha, by simp⟩

theorem IoTHubMessage_CreateFromUamqpMessage_container (c : Collab σ) (m old : Nat) (w : σ) :
    (IoTHubMessage_CreateFromUamqpMessage c m old w).trace.filter Call.isContainerCall = [] ∨
    (∃ r p, r ≠ 0 ∧ (IoTHubMessage_CreateFromUamqpMessage c m old w).trace.filter
        Call.isContainerCall = [Call.message_get_properties m r p]) ∨
    (∃ p, (IoTHubMessage_CreateFromUamqpMessage c m old w).trace.filter
        Call.isContainerCall =
          [Call.message_get_properties m 0 p, Call.properties_destroy p]) := by
  rcases IoTHubMessage_CreateFromUamqpMessage_normal_form c m old w with
    ⟨_, ht, _⟩ | ⟨bd, handle, tail, _, _, hbt, ht, htail, _⟩
  · left
    rw [ht]
    refine filter_nil_of_only _ _ _ (create_from_body_only c m w) ?_
    intro e
    cases e <;> simp [Call.isBodyReaderCall, Call.isContainerCall]
  · right
    have htl : tail.filter Call.isContainerCall = [] := by
      refine filter_nil_of_only _ _ _ htail ?_
      intro e
      cases e <;>
        simp [Call.isAfterPropertiesCall, Call.isApplicationPropertiesReaderCall,
          Call.isMessageDestroy, Call.isContainerCall]
    have hb : (decode_body_run c m w).trace.filter Call.isContainerCall = [] := by
      rw [hbt]
      rfl
    rw [ht, List.filter_append, List.filter_append, hb, htl, List.nil_append, List.append_nil]
    exact readPropertiesFromuAMQPMessage_container c _ m _

theorem IoTHubMessage_CreateFromUamqpMessage_outer (c : Collab σ) (m old : Nat) (w : σ) :
    (∀ r a, Call.message_get_application_properties m r a ∈
        (IoTHubMessage_CreateFromUamqpMessage c m old w).trace → r = 0 → a ≠ 0 →
      ∃ pre post, (IoTHubMessage_CreateFromUamqpMessage c m old w).trace =
        pre ++ Call.amqpvalue_destroy a :: post ∧ Avoids Call.isHeldCall post) ∧
    (∀ v, Call.amqpvalue_destroy v ∈ (IoTHubMessage_CreateFromUamqpMessage c m old w).trace →
      ∃ a, a ≠ 0 ∧ Call.message_get_application_properties m 0 a ∈
        (IoTHubMessage_CreateFromUamqpMessage c m old w).trace) := by
  have hbody : ∀ e, e ∈ (decode_body_run c m w).trace → e.isBodyReaderCall = true :=
    create_from_body_only c m w
  have hprops : ∀ e, e ∈ (decode_properties_run c m w).trace →
      e.isPropertiesReaderCall = true := readPropertiesFromuAMQPMessage_only c _ m _
  have hA := readApplicationPropertiesFromuAMQPMessage_outer c
    (decode_body_run c m w).val.2 m (decode_properties_run c m w).world
  have hAt : (readApplicationPropertiesFromuAMQPMessage c (decode_body_run c m w).val.2 m
      (decode_properties_run c m w).world).trace =
        (decode_application_properties_run c m w).trace := rfl
  rw [hAt] at hA
  have hD : ∀ x, Avoids Call.isHeldCall [Call.IoTHubMessage_Destroy x] := by
    intro x
    simp [avoids_cons, avoids_nil, Call.isHeldCall]
  rcases IoTHubMessage_CreateFromUamqpMessage_normal_form c m old w with
    ⟨_, ht, _⟩ | ⟨bd, handle, tail, _, _, _, ht, _, hcase⟩
  · rw [ht]
    refine ⟨?_, ?_⟩
    · intro r a hmem
      have := hbody _ hmem
      simp [Call.isBodyReaderCall] at this
    · intro v hmem
      have := hbody _ hmem
      simp [Call.isBodyReaderCall] at this
  · have hnb : ∀ r a, Call.message_get_application_properties m r a ∉
        (decode_body_run c m w).trace := fun r a hmem => by
      have := hbody _ hmem
      simp [Call.isBodyReaderCall] at this
    have hnp : ∀ r a, Call.message_get_application_properties m r a ∉
        (decode_properties_run c m w).trace := fun r a hmem => by
      have := hprops _ hmem
      simp [Call.isPropertiesReaderCall] at this
    have hdb : ∀ v, Call.amqpvalue_destroy v ∉ (decode_body_run c m w).trace :=
      fun v hmem => by
        have := hbody _ hmem
        simp [Call.isBodyReaderCall] at this
    have hdp : ∀ v, Call.amqpvalue_destroy v ∉ (decode_properties_run c m w).trace :=
      fun v hmem => by
        have := hprops _ hmem
        simp [Call.isPropertiesReaderCall] at this
    rcases hcase with ⟨_, htl, _⟩ | ⟨_, _, htl, _⟩ | ⟨_, _, htl, _⟩
    · rw [ht, htl]
      refine ⟨?_, ?_⟩
      · intro r a hmem
        simp [hnb, hnp] at hmem
      · intro v hmem
        simp [hdb, hdp] at hmem
    · rw [ht, htl]
      refine ⟨?_, ?_⟩
      · intro r a hmem hr ha
        simp [hnb, hnp] at hmem
        obtain ⟨pre, hpre⟩ := hA.1 r a hmem hr ha
        refine ⟨(decode_body_run c m w).trace ++ ((decode_properties_run c m w).trace ++ pre),
          [Call.IoTHubMessage_Destroy handle], ?_, hD handle⟩
        rw [hpre]
        simp
      · intro v hmem
        simp [hdb, hdp] at hmem
        obtain ⟨a, ha, hin⟩ := hA.2 v hmem
        exact ⟨a, ha, by simp [hin]⟩
    · rw [ht, htl]
      refine ⟨?_, ?_⟩
      · intro r a hmem hr ha
        simp [hnb, hnp] at hmem
        obtain ⟨pre, hpre⟩ := hA.1 r a hmem hr ha
        refine ⟨(decode_body_run c m w).trace ++ ((decode_properties_run c m w).trace ++ pre),
          [], ?_, avoids_nil _⟩
        rw [hpre]
        simp
      · intro v hmem
        simp [hdb, hdp] at hmem
        obtain ⟨a, ha, hin⟩ := hA.2 v hmem
        exact ⟨a, ha, by simp [hin]⟩

/-- C28. Release discipline of `IoTHubMessage_CreateFromUamqpMessage`, in every
run, whatever the collaborators answer.  The bookkeeping `heldAfter` accepts
the whole log and ends with nothing held: the properties container is given
back once and only after a successful `message_get_properties`; the
application-properties value is given back once and only after
`message_get_application_properties` succeeded with a value other than `NULL`,
when no handle of a pair is held any more; and the key and value handles of a
pass that are not `NULL` are each given back once before the next pair is read.
Spelled out for the container: the calls that obtain or release it are none, or
one failed `message_get_properties`, or one successful `message_get_properties`
followed by one `properties_destroy` of the container it gave.  Spelled out for
the outer value: when it was obtained, its release is the last obtaining or
releasing call of the run, and no `amqpvalue_destroy` happens in a run that did
not obtain one. -/
theorem IoTHubMessage_CreateFromUamqpMessage_release_discipline (c : Collab σ)
    (m old : Nat) (w : σ) :
    heldAfter Held.nothing (IoTHubMessage_CreateFromUamqpMessage c m old w).trace =
      some Held.nothing ∧
    ((IoTHubMessage_CreateFromUamqpMessage c m old w).trace.filter Call.isContainerCall = [] ∨
      (∃ r p, r ≠ 0 ∧ (IoTHubMessage_CreateFromUamqpMessage c m old w).trace.filter
          Call.isContainerCall = [Call.message_get_properties m r p]) ∨
      (∃ p, (IoTHubMessage_CreateFromUamqpMessage c m old w).trace.filter
          Call.isContainerCall =
            [Call.message_get_properties m 0 p, Call.properties_destroy p])) ∧
    (∀ r a, Call.message_get_application_properties m r a ∈
        (IoTHubMessage_CreateFromUamqpMessage c m old w).trace → r = 0 → a ≠ 0 →
      ∃ pre post, (IoTHubMessage_CreateFromUamqpMessage c m old w).trace =
        pre ++ Call.amqpvalue_destroy a :: post ∧ Avoids Call.isHeldCall post) ∧
    (∀ v, Call.amqpvalue_destroy v ∈ (IoTHubMessage_CreateFromUamqpMessage c m old w).trace →
      ∃ a, a ≠ 0 ∧ Call.message_get_application_properties m 0 a ∈
        (IoTHubMessage_CreateFromUamqpMessage c m old w).trace) :=
  ⟨IoTHubMessage_CreateFromUamqpMessage_held c m old w,
    IoTHubMessage_CreateFromUamqpMessage_container c m old w,
    (IoTHubMessage_CreateFromUamqpMessage_outer c m old w).1,
    (IoTHubMessage_CreateFromUamqpMessage_outer c m old w).2⟩

/-- A run on the scripted collaborator with one application property: the log
holds the release of the container, of both handles of the pair, and of the
outer value, in this order. -/
theorem IoTHubMessage_CreateFromUamqpMessage_releases_example :
    (IoTHubMessage_CreateFromUamqpMessage (mock testScript) 257 0 0).trace.filter
        Call.isHeldCall =
      [Call.message_get_properties 257 0 263, Call.properties_destroy 263,
        Call.message_get_application_properties 257 0 260,
        Call.amqpvalue_get_map_key_value_pair 261 0 0 3000 3001,
        Call.amqpvalue_destroy 3000, Call.amqpvalue_destroy 3001,
        Call.amqpvalue_destroy 260] ∧
    (IoTHubMessage_CreateFromUamqpMessage (mock testScript) 257 0 0).val.1 = 0 ∧
    heldAfter Held.nothing
      (IoTHubMessage_CreateFromUamqpMessage (mock testScript) 257 0 0).trace =
        some Held.nothing := by
  decide

end HeldLemmas

end UamqpMessaging
